import Mathlib

/-!
# Capture or Escape: the frame update of `mainx.c`

A shallow embedding of the update half of the main loop of `src/c game/mainx.c`
(lines 286-541) together with the helpers it calls (lines 108-225).

Modelling conventions.

* C `float` values are exact rationals (`ℚ`); the decimal literals of the source
  (`0.01f`, `0.8f`, ...) denote the rationals they spell.  `PI` is the decimal
  literal of `raylib.h`.
* `sqrtf`, `sinf` and `cosf` come from the C library and are fields of `Platform`,
  as are the sizes of the two textures the update reads.
* Everything the update reads from the outside during one frame (frame time,
  keys, mouse, window size, the successive results of `rand()`) is an `Input`.
* The fixed-size global arrays are lists; `WF` records their capacities.
* `score` is an unbounded integer: the `int` of the source cannot overflow before
  2^31 enemies are shot.
* The draws inside one initializer list (lines 471 and 479) are taken left to right.
* A `for` loop that leaves through `break` after an effect is a recursion that
  reports the break in a flag, the effect being applied by the caller.
* The rejection loop of `SpawnObstacles` may run forever; it is bounded by a fuel
  argument and yields `none` when the fuel does not suffice.
-/

namespace Game

/-! ## Data model (lines 7-101) -/

def MAX_ENEMIES : Nat := 100
def MAX_BULLETS : Nat := 500
def MAX_OBSTACLES : Nat := 4
def NUM_PINS : Nat := 10

def BALL_RADIUS : ℚ := 15
def PIN_RADIUS : ℚ := 20
def LANE_LEFT : ℚ := 140
def LANE_RIGHT : ℚ := 660

/-- The constant `PI` of `raylib.h`: `#define PI 3.14159265358979323846f`. -/
def PI : ℚ := 3.14159265358979323846

inductive GameState where
  | OPENING_SCENE
  | GAMEPLAY
  | MINI_GAME
  | CLOSING_SCENE
  deriving DecidableEq, Repr

inductive Difficulty where
  | DIFFICULTY_EASY
  | DIFFICULTY_MEDIUM
  | DIFFICULTY_HARD
  deriving DecidableEq, Repr

structure Vector2 where
  x : ℚ
  y : ℚ
  deriving DecidableEq

structure Rectangle where
  x : ℚ
  y : ℚ
  width : ℚ
  height : ℚ
  deriving DecidableEq

structure Bullet where
  position : Vector2
  velocity : Vector2
  active : Bool
  deriving DecidableEq

structure Enemy where
  position : Vector2
  velocity : Vector2
  speed : ℚ
  active : Bool
  deriving DecidableEq

structure Obstacle where
  rect : Rectangle
  active : Bool
  deriving DecidableEq

structure Pin where
  position : Vector2
  velocity : Vector2
  rotation : ℚ
  fallen : Bool
  animating : Bool
  deriving DecidableEq

/-- The globals of lines 58-101 and the locals of `main` that live across frames
(lines 266-267 and 274-277). -/
structure State where
  bullets : List Bullet
  enemies : List Enemy
  obstacles : List Obstacle
  pins : List Pin
  playerPos : Vector2
  score : Int
  gameOver : Bool
  secondChanceUsed : Bool
  elixirAvailable : Bool
  elixirPos : Vector2
  elixirReady : Bool
  elixirSpawnTimer : ℚ
  elixirDurationTimer : ℚ
  elixirSpawnInterval : ℚ
  ballPos : Vector2
  t : ℚ
  throwAngle : ℚ
  ellipseCenter : Vector2
  ballSpeed : ℚ
  ballLaunched : Bool
  power : ℚ
  charging : Bool
  strikeMode : Bool
  luckyStrike : Bool
  gameState : GameState
  selectedDifficulty : Difficulty
  gameOverScale : ℚ
  animationComplete : Bool
  enemySpawnTimer : ℚ
  deriving DecidableEq

/-- The C library functions and the texture sizes the update depends on. -/
structure Platform where
  sqrtf : ℚ → ℚ
  sinf : ℚ → ℚ
  cosf : ℚ → ℚ
  pikachuWidth : Int
  pikachuHeight : Int
  obstacleWidth : Int
  obstacleHeight : Int

/-- What one frame reads from raylib: `GetFrameTime`, the mouse, the keys, the
window size, and the results of the successive calls of `rand()`. -/
structure Input where
  dt : ℚ
  mousePos : Vector2
  mousePressed : Bool
  keyLeft : Bool
  keyRight : Bool
  keyUp : Bool
  keyDown : Bool
  spacePressed : Bool
  spaceDown : Bool
  spaceReleased : Bool
  sPressed : Bool
  rPressed : Bool
  hPressed : Bool
  screenWidth : Int
  screenHeight : Int
  rand : Nat → Nat

def playerSpeed : ℚ := 200
def ELIXIR_DURATION : ℚ := 8
def maxAngle : ℚ := PI / 6
def a : ℚ := 100
def b : ℚ := 500
def baseSpeed : ℚ := 0.02
def maxPower : ℚ := 1

/-- The array capacities of lines 58-61. -/
def WF (s : State) : Prop :=
  s.bullets.length = MAX_BULLETS ∧ s.enemies.length = MAX_ENEMIES ∧
  s.obstacles.length = MAX_OBSTACLES ∧ s.pins.length = NUM_PINS

/-! ## raylib and raymath -/

/-- The function `GetRandomValue` of raylib on the result `raw` of `rand()`. -/
def GetRandomValue (raw : Nat) (min max : Int) : Int :=
  let lo := if min > max then max else min
  let hi := if min > max then min else max
  (raw : Int) % (((hi - lo).natAbs : Int) + 1) + lo

/-- The function `CheckCollisionCircles` of raylib: the distance of the centres is at
most the sum of the radii, compared on the squares. -/
def CheckCollisionCircles (center1 : Vector2) (radius1 : ℚ) (center2 : Vector2)
    (radius2 : ℚ) : Bool :=
  let dx := center2.x - center1.x
  let dy := center2.y - center1.y
  let distanceSquared := dx * dx + dy * dy
  let radiusSum := radius1 + radius2
  decide (distanceSquared ≤ radiusSum * radiusSum)

def CheckCollisionRecs (rec1 rec2 : Rectangle) : Bool :=
  decide (rec1.x < rec2.x + rec2.width) && decide (rec1.x + rec1.width > rec2.x) &&
  decide (rec1.y < rec2.y + rec2.height) && decide (rec1.y + rec1.height > rec2.y)

def CheckCollisionPointRec (point : Vector2) (rec : Rectangle) : Bool :=
  decide (point.x ≥ rec.x) && decide (point.x < rec.x + rec.width) &&
  decide (point.y ≥ rec.y) && decide (point.y < rec.y + rec.height)

def Clamp (value min max : ℚ) : ℚ :=
  let result := if value < min then min else value
  if result > max then max else result

def Vector2Add (v1 v2 : Vector2) : Vector2 := ⟨v1.x + v2.x, v1.y + v2.y⟩

def Vector2Subtract (v1 v2 : Vector2) : Vector2 := ⟨v1.x - v2.x, v1.y - v2.y⟩

def Vector2Scale (v : Vector2) (scale : ℚ) : Vector2 := ⟨v.x * scale, v.y * scale⟩

def Vector2Length (p : Platform) (v : Vector2) : ℚ := p.sqrtf (v.x * v.x + v.y * v.y)

def Vector2Normalize (p : Platform) (v : Vector2) : Vector2 :=
  let length := p.sqrtf (v.x * v.x + v.y * v.y)
  if length > 0 then
    let ilength := 1 / length
    ⟨v.x * ilength, v.y * ilength⟩
  else ⟨0, 0⟩

/-! ## Helpers (lines 108-225) -/

def ResetElixirState (s : State) : State :=
  { s with
    elixirAvailable := false
    elixirReady := false
    elixirSpawnTimer := 0
    elixirDurationTimer := 0 }

def ResetGame (_difficulty : Difficulty) (s : State) : State :=
  ResetElixirState
    { s with
      playerPos := ⟨400, 300⟩
      score := 0
      gameOver := false
      enemies := s.enemies.map (fun e => { e with active := false })
      bullets := s.bullets.map (fun b => { b with active := false })
      obstacles := s.obstacles.map (fun o => { o with active := false }) }

/-- The position drawn by `SpawnEnemy` (lines 131-138), from draw `k` on. -/
def spawnPosition (inp : Input) (k : Nat) : Vector2 :=
  let side := GetRandomValue (inp.rand k) 0 3
  if side = 0 then ⟨0, GetRandomValue (inp.rand (k + 1)) 0 inp.screenHeight⟩
  else if side = 1 then ⟨inp.screenWidth, GetRandomValue (inp.rand (k + 1)) 0 inp.screenHeight⟩
  else if side = 2 then ⟨GetRandomValue (inp.rand (k + 1)) 0 inp.screenWidth, 0⟩
  else ⟨GetRandomValue (inp.rand (k + 1)) 0 inp.screenWidth, inp.screenHeight⟩

/-- The speed chosen by `SpawnEnemy` (lines 140-143). -/
def spawnSpeed (difficulty : Difficulty) : ℚ :=
  let baseSpeed : ℚ := 50
  let speed := baseSpeed
  let speed := if difficulty = Difficulty.DIFFICULTY_MEDIUM then baseSpeed * 1.7 else speed
  if difficulty = Difficulty.DIFFICULTY_HARD then baseSpeed * 2.0 else speed

/-- The loop of `SpawnEnemy` over the enemy slots; the result carries the number
of random draws consumed so far. -/
def SpawnEnemy (p : Platform) (inp : Input) (difficulty : Difficulty) (playerPos : Vector2) :
    List Enemy → Nat → List Enemy × Nat
  | [], k => ([], k)
  | e :: es, k =>
    if !e.active then
      let pos := spawnPosition inp k
      let speed := spawnSpeed difficulty
      ({ position := pos
         speed := speed
         velocity := Vector2Scale (Vector2Normalize p (Vector2Subtract playerPos pos)) speed
         active := true } :: es, k + 2)
    else
      let r := SpawnEnemy p inp difficulty playerPos es k
      (e :: r.1, r.2)

def playerRect (p : Platform) (playerPos : Vector2) : Rectangle :=
  { x := playerPos.x - (p.pikachuWidth : ℚ) / 2
    y := playerPos.y - (p.pikachuHeight : ℚ) / 2
    width := p.pikachuWidth
    height := p.pikachuHeight }

/-- The rectangle drawn at lines 166-168 and again at lines 171-173, from draw `k`. -/
def obstacleCandidate (p : Platform) (inp : Input) (k : Nat) : Rectangle :=
  { x := GetRandomValue (inp.rand k) 100 (inp.screenWidth - p.obstacleWidth)
    y := GetRandomValue (inp.rand (k + 1)) 100 (inp.screenHeight - p.obstacleHeight)
    width := p.obstacleWidth
    height := p.obstacleHeight }

/-- The `while` loop of lines 170-174, run for at most `fuel` redraws. -/
def rejectLoop (p : Platform) (inp : Input) (pr : Rectangle) :
    Nat → Rectangle → Nat → Option (Rectangle × Nat)
  | 0, obsRect, k => if CheckCollisionRecs pr obsRect then none else some (obsRect, k)
  | fuel + 1, obsRect, k =>
    if CheckCollisionRecs pr obsRect then
      rejectLoop p inp pr fuel (obstacleCandidate p inp k) (k + 2)
    else some (obsRect, k)

/-- The loop of `SpawnObstacles` over the obstacle slots. -/
def SpawnObstacles (fuel : Nat) (p : Platform) (inp : Input) (pr : Rectangle) :
    List Obstacle → Nat → Option (List Obstacle × Nat)
  | [], k => some ([], k)
  | o :: os, k =>
    if !o.active then
      match rejectLoop p inp pr fuel (obstacleCandidate p inp k) (k + 2) with
      | none => none
      | some (obsRect, k1) =>
        match SpawnObstacles fuel p inp pr os k1 with
        | none => none
        | some (os1, k2) => some ({ rect := obsRect, active := true } :: os1, k2)
    else
      match SpawnObstacles fuel p inp pr os k with
      | none => none
      | some (os1, k2) => some (o :: os1, k2)

/-- The call `SpawnObstacles()` on a state, with the player rectangle of lines 155-160. -/
def spawnObstaclesState (fuel : Nat) (p : Platform) (inp : Input) (k : Nat) (s : State) :
    Option (State × Nat) :=
  match SpawnObstacles fuel p inp (playerRect p s.playerPos) s.obstacles k with
  | none => none
  | some (os, k1) => some ({ s with obstacles := os }, k1)

def ShootBullet (playerPos : Vector2) : List Bullet → List Bullet
  | [] => []
  | bl :: bs =>
    if !bl.active then
      { position := playerPos, velocity := ⟨0, -400⟩, active := true } :: bs
    else bl :: ShootBullet playerPos bs

/-- The body of the inner loop of `LayoutPins` (lines 201-209) on the pair
`(pins, idx)`. -/
def layoutPin (cx : ℚ) (row i : Nat) (acc : List Pin × Nat) : List Pin × Nat :=
  let topY : ℚ := 120
  let spacing : ℚ := 35
  if acc.2 < NUM_PINS then
    (acc.1.set acc.2
      { position := ⟨cx + ((i : ℚ) - (row : ℚ) / 2) * spacing, topY + (row : ℚ) * spacing⟩
        fallen := false
        animating := false
        velocity := ⟨0, 0⟩
        rotation := 0 }, acc.2 + 1)
  else acc

def LayoutPins (screenWidth : Int) (pins : List Pin) : List Pin :=
  let cx : ℚ := (screenWidth : ℚ) / 2
  ((List.range 4).foldl
    (fun acc row => (List.range (row + 1)).foldl (fun acc i => layoutPin cx row i acc) acc)
    (pins, 0)).1

def ResetBowling (screenWidth screenHeight : Int) (s : State) : State :=
  { s with
    ballPos := ⟨(screenWidth : ℚ) / 2, (screenHeight : ℚ) - 80⟩
    t := 0
    ballSpeed := 0
    throwAngle := 0
    ballLaunched := false
    power := 0
    charging := false
    strikeMode := false
    luckyStrike := false
    pins := LayoutPins screenWidth s.pins }

/-! ## Opening scene (lines 287-301) -/

def easyBtn : Rectangle := ⟨300, 300, 200, 50⟩
def mediumBtn : Rectangle := ⟨300, 370, 200, 50⟩
def hardBtn : Rectangle := ⟨300, 440, 200, 50⟩
def startBtn : Rectangle := ⟨300, 510, 200, 50⟩

/-- The condition of each `if` of the opening scene: the mouse is over the
button and the left button was pressed. -/
def clicked (inp : Input) (btn : Rectangle) : Bool :=
  CheckCollisionPointRec inp.mousePos btn && inp.mousePressed

/-- The three difficulty selectors (lines 288-293). -/
def selectDifficulty (inp : Input) (d : Difficulty) : Difficulty :=
  let d := if clicked inp easyBtn then Difficulty.DIFFICULTY_EASY else d
  let d := if clicked inp mediumBtn then Difficulty.DIFFICULTY_MEDIUM else d
  if clicked inp hardBtn then Difficulty.DIFFICULTY_HARD else d

/-- The value assigned to `elixirSpawnInterval` at line 297. -/
def spawnIntervalFor (d : Difficulty) : ℚ :=
  if d = Difficulty.DIFFICULTY_MEDIUM then 5.0
  else if d = Difficulty.DIFFICULTY_HARD then 7.0 else 0.0

/-- The calls `ResetGame(selectedDifficulty); if (selectedDifficulty ==
DIFFICULTY_HARD) SpawnObstacles();` shared by lines 295-296, 494-495 and 529-530. -/
def resetAndSpawn (fuel : Nat) (p : Platform) (inp : Input) (k : Nat) (s : State) :
    Option (State × Nat) :=
  let s1 := ResetGame s.selectedDifficulty s
  if s1.selectedDifficulty = Difficulty.DIFFICULTY_HARD then spawnObstaclesState fuel p inp k s1
  else some (s1, k)

def updateOpening (fuel : Nat) (p : Platform) (inp : Input) (s : State) : Option State :=
  let s1 := { s with selectedDifficulty := selectDifficulty inp s.selectedDifficulty }
  if clicked inp startBtn then
    match resetAndSpawn fuel p inp 0 s1 with
    | none => none
    | some (s2, _) =>
      some { s2 with
        elixirSpawnInterval := spawnIntervalFor s2.selectedDifficulty
        secondChanceUsed := false
        gameState := GameState.GAMEPLAY }
  else some s1

/-! ## Gameplay scene (lines 303-417) -/

/-- Lines 305-312. -/
def movePlayer (inp : Input) (pos : Vector2) : Vector2 :=
  let delta_x : ℚ := 0
  let delta_x := if inp.keyLeft then delta_x - playerSpeed * inp.dt else delta_x
  let delta_x := if inp.keyRight then delta_x + playerSpeed * inp.dt else delta_x
  let delta_y : ℚ := 0
  let delta_y := if inp.keyUp then delta_y - playerSpeed * inp.dt else delta_y
  let delta_y := if inp.keyDown then delta_y + playerSpeed * inp.dt else delta_y
  ⟨pos.x + delta_x, pos.y + delta_y⟩

/-- The body of the bullet loop (lines 317-320). -/
def advanceBullet (dt : ℚ) (bl : Bullet) : Bullet :=
  if bl.active then
    let y := bl.position.y + bl.velocity.y * dt
    { bl with position := ⟨bl.position.x, y⟩, active := if y < 0 then false else bl.active }
  else bl

/-- Lines 305-321: player movement, shooting, bullet advance. -/
def stepPlayerBullets (inp : Input) (s : State) : State :=
  let s := { s with playerPos := movePlayer inp s.playerPos }
  let s := if inp.spacePressed then { s with bullets := ShootBullet s.playerPos s.bullets } else s
  { s with bullets := s.bullets.map (advanceBullet inp.dt) }

/-- The base interval of lines 323-324. -/
def baseInterval (d : Difficulty) : ℚ :=
  if d = Difficulty.DIFFICULTY_EASY then 1.5
  else if d = Difficulty.DIFFICULTY_MEDIUM then 1.0 else 0.7

/-- Lines 323-329: the enemy spawn timer. The second component is the number of
random draws consumed. -/
def stepEnemySpawn (p : Platform) (inp : Input) (s : State) : State × Nat :=
  let spawnInterval := baseInterval s.selectedDifficulty
  let s := { s with enemySpawnTimer := s.enemySpawnTimer + inp.dt }
  if s.enemySpawnTimer > spawnInterval - (s.score : ℚ) * 0.01 then
    let r := SpawnEnemy p inp s.selectedDifficulty s.playerPos s.enemies 0
    ({ s with enemies := r.1, enemySpawnTimer := 0 }, r.2)
  else (s, 0)

/-- Lines 332-342: the elixir spawn timer, drawing from draw `k` on. -/
def stepElixirSpawn (inp : Input) (k : Nat) (s : State) : State :=
  if s.selectedDifficulty ≠ Difficulty.DIFFICULTY_EASY ∧ s.elixirAvailable = false ∧
      s.elixirReady = false ∧ s.elixirSpawnInterval > 0 then
    let s := { s with elixirSpawnTimer := s.elixirSpawnTimer + inp.dt }
    if s.elixirSpawnTimer ≥ s.elixirSpawnInterval then
      let margin : Int := 50
      { s with
        elixirSpawnTimer := 0
        elixirPos :=
          ⟨GetRandomValue (inp.rand k) margin (inp.screenWidth - margin),
           GetRandomValue (inp.rand (k + 1)) margin (inp.screenHeight - margin)⟩
        elixirAvailable := true
        elixirDurationTimer := 0 }
    else s
  else s

/-- Lines 345-358: elixir expiry and collection. -/
def stepElixirPickup (inp : Input) (s : State) : State :=
  if s.elixirAvailable then
    let s := { s with elixirDurationTimer := s.elixirDurationTimer + inp.dt }
    if s.elixirDurationTimer ≥ ELIXIR_DURATION then
      { s with elixirAvailable := false, elixirDurationTimer := 0 }
    else
      let pickupRadius : ℚ := 50
      if CheckCollisionCircles s.playerPos 20 s.elixirPos pickupRadius then
        { s with elixirAvailable := false, elixirReady := true, elixirDurationTimer := 0 }
      else s
  else s

/-- Lines 361-364: using the elixir. -/
def stepElixirUse (inp : Input) (s : State) : State :=
  if s.elixirReady && inp.sPressed then
    { s with
      enemies := s.enemies.map (fun e => { e with active := false })
      elixirReady := false }
  else s

/-- Lines 368-371: an enemy re-aims at the player and advances. -/
def pursue (p : Platform) (dt : ℚ) (playerPos : Vector2) (e : Enemy) : Enemy :=
  let direction := Vector2Subtract playerPos e.position
  let e :=
    if Vector2Length p direction > 0 then
      { e with velocity := Vector2Scale (Vector2Normalize p direction) e.speed }
    else e
  { e with position := Vector2Add e.position (Vector2Scale e.velocity dt) }

/-- The inner bullet loop (lines 385-392) for an enemy at `pos`: the bullets with
the first active overlapping one deactivated, or `none` when no bullet hits. -/
def hitBullet (pos : Vector2) : List Bullet → Option (List Bullet)
  | [] => none
  | bl :: bs =>
    if bl.active && CheckCollisionCircles pos 20 bl.position 5 then
      some ({ bl with active := false } :: bs)
    else
      match hitBullet pos bs with
      | none => none
      | some bs1 => some (bl :: bs1)

structure EnemyLoopResult where
  enemies : List Enemy
  bullets : List Bullet
  score : Int
  caught : Bool

/-- The enemy loop (lines 366-394). `caught` tells that the loop was left through
the `break` of line 382, that is, that the branch of lines 374-381 ran. -/
def enemyLoop (p : Platform) (dt : ℚ) (playerPos : Vector2) :
    List Enemy → List Bullet → Int → EnemyLoopResult
  | [], bs, sc => ⟨[], bs, sc, false⟩
  | e :: es, bs, sc =>
    if e.active then
      let e1 := pursue p dt playerPos e
      if CheckCollisionCircles e1.position 20 playerPos 20 then
        ⟨e1 :: es, bs, sc, true⟩
      else
        match hitBullet e1.position bs with
        | some bs1 =>
          let r := enemyLoop p dt playerPos es bs1 (sc + 1)
          ⟨{ e1 with active := false } :: r.enemies, r.bullets, r.score, r.caught⟩
        | none =>
          let r := enemyLoop p dt playerPos es bs sc
          ⟨e1 :: r.enemies, r.bullets, r.score, r.caught⟩
    else
      let r := enemyLoop p dt playerPos es bs sc
      ⟨e :: r.enemies, r.bullets, r.score, r.caught⟩

/-- The branch of lines 405-412 (and of lines 374-381 once the difficulty is
known to be hard): second chance or game over. -/
def secondChanceOrOver (inp : Input) (s : State) : State :=
  if !s.secondChanceUsed then
    { ResetElixirState (ResetBowling inp.screenWidth inp.screenHeight s) with
      gameState := GameState.MINI_GAME }
  else { s with gameOver := true, gameState := GameState.CLOSING_SCENE }

/-- The branch of lines 374-381. -/
def onCaught (inp : Input) (s : State) : State :=
  if s.selectedDifficulty = Difficulty.DIFFICULTY_HARD ∧ s.secondChanceUsed = false then
    { ResetElixirState (ResetBowling inp.screenWidth inp.screenHeight s) with
      gameState := GameState.MINI_GAME }
  else { s with gameOver := true, gameState := GameState.CLOSING_SCENE }

/-- Lines 366-394 on the state. -/
def stepEnemies (p : Platform) (inp : Input) (s : State) : State :=
  let r := enemyLoop p inp.dt s.playerPos s.enemies s.bullets s.score
  let s := { s with enemies := r.enemies, bullets := r.bullets, score := r.score }
  if r.caught then onCaught inp s else s

/-- Lines 396-415: the obstacle loop (hard difficulty only). -/
def stepObstacles (p : Platform) (inp : Input) (s : State) : State :=
  if s.selectedDifficulty = Difficulty.DIFFICULTY_HARD then
    let pr := playerRect p s.playerPos
    s.obstacles.foldl
      (fun st o => if o.active && CheckCollisionRecs pr o.rect then secondChanceOrOver inp st else st)
      s
  else s

/-- The state in which the pickup step of line 345 starts. -/
def beforePickup (p : Platform) (inp : Input) (s : State) : State :=
  let s1 := stepPlayerBullets inp s
  let r := stepEnemySpawn p inp s1
  stepElixirSpawn inp r.2 r.1

/-- The state in which the use step of line 361 starts. -/
def beforeUse (p : Platform) (inp : Input) (s : State) : State :=
  stepElixirPickup inp (beforePickup p inp s)

/-- The state in which the enemy loop of line 366 starts. -/
def beforeEnemies (p : Platform) (inp : Input) (s : State) : State :=
  stepElixirUse inp (beforeUse p inp s)

def updateGameplay (p : Platform) (inp : Input) (s : State) : State :=
  if !s.gameOver then stepObstacles p inp (stepEnemies p inp (beforeEnemies p inp s))
  else s

/-! ## Mini-game scene (lines 419-517) -/

/-- Lines 421-426: the strike-mode toggle. The second component is the number of
random draws consumed. -/
def stepStrikeToggle (inp : Input) (s : State) : State × Nat :=
  if inp.sPressed && !s.ballLaunched then
    let s := { s with strikeMode := !s.strikeMode }
    if s.strikeMode then
      ({ s with luckyStrike := decide (GetRandomValue (inp.rand 0) 0 1 = 1) }, 1)
    else (s, 0)
  else (s, 0)

/-- Lines 429-435: aiming. -/
def stepAim (p : Platform) (inp : Input) (s : State) : State :=
  if !s.ballLaunched then
    let s := if inp.keyLeft then { s with throwAngle := s.throwAngle - 0.02 } else s
    let s := if inp.keyRight then { s with throwAngle := s.throwAngle + 0.02 } else s
    let s := { s with throwAngle := Clamp s.throwAngle (-maxAngle) maxAngle }
    { s with
      ballPos := ⟨(inp.screenWidth : ℚ) / 2 + p.sinf s.throwAngle * a, (inp.screenHeight : ℚ) - 80⟩ }
  else s

/-- Lines 438-442: charging. -/
def stepCharge (inp : Input) (s : State) : State :=
  if inp.spaceDown && !s.ballLaunched then
    let s := { s with charging := true, power := s.power + 0.01 }
    { s with power := Clamp s.power 0 maxPower }
  else s

/-- Lines 443-449: release. -/
def stepRelease (inp : Input) (s : State) : State :=
  if inp.spaceReleased && s.charging then
    { s with
      charging := false
      ellipseCenter := ⟨(inp.screenWidth : ℚ) / 2, (inp.screenHeight : ℚ) + 50⟩
      ballLaunched := true
      t := 0
      ballSpeed := baseSpeed + s.power * 0.05 }
  else s

/-- Lines 421-449: the state in which the test `if (ballLaunched)` of line 452 is
made, with the number of random draws consumed. -/
def miniControls (p : Platform) (inp : Input) (s : State) : State × Nat :=
  let r := stepStrikeToggle inp s
  (stepRelease inp (stepCharge inp (stepAim p inp r.1)), r.2)

/-- Lines 453-461: the ball advances on its ellipse and is kept in the lane. -/
def moveBall (p : Platform) (s : State) : State :=
  let s := { s with t := s.t + s.ballSpeed }
  let x := a * p.cosf s.t
  let y := b * p.sinf s.t
  let bx := s.ellipseCenter.x + x * p.cosf s.throwAngle - y * p.sinf s.throwAngle
  let by1 := s.ellipseCenter.y - x * p.sinf s.throwAngle - y * p.cosf s.throwAngle
  let bx := if bx < LANE_LEFT + BALL_RADIUS then LANE_LEFT + BALL_RADIUS else bx
  let bx := if bx > LANE_RIGHT - BALL_RADIUS then LANE_RIGHT - BALL_RADIUS else bx
  { s with ballPos := ⟨bx, by1⟩ }

/-- The condition computed at line 466. -/
def isStrikeCondition (s : State) : Bool :=
  (s.strikeMode && s.luckyStrike) || (decide (|s.throwAngle| < 0.1) && decide (s.power > 0.8))

/-- The effect of lines 469-472 and 477-480 on one pin, drawing from draw `k` on. -/
def fellPin (inp : Input) (k : Nat) (q : Pin) : Pin :=
  { q with
    fallen := true
    animating := true
    velocity := ⟨GetRandomValue (inp.rand k) (-5) 5, GetRandomValue (inp.rand (k + 1)) 5 10⟩
    rotation := GetRandomValue (inp.rand (k + 2)) 0 360 }

/-- The loop of lines 468-473 over all pins. -/
def fellAll (inp : Input) : List Pin → Nat → List Pin × Nat
  | [], k => ([], k)
  | q :: qs, k =>
    let r := fellAll inp qs (k + 3)
    (fellPin inp k q :: r.1, r.2)

/-- The test of line 465 for one pin. -/
def ballHits (ballPos : Vector2) (q : Pin) : Bool :=
  !q.fallen && CheckCollisionCircles ballPos BALL_RADIUS q.position PIN_RADIUS

structure PinLoopResult where
  pins : List Pin
  draws : Nat
  struck : Bool

/-- The pin loop of lines 464-484 from some index on. `struck` tells that the loop
was left through the `break` of line 475; the pins are then those at the moment
the strike branch was entered. -/
def pinLoop (inp : Input) (strike : Bool) (ballPos : Vector2) : List Pin → Nat → PinLoopResult
  | [], k => ⟨[], k, false⟩
  | q :: qs, k =>
    if ballHits ballPos q then
      if strike then ⟨q :: qs, k, true⟩
      else
        let r := pinLoop inp strike ballPos qs (k + 3)
        ⟨fellPin inp k q :: r.pins, r.draws, r.struck⟩
    else
      let r := pinLoop inp strike ballPos qs k
      ⟨q :: r.pins, r.draws, r.struck⟩

/-- Lines 464-484: the collision step, drawing from draw `k` on. -/
def collisionStep (inp : Input) (k : Nat) (s : State) : State × Nat :=
  let r := pinLoop inp (isStrikeCondition s) s.ballPos s.pins k
  if r.struck then
    let f := fellAll inp r.pins r.draws
    ({ s with pins := f.1 }, f.2)
  else ({ s with pins := r.pins }, r.draws)

/-- The loop of lines 488-491. -/
def allFallen (pins : List Pin) : Bool := pins.all (fun q => q.fallen)

/-- Lines 487-502: the judgment of the throw. -/
def judge (fuel : Nat) (p : Platform) (inp : Input) (k : Nat) (s : State) : Option State :=
  if s.t ≥ PI / 2 then
    if allFallen s.pins then
      match resetAndSpawn fuel p inp k { s with secondChanceUsed := true } with
      | none => none
      | some (s1, _) =>
        some (ResetBowling inp.screenWidth inp.screenHeight
          { s1 with gameState := GameState.GAMEPLAY })
    else
      some (ResetBowling inp.screenWidth inp.screenHeight
        { s with gameOver := true, gameState := GameState.CLOSING_SCENE })
  else some s

/-- The body of the animation loop (lines 507-515). -/
def animatePin (screenHeight : Int) (q : Pin) : Pin :=
  if q.animating then
    let pos : Vector2 := ⟨q.position.x + q.velocity.x, q.position.y + q.velocity.y⟩
    { q with
      position := pos
      velocity := ⟨q.velocity.x, q.velocity.y + 0.3⟩
      rotation := q.rotation + 10.0
      animating := if pos.y > (screenHeight : ℚ) + 50.0 then false else q.animating }
  else q

/-- Lines 506-516. -/
def stepAnimatePins (inp : Input) (s : State) : State :=
  { s with pins := s.pins.map (animatePin inp.screenHeight) }

/-- The state after the collision step of a launched frame (lines 453-484). -/
def afterCollision (p : Platform) (inp : Input) (s : State) : State × Nat :=
  let c := miniControls p inp s
  collisionStep inp c.2 (moveBall p c.1)

def updateMiniGame (fuel : Nat) (p : Platform) (inp : Input) (s : State) : Option State :=
  let c := miniControls p inp s
  if c.1.ballLaunched then
    let r := afterCollision p inp s
    match judge fuel p inp r.2 r.1 with
    | none => none
    | some s1 => some (stepAnimatePins inp s1)
  else some (stepAnimatePins inp c.1)

/-! ## Closing scene (lines 519-540) -/

def scaleSpeed : ℚ := 1.5

/-- Lines 520-526: the scale-up animation. -/
def stepScale (inp : Input) (s : State) : State :=
  if !s.animationComplete then
    let s := { s with gameOverScale := s.gameOverScale + scaleSpeed * inp.dt }
    if s.gameOverScale ≥ 1.0 then { s with gameOverScale := 1.0, animationComplete := true }
    else s
  else s

/-- Lines 528-533: restart. The second component is the number of random draws
consumed. -/
def stepRestart (fuel : Nat) (p : Platform) (inp : Input) (s : State) : Option (State × Nat) :=
  if inp.rPressed then
    match resetAndSpawn fuel p inp 0 s with
    | none => none
    | some (s1, k) => some ({ s1 with secondChanceUsed := false, gameState := GameState.GAMEPLAY }, k)
  else some (s, 0)

/-- Lines 534-538: home. -/
def stepHome (inp : Input) (s : State) : State :=
  if inp.hPressed then
    { ResetGame s.selectedDifficulty s with
      secondChanceUsed := false
      gameState := GameState.OPENING_SCENE }
  else s

def updateClosing (fuel : Nat) (p : Platform) (inp : Input) (s : State) : Option State :=
  let s1 := stepScale inp s
  if s1.animationComplete then
    match stepRestart fuel p inp s1 with
    | none => none
    | some (s2, _) => some (stepHome inp s2)
  else some s1

/-! ## The frame update and the reachable states -/

/-- The `switch` of lines 286-541. -/
def updateFrame (fuel : Nat) (p : Platform) (inp : Input) (s : State) : Option State :=
  match s.gameState with
  | GameState.OPENING_SCENE => updateOpening fuel p inp s
  | GameState.GAMEPLAY => some (updateGameplay p inp s)
  | GameState.MINI_GAME => updateMiniGame fuel p inp s
  | GameState.CLOSING_SCENE => updateClosing fuel p inp s

def zeroVector : Vector2 := ⟨0, 0⟩

/-- The state when the main loop is entered (lines 58-101 and 266-280), for the
window size reported during the first `ResetBowling`. -/
def initialState (screenWidth screenHeight : Int) : State :=
  ResetElixirState (ResetBowling screenWidth screenHeight
    { bullets := List.replicate MAX_BULLETS ⟨zeroVector, zeroVector, false⟩
      enemies := List.replicate MAX_ENEMIES ⟨zeroVector, zeroVector, 0, false⟩
      obstacles := List.replicate MAX_OBSTACLES ⟨⟨0, 0, 0, 0⟩, false⟩
      pins := List.replicate NUM_PINS ⟨zeroVector, zeroVector, 0, false, false⟩
      playerPos := ⟨400, 300⟩
      score := 0
      gameOver := false
      secondChanceUsed := false
      elixirAvailable := false
      elixirPos := zeroVector
      elixirReady := false
      elixirSpawnTimer := 0
      elixirDurationTimer := 0
      elixirSpawnInterval := 0
      ballPos := zeroVector
      t := 0
      throwAngle := 0
      ellipseCenter := zeroVector
      ballSpeed := 0
      ballLaunched := false
      power := 0
      charging := false
      strikeMode := false
      luckyStrike := false
      gameState := GameState.OPENING_SCENE
      selectedDifficulty := Difficulty.DIFFICULTY_MEDIUM
      gameOverScale := 0.1
      animationComplete := false
      enemySpawnTimer := 0 })

/-- The states the program can be in at the head of the main loop. -/
inductive Reachable (p : Platform) : State → Prop where
  | init (screenWidth screenHeight : Int) : Reachable p (initialState screenWidth screenHeight)
  | step {s s1 : State} (fuel : Nat) (inp : Input) :
      Reachable p s → updateFrame fuel p inp s = some s1 → Reachable p s1

/-! ## Predicates used in the statements -/

/-- A rack as `LayoutPins` leaves it: ten pins, none fallen, none animating. -/
def FreshRack (pins : List Pin) : Prop :=
  pins.length = NUM_PINS ∧ ∀ q ∈ pins, q.fallen = false ∧ q.animating = false

/-- What the second-chance branch establishes and the obstacle loop keeps. -/
def InMiniGameFresh (st : State) : Prop :=
  st.secondChanceUsed = false ∧ st.gameState = GameState.MINI_GAME ∧ st.gameOver = false ∧
  FreshRack st.pins

/-- The elixir is never on the map and in the player's hands at once. -/
def ElixirOk (s : State) : Prop := s.elixirAvailable = true → s.elixirReady = false

/-- The flag `gameOver` is set exactly in the closing scene. -/
def OverIffClosing (s : State) : Prop :=
  s.gameOver = true ↔ s.gameState = GameState.CLOSING_SCENE

/-- The invariant of the main loop used below. -/
def Inv (s : State) : Prop := WF s ∧ OverIffClosing s ∧ ElixirOk s

/-- The invariant of the obstacle loop. -/
def ObstacleLoopInv (s : State) : Prop :=
  WF s ∧ OverIffClosing s ∧ ElixirOk s ∧ (s.gameOver = true → s.secondChanceUsed = true)

/-- From every draw on, some later candidate rectangle of `SpawnObstacles` misses
the rectangle `pr`: the rejection loop cannot be kept busy forever. -/
def DrawsSettle (p : Platform) (inp : Input) (pr : Rectangle) : Prop :=
  ∀ k, ∃ n, CheckCollisionRecs pr (obstacleCandidate p inp (k + 2 * n)) = false

/-- A state whose elixir flags are those of `st`, or both cleared; and whose enemies
and score are those of `st`. -/
def FlagsDown (st x : State) : Prop :=
  ((x.elixirAvailable = st.elixirAvailable ∧ x.elixirReady = st.elixirReady) ∨
    (x.elixirAvailable = false ∧ x.elixirReady = false)) ∧
  x.enemies = st.enemies ∧ x.score = st.score ∧ x.selectedDifficulty = st.selectedDifficulty

/-- An easy game whose elixir is hidden. -/
def EasyHidden (s : State) : Prop :=
  s.selectedDifficulty = Difficulty.DIFFICULTY_EASY ∧ s.elixirAvailable = false ∧
  s.elixirReady = false

/-- The states of a session started on Easy: the state the start action leaves when
the difficulty selected at line 294 is Easy, and every state a frame leads to from
there, up to and including the first return to the opening scene. -/
inductive EasySession (p : Platform) : State → Prop where
  | start {s s1 : State} (fuel : Nat) (inp : Input) :
      s.gameState = GameState.OPENING_SCENE → clicked inp startBtn = true →
      selectDifficulty inp s.selectedDifficulty = Difficulty.DIFFICULTY_EASY →
      updateFrame fuel p inp s = some s1 → EasySession p s1
  | step {s s1 : State} (fuel : Nat) (inp : Input) :
      EasySession p s → s.gameState ≠ GameState.OPENING_SCENE →
      updateFrame fuel p inp s = some s1 → EasySession p s1

/-! ## Concrete platform, inputs and states -/

/-- A platform with a fixed-point square root, Taylor polynomials for sine and
cosine, and textures of 64x64 and 50x50 pixels. -/
def samplePlatform : Platform :=
  { sqrtf := fun x => (Nat.sqrt (Int.toNat ⌊x * 1000000⌋) : ℚ) / 1000
    sinf := fun x => x - x ^ 3 / 6 + x ^ 5 / 120
    cosf := fun x => 1 - x ^ 2 / 2 + x ^ 4 / 24
    pikachuWidth := 64
    pikachuHeight := 64
    obstacleWidth := 50
    obstacleHeight := 50 }

/-- A frame of an 800x600 window in which no time passes and nothing is pressed. -/
def idleInput : Input :=
  { dt := 0
    mousePos := ⟨0, 0⟩
    mousePressed := false
    keyLeft := false
    keyRight := false
    keyUp := false
    keyDown := false
    spacePressed := false
    spaceDown := false
    spaceReleased := false
    sPressed := false
    rPressed := false
    hPressed := false
    screenWidth := 800
    screenHeight := 600
    rand := fun _ => 0 }

/-- A hard game in which an enemy has reached the player. -/
def hardCaughtState : State :=
  { initialState 800 600 with
    gameState := GameState.GAMEPLAY
    selectedDifficulty := Difficulty.DIFFICULTY_HARD
    enemies := ⟨⟨400, 300⟩, zeroVector, 100, true⟩ ::
      List.replicate 99 ⟨zeroVector, zeroVector, 0, false⟩ }

/-- A click on the start button. -/
def clickStart : Input := { idleInput with mousePos := ⟨400, 530⟩, mousePressed := true }

/-- The state after the start button is clicked in the initial state (medium difficulty). -/
def startedMedium : State :=
  { ResetGame Difficulty.DIFFICULTY_MEDIUM (initialState 800 600) with
    elixirSpawnInterval := spawnIntervalFor Difficulty.DIFFICULTY_MEDIUM
    secondChanceUsed := false
    gameState := GameState.GAMEPLAY }

/-- Two seconds with the left key held, every call of `rand()` returning 300: the
player walks to the left edge, where an enemy spawns on it. -/
def chaseInput : Input := { idleInput with dt := 2, keyLeft := true, rand := fun _ => 300 }

/-- A hard game in the mini-game scene whose ball is about to leave the lane. -/
def thrownState : State :=
  { initialState 800 600 with
    gameState := GameState.MINI_GAME
    selectedDifficulty := Difficulty.DIFFICULTY_HARD
    ballLaunched := true
    t := 1.56
    ballSpeed := 0.02
    ellipseCenter := ⟨400, 650⟩ }

/-- A launched ball lying on the head pin of the 800-pixel rack, in strike mode with
a lucky strike when `lucky` is set. -/
def onHeadPin (lucky : Bool) : State :=
  { initialState 800 600 with
    gameState := GameState.MINI_GAME
    selectedDifficulty := Difficulty.DIFFICULTY_HARD
    ballLaunched := true
    ballSpeed := 0.02
    ballPos := ⟨400, 120⟩
    strikeMode := lucky
    luckyStrike := lucky }

/-- The relation between a pin before and after a collision step without strike,
for a ball at `ballPos`. -/
def NonStrikeStep (ballPos : Vector2) (q q1 : Pin) : Prop :=
  (q1.fallen = true ↔
    q.fallen = true ∨ CheckCollisionCircles ballPos BALL_RADIUS q.position PIN_RADIUS = true) ∧
  (CheckCollisionCircles ballPos BALL_RADIUS q.position PIN_RADIUS = false → q1 = q)

/-- The opening scene with Easy selected. -/
def easySelected : State :=
  { initialState 800 600 with selectedDifficulty := Difficulty.DIFFICULTY_EASY }

/-- The state after the start button is clicked with Easy selected. -/
def startedEasy : State :=
  { ResetGame Difficulty.DIFFICULTY_EASY easySelected with
    elixirSpawnInterval := spawnIntervalFor Difficulty.DIFFICULTY_EASY
    secondChanceUsed := false
    gameState := GameState.GAMEPLAY }

/-- A frame of ten seconds. -/
def waitInput : Input := { idleInput with dt := 10 }

/-- A frame of five seconds with the use key pressed, every call of `rand()`
returning 175600, which puts the elixir at (400, 300). -/
def useInput : Input := { idleInput with dt := 5, sPressed := true, rand := fun _ => 175600 }

/-- The opening scene with Hard selected. -/
def hardSelected : State :=
  { initialState 800 600 with selectedDifficulty := Difficulty.DIFFICULTY_HARD }

/-! ## The rack of the spec -/

/-- The pin the spec places at position `i` of row `row` for screen width `W`. -/
def rackPin (screenWidth : Int) (row i : Nat) : Pin :=
  { position := ⟨(screenWidth : ℚ) / 2 + ((i : ℚ) - (row : ℚ) / 2) * 35, 120 + 35 * (row : ℚ)⟩
    velocity := ⟨0, 0⟩
    rotation := 0
    fallen := false
    animating := false }

/-- The rack of the spec: rows of 1, 2, 3 and 4 pins in slot order. -/
def rackOf (screenWidth : Int) : List Pin :=
  [rackPin screenWidth 0 0,
   rackPin screenWidth 1 0, rackPin screenWidth 1 1,
   rackPin screenWidth 2 0, rackPin screenWidth 2 1, rackPin screenWidth 2 2,
   rackPin screenWidth 3 0, rackPin screenWidth 3 1, rackPin screenWidth 3 2,
   rackPin screenWidth 3 3]

/-! ## Predicates and inputs for the pools -/

/-- A point on the border of the screen rectangle of the frame. -/
def OnBorder (inp : Input) (pos : Vector2) : Prop :=
  (pos.x = 0 ∧ 0 ≤ pos.y ∧ pos.y ≤ inp.screenHeight) ∨
  (pos.x = inp.screenWidth ∧ 0 ≤ pos.y ∧ pos.y ≤ inp.screenHeight) ∨
  (pos.y = 0 ∧ 0 ≤ pos.x ∧ pos.x ≤ inp.screenWidth) ∨
  (pos.y = inp.screenHeight ∧ 0 ≤ pos.x ∧ pos.x ≤ inp.screenWidth)

/-- The scene transition table of the spec: unchanged, or one of the seven listed pairs. -/
def allowedTransition : GameState → GameState → Bool
  | GameState.OPENING_SCENE, GameState.OPENING_SCENE => true
  | GameState.OPENING_SCENE, GameState.GAMEPLAY => true
  | GameState.GAMEPLAY, GameState.GAMEPLAY => true
  | GameState.GAMEPLAY, GameState.MINI_GAME => true
  | GameState.GAMEPLAY, GameState.CLOSING_SCENE => true
  | GameState.MINI_GAME, GameState.MINI_GAME => true
  | GameState.MINI_GAME, GameState.GAMEPLAY => true
  | GameState.MINI_GAME, GameState.CLOSING_SCENE => true
  | GameState.CLOSING_SCENE, GameState.CLOSING_SCENE => true
  | GameState.CLOSING_SCENE, GameState.GAMEPLAY => true
  | GameState.CLOSING_SCENE, GameState.OPENING_SCENE => true
  | _, _ => false

/-- A scene a Survival frame can end in. -/
def SurvivalExit (x : State) : Prop :=
  x.gameState = GameState.GAMEPLAY ∨ x.gameState = GameState.MINI_GAME ∨
  x.gameState = GameState.CLOSING_SCENE

/-- The ranges of the two throw parameters. -/
def ThrowRange (s : State) : Prop :=
  -maxAngle ≤ s.throwAngle ∧ s.throwAngle ≤ maxAngle ∧ 0 ≤ s.power ∧ s.power ≤ 1

/-! ## Bullets across a frame -/

/-- The later bullet is the earlier one, possibly deactivated. -/
def Dimmed (b b1 : Bullet) : Prop :=
  b1.position = b.position ∧ b1.velocity = b.velocity ∧ (b1.active = true → b.active = true)

/-- The relation between a bullet slot before and after a Survival frame with time
step `dt`. -/
def BulletFrame (dt : ℚ) (b b1 : Bullet) : Prop :=
  (b.active = true →
    b1.position = ⟨b.position.x, b.position.y + b.velocity.y * dt⟩ ∧
    b1.velocity = b.velocity ∧
    (b.position.y + b.velocity.y * dt < 0 → b1.active = false)) ∧
  (b1.active = true →
    0 ≤ b1.position.y ∧ ((b.active = true ∧ b1.velocity = b.velocity) ∨ b1.velocity = ⟨0, -400⟩))

/-- Every active bullet flies straight up at 400 pixels per second. -/
def BulletsUp (s : State) : Prop :=
  ∀ b ∈ s.bullets, b.active = true → b.velocity = ⟨0, -400⟩

/-- A Survival state whose first bullet has just left the screen. -/
def strayBullet : State :=
  { startedMedium with
    bullets := ⟨⟨400, -1⟩, ⟨0, -400⟩, true⟩ ::
      List.replicate 499 ⟨zeroVector, zeroVector, false⟩ }

/-! ## Scoring -/

/-- The test of lines 386-387: bullet `b` is active and its circle (radius 5) overlaps
the circle (radius 20) of an enemy at `pos`. -/
def bulletHits (pos : Vector2) (b : Bullet) : Bool :=
  b.active && CheckCollisionCircles pos 20 b.position 5

/-- The number of slots that are active in `l` and inactive in `l1`. -/
def lostCount {α : Type} (act : α → Bool) (l l1 : List α) : Nat :=
  ((l.zip l1).filter (fun x => act x.1 && !act x.2)).length

/-- A Survival state with one enemy and one bullet at the same place, away from the
player. -/
def enemyOnBullet : State :=
  { startedMedium with
    enemies := ⟨⟨100, 100⟩, zeroVector, 85, true⟩ ::
      List.replicate 99 ⟨zeroVector, zeroVector, 0, false⟩
    bullets := ⟨⟨100, 100⟩, ⟨0, -400⟩, true⟩ ::
      List.replicate 499 ⟨zeroVector, zeroVector, false⟩ }

/-! ## Enemy spawns across a frame -/

/-- The number of enemy slots that are inactive in `es` and active in `es1`. -/
def activatedCount (es es1 : List Enemy) : Nat :=
  ((es.zip es1).filter (fun x => !x.1.active && x.2.active)).length

/-- The number of free enemy slots. -/
def freeSlots (es : List Enemy) : Nat := (es.filter (fun e => !e.active)).length

/-- Slot by slot, no enemy is active in the second list that was not in the first. -/
def Fade (es es1 : List Enemy) : Prop :=
  List.Forall₂ (fun a b : Enemy => b.active = true → a.active = true) es es1

/-- A hard Survival state with score 71: the spawn interval is 0.7 - 0.71 < 0. -/
def lateHard : State :=
  { startedMedium with selectedDifficulty := Difficulty.DIFFICULTY_HARD, score := 71 }

/-! ## What only a hard game has -/

/-- What only a hard game has: the bonus scene, a used second chance, an active
obstacle; and the opening scene has neither a used second chance nor an active
obstacle. -/
def HardOnly (s : State) : Prop :=
  (s.gameState = GameState.MINI_GAME →
    s.selectedDifficulty = Difficulty.DIFFICULTY_HARD ∧ s.secondChanceUsed = false) ∧
  (s.secondChanceUsed = true → s.selectedDifficulty = Difficulty.DIFFICULTY_HARD) ∧
  ((∃ o ∈ s.obstacles, o.active = true) →
    s.selectedDifficulty = Difficulty.DIFFICULTY_HARD) ∧
  (s.gameState = GameState.OPENING_SCENE →
    s.secondChanceUsed = false ∧ ∀ o ∈ s.obstacles, o.active = false)

/-- State `x` has the difficulty, the second-chance flag and the obstacles of `s`, and its
scene is that of `s`, or the closing scene, or the bonus scene entered from a hard game
whose second chance was not used. -/
def HardKept (s x : State) : Prop :=
  x.selectedDifficulty = s.selectedDifficulty ∧ x.secondChanceUsed = s.secondChanceUsed ∧
  x.obstacles = s.obstacles ∧
  (x.gameState = s.gameState ∨
    (x.gameState = GameState.MINI_GAME ∧
      s.selectedDifficulty = Difficulty.DIFFICULTY_HARD ∧ s.secondChanceUsed = false) ∨
    x.gameState = GameState.CLOSING_SCENE)

/-! ## The closing animation and later states -/

/-- Once the closing animation is complete the scale is 1. -/
def ScaleDone (s : State) : Prop := s.animationComplete = true → s.gameOverScale = 1

/-- State `x` has the animation flag and the scale of `s`. -/
def AnimKept (s x : State) : Prop :=
  x.animationComplete = s.animationComplete ∧ x.gameOverScale = s.gameOverScale

/-- State `s1` is `s` or comes after it in a run of the main loop. -/
inductive Later (p : Platform) (s : State) : State → Prop where
  | refl : Later p s s
  | step {s1 s2 : State} (fuel : Nat) (inp : Input) :
      Later p s s1 → updateFrame fuel p inp s1 = some s2 → Later p s s2

/-- The medium game after the player has walked into the enemy spawning at the left
edge. -/
def caughtMedium : State := updateGameplay samplePlatform chaseInput startedMedium

/-- The state after a closing frame of ten seconds: the animation is complete. -/
def closedMedium : State := stepScale waitInput caughtMedium

/-! ## Throws and runs of the main loop -/

/-- A launched ball belongs to the bonus scene, is no longer charging, has a speed
between 0.02 and 0.07 and a curve parameter that is not negative. -/
def LaunchOk (s : State) : Prop :=
  s.ballLaunched = true →
    s.gameState = GameState.MINI_GAME ∧ s.charging = false ∧
    0.02 ≤ s.ballSpeed ∧ s.ballSpeed ≤ 0.07 ∧ 0 ≤ s.t

/-- The throw has been judged: the scene is no longer the bonus scene and the bowling
state is reset. -/
def Judged (s : State) : Prop :=
  s.gameState ≠ GameState.MINI_GAME ∧ s.ballLaunched = false ∧ s.t = 0 ∧ s.ballSpeed = 0 ∧
  s.power = 0 ∧ s.throwAngle = 0

/-- A click on the Hard button. -/
def clickHard : Input := { idleInput with mousePos := ⟨400, 460⟩, mousePressed := true }

/-- A frame with the space bar held down. -/
def chargeInput : Input := { idleInput with spaceDown := true }

/-- A frame in which the space bar is released. -/
def releaseInput : Input := { idleInput with spaceReleased := true }

/-! ## Throws about to be judged -/

/-- A launched ball about to be judged with every pin already fallen. -/
def fallenThrow : State :=
  { thrownState with
    pins := List.replicate NUM_PINS ⟨zeroVector, zeroVector, 0, true, false⟩ }

/-- A launched ball about to be judged far below the rack: it hits no pin. -/
def missedThrow : State := { thrownState with ellipseCenter := ⟨400, 2000⟩ }

/-! ## binary32 arithmetic

The variables of the program are `float`s. The model above computes with exact
rationals; where a claim is about the values themselves, the float operations are
modelled by rounding each exact result to the nearest binary32 number. -/

/-- Round to the nearest integer, ties to even. -/
def rne (t : ℚ) : Int :=
  if t - ⌊t⌋ < 1 / 2 then ⌊t⌋
  else if 1 / 2 < t - ⌊t⌋ then ⌊t⌋ + 1
  else if ⌊t⌋ % 2 = 0 then ⌊t⌋ else ⌊t⌋ + 1

/-- The spacing of the binary32 numbers around `x`: `2 ^ (e - 23)` where
`2 ^ e ≤ |x| < 2 ^ (e + 1)`, and `2 ^ (-149)` in the subnormal range. -/
def quantum32 (x : ℚ) : ℚ := (2 : ℚ) ^ max (Int.log 2 |x| - 23) (-149)

/-- The binary32 number nearest to `x`, ties to even, for `|x|` below the overflow
threshold: the value a `float` operation returns when its exact result is `x`. -/
def round32 (x : ℚ) : ℚ := (rne (x / quantum32 x) : ℚ) * quantum32 x

/-! ## The throw controls in binary32 (lines 428-449)

Every `float` operation of the source is one exact operation followed by one
rounding to binary32 (round to nearest, ties to even; no wider intermediate format
and no fused multiply-add), and a `float` literal is the rounded decimal. -/

/-- The constant `PI` of `raylib.h`, `3.14159265358979323846f`, as a `float`. -/
def PI32 : ℚ := round32 3.14159265358979323846

/-- Line 90, `const float maxAngle = PI / 6;`, as a `float`. -/
def maxAngle32 : ℚ := round32 (PI32 / 6)

/-- The literal `0.02f` of lines 94, 430 and 431. -/
def lit002 : ℚ := round32 0.02

/-- The literal `0.01f` of line 440. -/
def lit001 : ℚ := round32 0.01

/-- The literal `0.05f` of line 448. -/
def lit005 : ℚ := round32 0.05

/-- Lines 429-435 in binary32: aiming. -/
def stepAim32 (p : Platform) (inp : Input) (s : State) : State :=
  if !s.ballLaunched then
    let s := if inp.keyLeft then { s with throwAngle := round32 (s.throwAngle - lit002) } else s
    let s := if inp.keyRight then { s with throwAngle := round32 (s.throwAngle + lit002) } else s
    let s := { s with throwAngle := Clamp s.throwAngle (-maxAngle32) maxAngle32 }
    { s with
      ballPos :=
        ⟨round32 (round32 (round32 (inp.screenWidth : ℚ) / 2) +
            round32 (p.sinf s.throwAngle * a)),
         round32 (round32 (inp.screenHeight : ℚ) - 80)⟩ }
  else s

/-- Lines 438-442 in binary32: charging. -/
def stepCharge32 (inp : Input) (s : State) : State :=
  if inp.spaceDown && !s.ballLaunched then
    let s := { s with charging := true, power := round32 (s.power + lit001) }
    { s with power := Clamp s.power 0 maxPower }
  else s

/-- Lines 443-449 in binary32: release. -/
def stepRelease32 (inp : Input) (s : State) : State :=
  if inp.spaceReleased && s.charging then
    { s with
      charging := false
      ellipseCenter :=
        ⟨round32 (round32 (inp.screenWidth : ℚ) / 2), round32 ((inp.screenHeight : ℚ) + 50)⟩
      ballLaunched := true
      t := 0
      ballSpeed := round32 (lit002 + round32 (s.power * lit005)) }
  else s

/-- Lines 421-449 in binary32: the state in which the test of line 452 is made. -/
def miniControls32 (p : Platform) (inp : Input) (s : State) : State :=
  stepRelease32 inp (stepCharge32 inp (stepAim32 p inp (stepStrikeToggle inp s).1))

/-- Lines 452-484 after the binary32 controls: the ball advances and the collision
step runs, as in `afterCollision`. -/
def afterCollision32 (p : Platform) (inp : Input) (s : State) : State × Nat :=
  collisionStep inp (stepStrikeToggle inp s).2 (moveBall p (miniControls32 p inp s))

/-- The bonus scene (lines 420-517) with the controls of lines 428-449 computed in
binary32; the rest of the frame is `updateMiniGame`. -/
def updateMiniGame32 (fuel : Nat) (p : Platform) (inp : Input) (s : State) : Option State :=
  let c := miniControls32 p inp s
  if c.ballLaunched then
    let r := afterCollision32 p inp s
    match judge fuel p inp r.2 r.1 with
    | none => none
    | some s1 => some (stepAnimatePins inp s1)
  else some (stepAnimatePins inp c)

/-- One iteration of the main loop with the throw controls computed in binary32. The
throw variables `throwAngle`, `power`, `charging`, `ballLaunched` and `ballSpeed` are
written by `ResetBowling` and by lines 428-449 only, so on these variables this frame
is the frame of the program. -/
def updateFrame32 (fuel : Nat) (p : Platform) (inp : Input) (s : State) : Option State :=
  match s.gameState with
  | GameState.OPENING_SCENE => updateOpening fuel p inp s
  | GameState.GAMEPLAY => some (updateGameplay p inp s)
  | GameState.MINI_GAME => updateMiniGame32 fuel p inp s
  | GameState.CLOSING_SCENE => updateClosing fuel p inp s

/-- The states reached from the initial state by frames of `updateFrame32`. -/
inductive Reachable32 (p : Platform) : State → Prop where
  | init (screenWidth screenHeight : Int) : Reachable32 p (initialState screenWidth screenHeight)
  | step {s s1 : State} (fuel : Nat) (inp : Input) :
      Reachable32 p s → updateFrame32 fuel p inp s = some s1 → Reachable32 p s1

/-- The throw variables of lines 89-99 are the same in both states. -/
def SameThrow (s s1 : State) : Prop :=
  s1.throwAngle = s.throwAngle ∧ s1.power = s.power ∧ s1.charging = s.charging ∧
  s1.ballLaunched = s.ballLaunched ∧ s1.ballSpeed = s.ballSpeed

/-- The throw variables as `ResetBowling` leaves them. -/
def ZeroThrow (s : State) : Prop :=
  s.throwAngle = 0 ∧ s.power = 0 ∧ s.charging = false ∧ s.ballLaunched = false ∧
  s.ballSpeed = 0

/-- A frame with the right key held. -/
def rightInput : Input := { idleInput with keyRight := true }

/-- A frame with the left key held. -/
def leftInput : Input := { idleInput with keyLeft := true }

/-- The invariant of the throw variables in binary32. -/
def ThrowInv32 (s : State) : Prop :=
  -maxAngle32 ≤ s.throwAngle ∧ s.throwAngle ≤ maxAngle32 ∧ 0 ≤ s.power ∧ s.power ≤ 1 ∧
  (s.charging = true → 99 / 10000 ≤ s.power) ∧
  (s.ballLaunched = true → 2 / 100 ≤ s.ballSpeed ∧ s.ballSpeed ≤ 9395241 / 134217728)

/-- The angle after `n` more frames with the right key held (lines 431-432 in
binary32). -/
def aimRightN : Nat → ℚ → ℚ
  | 0, x => x
  | n + 1, x => Clamp (round32 (aimRightN n x + lit002)) (-maxAngle32) maxAngle32

/-- The power after `n` more frames with the space bar held (lines 440-441 in
binary32). -/
def chargeN : Nat → ℚ → ℚ
  | 0, x => x
  | n + 1, x => Clamp (round32 (chargeN n x + lit001)) 0 maxPower

/-! ## The spawn velocity in binary32 (lines 140-148)

The coordinates drawn by `GetRandomValue` are integers below 2^24 for every window,
so their conversion to `float` is exact and `spawnPosition` is kept as it is. -/

/-- The function `Vector2Subtract` of raymath on `float`s. -/
def Vector2Subtract32 (v1 v2 : Vector2) : Vector2 :=
  ⟨round32 (v1.x - v2.x), round32 (v1.y - v2.y)⟩

/-- The function `Vector2Scale` of raymath on `float`s. -/
def Vector2Scale32 (v : Vector2) (scale : ℚ) : Vector2 :=
  ⟨round32 (v.x * scale), round32 (v.y * scale)⟩

/-- The function `Vector2Normalize` of raymath on `float`s: the products, their sum,
the reciprocal of the length and the two quotients are each rounded; `sqrtf` is the
platform's. -/
def Vector2Normalize32 (p : Platform) (v : Vector2) : Vector2 :=
  let length := p.sqrtf (round32 (round32 (v.x * v.x) + round32 (v.y * v.y)))
  if length > 0 then
    let ilength := round32 (1 / length)
    ⟨round32 (v.x * ilength), round32 (v.y * ilength)⟩
  else ⟨0, 0⟩

/-- The speed chosen by `SpawnEnemy` (lines 140-143) on `float`s. -/
def spawnSpeed32 (difficulty : Difficulty) : ℚ :=
  let baseSpeed : ℚ := round32 50.0
  let speed := baseSpeed
  let speed :=
    if difficulty = Difficulty.DIFFICULTY_MEDIUM then round32 (baseSpeed * round32 1.7)
    else speed
  if difficulty = Difficulty.DIFFICULTY_HARD then round32 (baseSpeed * round32 2.0) else speed

/-- The loop of `SpawnEnemy` (lines 125-152) with the speed and the velocity computed
on `float`s. -/
def SpawnEnemy32 (p : Platform) (inp : Input) (difficulty : Difficulty) (playerPos : Vector2) :
    List Enemy → Nat → List Enemy × Nat
  | [], k => ([], k)
  | e :: es, k =>
    if !e.active then
      let pos := spawnPosition inp k
      let speed := spawnSpeed32 difficulty
      ({ position := pos
         speed := speed
         velocity := Vector2Scale32 (Vector2Normalize32 p (Vector2Subtract32 playerPos pos)) speed
         active := true } :: es, k + 2)
    else
      let r := SpawnEnemy32 p inp difficulty playerPos es k
      (e :: r.1, r.2)

/-- On the argument `S` the platform's `sqrtf` returns a positive number within one unit
in the last place of the root, that is with a relative error of 2^-23 at most. The
root is irrational in general, so the bound is stated on the squares. -/
def SqrtWithinUlp (p : Platform) (S : ℚ) : Prop :=
  0 < p.sqrtf S ∧ (1 - 1 / 8388608) ^ 2 * S ≤ p.sqrtf S * p.sqrtf S ∧
  p.sqrtf S * p.sqrtf S ≤ (1 + 1 / 8388608) ^ 2 * S

/-- A `float` that is zero or of a size between 2^-40 and 2^40: its square neither
underflows nor overflows. -/
def Sizable (x : ℚ) : Prop :=
  x = 0 ∨ (1 / 1099511627776 ≤ |x| ∧ |x| ≤ 1099511627776)

/-- A platform whose `sqrtf` is computed: the integer square root on the grid of
2^-100, rounded to binary32. -/
def rootPlatform : Platform :=
  { samplePlatform with
    sqrtf := fun x => round32 ((Nat.sqrt (Int.toNat ⌊x * 2 ^ 200⌋) : ℚ) / 2 ^ 100) }


/-! ## Lemmas on the gameplay scene -/

theorem foldl_preserves {α β : Type} (P : β → Prop) (f : β → α → β)
    (hf : ∀ x y, P x → P (f x y)) : ∀ (l : List α) (x : β), P x → P (l.foldl f x)
  | [], _, h => h
  | y :: l, x, h => foldl_preserves P f hf l (f x y) (hf x y h)

/-- The rack written by `LayoutPins`. -/
theorem LayoutPins_fresh (w : Int) (pins : List Pin) (h : pins.length = NUM_PINS) :
    (LayoutPins w pins).length = NUM_PINS ∧
    ∀ q ∈ LayoutPins w pins, q.fallen = false ∧ q.animating = false := by
  match pins, h with
  | [a0, a1, a2, a3, a4, a5, a6, a7, a8, a9], _ =>
    simp [LayoutPins, layoutPin, List.range, List.range.loop, NUM_PINS]

theorem enemyLoop_caught (p : Platform) (dt : ℚ) (pos : Vector2) :
    ∀ (es : List Enemy) (bs : List Bullet) (sc : Int),
      (∃ e ∈ es, e.active = true ∧
        CheckCollisionCircles (pursue p dt pos e).position 20 pos 20 = true) →
      (enemyLoop p dt pos es bs sc).caught = true
  | [], _, _, h => by simp at h
  | e :: es, bs, sc, h => by
    unfold enemyLoop
    by_cases ha : e.active = true
    · by_cases hc : CheckCollisionCircles (pursue p dt pos e).position 20 pos 20 = true
      · simp [ha, hc]
      · have h1 : ∃ e1 ∈ es, e1.active = true ∧
            CheckCollisionCircles (pursue p dt pos e1).position 20 pos 20 = true := by
          obtain ⟨e1, hm, h1, h2⟩ := h
          rcases List.mem_cons.mp hm with rfl | hm
          · exact absurd h2 hc
          · exact ⟨e1, hm, h1, h2⟩
        simp only [ha, hc, if_true]
        cases hb : hitBullet (pursue p dt pos e).position bs with
        | none => simpa using enemyLoop_caught p dt pos es bs sc h1
        | some bs1 => simpa using enemyLoop_caught p dt pos es bs1 (sc + 1) h1
    · have h1 : ∃ e1 ∈ es, e1.active = true ∧
          CheckCollisionCircles (pursue p dt pos e1).position 20 pos 20 = true := by
        obtain ⟨e1, hm, h1, h2⟩ := h
        rcases List.mem_cons.mp hm with rfl | hm
        · exact absurd h1 ha
        · exact ⟨e1, hm, h1, h2⟩
      simpa [ha] using enemyLoop_caught p dt pos es bs sc h1

@[simp]
theorem stepPlayerBullets_keeps (inp : Input) (s : State) :
    (stepPlayerBullets inp s).selectedDifficulty = s.selectedDifficulty ∧
    (stepPlayerBullets inp s).secondChanceUsed = s.secondChanceUsed ∧
    (stepPlayerBullets inp s).gameOver = s.gameOver ∧
    (stepPlayerBullets inp s).gameState = s.gameState ∧
    (stepPlayerBullets inp s).pins = s.pins ∧
    (stepPlayerBullets inp s).obstacles = s.obstacles ∧
    (stepPlayerBullets inp s).score = s.score ∧
    (stepPlayerBullets inp s).enemies = s.enemies ∧
    (stepPlayerBullets inp s).elixirAvailable = s.elixirAvailable ∧
    (stepPlayerBullets inp s).elixirReady = s.elixirReady ∧
    (stepPlayerBullets inp s).animationComplete = s.animationComplete ∧
    (stepPlayerBullets inp s).gameOverScale = s.gameOverScale := by
  simp only [stepPlayerBullets]
  split_ifs <;> simp

@[simp]
theorem stepEnemySpawn_keeps (p : Platform) (inp : Input) (s : State) :
    (stepEnemySpawn p inp s).1.selectedDifficulty = s.selectedDifficulty ∧
    (stepEnemySpawn p inp s).1.secondChanceUsed = s.secondChanceUsed ∧
    (stepEnemySpawn p inp s).1.gameOver = s.gameOver ∧
    (stepEnemySpawn p inp s).1.gameState = s.gameState ∧
    (stepEnemySpawn p inp s).1.pins = s.pins ∧
    (stepEnemySpawn p inp s).1.obstacles = s.obstacles ∧
    (stepEnemySpawn p inp s).1.score = s.score ∧
    (stepEnemySpawn p inp s).1.bullets = s.bullets ∧
    (stepEnemySpawn p inp s).1.playerPos = s.playerPos ∧
    (stepEnemySpawn p inp s).1.elixirAvailable = s.elixirAvailable ∧
    (stepEnemySpawn p inp s).1.elixirReady = s.elixirReady ∧
    (stepEnemySpawn p inp s).1.animationComplete = s.animationComplete ∧
    (stepEnemySpawn p inp s).1.gameOverScale = s.gameOverScale := by
  simp only [stepEnemySpawn]
  split_ifs <;> simp

@[simp]
theorem stepElixirSpawn_keeps (inp : Input) (k : Nat) (s : State) :
    (stepElixirSpawn inp k s).selectedDifficulty = s.selectedDifficulty ∧
    (stepElixirSpawn inp k s).secondChanceUsed = s.secondChanceUsed ∧
    (stepElixirSpawn inp k s).gameOver = s.gameOver ∧
    (stepElixirSpawn inp k s).gameState = s.gameState ∧
    (stepElixirSpawn inp k s).pins = s.pins ∧
    (stepElixirSpawn inp k s).obstacles = s.obstacles ∧
    (stepElixirSpawn inp k s).score = s.score ∧
    (stepElixirSpawn inp k s).bullets = s.bullets ∧
    (stepElixirSpawn inp k s).enemies = s.enemies ∧
    (stepElixirSpawn inp k s).playerPos = s.playerPos ∧
    (stepElixirSpawn inp k s).elixirReady = s.elixirReady ∧
    (stepElixirSpawn inp k s).animationComplete = s.animationComplete ∧
    (stepElixirSpawn inp k s).gameOverScale = s.gameOverScale := by
  simp only [stepElixirSpawn]
  split_ifs <;> simp

@[simp]
theorem stepElixirPickup_keeps (inp : Input) (s : State) :
    (stepElixirPickup inp s).selectedDifficulty = s.selectedDifficulty ∧
    (stepElixirPickup inp s).secondChanceUsed = s.secondChanceUsed ∧
    (stepElixirPickup inp s).gameOver = s.gameOver ∧
    (stepElixirPickup inp s).gameState = s.gameState ∧
    (stepElixirPickup inp s).pins = s.pins ∧
    (stepElixirPickup inp s).obstacles = s.obstacles ∧
    (stepElixirPickup inp s).score = s.score ∧
    (stepElixirPickup inp s).bullets = s.bullets ∧
    (stepElixirPickup inp s).enemies = s.enemies ∧
    (stepElixirPickup inp s).playerPos = s.playerPos ∧
    (stepElixirPickup inp s).animationComplete = s.animationComplete ∧
    (stepElixirPickup inp s).gameOverScale = s.gameOverScale := by
  simp only [stepElixirPickup]
  split_ifs <;> simp

@[simp]
theorem stepElixirUse_keeps (inp : Input) (s : State) :
    (stepElixirUse inp s).selectedDifficulty = s.selectedDifficulty ∧
    (stepElixirUse inp s).secondChanceUsed = s.secondChanceUsed ∧
    (stepElixirUse inp s).gameOver = s.gameOver ∧
    (stepElixirUse inp s).gameState = s.gameState ∧
    (stepElixirUse inp s).pins = s.pins ∧
    (stepElixirUse inp s).obstacles = s.obstacles ∧
    (stepElixirUse inp s).score = s.score ∧
    (stepElixirUse inp s).bullets = s.bullets ∧
    (stepElixirUse inp s).playerPos = s.playerPos ∧
    (stepElixirUse inp s).elixirAvailable = s.elixirAvailable ∧
    (stepElixirUse inp s).animationComplete = s.animationComplete ∧
    (stepElixirUse inp s).gameOverScale = s.gameOverScale := by
  simp only [stepElixirUse]
  split_ifs <;> simp

@[simp]
theorem beforeEnemies_keeps (p : Platform) (inp : Input) (s : State) :
    (beforeEnemies p inp s).selectedDifficulty = s.selectedDifficulty ∧
    (beforeEnemies p inp s).secondChanceUsed = s.secondChanceUsed ∧
    (beforeEnemies p inp s).gameOver = s.gameOver ∧
    (beforeEnemies p inp s).gameState = s.gameState ∧
    (beforeEnemies p inp s).pins = s.pins ∧
    (beforeEnemies p inp s).obstacles = s.obstacles ∧
    (beforeEnemies p inp s).score = s.score ∧
    (beforeEnemies p inp s).animationComplete = s.animationComplete ∧
    (beforeEnemies p inp s).gameOverScale = s.gameOverScale := by
  simp [beforeEnemies, beforeUse, beforePickup]


theorem secondChance_fresh (inp : Input) (st : State) (hsc : st.secondChanceUsed = false)
    (hov : st.gameOver = false) (hp : st.pins.length = NUM_PINS) :
    InMiniGameFresh
      { ResetElixirState (ResetBowling inp.screenWidth inp.screenHeight st) with
        gameState := GameState.MINI_GAME } := by
  refine ⟨?_, ?_, ?_, ?_⟩
  · simpa [ResetElixirState, ResetBowling] using hsc
  · rfl
  · simpa [ResetElixirState, ResetBowling] using hov
  · simpa [ResetElixirState, ResetBowling, FreshRack] using LayoutPins_fresh inp.screenWidth st.pins hp

theorem stepObstacles_fresh (p : Platform) (inp : Input) (st : State)
    (h : InMiniGameFresh st) : InMiniGameFresh (stepObstacles p inp st) := by
  unfold stepObstacles
  split_ifs
  · refine foldl_preserves InMiniGameFresh _ ?_ _ _ h
    intro x o hx
    split_ifs
    · unfold secondChanceOrOver
      simp only [hx.1, Bool.not_false, if_true]
      exact secondChance_fresh inp x hx.1 hx.2.2.1 hx.2.2.2.1
    · exact hx
  · exact h

theorem updateFrame_gameplay (fuel : Nat) (p : Platform) (inp : Input) (s : State)
    (h : s.gameState = GameState.GAMEPLAY) :
    updateFrame fuel p inp s = some (updateGameplay p inp s) := by
  simp [updateFrame, h]

theorem beforeEnemies_playerPos (p : Platform) (inp : Input) (s : State) :
    (beforeEnemies p inp s).playerPos = movePlayer inp s.playerPos := by
  simp only [beforeEnemies, beforeUse, beforePickup, stepElixirUse_keeps, stepElixirPickup_keeps, stepElixirSpawn_keeps,
    stepEnemySpawn_keeps]
  simp only [stepPlayerBullets]
  split_ifs <;> rfl

theorem beforeEnemies_enemies_quiet (p : Platform) (inp : Input) (s : State)
    (hspawn : ¬ (s.enemySpawnTimer + inp.dt >
      baseInterval s.selectedDifficulty - (s.score : ℚ) * 0.01))
    (hs : inp.sPressed = false) :
    (beforeEnemies p inp s).enemies = s.enemies := by
  have h1 : (stepEnemySpawn p inp (stepPlayerBullets inp s)).1.enemies = s.enemies := by
    have hk := stepPlayerBullets_keeps inp s
    have h2 : (stepPlayerBullets inp s).enemySpawnTimer = s.enemySpawnTimer := by
      simp only [stepPlayerBullets]; split_ifs <;> rfl
    simp only [stepEnemySpawn, hk, h2, hspawn, if_false]
  simp only [beforeEnemies, beforeUse, beforePickup, stepElixirUse, hs, Bool.and_false, if_false, Bool.false_eq_true,
    stepElixirPickup_keeps, stepElixirSpawn_keeps, h1]

theorem initialState_WF (w h : Int) : WF (initialState w h) := by
  refine ⟨?_, ?_, ?_, ?_⟩
  · simp [initialState, ResetElixirState, ResetBowling]
  · simp [initialState, ResetElixirState, ResetBowling]
  · simp [initialState, ResetElixirState, ResetBowling]
  · simpa [initialState, ResetElixirState, ResetBowling] using
      (LayoutPins_fresh w (List.replicate NUM_PINS ⟨zeroVector, zeroVector, 0, false, false⟩)
        (by simp)).1

theorem hardCaughtState_WF : WF hardCaughtState := by
  refine ⟨(initialState_WF 800 600).1, ?_, (initialState_WF 800 600).2.2.1,
    (initialState_WF 800 600).2.2.2⟩
  simp [hardCaughtState, MAX_ENEMIES]

/-! ## Loops keep the array sizes -/

theorem LayoutPins_length (w : Int) (pins : List Pin) :
    (LayoutPins w pins).length = pins.length := by
  simp [LayoutPins, layoutPin, List.range, List.range.loop, NUM_PINS]

theorem ShootBullet_length (pos : Vector2) : ∀ bs : List Bullet,
    (ShootBullet pos bs).length = bs.length
  | [] => rfl
  | bl :: bs => by
    unfold ShootBullet
    split_ifs
    · rfl
    · simp [ShootBullet_length pos bs]

theorem SpawnEnemy_length (p : Platform) (inp : Input) (d : Difficulty) (pos : Vector2) :
    ∀ (es : List Enemy) (k : Nat), (SpawnEnemy p inp d pos es k).1.length = es.length
  | [], _ => rfl
  | e :: es, k => by
    unfold SpawnEnemy
    split_ifs
    · rfl
    · simp [SpawnEnemy_length p inp d pos es k]

theorem hitBullet_length (pos : Vector2) : ∀ (bs bs1 : List Bullet),
    hitBullet pos bs = some bs1 → bs1.length = bs.length
  | [], _, h => by simp [hitBullet] at h
  | bl :: bs, bs1, h => by
    unfold hitBullet at h
    split_ifs at h
    · cases h; rfl
    · cases hr : hitBullet pos bs with
      | none => simp [hr] at h
      | some bs2 =>
        simp only [hr, Option.some.injEq] at h
        subst h
        simp [hitBullet_length pos bs bs2 hr]

theorem enemyLoop_inactive (p : Platform) (dt : ℚ) (pos : Vector2) (e : Enemy)
    (es : List Enemy) (bs : List Bullet) (sc : Int) (ha : e.active = false) :
    enemyLoop p dt pos (e :: es) bs sc =
      ⟨e :: (enemyLoop p dt pos es bs sc).enemies, (enemyLoop p dt pos es bs sc).bullets,
        (enemyLoop p dt pos es bs sc).score, (enemyLoop p dt pos es bs sc).caught⟩ := by
  simp [enemyLoop, ha]

theorem enemyLoop_catch (p : Platform) (dt : ℚ) (pos : Vector2) (e : Enemy)
    (es : List Enemy) (bs : List Bullet) (sc : Int) (ha : e.active = true)
    (hc : CheckCollisionCircles (pursue p dt pos e).position 20 pos 20 = true) :
    enemyLoop p dt pos (e :: es) bs sc = ⟨pursue p dt pos e :: es, bs, sc, true⟩ := by
  simp [enemyLoop, ha, hc]

theorem enemyLoop_hit (p : Platform) (dt : ℚ) (pos : Vector2) (e : Enemy)
    (es : List Enemy) (bs bs1 : List Bullet) (sc : Int) (ha : e.active = true)
    (hc : CheckCollisionCircles (pursue p dt pos e).position 20 pos 20 = false)
    (hb : hitBullet (pursue p dt pos e).position bs = some bs1) :
    enemyLoop p dt pos (e :: es) bs sc =
      ⟨{ pursue p dt pos e with active := false } ::
          (enemyLoop p dt pos es bs1 (sc + 1)).enemies,
        (enemyLoop p dt pos es bs1 (sc + 1)).bullets,
        (enemyLoop p dt pos es bs1 (sc + 1)).score,
        (enemyLoop p dt pos es bs1 (sc + 1)).caught⟩ := by
  simp [enemyLoop, ha, hc, hb]

theorem enemyLoop_miss (p : Platform) (dt : ℚ) (pos : Vector2) (e : Enemy)
    (es : List Enemy) (bs : List Bullet) (sc : Int) (ha : e.active = true)
    (hc : CheckCollisionCircles (pursue p dt pos e).position 20 pos 20 = false)
    (hb : hitBullet (pursue p dt pos e).position bs = none) :
    enemyLoop p dt pos (e :: es) bs sc =
      ⟨pursue p dt pos e :: (enemyLoop p dt pos es bs sc).enemies,
        (enemyLoop p dt pos es bs sc).bullets,
        (enemyLoop p dt pos es bs sc).score,
        (enemyLoop p dt pos es bs sc).caught⟩ := by
  simp [enemyLoop, ha, hc, hb]

theorem enemyLoop_length (p : Platform) (dt : ℚ) (pos : Vector2) :
    ∀ (es : List Enemy) (bs : List Bullet) (sc : Int),
      (enemyLoop p dt pos es bs sc).enemies.length = es.length ∧
      (enemyLoop p dt pos es bs sc).bullets.length = bs.length
  | [], _, _ => ⟨rfl, rfl⟩
  | e :: es, bs, sc => by
    cases ha : e.active with
    | false =>
      rw [enemyLoop_inactive p dt pos e es bs sc ha]
      have ih := enemyLoop_length p dt pos es bs sc
      simp [ih.1, ih.2]
    | true =>
      cases hc : CheckCollisionCircles (pursue p dt pos e).position 20 pos 20 with
      | true => rw [enemyLoop_catch p dt pos e es bs sc ha hc]; simp
      | false =>
        cases hb : hitBullet (pursue p dt pos e).position bs with
        | none =>
          rw [enemyLoop_miss p dt pos e es bs sc ha hc hb]
          have ih := enemyLoop_length p dt pos es bs sc
          simp [ih.1, ih.2]
        | some bs1 =>
          rw [enemyLoop_hit p dt pos e es bs bs1 sc ha hc hb]
          have ih := enemyLoop_length p dt pos es bs1 (sc + 1)
          simp [ih.1, ih.2, hitBullet_length _ bs bs1 hb]

/-! ## The gameplay scene keeps the invariant -/

theorem beforeEnemies_lengths (p : Platform) (inp : Input) (s : State) :
    (beforeEnemies p inp s).bullets.length = s.bullets.length ∧
    (beforeEnemies p inp s).enemies.length = s.enemies.length := by
  constructor
  · simp only [beforeEnemies, beforeUse, beforePickup, stepElixirUse_keeps, stepElixirPickup_keeps, stepElixirSpawn_keeps,
      stepEnemySpawn_keeps]
    simp only [stepPlayerBullets]
    split_ifs <;> simp [ShootBullet_length]
  · have h1 : ∀ st : State, (stepElixirUse inp st).enemies.length = st.enemies.length := by
      intro st
      simp only [stepElixirUse]
      split_ifs <;> simp
    have h2 : ∀ st : State, (stepEnemySpawn p inp st).1.enemies.length = st.enemies.length := by
      intro st
      simp only [stepEnemySpawn]
      split_ifs <;> simp [SpawnEnemy_length]
    simp only [beforeEnemies, beforeUse, beforePickup, h1, stepElixirPickup_keeps, stepElixirSpawn_keeps, h2,
      stepPlayerBullets_keeps]

theorem stepElixirSpawn_ok (inp : Input) (k : Nat) (s : State) (h : ElixirOk s) :
    ElixirOk (stepElixirSpawn inp k s) := by
  unfold ElixirOk at *
  simp only [stepElixirSpawn]
  split_ifs with h1 h2
  · intro _; exact h1.2.2.1
  · exact h
  · exact h

theorem stepElixirPickup_ok (inp : Input) (s : State) (h : ElixirOk s) :
    ElixirOk (stepElixirPickup inp s) := by
  unfold ElixirOk at *
  simp only [stepElixirPickup]
  split_ifs with h1 h2 h3
  · simp
  · simp
  · exact h
  · exact h

theorem stepElixirUse_ok (inp : Input) (s : State) (h : ElixirOk s) :
    ElixirOk (stepElixirUse inp s) := by
  unfold ElixirOk at *
  simp only [stepElixirUse]
  split_ifs
  · simp
  · exact h

theorem beforeEnemies_ok (p : Platform) (inp : Input) (s : State) (h : ElixirOk s) :
    ElixirOk (beforeEnemies p inp s) := by
  unfold beforeEnemies beforeUse beforePickup
  refine stepElixirUse_ok inp _ (stepElixirPickup_ok inp _ (stepElixirSpawn_ok inp _ _ ?_))
  unfold ElixirOk at *
  simpa using h

theorem ResetBowling_keeps (w h : Int) (s : State) :
    (ResetBowling w h s).selectedDifficulty = s.selectedDifficulty ∧
    (ResetBowling w h s).secondChanceUsed = s.secondChanceUsed ∧
    (ResetBowling w h s).gameOver = s.gameOver ∧
    (ResetBowling w h s).gameState = s.gameState ∧
    (ResetBowling w h s).obstacles = s.obstacles ∧
    (ResetBowling w h s).score = s.score ∧
    (ResetBowling w h s).bullets = s.bullets ∧
    (ResetBowling w h s).enemies = s.enemies ∧
    (ResetBowling w h s).playerPos = s.playerPos ∧
    (ResetBowling w h s).elixirAvailable = s.elixirAvailable ∧
    (ResetBowling w h s).elixirReady = s.elixirReady ∧
    (ResetBowling w h s).animationComplete = s.animationComplete ∧
    (ResetBowling w h s).gameOverScale = s.gameOverScale ∧
    (ResetBowling w h s).pins.length = s.pins.length := by
  simp [ResetBowling, LayoutPins_length]

theorem secondChance_inv (inp : Input) (st : State) (hwf : WF st) (hov : st.gameOver = false) :
    ObstacleLoopInv
      { ResetElixirState (ResetBowling inp.screenWidth inp.screenHeight st) with
        gameState := GameState.MINI_GAME } := by
  refine ⟨?_, ?_, ?_, ?_⟩
  · simpa [WF, ResetElixirState, ResetBowling, LayoutPins_length] using hwf
  · simp [OverIffClosing, ResetElixirState, ResetBowling, hov]
  · simp [ElixirOk, ResetElixirState]
  · simp [ResetElixirState, ResetBowling, hov]

theorem gameOver_inv (st : State) (hwf : WF st) (hok : ElixirOk st)
    (hsc : st.secondChanceUsed = true) :
    ObstacleLoopInv { st with gameOver := true, gameState := GameState.CLOSING_SCENE } :=
  ⟨hwf, by simp [OverIffClosing], hok, fun _ => hsc⟩

theorem secondChanceOrOver_inv (inp : Input) (st : State) (h : ObstacleLoopInv st) :
    ObstacleLoopInv (secondChanceOrOver inp st) := by
  by_cases hsc : st.secondChanceUsed = true
  · have heq : secondChanceOrOver inp st =
        { st with gameOver := true, gameState := GameState.CLOSING_SCENE } := by
      simp [secondChanceOrOver, hsc]
    rw [heq]
    exact gameOver_inv st h.1 h.2.2.1 hsc
  · have heq : secondChanceOrOver inp st =
        { ResetElixirState (ResetBowling inp.screenWidth inp.screenHeight st) with
          gameState := GameState.MINI_GAME } := by
      simp [secondChanceOrOver, hsc]
    rw [heq]
    refine secondChance_inv inp st h.1 ?_
    cases hov : st.gameOver with
    | false => rfl
    | true => exact absurd (h.2.2.2 hov) hsc

theorem stepObstacles_inv (p : Platform) (inp : Input) (st : State)
    (h : st.selectedDifficulty = Difficulty.DIFFICULTY_HARD → ObstacleLoopInv st)
    (h0 : Inv st) : Inv (stepObstacles p inp st) := by
  unfold stepObstacles
  split_ifs with hd
  · have hfold := foldl_preserves ObstacleLoopInv
      (fun x o => if o.active && CheckCollisionRecs (playerRect p st.playerPos) o.rect
        then secondChanceOrOver inp x else x) ?_ st.obstacles st (h hd)
    · exact ⟨hfold.1, hfold.2.1, hfold.2.2.1⟩
    · intro x o hx
      dsimp only
      split_ifs
      · exact secondChanceOrOver_inv inp x hx
      · exact hx
  · exact h0

theorem onCaught_keeps (inp : Input) (st : State) :
    (onCaught inp st).selectedDifficulty = st.selectedDifficulty ∧
    (onCaught inp st).secondChanceUsed = st.secondChanceUsed ∧
    (onCaught inp st).enemies = st.enemies ∧
    (onCaught inp st).bullets = st.bullets ∧
    (onCaught inp st).obstacles = st.obstacles ∧
    (onCaught inp st).playerPos = st.playerPos ∧
    (onCaught inp st).score = st.score := by
  simp only [onCaught]
  split_ifs <;> simp [ResetElixirState, ResetBowling]

theorem onCaught_inv (inp : Input) (st : State) (hwf : WF st) (hok : ElixirOk st)
    (hov : st.gameOver = false) :
    Inv (onCaught inp st) ∧
    (st.selectedDifficulty = Difficulty.DIFFICULTY_HARD → ObstacleLoopInv (onCaught inp st)) := by
  by_cases hc : st.selectedDifficulty = Difficulty.DIFFICULTY_HARD ∧ st.secondChanceUsed = false
  · have heq : onCaught inp st =
        { ResetElixirState (ResetBowling inp.screenWidth inp.screenHeight st) with
          gameState := GameState.MINI_GAME } := by
      simp [onCaught, hc]
    rw [heq]
    have h := secondChance_inv inp st hwf hov
    exact ⟨⟨h.1, h.2.1, h.2.2.1⟩, fun _ => h⟩
  · have heq : onCaught inp st =
        { st with gameOver := true, gameState := GameState.CLOSING_SCENE } := by
      simp only [onCaught, hc, if_false]
    rw [heq]
    refine ⟨⟨hwf, by simp [OverIffClosing], hok⟩, fun hd => ?_⟩
    refine gameOver_inv st hwf hok ?_
    cases hsc : st.secondChanceUsed with
    | true => rfl
    | false => exact absurd ⟨hd, hsc⟩ hc

theorem stepEnemies_inv (p : Platform) (inp : Input) (st : State) (hwf : WF st)
    (hok : ElixirOk st) (hov : st.gameOver = false) (hsc : st.gameState = GameState.GAMEPLAY) :
    Inv (stepEnemies p inp st) ∧
    ((stepEnemies p inp st).selectedDifficulty = Difficulty.DIFFICULTY_HARD →
      ObstacleLoopInv (stepEnemies p inp st)) := by
  have hlen := enemyLoop_length p inp.dt st.playerPos st.enemies st.bullets st.score
  have hwf1 : WF { st with
      enemies := (enemyLoop p inp.dt st.playerPos st.enemies st.bullets st.score).enemies
      bullets := (enemyLoop p inp.dt st.playerPos st.enemies st.bullets st.score).bullets
      score := (enemyLoop p inp.dt st.playerPos st.enemies st.bullets st.score).score } :=
    ⟨hlen.2.trans hwf.1, hlen.1.trans hwf.2.1, hwf.2.2.1, hwf.2.2.2⟩
  unfold stepEnemies
  dsimp only
  split_ifs with hcaught
  · have h := onCaught_inv inp _ hwf1 hok hov
    refine ⟨h.1, fun hd => h.2 ?_⟩
    rw [(onCaught_keeps inp _).1] at hd
    exact hd
  · have hoc : OverIffClosing { st with
        enemies := (enemyLoop p inp.dt st.playerPos st.enemies st.bullets st.score).enemies
        bullets := (enemyLoop p inp.dt st.playerPos st.enemies st.bullets st.score).bullets
        score := (enemyLoop p inp.dt st.playerPos st.enemies st.bullets st.score).score } := by
      simp [OverIffClosing, hov, hsc]
    exact ⟨⟨hwf1, hoc, hok⟩, fun _ => ⟨hwf1, hoc, hok, fun h => by simp [hov] at h⟩⟩

/-- The gameplay update keeps the invariant. -/
theorem updateGameplay_inv (p : Platform) (inp : Input) (s : State) (h : Inv s)
    (hsc : s.gameState = GameState.GAMEPLAY) : Inv (updateGameplay p inp s) := by
  unfold updateGameplay
  cases hov : s.gameOver with
  | true => simpa using h
  | false =>
    simp only [Bool.not_false, if_true]
    have hk := beforeEnemies_keeps p inp s
    have hl := beforeEnemies_lengths p inp s
    have hwf : WF (beforeEnemies p inp s) :=
      ⟨hl.1.trans h.1.1, hl.2.trans h.1.2.1, by rw [hk.2.2.2.2.2.1]; exact h.1.2.2.1,
        by rw [hk.2.2.2.2.1]; exact h.1.2.2.2⟩
    have he := stepEnemies_inv p inp (beforeEnemies p inp s) hwf
      (beforeEnemies_ok p inp s h.2.2) (by rw [hk.2.2.1]; exact hov) (by rw [hk.2.2.2.1]; exact hsc)
    exact stepObstacles_inv p inp _ he.2 he.1

/-! ## Resets and obstacle spawning -/

theorem SpawnObstacles_some (fuel : Nat) (p : Platform) (inp : Input) (pr : Rectangle) :
    ∀ (os os1 : List Obstacle) (k k1 : Nat),
      SpawnObstacles fuel p inp pr os k = some (os1, k1) →
      os1.length = os.length ∧ ∀ o ∈ os1, o.active = true
  | [], os1, k, k1, h => by
    simp only [SpawnObstacles, Option.some.injEq, Prod.mk.injEq] at h
    rw [← h.1]
    simp
  | o :: os, os1, k, k1, h => by
    unfold SpawnObstacles at h
    split_ifs at h with ha
    · cases hr : rejectLoop p inp pr fuel (obstacleCandidate p inp k) (k + 2) with
      | none => simp [hr] at h
      | some r =>
        obtain ⟨obsRect, k2⟩ := r
        cases hs : SpawnObstacles fuel p inp pr os k2 with
        | none => simp [hr, hs] at h
        | some r2 =>
          obtain ⟨os2, k3⟩ := r2
          simp only [hr, hs, Option.some.injEq, Prod.mk.injEq] at h
          have ih := SpawnObstacles_some fuel p inp pr os os2 k2 k3 hs
          rw [← h.1]
          refine ⟨by simp [ih.1], ?_⟩
          intro x hx
          rcases List.mem_cons.mp hx with rfl | hx
          · rfl
          · exact ih.2 x hx
    · cases hs : SpawnObstacles fuel p inp pr os k with
      | none => simp [hs] at h
      | some r2 =>
        obtain ⟨os2, k3⟩ := r2
        simp only [hs, Option.some.injEq, Prod.mk.injEq] at h
        have ih := SpawnObstacles_some fuel p inp pr os os2 k k3 hs
        rw [← h.1]
        refine ⟨by simp [ih.1], ?_⟩
        intro x hx
        rcases List.mem_cons.mp hx with rfl | hx
        · simpa using ha
        · exact ih.2 x hx

theorem ResetElixirState_keeps (s : State) :
    (ResetElixirState s).selectedDifficulty = s.selectedDifficulty ∧
    (ResetElixirState s).secondChanceUsed = s.secondChanceUsed ∧
    (ResetElixirState s).gameOver = s.gameOver ∧
    (ResetElixirState s).gameState = s.gameState ∧
    (ResetElixirState s).pins = s.pins ∧
    (ResetElixirState s).obstacles = s.obstacles ∧
    (ResetElixirState s).score = s.score ∧
    (ResetElixirState s).bullets = s.bullets ∧
    (ResetElixirState s).enemies = s.enemies ∧
    (ResetElixirState s).playerPos = s.playerPos ∧
    (ResetElixirState s).elixirAvailable = false ∧
    (ResetElixirState s).elixirReady = false ∧
    (ResetElixirState s).elixirSpawnTimer = 0 ∧
    (ResetElixirState s).elixirDurationTimer = 0 ∧
    (ResetElixirState s).animationComplete = s.animationComplete ∧
    (ResetElixirState s).gameOverScale = s.gameOverScale := by
  simp [ResetElixirState]

theorem ResetGame_spec (d : Difficulty) (s : State) :
    (ResetGame d s).selectedDifficulty = s.selectedDifficulty ∧
    (ResetGame d s).secondChanceUsed = s.secondChanceUsed ∧
    (ResetGame d s).gameOver = false ∧
    (ResetGame d s).gameState = s.gameState ∧
    (ResetGame d s).pins = s.pins ∧
    (ResetGame d s).score = 0 ∧
    (ResetGame d s).playerPos = ⟨400, 300⟩ ∧
    (ResetGame d s).elixirAvailable = false ∧
    (ResetGame d s).elixirReady = false ∧
    (ResetGame d s).elixirSpawnTimer = 0 ∧
    (ResetGame d s).elixirDurationTimer = 0 ∧
    (ResetGame d s).animationComplete = s.animationComplete ∧
    (ResetGame d s).gameOverScale = s.gameOverScale ∧
    (ResetGame d s).bullets.length = s.bullets.length ∧
    (ResetGame d s).enemies.length = s.enemies.length ∧
    (ResetGame d s).obstacles.length = s.obstacles.length ∧
    (∀ x ∈ (ResetGame d s).bullets, x.active = false) ∧
    (∀ x ∈ (ResetGame d s).enemies, x.active = false) ∧
    (∀ x ∈ (ResetGame d s).obstacles, x.active = false) := by
  simp [ResetGame, ResetElixirState]

/-- What `resetAndSpawn` guarantees once it returns. -/
theorem resetAndSpawn_spec (fuel : Nat) (p : Platform) (inp : Input) (k k1 : Nat)
    (s s1 : State) (h : resetAndSpawn fuel p inp k s = some (s1, k1)) :
    s1.selectedDifficulty = s.selectedDifficulty ∧
    s1.secondChanceUsed = s.secondChanceUsed ∧
    s1.gameOver = false ∧
    s1.gameState = s.gameState ∧
    s1.pins = s.pins ∧
    s1.score = 0 ∧
    s1.playerPos = ⟨400, 300⟩ ∧
    s1.elixirAvailable = false ∧
    s1.elixirReady = false ∧
    s1.elixirSpawnTimer = 0 ∧
    s1.elixirDurationTimer = 0 ∧
    s1.animationComplete = s.animationComplete ∧
    s1.gameOverScale = s.gameOverScale ∧
    s1.bullets.length = s.bullets.length ∧
    s1.enemies.length = s.enemies.length ∧
    s1.obstacles.length = s.obstacles.length ∧
    (∀ x ∈ s1.bullets, x.active = false) ∧
    (∀ x ∈ s1.enemies, x.active = false) ∧
    (∀ x ∈ s1.obstacles, x.active =
      decide (s.selectedDifficulty = Difficulty.DIFFICULTY_HARD)) := by
  have hr := ResetGame_spec s.selectedDifficulty s
  unfold resetAndSpawn at h
  dsimp only at h
  rw [hr.1] at h
  split_ifs at h with hd
  · unfold spawnObstaclesState at h
    cases hs : SpawnObstacles fuel p inp
        (playerRect p (ResetGame s.selectedDifficulty s).playerPos)
        (ResetGame s.selectedDifficulty s).obstacles k with
    | none => simp [hs] at h
    | some r =>
      obtain ⟨os, k2⟩ := r
      simp only [hs, Option.some.injEq, Prod.mk.injEq] at h
      have hso := SpawnObstacles_some fuel p inp _ _ os k k2 hs
      rw [← h.1]
      simp only [hd, decide_True]
      refine ⟨hr.1.trans hd, hr.2.1, hr.2.2.1, hr.2.2.2.1, hr.2.2.2.2.1, hr.2.2.2.2.2.1,
        hr.2.2.2.2.2.2.1, hr.2.2.2.2.2.2.2.1, hr.2.2.2.2.2.2.2.2.1, hr.2.2.2.2.2.2.2.2.2.1,
        hr.2.2.2.2.2.2.2.2.2.2.1, hr.2.2.2.2.2.2.2.2.2.2.2.1, hr.2.2.2.2.2.2.2.2.2.2.2.2.1,
        hr.2.2.2.2.2.2.2.2.2.2.2.2.2.1, hr.2.2.2.2.2.2.2.2.2.2.2.2.2.2.1, ?_,
        hr.2.2.2.2.2.2.2.2.2.2.2.2.2.2.2.2.1, hr.2.2.2.2.2.2.2.2.2.2.2.2.2.2.2.2.2.1, hso.2⟩
      exact hso.1.trans hr.2.2.2.2.2.2.2.2.2.2.2.2.2.2.2.1
  · simp only [Option.some.injEq, Prod.mk.injEq] at h
    rw [← h.1]
    simp only [hd, decide_False]
    exact hr

/-! ## The rejection loop of `SpawnObstacles` terminates on settling draws -/

theorem rejectLoop_mono (p : Platform) (inp : Input) (pr : Rectangle) :
    ∀ (fuel : Nat) (r : Rectangle) (k : Nat) (x : Rectangle × Nat),
      rejectLoop p inp pr fuel r k = some x →
      ∀ fuel1, fuel ≤ fuel1 → rejectLoop p inp pr fuel1 r k = some x
  | 0, r, k, x, h, fuel1, _ => by
    unfold rejectLoop at h
    split_ifs at h with hc
    cases fuel1 with
    | zero => simp [rejectLoop, hc, h]
    | succ f => simp [rejectLoop, hc, h]
  | fuel + 1, r, k, x, h, fuel1, hle => by
    obtain ⟨f, rfl⟩ : ∃ f, fuel1 = f + 1 := ⟨fuel1 - 1, by omega⟩
    unfold rejectLoop at h ⊢
    split_ifs at h ⊢ with hc
    · exact rejectLoop_mono p inp pr fuel _ _ x h f (by omega)
    · exact h

theorem rejectLoop_terminates (p : Platform) (inp : Input) (pr : Rectangle) :
    ∀ (n k : Nat), CheckCollisionRecs pr (obstacleCandidate p inp (k + 2 * n)) = false →
      ∃ x, rejectLoop p inp pr n (obstacleCandidate p inp k) (k + 2) = some x
  | 0, k, h => by
    refine ⟨(obstacleCandidate p inp k, k + 2), ?_⟩
    simp only [Nat.mul_zero, Nat.add_zero] at h
    simp [rejectLoop, h]
  | n + 1, k, h => by
    unfold rejectLoop
    split_ifs with hc
    · refine rejectLoop_terminates p inp pr n (k + 2) ?_
      rw [← h]
      congr 2
      omega
    · exact ⟨_, rfl⟩

theorem SpawnObstacles_mono (p : Platform) (inp : Input) (pr : Rectangle) :
    ∀ (os : List Obstacle) (fuel k : Nat) (x : List Obstacle × Nat),
      SpawnObstacles fuel p inp pr os k = some x →
      ∀ fuel1, fuel ≤ fuel1 → SpawnObstacles fuel1 p inp pr os k = some x
  | [], fuel, k, x, h, fuel1, _ => by
    simpa [SpawnObstacles] using h
  | o :: os, fuel, k, x, h, fuel1, hle => by
    unfold SpawnObstacles at h ⊢
    split_ifs at h ⊢ with ha
    · cases hr : rejectLoop p inp pr fuel (obstacleCandidate p inp k) (k + 2) with
      | none => simp [hr] at h
      | some r =>
        obtain ⟨obsRect, k2⟩ := r
        cases hs : SpawnObstacles fuel p inp pr os k2 with
        | none => simp [hr, hs] at h
        | some r2 =>
          simp only [hr, hs] at h
          simp only [rejectLoop_mono p inp pr fuel _ _ _ hr fuel1 hle,
            SpawnObstacles_mono p inp pr os fuel k2 r2 hs fuel1 hle]
          exact h
    · cases hs : SpawnObstacles fuel p inp pr os k with
      | none => simp [hs] at h
      | some r2 =>
        simp only [hs] at h
        simp only [SpawnObstacles_mono p inp pr os fuel k r2 hs fuel1 hle]
        exact h

theorem SpawnObstacles_terminates (p : Platform) (inp : Input) (pr : Rectangle)
    (hsettle : DrawsSettle p inp pr) :
    ∀ (os : List Obstacle) (k : Nat), ∃ fuel x, SpawnObstacles fuel p inp pr os k = some x
  | [], k => ⟨0, ([], k), rfl⟩
  | o :: os, k => by
    by_cases ha : o.active = true
    · obtain ⟨fuel, x, hx⟩ := SpawnObstacles_terminates p inp pr hsettle os k
      refine ⟨fuel, (o :: x.1, x.2), ?_⟩
      simp [SpawnObstacles, ha, hx]
    · obtain ⟨n, hn⟩ := hsettle k
      obtain ⟨r, hr⟩ := rejectLoop_terminates p inp pr n k hn
      obtain ⟨fuel, x, hx⟩ := SpawnObstacles_terminates p inp pr hsettle os r.2
      refine ⟨max n fuel, (⟨r.1, true⟩ :: x.1, x.2), ?_⟩
      have h1 := rejectLoop_mono p inp pr n _ _ r hr (max n fuel) (le_max_left _ _)
      have h2 := SpawnObstacles_mono p inp pr os fuel r.2 x hx (max n fuel) (le_max_right _ _)
      simp [SpawnObstacles, ha, h1, h2]

theorem resetAndSpawn_terminates (p : Platform) (inp : Input) (k : Nat) (s : State)
    (hsettle : s.selectedDifficulty = Difficulty.DIFFICULTY_HARD →
      DrawsSettle p inp (playerRect p ⟨400, 300⟩)) :
    ∃ fuel x, resetAndSpawn fuel p inp k s = some x := by
  have hr := ResetGame_spec s.selectedDifficulty s
  unfold resetAndSpawn
  dsimp only
  rw [hr.1]
  by_cases hd : s.selectedDifficulty = Difficulty.DIFFICULTY_HARD
  · simp only [hd, if_true]
    unfold spawnObstaclesState
    rw [← hd, hr.2.2.2.2.2.2.1]
    obtain ⟨fuel, x, hx⟩ := SpawnObstacles_terminates p inp _ (hsettle hd)
      (ResetGame s.selectedDifficulty s).obstacles k
    refine ⟨fuel, ?_⟩
    simp only [hx]
    exact ⟨_, rfl⟩
  · simp only [hd, if_false]
    exact ⟨0, _, rfl⟩

theorem resetAndSpawn_mono (p : Platform) (inp : Input) (k : Nat) (s : State) (fuel : Nat)
    (x : State × Nat) (h : resetAndSpawn fuel p inp k s = some x) (fuel1 : Nat)
    (hle : fuel ≤ fuel1) : resetAndSpawn fuel1 p inp k s = some x := by
  unfold resetAndSpawn at h ⊢
  dsimp only at h ⊢
  split_ifs at h ⊢ with hd
  · unfold spawnObstaclesState at h ⊢
    cases hs : SpawnObstacles fuel p inp
        (playerRect p (ResetGame s.selectedDifficulty s).playerPos)
        (ResetGame s.selectedDifficulty s).obstacles k with
    | none => simp [hs] at h
    | some r =>
      simp only [hs] at h
      simp only [SpawnObstacles_mono p inp _ _ fuel k r hs fuel1 hle]
      exact h
  · exact h

/-! ## Lemmas on the mini-game scene -/

theorem stepStrikeToggle_keeps (inp : Input) (s : State) :
    (stepStrikeToggle inp s).1.selectedDifficulty = s.selectedDifficulty ∧
    (stepStrikeToggle inp s).1.secondChanceUsed = s.secondChanceUsed ∧
    (stepStrikeToggle inp s).1.gameOver = s.gameOver ∧
    (stepStrikeToggle inp s).1.gameState = s.gameState ∧
    (stepStrikeToggle inp s).1.pins = s.pins ∧
    (stepStrikeToggle inp s).1.obstacles = s.obstacles ∧
    (stepStrikeToggle inp s).1.score = s.score ∧
    (stepStrikeToggle inp s).1.bullets = s.bullets ∧
    (stepStrikeToggle inp s).1.enemies = s.enemies ∧
    (stepStrikeToggle inp s).1.playerPos = s.playerPos ∧
    (stepStrikeToggle inp s).1.elixirAvailable = s.elixirAvailable ∧
    (stepStrikeToggle inp s).1.elixirReady = s.elixirReady ∧
    (stepStrikeToggle inp s).1.animationComplete = s.animationComplete ∧
    (stepStrikeToggle inp s).1.gameOverScale = s.gameOverScale ∧
    (stepStrikeToggle inp s).1.ballLaunched = s.ballLaunched ∧
    (stepStrikeToggle inp s).1.charging = s.charging ∧
    (stepStrikeToggle inp s).1.t = s.t ∧
    (stepStrikeToggle inp s).1.ballSpeed = s.ballSpeed ∧
    (stepStrikeToggle inp s).1.power = s.power ∧
    (stepStrikeToggle inp s).1.throwAngle = s.throwAngle := by
  simp only [stepStrikeToggle]
  split_ifs <;> simp

theorem stepAim_keeps (p : Platform) (inp : Input) (s : State) :
    (stepAim p inp s).selectedDifficulty = s.selectedDifficulty ∧
    (stepAim p inp s).secondChanceUsed = s.secondChanceUsed ∧
    (stepAim p inp s).gameOver = s.gameOver ∧
    (stepAim p inp s).gameState = s.gameState ∧
    (stepAim p inp s).pins = s.pins ∧
    (stepAim p inp s).obstacles = s.obstacles ∧
    (stepAim p inp s).score = s.score ∧
    (stepAim p inp s).bullets = s.bullets ∧
    (stepAim p inp s).enemies = s.enemies ∧
    (stepAim p inp s).playerPos = s.playerPos ∧
    (stepAim p inp s).elixirAvailable = s.elixirAvailable ∧
    (stepAim p inp s).elixirReady = s.elixirReady ∧
    (stepAim p inp s).animationComplete = s.animationComplete ∧
    (stepAim p inp s).gameOverScale = s.gameOverScale ∧
    (stepAim p inp s).ballLaunched = s.ballLaunched ∧
    (stepAim p inp s).charging = s.charging ∧
    (stepAim p inp s).t = s.t ∧
    (stepAim p inp s).ballSpeed = s.ballSpeed ∧
    (stepAim p inp s).power = s.power ∧
    (stepAim p inp s).strikeMode = s.strikeMode ∧
    (stepAim p inp s).luckyStrike = s.luckyStrike := by
  simp only [stepAim]
  split_ifs <;> simp

theorem stepCharge_keeps (inp : Input) (s : State) :
    (stepCharge inp s).selectedDifficulty = s.selectedDifficulty ∧
    (stepCharge inp s).secondChanceUsed = s.secondChanceUsed ∧
    (stepCharge inp s).gameOver = s.gameOver ∧
    (stepCharge inp s).gameState = s.gameState ∧
    (stepCharge inp s).pins = s.pins ∧
    (stepCharge inp s).obstacles = s.obstacles ∧
    (stepCharge inp s).score = s.score ∧
    (stepCharge inp s).bullets = s.bullets ∧
    (stepCharge inp s).enemies = s.enemies ∧
    (stepCharge inp s).playerPos = s.playerPos ∧
    (stepCharge inp s).elixirAvailable = s.elixirAvailable ∧
    (stepCharge inp s).elixirReady = s.elixirReady ∧
    (stepCharge inp s).animationComplete = s.animationComplete ∧
    (stepCharge inp s).gameOverScale = s.gameOverScale ∧
    (stepCharge inp s).ballLaunched = s.ballLaunched ∧
    (stepCharge inp s).t = s.t ∧
    (stepCharge inp s).ballSpeed = s.ballSpeed ∧
    (stepCharge inp s).throwAngle = s.throwAngle ∧
    (stepCharge inp s).strikeMode = s.strikeMode ∧
    (stepCharge inp s).luckyStrike = s.luckyStrike := by
  simp only [stepCharge]
  split_ifs <;> simp

theorem stepRelease_keeps (inp : Input) (s : State) :
    (stepRelease inp s).selectedDifficulty = s.selectedDifficulty ∧
    (stepRelease inp s).secondChanceUsed = s.secondChanceUsed ∧
    (stepRelease inp s).gameOver = s.gameOver ∧
    (stepRelease inp s).gameState = s.gameState ∧
    (stepRelease inp s).pins = s.pins ∧
    (stepRelease inp s).obstacles = s.obstacles ∧
    (stepRelease inp s).score = s.score ∧
    (stepRelease inp s).bullets = s.bullets ∧
    (stepRelease inp s).enemies = s.enemies ∧
    (stepRelease inp s).playerPos = s.playerPos ∧
    (stepRelease inp s).elixirAvailable = s.elixirAvailable ∧
    (stepRelease inp s).elixirReady = s.elixirReady ∧
    (stepRelease inp s).animationComplete = s.animationComplete ∧
    (stepRelease inp s).gameOverScale = s.gameOverScale ∧
    (stepRelease inp s).power = s.power ∧
    (stepRelease inp s).throwAngle = s.throwAngle ∧
    (stepRelease inp s).strikeMode = s.strikeMode ∧
    (stepRelease inp s).luckyStrike = s.luckyStrike := by
  simp only [stepRelease]
  split_ifs <;> simp

theorem miniControls_keeps (p : Platform) (inp : Input) (s : State) :
    (miniControls p inp s).1.selectedDifficulty = s.selectedDifficulty ∧
    (miniControls p inp s).1.secondChanceUsed = s.secondChanceUsed ∧
    (miniControls p inp s).1.gameOver = s.gameOver ∧
    (miniControls p inp s).1.gameState = s.gameState ∧
    (miniControls p inp s).1.pins = s.pins ∧
    (miniControls p inp s).1.obstacles = s.obstacles ∧
    (miniControls p inp s).1.score = s.score ∧
    (miniControls p inp s).1.bullets = s.bullets ∧
    (miniControls p inp s).1.enemies = s.enemies ∧
    (miniControls p inp s).1.playerPos = s.playerPos ∧
    (miniControls p inp s).1.elixirAvailable = s.elixirAvailable ∧
    (miniControls p inp s).1.elixirReady = s.elixirReady ∧
    (miniControls p inp s).1.animationComplete = s.animationComplete ∧
    (miniControls p inp s).1.gameOverScale = s.gameOverScale := by
  simp only [miniControls, stepRelease_keeps, stepCharge_keeps, stepAim_keeps,
    stepStrikeToggle_keeps, and_self]

theorem moveBall_keeps (p : Platform) (s : State) :
    (moveBall p s).selectedDifficulty = s.selectedDifficulty ∧
    (moveBall p s).secondChanceUsed = s.secondChanceUsed ∧
    (moveBall p s).gameOver = s.gameOver ∧
    (moveBall p s).gameState = s.gameState ∧
    (moveBall p s).pins = s.pins ∧
    (moveBall p s).obstacles = s.obstacles ∧
    (moveBall p s).score = s.score ∧
    (moveBall p s).bullets = s.bullets ∧
    (moveBall p s).enemies = s.enemies ∧
    (moveBall p s).playerPos = s.playerPos ∧
    (moveBall p s).elixirAvailable = s.elixirAvailable ∧
    (moveBall p s).elixirReady = s.elixirReady ∧
    (moveBall p s).animationComplete = s.animationComplete ∧
    (moveBall p s).gameOverScale = s.gameOverScale ∧
    (moveBall p s).ballLaunched = s.ballLaunched ∧
    (moveBall p s).power = s.power ∧
    (moveBall p s).throwAngle = s.throwAngle ∧
    (moveBall p s).strikeMode = s.strikeMode ∧
    (moveBall p s).luckyStrike = s.luckyStrike ∧
    (moveBall p s).t = s.t + s.ballSpeed := by
  simp [moveBall]

theorem fellAll_spec (inp : Input) : ∀ (qs : List Pin) (k : Nat),
    (fellAll inp qs k).1.length = qs.length ∧
    ∀ q ∈ (fellAll inp qs k).1, q.fallen = true ∧ q.animating = true
  | [], _ => by simp [fellAll]
  | q :: qs, k => by
    have ih := fellAll_spec inp qs (k + 3)
    simp only [fellAll, List.length_cons, ih.1, List.mem_cons, true_and]
    rintro x (rfl | hx)
    · simp [fellPin]
    · exact ih.2 x hx

theorem pinLoop_length (inp : Input) (strike : Bool) (ballPos : Vector2) :
    ∀ (qs : List Pin) (k : Nat), (pinLoop inp strike ballPos qs k).pins.length = qs.length
  | [], _ => rfl
  | q :: qs, k => by
    unfold pinLoop
    split_ifs
    · rfl
    · simp [pinLoop_length inp strike ballPos qs (k + 3)]
    · simp [pinLoop_length inp strike ballPos qs k]

theorem collisionStep_keeps (inp : Input) (k : Nat) (s : State) :
    (collisionStep inp k s).1.selectedDifficulty = s.selectedDifficulty ∧
    (collisionStep inp k s).1.secondChanceUsed = s.secondChanceUsed ∧
    (collisionStep inp k s).1.gameOver = s.gameOver ∧
    (collisionStep inp k s).1.gameState = s.gameState ∧
    (collisionStep inp k s).1.obstacles = s.obstacles ∧
    (collisionStep inp k s).1.score = s.score ∧
    (collisionStep inp k s).1.bullets = s.bullets ∧
    (collisionStep inp k s).1.enemies = s.enemies ∧
    (collisionStep inp k s).1.playerPos = s.playerPos ∧
    (collisionStep inp k s).1.elixirAvailable = s.elixirAvailable ∧
    (collisionStep inp k s).1.elixirReady = s.elixirReady ∧
    (collisionStep inp k s).1.animationComplete = s.animationComplete ∧
    (collisionStep inp k s).1.gameOverScale = s.gameOverScale ∧
    (collisionStep inp k s).1.ballLaunched = s.ballLaunched ∧
    (collisionStep inp k s).1.power = s.power ∧
    (collisionStep inp k s).1.throwAngle = s.throwAngle ∧
    (collisionStep inp k s).1.t = s.t ∧
    (collisionStep inp k s).1.pins.length = s.pins.length := by
  simp only [collisionStep]
  split_ifs
  · simp [(fellAll_spec inp _ _).1, pinLoop_length]
  · simp [pinLoop_length]

theorem afterCollision_keeps (p : Platform) (inp : Input) (s : State) :
    (afterCollision p inp s).1.selectedDifficulty = s.selectedDifficulty ∧
    (afterCollision p inp s).1.secondChanceUsed = s.secondChanceUsed ∧
    (afterCollision p inp s).1.gameOver = s.gameOver ∧
    (afterCollision p inp s).1.gameState = s.gameState ∧
    (afterCollision p inp s).1.obstacles = s.obstacles ∧
    (afterCollision p inp s).1.score = s.score ∧
    (afterCollision p inp s).1.bullets = s.bullets ∧
    (afterCollision p inp s).1.enemies = s.enemies ∧
    (afterCollision p inp s).1.playerPos = s.playerPos ∧
    (afterCollision p inp s).1.elixirAvailable = s.elixirAvailable ∧
    (afterCollision p inp s).1.elixirReady = s.elixirReady ∧
    (afterCollision p inp s).1.animationComplete = s.animationComplete ∧
    (afterCollision p inp s).1.gameOverScale = s.gameOverScale ∧
    (afterCollision p inp s).1.pins.length = s.pins.length ∧
    (afterCollision p inp s).1.t = (miniControls p inp s).1.t + (miniControls p inp s).1.ballSpeed := by
  simp only [afterCollision, collisionStep_keeps, moveBall_keeps, miniControls_keeps, and_self]

theorem animatePin_idle (h : Int) (q : Pin) (hq : q.animating = false) : animatePin h q = q := by
  simp [animatePin, hq]

theorem stepAnimatePins_keeps (inp : Input) (s : State) :
    (stepAnimatePins inp s).selectedDifficulty = s.selectedDifficulty ∧
    (stepAnimatePins inp s).secondChanceUsed = s.secondChanceUsed ∧
    (stepAnimatePins inp s).gameOver = s.gameOver ∧
    (stepAnimatePins inp s).gameState = s.gameState ∧
    (stepAnimatePins inp s).obstacles = s.obstacles ∧
    (stepAnimatePins inp s).score = s.score ∧
    (stepAnimatePins inp s).bullets = s.bullets ∧
    (stepAnimatePins inp s).enemies = s.enemies ∧
    (stepAnimatePins inp s).playerPos = s.playerPos ∧
    (stepAnimatePins inp s).elixirAvailable = s.elixirAvailable ∧
    (stepAnimatePins inp s).elixirReady = s.elixirReady ∧
    (stepAnimatePins inp s).animationComplete = s.animationComplete ∧
    (stepAnimatePins inp s).gameOverScale = s.gameOverScale ∧
    (stepAnimatePins inp s).ballLaunched = s.ballLaunched ∧
    (stepAnimatePins inp s).power = s.power ∧
    (stepAnimatePins inp s).throwAngle = s.throwAngle ∧
    (stepAnimatePins inp s).t = s.t ∧
    (stepAnimatePins inp s).pins.length = s.pins.length := by
  simp [stepAnimatePins]

theorem stepAnimatePins_fresh (inp : Input) (s : State) (h : FreshRack s.pins) :
    FreshRack (stepAnimatePins inp s).pins := by
  have hmap : s.pins.map (animatePin inp.screenHeight) = s.pins := by
    conv_rhs => rw [← List.map_id s.pins]
    refine List.map_congr_left ?_
    intro q hq
    simpa using animatePin_idle _ q (h.2 q hq).2
  simp only [stepAnimatePins, hmap]
  exact h

theorem ResetBowling_fresh (w h : Int) (y : State) (hp : y.pins.length = NUM_PINS) :
    FreshRack (ResetBowling w h y).pins := by
  simpa [ResetBowling, FreshRack] using LayoutPins_fresh w y.pins hp

/-- The bowling state after `ResetBowling` and the pin animation that follows it. -/
theorem rerack_spec (inp : Input) (y : State) (hp : y.pins.length = NUM_PINS) :
    (stepAnimatePins inp (ResetBowling inp.screenWidth inp.screenHeight y)).ballLaunched = false ∧
    (stepAnimatePins inp (ResetBowling inp.screenWidth inp.screenHeight y)).t = 0 ∧
    (stepAnimatePins inp (ResetBowling inp.screenWidth inp.screenHeight y)).power = 0 ∧
    (stepAnimatePins inp (ResetBowling inp.screenWidth inp.screenHeight y)).throwAngle = 0 ∧
    FreshRack (stepAnimatePins inp (ResetBowling inp.screenWidth inp.screenHeight y)).pins ∧
    (stepAnimatePins inp (ResetBowling inp.screenWidth inp.screenHeight y)).gameState =
      y.gameState ∧
    (stepAnimatePins inp (ResetBowling inp.screenWidth inp.screenHeight y)).gameOver =
      y.gameOver ∧
    (stepAnimatePins inp (ResetBowling inp.screenWidth inp.screenHeight y)).secondChanceUsed =
      y.secondChanceUsed ∧
    (stepAnimatePins inp (ResetBowling inp.screenWidth inp.screenHeight y)).score = y.score ∧
    (stepAnimatePins inp (ResetBowling inp.screenWidth inp.screenHeight y)).bullets =
      y.bullets ∧
    (stepAnimatePins inp (ResetBowling inp.screenWidth inp.screenHeight y)).enemies =
      y.enemies := by
  have hk := stepAnimatePins_keeps inp (ResetBowling inp.screenWidth inp.screenHeight y)
  have hf := ResetBowling_fresh inp.screenWidth inp.screenHeight y hp
  have hb := ResetBowling_keeps inp.screenWidth inp.screenHeight y
  refine ⟨by rw [hk.2.2.2.2.2.2.2.2.2.2.2.2.2.1]; simp [ResetBowling],
    by rw [hk.2.2.2.2.2.2.2.2.2.2.2.2.2.2.2.2.1]; simp [ResetBowling],
    by rw [hk.2.2.2.2.2.2.2.2.2.2.2.2.2.2.1]; simp [ResetBowling],
    by rw [hk.2.2.2.2.2.2.2.2.2.2.2.2.2.2.2.1]; simp [ResetBowling],
    stepAnimatePins_fresh inp _ hf, by rw [hk.2.2.2.1]; exact hb.2.2.2.1,
    by rw [hk.2.2.1]; exact hb.2.2.1,
    by rw [hk.2.1]; exact hb.2.1, by rw [hk.2.2.2.2.2.1]; exact hb.2.2.2.2.2.1,
    by rw [hk.2.2.2.2.2.2.1]; exact hb.2.2.2.2.2.2.1,
    by rw [hk.2.2.2.2.2.2.2.1]; exact hb.2.2.2.2.2.2.2.1⟩

theorem miniControls_launched (p : Platform) (inp : Input) (s : State)
    (hl : s.ballLaunched = true) (hrel : inp.spaceReleased = false) :
    miniControls p inp s = (s, 0) := by
  simp [miniControls, stepStrikeToggle, stepAim, stepCharge, stepRelease, hl, hrel]

theorem idle_settles (pos : Vector2) (h : pos = ⟨400, 300⟩) :
    DrawsSettle samplePlatform idleInput (playerRect samplePlatform pos) := by
  intro k
  refine ⟨0, ?_⟩
  subst h
  simp [CheckCollisionRecs, obstacleCandidate, playerRect, samplePlatform, idleInput,
    GetRandomValue]
  norm_num

theorem thrownState_WF : WF thrownState := initialState_WF 800 600

theorem pinLoop_struck (inp : Input) (ballPos : Vector2) :
    ∀ (qs : List Pin) (k : Nat), (∃ q ∈ qs, ballHits ballPos q = true) →
      (pinLoop inp true ballPos qs k).struck = true
  | [], _, h => by simp at h
  | q :: qs, k, h => by
    unfold pinLoop
    by_cases hq : ballHits ballPos q = true
    · simp [hq]
    · have h1 : ∃ q1 ∈ qs, ballHits ballPos q1 = true := by
        obtain ⟨q1, hm, h1⟩ := h
        rcases List.mem_cons.mp hm with rfl | hm
        · exact absurd h1 hq
        · exact ⟨q1, hm, h1⟩
      simpa [hq] using pinLoop_struck inp ballPos qs k h1

theorem pinLoop_noStrike (inp : Input) (ballPos : Vector2) :
    ∀ (qs : List Pin) (k : Nat),
      (pinLoop inp false ballPos qs k).struck = false ∧
      List.Forall₂ (NonStrikeStep ballPos) qs (pinLoop inp false ballPos qs k).pins
  | [], _ => ⟨rfl, List.Forall₂.nil⟩
  | q :: qs, k => by
    unfold pinLoop
    by_cases hq : ballHits ballPos q = true
    · have ih := pinLoop_noStrike inp ballPos qs (k + 3)
      simp only [hq, if_true, Bool.false_eq_true, if_false]
      refine ⟨ih.1, List.Forall₂.cons ?_ ih.2⟩
      simp only [ballHits, Bool.and_eq_true, Bool.not_eq_true'] at hq
      refine ⟨by simp [fellPin, hq.2], fun hc => ?_⟩
      rw [hq.2] at hc
      cases hc
    · have ih := pinLoop_noStrike inp ballPos qs k
      simp only [hq, if_false]
      refine ⟨ih.1, List.Forall₂.cons ?_ ih.2⟩
      refine ⟨?_, fun _ => rfl⟩
      simp only [ballHits, Bool.and_eq_true, Bool.not_eq_true', not_and, Bool.not_eq_true] at hq
      constructor
      · intro h; exact Or.inl h
      · rintro (h | h)
        · exact h
        · cases hf : q.fallen with
          | true => rfl
          | false => rw [hq hf] at h; cases h

theorem initialState_head_pin : ∃ rest, (initialState 800 600).pins =
    ⟨⟨400, 120⟩, ⟨0, 0⟩, 0, false, false⟩ :: rest := by
  have h : (initialState 800 600).pins =
      LayoutPins 800 (List.replicate NUM_PINS ⟨zeroVector, zeroVector, 0, false, false⟩) := by
    simp [initialState, ResetElixirState, ResetBowling]
  rw [h]
  simp [LayoutPins, layoutPin, List.range, List.range.loop, NUM_PINS, List.replicate]
  norm_num

/-! ## The invariant of the main loop -/

theorem Inv_transfer (s s1 : State) (h : Inv s)
    (hb : s1.bullets.length = s.bullets.length) (he : s1.enemies.length = s.enemies.length)
    (ho : s1.obstacles.length = s.obstacles.length) (hp : s1.pins.length = s.pins.length)
    (hgo : s1.gameOver = s.gameOver) (hgs : s1.gameState = s.gameState)
    (ha : s1.elixirAvailable = s.elixirAvailable) (hr : s1.elixirReady = s.elixirReady) :
    Inv s1 := by
  obtain ⟨⟨h1, h2, h3, h4⟩, h5, h6⟩ := h
  refine ⟨⟨hb.trans h1, he.trans h2, ho.trans h3, hp.trans h4⟩, ?_, ?_⟩
  · unfold OverIffClosing at *
    rw [hgo, hgs]
    exact h5
  · unfold ElixirOk at *
    rw [ha, hr]
    exact h6

/-- The three outcomes of the judgment of lines 487-502. -/
theorem judge_cases (fuel : Nat) (p : Platform) (inp : Input) (k : Nat) (s x : State)
    (h : judge fuel p inp k s = some x) :
    (¬ (s.t ≥ PI / 2) ∧ x = s) ∨
    (s.t ≥ PI / 2 ∧ allFallen s.pins = false ∧
      x = ResetBowling inp.screenWidth inp.screenHeight
        { s with gameOver := true, gameState := GameState.CLOSING_SCENE }) ∨
    (s.t ≥ PI / 2 ∧ allFallen s.pins = true ∧ ∃ s1 k1,
      resetAndSpawn fuel p inp k { s with secondChanceUsed := true } = some (s1, k1) ∧
      x = ResetBowling inp.screenWidth inp.screenHeight
        { s1 with gameState := GameState.GAMEPLAY }) := by
  unfold judge at h
  split_ifs at h with ht hf
  · right; right
    cases hr : resetAndSpawn fuel p inp k { s with secondChanceUsed := true } with
    | none => simp [hr] at h
    | some r =>
      obtain ⟨s1, k1⟩ := r
      simp only [hr, Option.some.injEq] at h
      exact ⟨ht, hf, s1, k1, rfl, h.symm⟩
  · right; left
    simp only [Option.some.injEq] at h
    exact ⟨ht, by simpa using hf, h.symm⟩
  · left
    simp only [Option.some.injEq] at h
    exact ⟨ht, h.symm⟩

theorem judge_inv (fuel : Nat) (p : Platform) (inp : Input) (k : Nat) (s x : State)
    (hs : Inv s) (h : judge fuel p inp k s = some x) : Inv x := by
  rcases judge_cases fuel p inp k s x h with ⟨_, rfl⟩ | ⟨_, _, rfl⟩ | ⟨_, _, s1, k1, hr, rfl⟩
  · exact hs
  · refine ⟨?_, ?_, ?_⟩
    · simpa [WF, ResetBowling, LayoutPins_length] using hs.1
    · simp [OverIffClosing, ResetBowling]
    · simpa [ElixirOk, ResetBowling] using hs.2.2
  · have hsp := resetAndSpawn_spec fuel p inp k k1 _ s1 hr
    obtain ⟨h1, h2, h3, h4⟩ := hs.1
    refine ⟨⟨?_, ?_, ?_, ?_⟩, ?_, ?_⟩
    · simpa [ResetBowling] using hsp.2.2.2.2.2.2.2.2.2.2.2.2.2.1.trans h1
    · simpa [ResetBowling] using hsp.2.2.2.2.2.2.2.2.2.2.2.2.2.2.1.trans h2
    · simpa [ResetBowling] using hsp.2.2.2.2.2.2.2.2.2.2.2.2.2.2.2.1.trans h3
    · simp only [ResetBowling, LayoutPins_length, hsp.2.2.2.2.1]
      exact h4
    · simp [OverIffClosing, ResetBowling, hsp.2.2.1]
    · simp [ElixirOk, ResetBowling, hsp.2.2.2.2.2.2.2.1]

theorem updateMiniGame_inv (fuel : Nat) (p : Platform) (inp : Input) (s s1 : State)
    (hs : Inv s) (h : updateMiniGame fuel p inp s = some s1) : Inv s1 := by
  have hc := miniControls_keeps p inp s
  have ha := afterCollision_keeps p inp s
  unfold updateMiniGame at h
  dsimp only at h
  split_ifs at h with hl
  · cases hj : judge fuel p inp (afterCollision p inp s).2 (afterCollision p inp s).1 with
    | none => simp [hj] at h
    | some x =>
      simp only [hj, Option.some.injEq] at h
      have hx : Inv x := by
        refine judge_inv fuel p inp _ _ x ?_ hj
        exact Inv_transfer s _ hs (by rw [ha.2.2.2.2.2.2.1]) (by rw [ha.2.2.2.2.2.2.2.1])
          (by rw [ha.2.2.2.2.1]) ha.2.2.2.2.2.2.2.2.2.2.2.2.2.1 ha.2.2.1 ha.2.2.2.1
          ha.2.2.2.2.2.2.2.2.2.1 ha.2.2.2.2.2.2.2.2.2.2.1
      have hk := stepAnimatePins_keeps inp x
      rw [← h]
      exact Inv_transfer x _ hx (by rw [hk.2.2.2.2.2.2.1]) (by rw [hk.2.2.2.2.2.2.2.1])
        (by rw [hk.2.2.2.2.1]) hk.2.2.2.2.2.2.2.2.2.2.2.2.2.2.2.2.2 hk.2.2.1 hk.2.2.2.1
        hk.2.2.2.2.2.2.2.2.2.1 hk.2.2.2.2.2.2.2.2.2.2.1
  · simp only [Option.some.injEq] at h
    have hk := stepAnimatePins_keeps inp (miniControls p inp s).1
    rw [← h]
    refine Inv_transfer s _ hs (by rw [hk.2.2.2.2.2.2.1, hc.2.2.2.2.2.2.2.1])
      (by rw [hk.2.2.2.2.2.2.2.1, hc.2.2.2.2.2.2.2.2.1])
      (by rw [hk.2.2.2.2.1, hc.2.2.2.2.2.1])
      (by rw [hk.2.2.2.2.2.2.2.2.2.2.2.2.2.2.2.2.2, hc.2.2.2.2.1])
      (by rw [hk.2.2.1, hc.2.2.1]) (by rw [hk.2.2.2.1, hc.2.2.2.1])
      (by rw [hk.2.2.2.2.2.2.2.2.2.1, hc.2.2.2.2.2.2.2.2.2.2.1])
      (by rw [hk.2.2.2.2.2.2.2.2.2.2.1, hc.2.2.2.2.2.2.2.2.2.2.2.1])

theorem restart_inv (fuel : Nat) (p : Platform) (inp : Input) (k k1 : Nat) (s s1 : State)
    (hwf : WF s) (h : resetAndSpawn fuel p inp k s = some (s1, k1)) (g : GameState)
    (hg : g ≠ GameState.CLOSING_SCENE) (sc : Bool) (iv : ℚ) :
    Inv { s1 with elixirSpawnInterval := iv, secondChanceUsed := sc, gameState := g } := by
  have hsp := resetAndSpawn_spec fuel p inp k k1 s s1 h
  refine ⟨⟨hsp.2.2.2.2.2.2.2.2.2.2.2.2.2.1.trans hwf.1,
    hsp.2.2.2.2.2.2.2.2.2.2.2.2.2.2.1.trans hwf.2.1,
    hsp.2.2.2.2.2.2.2.2.2.2.2.2.2.2.2.1.trans hwf.2.2.1, ?_⟩, ?_, ?_⟩
  · show s1.pins.length = NUM_PINS
    rw [hsp.2.2.2.2.1]
    exact hwf.2.2.2
  · simp [OverIffClosing, hsp.2.2.1, hg]
  · simp [ElixirOk, hsp.2.2.2.2.2.2.2.1]

theorem updateOpening_inv (fuel : Nat) (p : Platform) (inp : Input) (s s1 : State)
    (hs : Inv s) (h : updateOpening fuel p inp s = some s1) : Inv s1 := by
  unfold updateOpening at h
  dsimp only at h
  split_ifs at h with hclick
  · cases hr : resetAndSpawn fuel p inp 0
        { s with selectedDifficulty := selectDifficulty inp s.selectedDifficulty } with
    | none => simp [hr] at h
    | some r =>
      obtain ⟨s2, k2⟩ := r
      simp only [hr, Option.some.injEq] at h
      rw [← h]
      have hwf : WF { s with selectedDifficulty := selectDifficulty inp s.selectedDifficulty } :=
        hs.1
      exact restart_inv fuel p inp 0 k2 _ s2 hwf hr
        GameState.GAMEPLAY (by decide) false (spawnIntervalFor s2.selectedDifficulty)
  · simp only [Option.some.injEq] at h
    rw [← h]
    exact Inv_transfer s _ hs rfl rfl rfl rfl rfl rfl rfl rfl

theorem stepScale_keeps (inp : Input) (s : State) :
    (stepScale inp s).selectedDifficulty = s.selectedDifficulty ∧
    (stepScale inp s).secondChanceUsed = s.secondChanceUsed ∧
    (stepScale inp s).gameOver = s.gameOver ∧
    (stepScale inp s).gameState = s.gameState ∧
    (stepScale inp s).pins = s.pins ∧
    (stepScale inp s).obstacles = s.obstacles ∧
    (stepScale inp s).score = s.score ∧
    (stepScale inp s).bullets = s.bullets ∧
    (stepScale inp s).enemies = s.enemies ∧
    (stepScale inp s).playerPos = s.playerPos ∧
    (stepScale inp s).elixirAvailable = s.elixirAvailable ∧
    (stepScale inp s).elixirReady = s.elixirReady := by
  simp only [stepScale]
  split_ifs <;> simp

theorem stepHome_inv (inp : Input) (s : State) (hs : Inv s) : Inv (stepHome inp s) := by
  unfold stepHome
  split_ifs
  · have hr := ResetGame_spec s.selectedDifficulty s
    refine ⟨⟨hr.2.2.2.2.2.2.2.2.2.2.2.2.2.1.trans hs.1.1,
      hr.2.2.2.2.2.2.2.2.2.2.2.2.2.2.1.trans hs.1.2.1,
      hr.2.2.2.2.2.2.2.2.2.2.2.2.2.2.2.1.trans hs.1.2.2.1, ?_⟩, ?_, ?_⟩
    · show (ResetGame s.selectedDifficulty s).pins.length = NUM_PINS
      rw [hr.2.2.2.2.1]
      exact hs.1.2.2.2
    · simp [OverIffClosing, hr.2.2.1]
    · simp [ElixirOk, hr.2.2.2.2.2.2.2.1]
  · exact hs

theorem updateClosing_inv (fuel : Nat) (p : Platform) (inp : Input) (s s1 : State)
    (hs : Inv s) (h : updateClosing fuel p inp s = some s1) : Inv s1 := by
  have hk := stepScale_keeps inp s
  have hs1 : Inv (stepScale inp s) :=
    Inv_transfer s _ hs (by rw [hk.2.2.2.2.2.2.2.1]) (by rw [hk.2.2.2.2.2.2.2.2.1])
      (by rw [hk.2.2.2.2.2.1]) (by rw [hk.2.2.2.2.1]) hk.2.2.1 hk.2.2.2.1
      hk.2.2.2.2.2.2.2.2.2.2.1 hk.2.2.2.2.2.2.2.2.2.2.2
  unfold updateClosing at h
  dsimp only at h
  split_ifs at h with hac
  · unfold stepRestart at h
    split_ifs at h with hR
    · cases hr : resetAndSpawn fuel p inp 0 (stepScale inp s) with
      | none => simp [hr] at h
      | some r =>
        obtain ⟨s2, k2⟩ := r
        simp only [hr, Option.some.injEq] at h
        rw [← h]
        refine stepHome_inv inp _ ?_
        exact restart_inv fuel p inp 0 k2 _ s2 hs1.1 hr GameState.GAMEPLAY (by decide) false
          s2.elixirSpawnInterval
    · simp only [Option.some.injEq] at h
      rw [← h]
      exact stepHome_inv inp _ hs1
  · simp only [Option.some.injEq] at h
    rw [← h]
    exact hs1

theorem initialState_inv (w h : Int) : Inv (initialState w h) :=
  ⟨initialState_WF w h, by simp [OverIffClosing, initialState, ResetElixirState, ResetBowling],
    by simp [ElixirOk, initialState, ResetElixirState]⟩

/-- Every frame update keeps the invariant. -/
theorem updateFrame_inv (fuel : Nat) (p : Platform) (inp : Input) (s s1 : State)
    (hs : Inv s) (h : updateFrame fuel p inp s = some s1) : Inv s1 := by
  unfold updateFrame at h
  cases hg : s.gameState with
  | OPENING_SCENE => rw [hg] at h; exact updateOpening_inv fuel p inp s s1 hs h
  | GAMEPLAY =>
    rw [hg] at h
    simp only [Option.some.injEq] at h
    rw [← h]
    exact updateGameplay_inv p inp s hs hg
  | MINI_GAME => rw [hg] at h; exact updateMiniGame_inv fuel p inp s s1 hs h
  | CLOSING_SCENE => rw [hg] at h; exact updateClosing_inv fuel p inp s s1 hs h

/-- The invariant holds in every reachable state. -/
theorem Reachable_inv (p : Platform) (s : State) (h : Reachable p s) : Inv s := by
  induction h with
  | init w h => exact initialState_inv w h
  | step fuel inp _ hstep ih => exact updateFrame_inv fuel p inp _ _ ih hstep

/-! ## Lemmas on the elixir -/

theorem beforePickup_keeps (p : Platform) (inp : Input) (s : State) :
    (beforePickup p inp s).selectedDifficulty = s.selectedDifficulty ∧
    (beforePickup p inp s).secondChanceUsed = s.secondChanceUsed ∧
    (beforePickup p inp s).gameOver = s.gameOver ∧
    (beforePickup p inp s).gameState = s.gameState ∧
    (beforePickup p inp s).pins = s.pins ∧
    (beforePickup p inp s).obstacles = s.obstacles ∧
    (beforePickup p inp s).score = s.score ∧
    (beforePickup p inp s).elixirReady = s.elixirReady := by
  simp [beforePickup]

theorem beforeUse_keeps (p : Platform) (inp : Input) (s : State) :
    (beforeUse p inp s).selectedDifficulty = s.selectedDifficulty ∧
    (beforeUse p inp s).secondChanceUsed = s.secondChanceUsed ∧
    (beforeUse p inp s).gameOver = s.gameOver ∧
    (beforeUse p inp s).gameState = s.gameState ∧
    (beforeUse p inp s).pins = s.pins ∧
    (beforeUse p inp s).obstacles = s.obstacles ∧
    (beforeUse p inp s).score = s.score := by
  simp [beforeUse, beforePickup]

theorem beforePickup_ok (p : Platform) (inp : Input) (s : State) (h : ElixirOk s) :
    ElixirOk (beforePickup p inp s) := by
  unfold beforePickup
  refine stepElixirSpawn_ok inp _ _ ?_
  unfold ElixirOk at *
  simpa using h

theorem beforeUse_ok (p : Platform) (inp : Input) (s : State) (h : ElixirOk s) :
    ElixirOk (beforeUse p inp s) :=
  stepElixirPickup_ok inp _ (beforePickup_ok p inp s h)

theorem secondChanceOrOver_flags (inp : Input) (st x : State) (h : FlagsDown st x) :
    FlagsDown st (secondChanceOrOver inp x) := by
  unfold secondChanceOrOver
  split_ifs
  · refine ⟨Or.inr ⟨rfl, rfl⟩, ?_, ?_, ?_⟩
    · simpa [ResetElixirState, ResetBowling] using h.2.1
    · simpa [ResetElixirState, ResetBowling] using h.2.2.1
    · simpa [ResetElixirState, ResetBowling] using h.2.2.2
  · exact h

theorem stepObstacles_flags (p : Platform) (inp : Input) (st : State) :
    FlagsDown st (stepObstacles p inp st) := by
  have h0 : FlagsDown st st := ⟨Or.inl ⟨rfl, rfl⟩, rfl, rfl, rfl⟩
  unfold stepObstacles
  split_ifs
  · refine foldl_preserves (FlagsDown st) _ ?_ _ _ h0
    intro x o hx
    split_ifs
    · exact secondChanceOrOver_flags inp st x hx
    · exact hx
  · exact h0

theorem onCaught_flags (inp : Input) (st : State) : FlagsDown st (onCaught inp st) := by
  unfold onCaught
  split_ifs
  · exact ⟨Or.inr ⟨rfl, rfl⟩, by simp [ResetElixirState, ResetBowling],
      by simp [ResetElixirState, ResetBowling], by simp [ResetElixirState, ResetBowling]⟩
  · exact ⟨Or.inl ⟨rfl, rfl⟩, rfl, rfl, rfl⟩

/-- The enemy loop leaves the elixir flags as they are or clears both. -/
theorem stepEnemies_flags (p : Platform) (inp : Input) (st : State) :
    ((stepEnemies p inp st).elixirAvailable = st.elixirAvailable ∧
      (stepEnemies p inp st).elixirReady = st.elixirReady) ∨
    ((stepEnemies p inp st).elixirAvailable = false ∧
      (stepEnemies p inp st).elixirReady = false) := by
  unfold stepEnemies
  dsimp only
  split_ifs
  · exact (onCaught_flags inp _).1
  · exact Or.inl ⟨rfl, rfl⟩

theorem stepEnemies_difficulty (p : Platform) (inp : Input) (st : State) :
    (stepEnemies p inp st).selectedDifficulty = st.selectedDifficulty := by
  unfold stepEnemies
  dsimp only
  split_ifs
  · exact (onCaught_keeps inp _).1
  · rfl

theorem enemyLoop_idle (p : Platform) (dt : ℚ) (pos : Vector2) :
    ∀ (es : List Enemy) (bs : List Bullet) (sc : Int), (∀ e ∈ es, e.active = false) →
      enemyLoop p dt pos es bs sc = ⟨es, bs, sc, false⟩
  | [], _, _, _ => rfl
  | e :: es, bs, sc, h => by
    rw [enemyLoop_inactive p dt pos e es bs sc (h e (List.mem_cons_self _ _)),
      enemyLoop_idle p dt pos es bs sc (fun x hx => h x (List.mem_cons_of_mem _ hx))]

theorem stepEnemies_idle (p : Platform) (inp : Input) (st : State)
    (h : ∀ e ∈ st.enemies, e.active = false) : stepEnemies p inp st = st := by
  simp [stepEnemies, enemyLoop_idle p inp.dt st.playerPos st.enemies st.bullets st.score h]

/-- The gameplay update when `gameOver` is false. -/
theorem updateGameplay_running (p : Platform) (inp : Input) (s : State)
    (h : s.gameOver = false) :
    updateGameplay p inp s = stepObstacles p inp (stepEnemies p inp (beforeEnemies p inp s)) := by
  simp [updateGameplay, h]

theorem Inv_running (s : State) (h : Inv s) (hscene : s.gameState ≠ GameState.CLOSING_SCENE) :
    s.gameOver = false := by
  cases hg : s.gameOver with
  | false => rfl
  | true => exact absurd (h.2.1.mp hg) hscene

/-! ## Lemmas for the second chance -/

theorem stepObstacles_used (p : Platform) (inp : Input) (st : State)
    (h : st.selectedDifficulty ≠ Difficulty.DIFFICULTY_HARD ∨ st.secondChanceUsed = true) :
    stepObstacles p inp st = st ∨
    ((stepObstacles p inp st).gameOver = true ∧
      (stepObstacles p inp st).gameState = GameState.CLOSING_SCENE) := by
  unfold stepObstacles
  split_ifs with hd
  · have hsc : st.secondChanceUsed = true := h.resolve_left (fun hne => hne hd)
    have hfold := foldl_preserves
      (fun x : State => x.secondChanceUsed = true ∧
        (x = st ∨ (x.gameOver = true ∧ x.gameState = GameState.CLOSING_SCENE)))
      (fun x o => if o.active && CheckCollisionRecs (playerRect p st.playerPos) o.rect
        then secondChanceOrOver inp x else x) ?_ st.obstacles st ⟨hsc, Or.inl rfl⟩
    · exact hfold.2
    · intro x o hx
      dsimp only
      split_ifs
      · have heq : secondChanceOrOver inp x =
            { x with gameOver := true, gameState := GameState.CLOSING_SCENE } := by
          simp [secondChanceOrOver, hx.1]
        rw [heq]
        exact ⟨hx.1, Or.inr ⟨rfl, rfl⟩⟩
      · exact hx
  · exact Or.inl rfl

theorem beforeEnemies_enemies_spawn (p : Platform) (inp : Input) (s : State)
    (hspawn : s.enemySpawnTimer + inp.dt >
      baseInterval s.selectedDifficulty - (s.score : ℚ) * 0.01)
    (hs : inp.sPressed = false) :
    (beforeEnemies p inp s).enemies =
      (SpawnEnemy p inp s.selectedDifficulty (movePlayer inp s.playerPos) s.enemies 0).1 := by
  have hk := stepPlayerBullets_keeps inp s
  have h2 : (stepPlayerBullets inp s).enemySpawnTimer = s.enemySpawnTimer := by
    simp only [stepPlayerBullets]; split_ifs <;> rfl
  have h3 : (stepPlayerBullets inp s).playerPos = movePlayer inp s.playerPos := by
    simp only [stepPlayerBullets]; split_ifs <;> rfl
  have h1 : (stepEnemySpawn p inp (stepPlayerBullets inp s)).1.enemies =
      (SpawnEnemy p inp s.selectedDifficulty (movePlayer inp s.playerPos) s.enemies 0).1 := by
    simp only [stepEnemySpawn, hk, h2, h3, hspawn, if_true]
  simp only [beforeEnemies, beforeUse, beforePickup, stepElixirUse, hs, Bool.and_false, if_false, Bool.false_eq_true,
    stepElixirPickup_keeps, stepElixirSpawn_keeps, h1]

theorem SpawnEnemy_head (p : Platform) (inp : Input) (d : Difficulty) (pos : Vector2)
    (e : Enemy) (es : List Enemy) (k : Nat) (h : e.active = false) :
    SpawnEnemy p inp d pos (e :: es) k =
      ({ position := spawnPosition inp k
         speed := spawnSpeed d
         velocity := Vector2Scale (Vector2Normalize p
           (Vector2Subtract pos (spawnPosition inp k))) (spawnSpeed d)
         active := true } :: es, k + 2) := by
  simp [SpawnEnemy, h]

theorem startedMedium_enemies : startedMedium.enemies =
    ⟨zeroVector, zeroVector, 0, false⟩ :: List.replicate 99 ⟨zeroVector, zeroVector, 0, false⟩ := by
  simp [startedMedium, ResetGame, ResetElixirState, initialState, ResetBowling, MAX_ENEMIES,
    List.replicate_succ]

theorem chase_position : spawnPosition chaseInput 0 = ⟨0, 300⟩ := by
  simp [spawnPosition, chaseInput, idleInput, GetRandomValue]

/-! ## Lemmas on the opening scene -/

theorem selectDifficulty_start (inp : Input) (d : Difficulty)
    (h : clicked inp startBtn = true) : selectDifficulty inp d = d := by
  have hy : (510 : ℚ) ≤ inp.mousePos.y := by
    simp only [clicked, CheckCollisionPointRec, startBtn, Bool.and_eq_true, decide_eq_true_eq] at h
    exact h.1.1.2
  have h1 : clicked inp easyBtn = false := by
    simp only [clicked, CheckCollisionPointRec, easyBtn, Bool.and_eq_false_iff, decide_eq_false_iff_not]
    left; right; intro hlt; norm_num at hlt; linarith
  have h2 : clicked inp mediumBtn = false := by
    simp only [clicked, CheckCollisionPointRec, mediumBtn, Bool.and_eq_false_iff, decide_eq_false_iff_not]
    left; right; intro hlt; norm_num at hlt; linarith
  have h3 : clicked inp hardBtn = false := by
    simp only [clicked, CheckCollisionPointRec, hardBtn, Bool.and_eq_false_iff, decide_eq_false_iff_not]
    left; right; intro hlt; norm_num at hlt; linarith
  simp [selectDifficulty, h1, h2, h3]

theorem clickStart_clicked : clicked clickStart startBtn = true := by
  simp [clicked, CheckCollisionPointRec, clickStart, idleInput, startBtn]
  norm_num

/-- The start frame when the selected difficulty is not hard. -/
theorem updateOpening_start (fuel : Nat) (p : Platform) (inp : Input) (s : State)
    (hclick : clicked inp startBtn = true)
    (hd : s.selectedDifficulty ≠ Difficulty.DIFFICULTY_HARD) :
    updateOpening fuel p inp s =
      some { ResetGame s.selectedDifficulty s with
        elixirSpawnInterval := spawnIntervalFor s.selectedDifficulty
        secondChanceUsed := false
        gameState := GameState.GAMEPLAY } := by
  have hs : ({ s with selectedDifficulty := s.selectedDifficulty } : State) = s := rfl
  have hrd : (ResetGame s.selectedDifficulty s).selectedDifficulty = s.selectedDifficulty := rfl
  simp only [updateOpening, hclick, if_true, selectDifficulty_start inp _ hclick, hs,
    resetAndSpawn, hrd, hd, if_false]

theorem updateFrame_clickStart (fuel : Nat) :
    updateFrame fuel samplePlatform clickStart (initialState 800 600) = some startedMedium := by
  have hg : (initialState 800 600).gameState = GameState.OPENING_SCENE := rfl
  have hd : (initialState 800 600).selectedDifficulty = Difficulty.DIFFICULTY_MEDIUM := rfl
  unfold updateFrame
  rw [hg]
  show updateOpening fuel samplePlatform clickStart (initialState 800 600) = some startedMedium
  rw [updateOpening_start fuel samplePlatform clickStart _ clickStart_clicked (by rw [hd]; decide),
    hd]
  rfl

theorem startedMedium_reachable : Reachable samplePlatform startedMedium :=
  Reachable.step 0 clickStart (Reachable.init 800 600) (updateFrame_clickStart 0)

theorem zero_draws_settle (inp : Input) (hrand : ∀ k, inp.rand k = 0)
    (hw : inp.screenWidth = 800) (hh : inp.screenHeight = 600) :
    DrawsSettle samplePlatform inp (playerRect samplePlatform ⟨400, 300⟩) := by
  intro k
  refine ⟨0, ?_⟩
  simp [CheckCollisionRecs, obstacleCandidate, playerRect, samplePlatform, hrand, hw, hh,
    GetRandomValue]
  norm_num

/-! ## An easy game keeps its elixir hidden -/

theorem stepElixirSpawn_easy (inp : Input) (k : Nat) (s : State)
    (h : s.selectedDifficulty = Difficulty.DIFFICULTY_EASY) : stepElixirSpawn inp k s = s := by
  simp [stepElixirSpawn, h]

theorem stepElixirPickup_hidden (inp : Input) (s : State) (h : s.elixirAvailable = false) :
    stepElixirPickup inp s = s := by
  simp [stepElixirPickup, h]

theorem stepElixirUse_unready (inp : Input) (s : State) (h : s.elixirReady = false) :
    stepElixirUse inp s = s := by
  simp [stepElixirUse, h]

theorem FlagsDown_easy (st x : State) (h : FlagsDown st x) (hst : EasyHidden st) :
    EasyHidden x := by
  refine ⟨h.2.2.2.trans hst.1, ?_, ?_⟩
  · rcases h.1 with h1 | h1
    · exact h1.1.trans hst.2.1
    · exact h1.1
  · rcases h.1 with h1 | h1
    · exact h1.2.trans hst.2.2
    · exact h1.2

theorem updateGameplay_easy (p : Platform) (inp : Input) (s : State) (h : EasyHidden s) :
    EasyHidden (updateGameplay p inp s) := by
  unfold updateGameplay
  split_ifs
  · have h1 : EasyHidden (beforeEnemies p inp s) := by
      have hsp : (stepEnemySpawn p inp (stepPlayerBullets inp s)).1.selectedDifficulty =
          Difficulty.DIFFICULTY_EASY := by simpa using h.1
      have hbp : beforePickup p inp s = (stepEnemySpawn p inp (stepPlayerBullets inp s)).1 := by
        simp only [beforePickup]
        exact stepElixirSpawn_easy inp _ _ hsp
      have hav : (beforePickup p inp s).elixirAvailable = false := by
        rw [hbp]; simpa using h.2.1
      have hrd : (beforePickup p inp s).elixirReady = false := by
        rw [hbp]; simpa using h.2.2
      have hbu : beforeUse p inp s = beforePickup p inp s :=
        stepElixirPickup_hidden inp _ hav
      have hbe : beforeEnemies p inp s = beforePickup p inp s := by
        unfold beforeEnemies
        rw [hbu]
        exact stepElixirUse_unready inp _ hrd
      rw [hbe]
      exact ⟨by rw [hbp]; exact hsp, hav, hrd⟩
    have h2 : EasyHidden (stepEnemies p inp (beforeEnemies p inp s)) := by
      refine ⟨(stepEnemies_difficulty p inp _).trans h1.1, ?_, ?_⟩
      · rcases stepEnemies_flags p inp (beforeEnemies p inp s) with hf | hf
        · exact hf.1.trans h1.2.1
        · exact hf.1
      · rcases stepEnemies_flags p inp (beforeEnemies p inp s) with hf | hf
        · exact hf.2.trans h1.2.2
        · exact hf.2
    exact FlagsDown_easy _ _ (stepObstacles_flags p inp _) h2
  · exact h

theorem resetAndSpawn_easy (fuel : Nat) (p : Platform) (inp : Input) (k k1 : Nat)
    (s s1 : State) (h : resetAndSpawn fuel p inp k s = some (s1, k1))
    (hd : s.selectedDifficulty = Difficulty.DIFFICULTY_EASY) : EasyHidden s1 := by
  have hsp := resetAndSpawn_spec fuel p inp k k1 s s1 h
  exact ⟨hsp.1.trans hd, hsp.2.2.2.2.2.2.2.1, hsp.2.2.2.2.2.2.2.2.1⟩

theorem updateMiniGame_easy (fuel : Nat) (p : Platform) (inp : Input) (s s1 : State)
    (hs : EasyHidden s) (h : updateMiniGame fuel p inp s = some s1) : EasyHidden s1 := by
  have hc := miniControls_keeps p inp s
  have ha := afterCollision_keeps p inp s
  unfold updateMiniGame at h
  dsimp only at h
  split_ifs at h with hl
  · cases hj : judge fuel p inp (afterCollision p inp s).2 (afterCollision p inp s).1 with
    | none => simp [hj] at h
    | some x =>
      simp only [hj, Option.some.injEq] at h
      subst h
      have hk := stepAnimatePins_keeps inp x
      have hr0 : EasyHidden (afterCollision p inp s).1 :=
        ⟨ha.1.trans hs.1, ha.2.2.2.2.2.2.2.2.2.1.trans hs.2.1,
          ha.2.2.2.2.2.2.2.2.2.2.1.trans hs.2.2⟩
      have hx : EasyHidden x := by
        rcases judge_cases fuel p inp _ _ x hj with ⟨_, rfl⟩ | ⟨_, _, rfl⟩ |
          ⟨_, _, s2, k2, hr, rfl⟩
        · exact hr0
        · have hb := ResetBowling_keeps inp.screenWidth inp.screenHeight
            { (afterCollision p inp s).1 with
              gameOver := true, gameState := GameState.CLOSING_SCENE }
          exact ⟨hb.1.trans hr0.1, hb.2.2.2.2.2.2.2.2.2.1.trans hr0.2.1,
            hb.2.2.2.2.2.2.2.2.2.2.1.trans hr0.2.2⟩
        · have he := resetAndSpawn_easy fuel p inp _ k2 _ s2 hr hr0.1
          have hb := ResetBowling_keeps inp.screenWidth inp.screenHeight
            { s2 with gameState := GameState.GAMEPLAY }
          exact ⟨hb.1.trans he.1, hb.2.2.2.2.2.2.2.2.2.1.trans he.2.1,
            hb.2.2.2.2.2.2.2.2.2.2.1.trans he.2.2⟩
      exact ⟨hk.1.trans hx.1, hk.2.2.2.2.2.2.2.2.2.1.trans hx.2.1,
        hk.2.2.2.2.2.2.2.2.2.2.1.trans hx.2.2⟩
  · simp only [Option.some.injEq] at h
    subst h
    have hk := stepAnimatePins_keeps inp (miniControls p inp s).1
    exact ⟨hk.1.trans (hc.1.trans hs.1),
      hk.2.2.2.2.2.2.2.2.2.1.trans (hc.2.2.2.2.2.2.2.2.2.2.1.trans hs.2.1),
      hk.2.2.2.2.2.2.2.2.2.2.1.trans (hc.2.2.2.2.2.2.2.2.2.2.2.1.trans hs.2.2)⟩

theorem stepHome_easy (inp : Input) (s : State) (hs : EasyHidden s) :
    EasyHidden (stepHome inp s) := by
  unfold stepHome
  split_ifs
  · have hr := ResetGame_spec s.selectedDifficulty s
    exact ⟨hr.1.trans hs.1, hr.2.2.2.2.2.2.2.1, hr.2.2.2.2.2.2.2.2.1⟩
  · exact hs

theorem updateClosing_easy (fuel : Nat) (p : Platform) (inp : Input) (s s1 : State)
    (hs : EasyHidden s) (h : updateClosing fuel p inp s = some s1) : EasyHidden s1 := by
  have hk := stepScale_keeps inp s
  have hs1 : EasyHidden (stepScale inp s) :=
    ⟨hk.1.trans hs.1, hk.2.2.2.2.2.2.2.2.2.2.1.trans hs.2.1,
      hk.2.2.2.2.2.2.2.2.2.2.2.trans hs.2.2⟩
  unfold updateClosing at h
  dsimp only at h
  split_ifs at h with hac
  · unfold stepRestart at h
    split_ifs at h with hR
    · cases hr : resetAndSpawn fuel p inp 0 (stepScale inp s) with
      | none => simp [hr] at h
      | some r =>
        obtain ⟨s2, k2⟩ := r
        simp only [hr, Option.some.injEq] at h
        subst h
        refine stepHome_easy inp _ ?_
        exact resetAndSpawn_easy fuel p inp 0 k2 _ s2 hr hs1.1
    · simp only [Option.some.injEq] at h
      subst h
      exact stepHome_easy inp _ hs1
  · simp only [Option.some.injEq] at h
    subst h
    exact hs1

theorem updateOpening_easy (fuel : Nat) (p : Platform) (inp : Input) (s s1 : State)
    (hclick : clicked inp startBtn = true)
    (hd : selectDifficulty inp s.selectedDifficulty = Difficulty.DIFFICULTY_EASY)
    (h : updateOpening fuel p inp s = some s1) : EasyHidden s1 := by
  unfold updateOpening at h
  dsimp only at h
  simp only [hclick, if_true] at h
  cases hr : resetAndSpawn fuel p inp 0
      { s with selectedDifficulty := selectDifficulty inp s.selectedDifficulty } with
  | none => simp [hr] at h
  | some r =>
    obtain ⟨s2, k2⟩ := r
    simp only [hr, Option.some.injEq] at h
    subst h
    exact resetAndSpawn_easy fuel p inp 0 k2 _ s2 hr hd

theorem updateFrame_clickStart_easy (fuel : Nat) :
    updateFrame fuel samplePlatform clickStart easySelected = some startedEasy := by
  have hg : easySelected.gameState = GameState.OPENING_SCENE := rfl
  have hd : easySelected.selectedDifficulty = Difficulty.DIFFICULTY_EASY := rfl
  unfold updateFrame
  rw [hg]
  show updateOpening fuel samplePlatform clickStart easySelected = some startedEasy
  rw [updateOpening_start fuel samplePlatform clickStart _ clickStart_clicked (by rw [hd]; decide),
    hd]
  rfl

/-! ## How `elixirReady` becomes true -/

/-- The three outcomes of the pickup step (lines 345-358) when the elixir is on the map. -/
theorem stepElixirPickup_spec (inp : Input) (s : State) (ha : s.elixirAvailable = true) :
    (s.elixirDurationTimer + inp.dt ≥ 8 →
      (stepElixirPickup inp s).elixirAvailable = false ∧
      (stepElixirPickup inp s).elixirReady = s.elixirReady ∧
      (stepElixirPickup inp s).elixirDurationTimer = 0) ∧
    (s.elixirDurationTimer + inp.dt < 8 →
      (CheckCollisionCircles s.playerPos 20 s.elixirPos 50 = true →
        (stepElixirPickup inp s).elixirReady = true ∧
        (stepElixirPickup inp s).elixirAvailable = false ∧
        (stepElixirPickup inp s).elixirDurationTimer = 0) ∧
      (CheckCollisionCircles s.playerPos 20 s.elixirPos 50 = false →
        (stepElixirPickup inp s).elixirReady = s.elixirReady ∧
        (stepElixirPickup inp s).elixirAvailable = true ∧
        (stepElixirPickup inp s).elixirDurationTimer = s.elixirDurationTimer + inp.dt)) := by
  constructor
  · intro ht
    simp [stepElixirPickup, ha, ELIXIR_DURATION, ht]
  · intro ht
    have ht1 : ¬ (8 ≤ s.elixirDurationTimer + inp.dt) := not_le.mpr ht
    constructor
    · intro hc
      simp [stepElixirPickup, ha, ELIXIR_DURATION, ht1, hc]
    · intro hc
      simp [stepElixirPickup, ha, ELIXIR_DURATION, ht1, hc]

/-- The pickup step sets `elixirReady` only by a collection. -/
theorem stepElixirPickup_rise (inp : Input) (s : State) (h0 : s.elixirReady = false)
    (h1 : (stepElixirPickup inp s).elixirReady = true) :
    s.elixirAvailable = true ∧ s.elixirDurationTimer + inp.dt < 8 ∧
    CheckCollisionCircles s.playerPos 20 s.elixirPos 50 = true := by
  by_cases ha : s.elixirAvailable = true
  · have hsp := stepElixirPickup_spec inp s ha
    by_cases ht : s.elixirDurationTimer + inp.dt < 8
    · cases hc : CheckCollisionCircles s.playerPos 20 s.elixirPos 50 with
      | true => exact ⟨ha, ht, rfl⟩
      | false =>
        rw [((hsp.2 ht).2 hc).1, h0] at h1
        cases h1
    · rw [(hsp.1 (not_lt.mp ht)).2.1, h0] at h1
      cases h1
  · rw [stepElixirPickup_hidden inp s (by simpa using ha), h0] at h1
    cases h1

theorem stepElixirUse_ready (inp : Input) (s : State)
    (h : (stepElixirUse inp s).elixirReady = true) : s.elixirReady = true := by
  cases hr : s.elixirReady with
  | true => rfl
  | false => rw [stepElixirUse_unready inp s hr, hr] at h; cases h

theorem updateGameplay_ready (p : Platform) (inp : Input) (s : State)
    (h0 : s.elixirReady = false) (h1 : (updateGameplay p inp s).elixirReady = true) :
    s.gameOver = false ∧
    (beforePickup p inp s).elixirAvailable = true ∧
    (beforePickup p inp s).elixirDurationTimer + inp.dt < 8 ∧
    CheckCollisionCircles (beforePickup p inp s).playerPos 20
      (beforePickup p inp s).elixirPos 50 = true := by
  cases hov : s.gameOver with
  | true =>
    simp only [updateGameplay, hov, Bool.not_true, Bool.false_eq_true, if_false] at h1
    rw [h0] at h1
    cases h1
  | false =>
    rw [updateGameplay_running p inp s hov] at h1
    have h2 : (stepEnemies p inp (beforeEnemies p inp s)).elixirReady = true := by
      rcases (stepObstacles_flags p inp (stepEnemies p inp (beforeEnemies p inp s))).1 with h | h
      · rw [← h.2]; exact h1
      · rw [h.2] at h1; cases h1
    have h3 : (beforeEnemies p inp s).elixirReady = true := by
      rcases stepEnemies_flags p inp (beforeEnemies p inp s) with h | h
      · rw [← h.2]; exact h2
      · rw [h.2] at h2; cases h2
    have h4 : (beforeUse p inp s).elixirReady = true := stepElixirUse_ready inp _ h3
    have h5 : (beforePickup p inp s).elixirReady = false :=
      (beforePickup_keeps p inp s).2.2.2.2.2.2.2.trans h0
    exact ⟨rfl, stepElixirPickup_rise inp _ h5 h4⟩

theorem resetAndSpawn_ready (fuel : Nat) (p : Platform) (inp : Input) (k k1 : Nat)
    (s s1 : State) (h : resetAndSpawn fuel p inp k s = some (s1, k1)) :
    s1.elixirReady = false :=
  (resetAndSpawn_spec fuel p inp k k1 s s1 h).2.2.2.2.2.2.2.2.1

theorem updateOpening_ready (fuel : Nat) (p : Platform) (inp : Input) (s s1 : State)
    (h : updateOpening fuel p inp s = some s1) (h1 : s1.elixirReady = true) :
    s.elixirReady = true := by
  unfold updateOpening at h
  dsimp only at h
  split_ifs at h with hclick
  · cases hr : resetAndSpawn fuel p inp 0
        { s with selectedDifficulty := selectDifficulty inp s.selectedDifficulty } with
    | none => simp [hr] at h
    | some r =>
      obtain ⟨s2, k2⟩ := r
      simp only [hr, Option.some.injEq] at h
      subst h
      have := resetAndSpawn_ready fuel p inp 0 k2 _ s2 hr
      rw [show ({ s2 with
        elixirSpawnInterval := spawnIntervalFor s2.selectedDifficulty
        secondChanceUsed := false
        gameState := GameState.GAMEPLAY } : State).elixirReady = s2.elixirReady from rfl,
        this] at h1
      cases h1
  · simp only [Option.some.injEq] at h
    subst h
    exact h1

theorem updateMiniGame_ready (fuel : Nat) (p : Platform) (inp : Input) (s s1 : State)
    (h : updateMiniGame fuel p inp s = some s1) (h1 : s1.elixirReady = true) :
    s.elixirReady = true := by
  have hc := miniControls_keeps p inp s
  have ha := afterCollision_keeps p inp s
  unfold updateMiniGame at h
  dsimp only at h
  split_ifs at h with hl
  · cases hj : judge fuel p inp (afterCollision p inp s).2 (afterCollision p inp s).1 with
    | none => simp [hj] at h
    | some x =>
      simp only [hj, Option.some.injEq] at h
      subst h
      rw [(stepAnimatePins_keeps inp x).2.2.2.2.2.2.2.2.2.2.1] at h1
      rcases judge_cases fuel p inp _ _ x hj with ⟨_, rfl⟩ | ⟨_, _, rfl⟩ |
        ⟨_, _, s2, k2, hr, rfl⟩
      · rw [← ha.2.2.2.2.2.2.2.2.2.2.1]; exact h1
      · rw [(ResetBowling_keeps _ _ _).2.2.2.2.2.2.2.2.2.2.1] at h1
        rw [← ha.2.2.2.2.2.2.2.2.2.2.1]; exact h1
      · rw [(ResetBowling_keeps _ _ _).2.2.2.2.2.2.2.2.2.2.1] at h1
        have := resetAndSpawn_ready fuel p inp _ k2 _ s2 hr
        rw [show ({ s2 with gameState := GameState.GAMEPLAY } : State).elixirReady =
          s2.elixirReady from rfl, this] at h1
        cases h1
  · simp only [Option.some.injEq] at h
    subst h
    rw [(stepAnimatePins_keeps inp _).2.2.2.2.2.2.2.2.2.2.1, hc.2.2.2.2.2.2.2.2.2.2.2.1] at h1
    exact h1

theorem stepHome_ready (inp : Input) (s : State) (h1 : (stepHome inp s).elixirReady = true) :
    s.elixirReady = true := by
  unfold stepHome at h1
  split_ifs at h1
  · have hr := ResetGame_spec s.selectedDifficulty s
    rw [show ({ ResetGame s.selectedDifficulty s with
        secondChanceUsed := false
        gameState := GameState.OPENING_SCENE } : State).elixirReady =
      (ResetGame s.selectedDifficulty s).elixirReady from rfl, hr.2.2.2.2.2.2.2.2.1] at h1
    cases h1
  · exact h1

theorem updateClosing_ready (fuel : Nat) (p : Platform) (inp : Input) (s s1 : State)
    (h : updateClosing fuel p inp s = some s1) (h1 : s1.elixirReady = true) :
    s.elixirReady = true := by
  have hk := stepScale_keeps inp s
  unfold updateClosing at h
  dsimp only at h
  split_ifs at h with hac
  · unfold stepRestart at h
    split_ifs at h with hR
    · cases hr : resetAndSpawn fuel p inp 0 (stepScale inp s) with
      | none => simp [hr] at h
      | some r =>
        obtain ⟨s2, k2⟩ := r
        simp only [hr, Option.some.injEq] at h
        subst h
        have h2 := stepHome_ready inp _ h1
        have := resetAndSpawn_ready fuel p inp 0 k2 _ s2 hr
        rw [show ({ s2 with secondChanceUsed := false, gameState := GameState.GAMEPLAY } :
          State).elixirReady = s2.elixirReady from rfl, this] at h2
        cases h2
    · simp only [Option.some.injEq] at h
      subst h
      rw [← hk.2.2.2.2.2.2.2.2.2.2.2]
      exact stepHome_ready inp _ h1
  · simp only [Option.some.injEq] at h
    subst h
    rw [← hk.2.2.2.2.2.2.2.2.2.2.2]
    exact h1

theorem stepElixirSpawn_fires (inp : Input) (k : Nat) (s : State)
    (hd : s.selectedDifficulty ≠ Difficulty.DIFFICULTY_EASY) (ha : s.elixirAvailable = false)
    (hr : s.elixirReady = false) (hi : s.elixirSpawnInterval > 0)
    (ht : s.elixirSpawnTimer + inp.dt ≥ s.elixirSpawnInterval) :
    stepElixirSpawn inp k s =
      { s with
        elixirSpawnTimer := 0
        elixirPos :=
          ⟨GetRandomValue (inp.rand k) 50 (inp.screenWidth - 50),
           GetRandomValue (inp.rand (k + 1)) 50 (inp.screenHeight - 50)⟩
        elixirAvailable := true
        elixirDurationTimer := 0 } := by
  simp [stepElixirSpawn, hd, ha, hr, hi, ht]

theorem spawnSteps_keep_elixir (p : Platform) (inp : Input) (s : State) :
    (stepEnemySpawn p inp (stepPlayerBullets inp s)).1.elixirSpawnTimer = s.elixirSpawnTimer ∧
    (stepEnemySpawn p inp (stepPlayerBullets inp s)).1.elixirSpawnInterval =
      s.elixirSpawnInterval ∧
    (stepEnemySpawn p inp (stepPlayerBullets inp s)).1.elixirDurationTimer =
      s.elixirDurationTimer ∧
    (stepEnemySpawn p inp (stepPlayerBullets inp s)).1.elixirPos = s.elixirPos ∧
    (stepEnemySpawn p inp (stepPlayerBullets inp s)).1.playerPos =
      movePlayer inp s.playerPos := by
  have h1 : ∀ st : State, (stepEnemySpawn p inp st).1.elixirSpawnTimer = st.elixirSpawnTimer ∧
      (stepEnemySpawn p inp st).1.elixirSpawnInterval = st.elixirSpawnInterval ∧
      (stepEnemySpawn p inp st).1.elixirDurationTimer = st.elixirDurationTimer ∧
      (stepEnemySpawn p inp st).1.elixirPos = st.elixirPos := by
    intro st
    simp only [stepEnemySpawn]
    split_ifs <;> simp
  have h2 : (stepPlayerBullets inp s).elixirSpawnTimer = s.elixirSpawnTimer ∧
      (stepPlayerBullets inp s).elixirSpawnInterval = s.elixirSpawnInterval ∧
      (stepPlayerBullets inp s).elixirDurationTimer = s.elixirDurationTimer ∧
      (stepPlayerBullets inp s).elixirPos = s.elixirPos ∧
      (stepPlayerBullets inp s).playerPos = movePlayer inp s.playerPos := by
    simp only [stepPlayerBullets]
    split_ifs <;> simp
  simp only [h1, h2, stepEnemySpawn_keeps, and_self]

/-- On the frame `useInput` the elixir of the started medium game spawns on the player. -/
theorem useInput_beforePickup :
    (beforePickup samplePlatform useInput startedMedium).elixirAvailable = true ∧
    (beforePickup samplePlatform useInput startedMedium).elixirDurationTimer = 0 ∧
    (beforePickup samplePlatform useInput startedMedium).elixirPos = ⟨400, 300⟩ ∧
    (beforePickup samplePlatform useInput startedMedium).playerPos = ⟨400, 300⟩ := by
  have hk := spawnSteps_keep_elixir samplePlatform useInput startedMedium
  have hk2 := stepEnemySpawn_keeps samplePlatform useInput (stepPlayerBullets useInput startedMedium)
  have hk3 := stepPlayerBullets_keeps useInput startedMedium
  have hfire := stepElixirSpawn_fires useInput
    (stepEnemySpawn samplePlatform useInput (stepPlayerBullets useInput startedMedium)).2
    (stepEnemySpawn samplePlatform useInput (stepPlayerBullets useInput startedMedium)).1
    (by rw [hk2.1, hk3.1]; decide)
    (by rw [hk2.2.2.2.2.2.2.2.2.2.1, hk3.2.2.2.2.2.2.2.2.1]; rfl)
    (by rw [hk2.2.2.2.2.2.2.2.2.2.2.1, hk3.2.2.2.2.2.2.2.2.2.1]; rfl)
    (by rw [hk.2.1]; simp [startedMedium, spawnIntervalFor]; norm_num)
    (by rw [hk.1, hk.2.1]
        simp [startedMedium, spawnIntervalFor, ResetGame, ResetElixirState, useInput, idleInput]
        norm_num)
  have hbp : beforePickup samplePlatform useInput startedMedium =
      stepElixirSpawn useInput
        (stepEnemySpawn samplePlatform useInput (stepPlayerBullets useInput startedMedium)).2
        (stepEnemySpawn samplePlatform useInput (stepPlayerBullets useInput startedMedium)).1 := rfl
  rw [hbp, hfire]
  refine ⟨rfl, rfl, ?_, ?_⟩
  · simp [useInput, idleInput, GetRandomValue]
  · show (stepEnemySpawn samplePlatform useInput
      (stepPlayerBullets useInput startedMedium)).1.playerPos = _
    rw [hk.2.2.2.2]
    simp [movePlayer, useInput, idleInput, startedMedium, ResetGame, ResetElixirState]

theorem useInput_timer_overlap :
    (beforePickup samplePlatform useInput startedMedium).elixirDurationTimer + useInput.dt < 8 ∧
    CheckCollisionCircles (beforePickup samplePlatform useInput startedMedium).playerPos 20
      (beforePickup samplePlatform useInput startedMedium).elixirPos 50 = true := by
  have h := useInput_beforePickup
  rw [h.2.1, h.2.2.1, h.2.2.2]
  constructor
  · simp [useInput, idleInput]; norm_num
  · simp [CheckCollisionCircles]; norm_num

/-! ## The rack written by `LayoutPins` -/

theorem LayoutPins_eq_rack (W : Int) (pins : List Pin) (h : pins.length = NUM_PINS) :
    LayoutPins W pins = rackOf W := by
  match pins, h with
  | [a0, a1, a2, a3, a4, a5, a6, a7, a8, a9], _ =>
    simp [LayoutPins, layoutPin, List.range, List.range.loop, NUM_PINS, rackOf, rackPin]
    norm_num

/-! ## The pools: first free slot -/

theorem GetRandomValue_bounds (raw : Nat) (min max : Int) (h : min ≤ max) :
    min ≤ GetRandomValue raw min max ∧ GetRandomValue raw min max ≤ max := by
  have hlt : ¬ (min > max) := not_lt.mpr h
  simp only [GetRandomValue, hlt, if_false]
  have hpos : (0 : Int) < ((max - min).natAbs : Int) + 1 := by positivity
  have h1 := Int.emod_nonneg (raw : Int) (ne_of_gt hpos)
  have h2 := Int.emod_lt_of_pos (raw : Int) hpos
  have h3 : ((max - min).natAbs : Int) = max - min := Int.natAbs_of_nonneg (by omega)
  constructor
  · omega
  · rw [h3] at h2 ⊢
    omega

theorem first_free_bullet : ∀ bs : List Bullet, (∃ x ∈ bs, x.active = false) →
    ∃ pre b post, bs = pre ++ b :: post ∧ (∀ x ∈ pre, x.active = true) ∧ b.active = false
  | [], h => by simp at h
  | bl :: bs, h => by
    cases hb : bl.active with
    | false => exact ⟨[], bl, bs, rfl, by simp, hb⟩
    | true =>
      have h1 : ∃ x ∈ bs, x.active = false := by
        obtain ⟨x, hm, hx⟩ := h
        rcases List.mem_cons.mp hm with rfl | hm
        · rw [hb] at hx; cases hx
        · exact ⟨x, hm, hx⟩
      obtain ⟨pre, b, post, heq, hpre, hfree⟩ := first_free_bullet bs h1
      refine ⟨bl :: pre, b, post, by rw [heq]; rfl, ?_, hfree⟩
      intro x hx
      rcases List.mem_cons.mp hx with rfl | hx
      · exact hb
      · exact hpre x hx

theorem first_free_enemy : ∀ es : List Enemy, (∃ x ∈ es, x.active = false) →
    ∃ pre e post, es = pre ++ e :: post ∧ (∀ x ∈ pre, x.active = true) ∧ e.active = false
  | [], h => by simp at h
  | e :: es, h => by
    cases hb : e.active with
    | false => exact ⟨[], e, es, rfl, by simp, hb⟩
    | true =>
      have h1 : ∃ x ∈ es, x.active = false := by
        obtain ⟨x, hm, hx⟩ := h
        rcases List.mem_cons.mp hm with rfl | hm
        · rw [hb] at hx; cases hx
        · exact ⟨x, hm, hx⟩
      obtain ⟨pre, b, post, heq, hpre, hfree⟩ := first_free_enemy es h1
      refine ⟨e :: pre, b, post, by rw [heq]; rfl, ?_, hfree⟩
      intro x hx
      rcases List.mem_cons.mp hx with rfl | hx
      · exact hb
      · exact hpre x hx

theorem ShootBullet_first_free (pos : Vector2) : ∀ (pre : List Bullet) (b : Bullet)
    (post : List Bullet), (∀ x ∈ pre, x.active = true) → b.active = false →
    ShootBullet pos (pre ++ b :: post) = pre ++ ⟨pos, ⟨0, -400⟩, true⟩ :: post
  | [], b, post, _, hb => by simp [ShootBullet, hb]
  | x :: pre, b, post, hpre, hb => by
    have hx : x.active = true := hpre x (List.mem_cons_self _ _)
    have ih := ShootBullet_first_free pos pre b post
      (fun y hy => hpre y (List.mem_cons_of_mem _ hy)) hb
    simp [ShootBullet, hx, ih]

theorem ShootBullet_full (pos : Vector2) : ∀ bs : List Bullet,
    (∀ x ∈ bs, x.active = true) → ShootBullet pos bs = bs
  | [], _ => rfl
  | x :: bs, h => by
    have hx : x.active = true := h x (List.mem_cons_self _ _)
    simp [ShootBullet, hx, ShootBullet_full pos bs (fun y hy => h y (List.mem_cons_of_mem _ hy))]

theorem SpawnEnemy_first_free (p : Platform) (inp : Input) (d : Difficulty) (pos : Vector2)
    (k : Nat) : ∀ (pre : List Enemy) (e : Enemy) (post : List Enemy),
    (∀ x ∈ pre, x.active = true) → e.active = false →
    SpawnEnemy p inp d pos (pre ++ e :: post) k =
      (pre ++ { position := spawnPosition inp k
                speed := spawnSpeed d
                velocity := Vector2Scale (Vector2Normalize p
                  (Vector2Subtract pos (spawnPosition inp k))) (spawnSpeed d)
                active := true } :: post, k + 2)
  | [], e, post, _, he => SpawnEnemy_head p inp d pos e post k he
  | x :: pre, e, post, hpre, he => by
    have hx : x.active = true := hpre x (List.mem_cons_self _ _)
    have ih := SpawnEnemy_first_free p inp d pos k pre e post
      (fun y hy => hpre y (List.mem_cons_of_mem _ hy)) he
    simp [SpawnEnemy, hx, ih]

theorem SpawnEnemy_full (p : Platform) (inp : Input) (d : Difficulty) (pos : Vector2)
    (k : Nat) : ∀ es : List Enemy, (∀ x ∈ es, x.active = true) →
    SpawnEnemy p inp d pos es k = (es, k)
  | [], _ => rfl
  | x :: es, h => by
    have hx : x.active = true := h x (List.mem_cons_self _ _)
    simp [SpawnEnemy, hx,
      SpawnEnemy_full p inp d pos k es (fun y hy => h y (List.mem_cons_of_mem _ hy))]

theorem spawnPosition_onBorder (inp : Input) (k : Nat) (hw : 0 ≤ inp.screenWidth)
    (hh : 0 ≤ inp.screenHeight) : OnBorder inp (spawnPosition inp k) := by
  have hy := GetRandomValue_bounds (inp.rand (k + 1)) 0 inp.screenHeight hh
  have hx := GetRandomValue_bounds (inp.rand (k + 1)) 0 inp.screenWidth hw
  have hy1 : (0 : ℚ) ≤ (GetRandomValue (inp.rand (k + 1)) 0 inp.screenHeight : ℚ) := by
    exact_mod_cast hy.1
  have hy2 : (GetRandomValue (inp.rand (k + 1)) 0 inp.screenHeight : ℚ) ≤ inp.screenHeight := by
    exact_mod_cast hy.2
  have hx1 : (0 : ℚ) ≤ (GetRandomValue (inp.rand (k + 1)) 0 inp.screenWidth : ℚ) := by
    exact_mod_cast hx.1
  have hx2 : (GetRandomValue (inp.rand (k + 1)) 0 inp.screenWidth : ℚ) ≤ inp.screenWidth := by
    exact_mod_cast hx.2
  unfold spawnPosition
  dsimp only
  split_ifs
  · exact Or.inl ⟨by simp, hy1, hy2⟩
  · exact Or.inr (Or.inl ⟨rfl, hy1, hy2⟩)
  · exact Or.inr (Or.inr (Or.inl ⟨by simp, hx1, hx2⟩))
  · exact Or.inr (Or.inr (Or.inr ⟨rfl, hx1, hx2⟩))

theorem spawnSpeed_values :
    spawnSpeed Difficulty.DIFFICULTY_EASY = 50 ∧ spawnSpeed Difficulty.DIFFICULTY_MEDIUM = 85 ∧
    spawnSpeed Difficulty.DIFFICULTY_HARD = 100 := by
  refine ⟨?_, ?_, ?_⟩ <;> simp [spawnSpeed] <;> norm_num

/-- With an exact square root the scaled unit vector has the length of the scale. -/
theorem scaled_unit_length (p : Platform) (v : Vector2) (speed L : ℚ) (hL : 0 < L)
    (hsq : L * L = v.x * v.x + v.y * v.y) (hroot : p.sqrtf (v.x * v.x + v.y * v.y) = L) :
    (Vector2Normalize p v).x * (Vector2Normalize p v).x +
      (Vector2Normalize p v).y * (Vector2Normalize p v).y = 1 ∧
    (Vector2Scale (Vector2Normalize p v) speed).x * (Vector2Scale (Vector2Normalize p v) speed).x +
      (Vector2Scale (Vector2Normalize p v) speed).y * (Vector2Scale (Vector2Normalize p v) speed).y
      = speed * speed := by
  have hne : L ≠ 0 := ne_of_gt hL
  have hn : Vector2Normalize p v = ⟨v.x * (1 / L), v.y * (1 / L)⟩ := by
    simp [Vector2Normalize, hroot, hL]
  have h1 : v.x * (1 / L) * (v.x * (1 / L)) + v.y * (1 / L) * (v.y * (1 / L)) = 1 := by
    field_simp
    linarith
  rw [hn]
  refine ⟨h1, ?_⟩
  simp only [Vector2Scale]
  calc v.x * (1 / L) * speed * (v.x * (1 / L) * speed) +
        v.y * (1 / L) * speed * (v.y * (1 / L) * speed)
      = (v.x * (1 / L) * (v.x * (1 / L)) + v.y * (1 / L) * (v.y * (1 / L))) * (speed * speed) := by
        ring
    _ = speed * speed := by rw [h1, one_mul]

theorem initialState_bullets :
    (initialState 800 600).bullets = List.replicate MAX_BULLETS ⟨zeroVector, zeroVector, false⟩ := by
  simp [initialState, ResetElixirState, ResetBowling]

theorem samplePlatform_sqrt_250000 : samplePlatform.sqrtf (400 * 400 + 300 * 300) = 500 := by
  have h1 : ⌊((400 : ℚ) * 400 + 300 * 300) * 1000000⌋ = 250000000000 := by
    norm_num
  have h2 : Nat.sqrt 250000000000 = 500000 := by
    rw [show (250000000000 : ℕ) = 500000 * 500000 by norm_num, Nat.sqrt_eq]
  have h3 : Int.toNat 250000000000 = 250000000000 := rfl
  simp only [samplePlatform, h1, h3, h2]
  norm_num

/-! ## The bullet pool across a frame -/

theorem forall2_trans {α β γ : Type} {R : α → β → Prop} {S : β → γ → Prop}
    {T : α → γ → Prop} (h : ∀ a b c, R a b → S b c → T a c) :
    ∀ {l1 : List α} {l2 : List β} {l3 : List γ},
      List.Forall₂ R l1 l2 → List.Forall₂ S l2 l3 → List.Forall₂ T l1 l3
  | [], _, _, h1, h2 => by
    cases h1
    cases h2
    exact List.Forall₂.nil
  | _ :: _, _, _, h1, h2 => by
    cases h1 with
    | cons hab t1 =>
      cases h2 with
      | cons hbc t2 => exact List.Forall₂.cons (h _ _ _ hab hbc) (forall2_trans h t1 t2)

theorem forall2_refl {α : Type} {R : α → α → Prop} (h : ∀ a, R a a) :
    ∀ l : List α, List.Forall₂ R l l
  | [] => List.Forall₂.nil
  | a :: l => List.Forall₂.cons (h a) (forall2_refl h l)

theorem forall2_map {α β : Type} (f : α → β) :
    ∀ l : List α, List.Forall₂ (fun a b => b = f a) l (l.map f)
  | [] => List.Forall₂.nil
  | _ :: l => List.Forall₂.cons rfl (forall2_map f l)

theorem forall2_right {α β : Type} {R : α → β → Prop} {P : α → Prop} {Q : β → Prop}
    (h : ∀ a b, R a b → P a → Q b) :
    ∀ {l1 : List α} {l2 : List β}, List.Forall₂ R l1 l2 → (∀ a ∈ l1, P a) → ∀ b ∈ l2, Q b
  | _, _, List.Forall₂.nil, _, b, hb => by simp at hb
  | _, _, List.Forall₂.cons hab t, hp, b, hb => by
    rcases List.mem_cons.mp hb with rfl | hb
    · exact h _ _ hab (hp _ (List.mem_cons_self _ _))
    · exact forall2_right h t (fun a ha => hp a (List.mem_cons_of_mem _ ha)) b hb

theorem Dimmed_refl (b : Bullet) : Dimmed b b := ⟨rfl, rfl, id⟩

theorem Dimmed_trans (a b c : Bullet) (h1 : Dimmed a b) (h2 : Dimmed b c) : Dimmed a c :=
  ⟨h2.1.trans h1.1, h2.2.1.trans h1.2.1, fun h => h1.2.2 (h2.2.2 h)⟩

/-- `ShootBullet` leaves every active slot as it is, and an inactive slot either as
it is or holding the new bullet. -/
theorem ShootBullet_slots (pos : Vector2) : ∀ bs : List Bullet,
    List.Forall₂ (fun b b1 => (b.active = true → b1 = b) ∧
      (b.active = false → b1 = b ∨ b1 = ⟨pos, ⟨0, -400⟩, true⟩)) bs (ShootBullet pos bs)
  | [] => by simp [ShootBullet]
  | bl :: bs => by
    unfold ShootBullet
    split_ifs with h
    · refine List.Forall₂.cons ⟨fun ha => ?_, fun _ => Or.inr rfl⟩
        (forall2_refl (fun a => ⟨fun _ => rfl, fun _ => Or.inl rfl⟩) bs)
      rw [ha] at h
      simp at h
    · exact List.Forall₂.cons ⟨fun _ => rfl, fun _ => Or.inl rfl⟩ (ShootBullet_slots pos bs)

theorem hitBullet_dimmed (pos : Vector2) : ∀ (bs bs1 : List Bullet),
    hitBullet pos bs = some bs1 → List.Forall₂ Dimmed bs bs1
  | [], _, h => by simp [hitBullet] at h
  | bl :: bs, bs1, h => by
    unfold hitBullet at h
    split_ifs at h
    · cases h
      exact List.Forall₂.cons ⟨rfl, rfl, fun h => by simp at h⟩ (forall2_refl Dimmed_refl bs)
    · cases hr : hitBullet pos bs with
      | none => simp [hr] at h
      | some bs2 =>
        simp only [hr, Option.some.injEq] at h
        subst h
        exact List.Forall₂.cons (Dimmed_refl bl) (hitBullet_dimmed pos bs bs2 hr)

theorem enemyLoop_dimmed (p : Platform) (dt : ℚ) (pos : Vector2) :
    ∀ (es : List Enemy) (bs : List Bullet) (sc : Int),
      List.Forall₂ Dimmed bs (enemyLoop p dt pos es bs sc).bullets
  | [], bs, _ => forall2_refl Dimmed_refl bs
  | e :: es, bs, sc => by
    cases ha : e.active with
    | false =>
      rw [enemyLoop_inactive p dt pos e es bs sc ha]
      exact enemyLoop_dimmed p dt pos es bs sc
    | true =>
      cases hc : CheckCollisionCircles (pursue p dt pos e).position 20 pos 20 with
      | true =>
        rw [enemyLoop_catch p dt pos e es bs sc ha hc]
        exact forall2_refl Dimmed_refl bs
      | false =>
        cases hb : hitBullet (pursue p dt pos e).position bs with
        | none =>
          rw [enemyLoop_miss p dt pos e es bs sc ha hc hb]
          exact enemyLoop_dimmed p dt pos es bs sc
        | some bs1 =>
          rw [enemyLoop_hit p dt pos e es bs bs1 sc ha hc hb]
          exact forall2_trans Dimmed_trans (hitBullet_dimmed _ bs bs1 hb)
            (enemyLoop_dimmed p dt pos es bs1 (sc + 1))

/-- The obstacle loop leaves the pools and the score as they are. -/
theorem stepObstacles_pools (p : Platform) (inp : Input) (st : State) :
    (stepObstacles p inp st).bullets = st.bullets ∧
    (stepObstacles p inp st).enemies = st.enemies ∧
    (stepObstacles p inp st).score = st.score := by
  unfold stepObstacles
  split_ifs
  · refine foldl_preserves
      (fun x : State => x.bullets = st.bullets ∧ x.enemies = st.enemies ∧ x.score = st.score)
      _ ?_ _ _ ⟨rfl, rfl, rfl⟩
    intro x o hx
    split_ifs
    · have hk : (secondChanceOrOver inp x).bullets = x.bullets ∧
          (secondChanceOrOver inp x).enemies = x.enemies ∧
          (secondChanceOrOver inp x).score = x.score := by
        simp only [secondChanceOrOver]
        split_ifs <;> simp [ResetBowling, ResetElixirState]
      exact ⟨hk.1.trans hx.1, hk.2.1.trans hx.2.1, hk.2.2.trans hx.2.2⟩
    · exact hx
  · exact ⟨rfl, rfl, rfl⟩

/-- The pools and the score after the enemy step are those the enemy loop leaves. -/
theorem stepEnemies_pools (p : Platform) (inp : Input) (st : State) :
    (stepEnemies p inp st).bullets =
      (enemyLoop p inp.dt st.playerPos st.enemies st.bullets st.score).bullets ∧
    (stepEnemies p inp st).enemies =
      (enemyLoop p inp.dt st.playerPos st.enemies st.bullets st.score).enemies ∧
    (stepEnemies p inp st).score =
      (enemyLoop p inp.dt st.playerPos st.enemies st.bullets st.score).score := by
  unfold stepEnemies
  dsimp only
  split_ifs
  · simp only [onCaught]
    split_ifs <;> simp [ResetBowling, ResetElixirState]
  · exact ⟨rfl, rfl, rfl⟩

theorem beforeEnemies_bullets (p : Platform) (inp : Input) (s : State) :
    (beforeEnemies p inp s).bullets = (stepPlayerBullets inp s).bullets := by
  simp only [beforeEnemies, beforeUse, beforePickup, stepElixirUse_keeps,
    stepElixirPickup_keeps, stepElixirSpawn_keeps, stepEnemySpawn_keeps]

/-- The pools and the score after a running Survival frame. -/
theorem updateGameplay_pools (p : Platform) (inp : Input) (s : State)
    (hov : s.gameOver = false) :
    (updateGameplay p inp s).bullets =
      (enemyLoop p inp.dt (beforeEnemies p inp s).playerPos (beforeEnemies p inp s).enemies
        (beforeEnemies p inp s).bullets s.score).bullets ∧
    (updateGameplay p inp s).enemies =
      (enemyLoop p inp.dt (beforeEnemies p inp s).playerPos (beforeEnemies p inp s).enemies
        (beforeEnemies p inp s).bullets s.score).enemies ∧
    (updateGameplay p inp s).score =
      (enemyLoop p inp.dt (beforeEnemies p inp s).playerPos (beforeEnemies p inp s).enemies
        (beforeEnemies p inp s).bullets s.score).score := by
  rw [updateGameplay_running p inp s hov]
  have h1 := stepObstacles_pools p inp (stepEnemies p inp (beforeEnemies p inp s))
  have h2 := stepEnemies_pools p inp (beforeEnemies p inp s)
  have h3 : (beforeEnemies p inp s).score = s.score := (beforeEnemies_keeps p inp s).2.2.2.2.2.2.1
  rw [h3] at h2
  exact ⟨h1.1.trans h2.1, h1.2.1.trans h2.2.1, h1.2.2.trans h2.2.2⟩

theorem advanceBullet_spec (dt : ℚ) (b : Bullet) :
    (b.active = true →
      (advanceBullet dt b).position = ⟨b.position.x, b.position.y + b.velocity.y * dt⟩ ∧
      ((advanceBullet dt b).active = true ↔ ¬ b.position.y + b.velocity.y * dt < 0)) ∧
    (advanceBullet dt b).velocity = b.velocity ∧
    (b.active = false → (advanceBullet dt b).active = false) := by
  unfold advanceBullet
  split_ifs with h
  · dsimp only
    refine ⟨fun _ => ⟨rfl, ?_⟩, rfl, fun h1 => by rw [h] at h1; cases h1⟩
    split_ifs with hy
    · simp [hy]
    · simp [hy, h]
  · refine ⟨fun h1 => absurd h1 h, rfl, fun h1 => h1⟩

theorem stepPlayerBullets_slots (inp : Input) (s : State) :
    List.Forall₂ (fun b b2 =>
      (b.active = true → b2 = advanceBullet inp.dt b) ∧
      (b.active = false → b2 = advanceBullet inp.dt b ∨
        b2 = advanceBullet inp.dt ⟨movePlayer inp s.playerPos, ⟨0, -400⟩, true⟩))
      s.bullets (stepPlayerBullets inp s).bullets := by
  unfold stepPlayerBullets
  dsimp only
  split_ifs
  · refine forall2_trans ?_ (ShootBullet_slots (movePlayer inp s.playerPos) s.bullets)
      (forall2_map (advanceBullet inp.dt) _)
    rintro a b c ⟨h1, h2⟩ rfl
    refine ⟨fun ha => by rw [h1 ha], fun ha => ?_⟩
    rcases h2 ha with h | h
    · exact Or.inl (by rw [h])
    · exact Or.inr (by rw [h])
  · refine forall2_trans ?_ (forall2_refl (fun a : Bullet => (rfl : a = a)) s.bullets)
      (forall2_map (advanceBullet inp.dt) _)
    rintro a b c rfl rfl
    exact ⟨fun _ => rfl, fun _ => Or.inl rfl⟩

/-- Slot by slot, the bullets before and after a running Survival frame. -/
theorem updateGameplay_bullets (p : Platform) (inp : Input) (s : State)
    (hov : s.gameOver = false) :
    List.Forall₂ (BulletFrame inp.dt) s.bullets (updateGameplay p inp s).bullets := by
  rw [(updateGameplay_pools p inp s hov).1, beforeEnemies_bullets]
  refine forall2_trans ?_ (stepPlayerBullets_slots inp s) (enemyLoop_dimmed p inp.dt _ _ _ _)
  rintro b b2 b3 ⟨h1, h2⟩ ⟨hp, hv, hact⟩
  have hb := advanceBullet_spec inp.dt b
  constructor
  · intro ha
    have e := h1 ha
    subst e
    refine ⟨hp.trans (hb.1 ha).1, hv.trans hb.2.1, fun hy => ?_⟩
    cases h3 : b3.active with
    | false => rfl
    | true => exact absurd hy (((hb.1 ha).2).mp (hact h3))
  · intro h3
    have h2a := hact h3
    cases ha : b.active with
    | true =>
      have e := h1 ha
      subst e
      have hy := ((hb.1 ha).2).mp h2a
      rw [hp, (hb.1 ha).1]
      exact ⟨le_of_not_lt hy, Or.inl ⟨rfl, hv.trans hb.2.1⟩⟩
    | false =>
      rcases h2 ha with e | e
      · subst e
        rw [hb.2.2 ha] at h2a
        cases h2a
      · subst e
        have hn := advanceBullet_spec inp.dt ⟨movePlayer inp s.playerPos, ⟨0, -400⟩, true⟩
        have hy := ((hn.1 rfl).2).mp h2a
        rw [hp, (hn.1 rfl).1, hv, hn.2.1]
        exact ⟨le_of_not_lt hy, Or.inr rfl⟩

theorem BulletsUp_of_eq (s s1 : State) (hs : BulletsUp s) (h : s1.bullets = s.bullets) :
    BulletsUp s1 := by
  unfold BulletsUp
  rw [h]
  exact hs

theorem BulletsUp_of_inactive (s1 : State) (h : ∀ x ∈ s1.bullets, x.active = false) :
    BulletsUp s1 := by
  intro b hb ha
  rw [h b hb] at ha
  cases ha

theorem updateGameplay_bulletsUp (p : Platform) (inp : Input) (s : State)
    (hs : BulletsUp s) : BulletsUp (updateGameplay p inp s) := by
  cases hov : s.gameOver with
  | true =>
    have e : updateGameplay p inp s = s := by simp [updateGameplay, hov]
    rw [e]
    exact hs
  | false =>
    refine forall2_right (P := fun b : Bullet => b.active = true → b.velocity = ⟨0, -400⟩)
      (Q := fun b : Bullet => b.active = true → b.velocity = ⟨0, -400⟩) ?_
      (updateGameplay_bullets p inp s hov) hs
    intro b b1 hf hb h1
    rcases (hf.2 h1).2 with ⟨ha, hv⟩ | hv
    · exact hv.trans (hb ha)
    · exact hv

theorem updateOpening_bulletsUp (fuel : Nat) (p : Platform) (inp : Input) (s s1 : State)
    (hs : BulletsUp s) (h : updateOpening fuel p inp s = some s1) : BulletsUp s1 := by
  unfold updateOpening at h
  dsimp only at h
  split_ifs at h with hclick
  · cases hr : resetAndSpawn fuel p inp 0
        { s with selectedDifficulty := selectDifficulty inp s.selectedDifficulty } with
    | none => simp [hr] at h
    | some r =>
      obtain ⟨s2, k2⟩ := r
      have ht := resetAndSpawn_spec fuel p inp 0 k2 _ s2 hr
      simp only [hr, Option.some.injEq] at h
      subst h
      exact BulletsUp_of_inactive _ ht.2.2.2.2.2.2.2.2.2.2.2.2.2.2.2.2.1
  · simp only [Option.some.injEq] at h
    subst h
    exact hs

theorem updateMiniGame_bulletsUp (fuel : Nat) (p : Platform) (inp : Input) (s s1 : State)
    (hs : BulletsUp s) (h : updateMiniGame fuel p inp s = some s1) : BulletsUp s1 := by
  have hc := miniControls_keeps p inp s
  have ha := afterCollision_keeps p inp s
  unfold updateMiniGame at h
  dsimp only at h
  split_ifs at h with hl
  · cases hj : judge fuel p inp (afterCollision p inp s).2 (afterCollision p inp s).1 with
    | none => simp [hj] at h
    | some x =>
      simp only [hj, Option.some.injEq] at h
      subst h
      have hx : BulletsUp x := by
        rcases judge_cases fuel p inp _ _ x hj with ⟨_, rfl⟩ | ⟨_, _, rfl⟩ |
          ⟨_, _, s2, k2, hr, rfl⟩
        · exact BulletsUp_of_eq s _ hs ha.2.2.2.2.2.2.1
        · exact BulletsUp_of_eq s _ hs (by simpa [ResetBowling] using ha.2.2.2.2.2.2.1)
        · have ht := resetAndSpawn_spec fuel p inp _ k2 _ s2 hr
          refine BulletsUp_of_inactive _ ?_
          simpa [ResetBowling] using ht.2.2.2.2.2.2.2.2.2.2.2.2.2.2.2.2.1
      exact BulletsUp_of_eq x _ hx rfl
  · simp only [Option.some.injEq] at h
    subst h
    exact BulletsUp_of_eq s _ hs hc.2.2.2.2.2.2.2.1

theorem updateClosing_bulletsUp (fuel : Nat) (p : Platform) (inp : Input) (s s1 : State)
    (hs : BulletsUp s) (h : updateClosing fuel p inp s = some s1) : BulletsUp s1 := by
  have hh : ∀ x : State, BulletsUp x → BulletsUp (stepHome inp x) := by
    intro x hx
    unfold stepHome
    split_ifs
    · exact BulletsUp_of_inactive _ (ResetGame_spec x.selectedDifficulty x).2.2.2.2.2.2.2.2.2.2.2.2.2.2.2.2.1
    · exact hx
  have h0 : BulletsUp (stepScale inp s) :=
    BulletsUp_of_eq s _ hs (stepScale_keeps inp s).2.2.2.2.2.2.2.1
  unfold updateClosing at h
  dsimp only at h
  split_ifs at h with hac
  · unfold stepRestart at h
    split_ifs at h with hR
    · cases hr : resetAndSpawn fuel p inp 0 (stepScale inp s) with
      | none => simp [hr] at h
      | some r =>
        obtain ⟨s2, k2⟩ := r
        have ht := resetAndSpawn_spec fuel p inp 0 k2 _ s2 hr
        simp only [hr, Option.some.injEq] at h
        subst h
        exact hh _ (BulletsUp_of_inactive _ ht.2.2.2.2.2.2.2.2.2.2.2.2.2.2.2.2.1)
    · simp only [Option.some.injEq] at h
      subst h
      exact hh _ h0
  · simp only [Option.some.injEq] at h
    subst h
    exact h0

theorem Reachable_bulletsUp (p : Platform) (s : State) (hr : Reachable p s) : BulletsUp s := by
  induction hr with
  | init w h =>
    refine BulletsUp_of_inactive _ ?_
    intro x hx
    have hb : (initialState w h).bullets =
        List.replicate MAX_BULLETS ⟨zeroVector, zeroVector, false⟩ := by
      simp [initialState, ResetElixirState, ResetBowling]
    rw [hb] at hx
    rw [(List.mem_replicate.mp hx).2]
  | step fuel inp hprev hstep ih =>
    rename_i s0 s1
    unfold updateFrame at hstep
    cases hg : s0.gameState with
    | OPENING_SCENE => rw [hg] at hstep; exact updateOpening_bulletsUp fuel p inp _ _ ih hstep
    | GAMEPLAY =>
      rw [hg] at hstep
      simp only [Option.some.injEq] at hstep
      subst hstep
      exact updateGameplay_bulletsUp p inp _ ih
    | MINI_GAME => rw [hg] at hstep; exact updateMiniGame_bulletsUp fuel p inp _ _ ih hstep
    | CLOSING_SCENE => rw [hg] at hstep; exact updateClosing_bulletsUp fuel p inp _ _ ih hstep

theorem forall2_left_mem {α β : Type} {R : α → β → Prop} {P : α → Prop} :
    ∀ {l1 : List α} {l2 : List β}, List.Forall₂ R l1 l2 → (∀ a ∈ l1, P a) →
      List.Forall₂ (fun a b => R a b ∧ P a) l1 l2
  | _, _, List.Forall₂.nil, _ => List.Forall₂.nil
  | _, _, List.Forall₂.cons hab t, hp =>
    List.Forall₂.cons ⟨hab, hp _ (List.mem_cons_self _ _)⟩
      (forall2_left_mem t (fun a ha => hp a (List.mem_cons_of_mem _ ha)))

/-! ## Scene changes of one frame -/

theorem secondChanceOrOver_exit (inp : Input) (x : State) :
    SurvivalExit (secondChanceOrOver inp x) := by
  unfold secondChanceOrOver
  split_ifs
  · exact Or.inr (Or.inl rfl)
  · exact Or.inr (Or.inr rfl)

theorem onCaught_exit (inp : Input) (x : State) : SurvivalExit (onCaught inp x) := by
  unfold onCaught
  split_ifs
  · exact Or.inr (Or.inl rfl)
  · exact Or.inr (Or.inr rfl)

theorem updateGameplay_exit (p : Platform) (inp : Input) (s : State)
    (hscene : s.gameState = GameState.GAMEPLAY) : SurvivalExit (updateGameplay p inp s) := by
  unfold updateGameplay
  split_ifs
  · have h1 : SurvivalExit (stepEnemies p inp (beforeEnemies p inp s)) := by
      unfold stepEnemies
      dsimp only
      split_ifs
      · exact onCaught_exit inp _
      · exact Or.inl ((beforeEnemies_keeps p inp s).2.2.2.1.trans hscene)
    unfold stepObstacles
    split_ifs
    · refine foldl_preserves SurvivalExit _ ?_ _ _ h1
      intro x o hx
      split_ifs
      · exact secondChanceOrOver_exit inp x
      · exact hx
    · exact h1
  · exact Or.inl hscene

theorem updateOpening_scene (fuel : Nat) (p : Platform) (inp : Input) (s s1 : State)
    (h : updateOpening fuel p inp s = some s1) :
    s1.gameState = s.gameState ∨ s1.gameState = GameState.GAMEPLAY := by
  unfold updateOpening at h
  dsimp only at h
  split_ifs at h with hclick
  · cases hr : resetAndSpawn fuel p inp 0
        { s with selectedDifficulty := selectDifficulty inp s.selectedDifficulty } with
    | none => simp [hr] at h
    | some r =>
      obtain ⟨s2, k2⟩ := r
      simp only [hr, Option.some.injEq] at h
      subst h
      exact Or.inr rfl
  · simp only [Option.some.injEq] at h
    subst h
    exact Or.inl rfl

theorem updateMiniGame_scene (fuel : Nat) (p : Platform) (inp : Input) (s s1 : State)
    (h : updateMiniGame fuel p inp s = some s1) :
    s1.gameState = s.gameState ∨ s1.gameState = GameState.GAMEPLAY ∨
    s1.gameState = GameState.CLOSING_SCENE := by
  have hc := miniControls_keeps p inp s
  have ha := afterCollision_keeps p inp s
  unfold updateMiniGame at h
  dsimp only at h
  split_ifs at h with hl
  · cases hj : judge fuel p inp (afterCollision p inp s).2 (afterCollision p inp s).1 with
    | none => simp [hj] at h
    | some x =>
      simp only [hj, Option.some.injEq] at h
      subst h
      rw [(stepAnimatePins_keeps inp x).2.2.2.1]
      rcases judge_cases fuel p inp _ _ x hj with ⟨_, rfl⟩ | ⟨_, _, rfl⟩ |
        ⟨_, _, s2, k2, hr, rfl⟩
      · exact Or.inl ha.2.2.2.1
      · rw [(ResetBowling_keeps _ _ _).2.2.2.1]
        exact Or.inr (Or.inr rfl)
      · rw [(ResetBowling_keeps _ _ _).2.2.2.1]
        exact Or.inr (Or.inl rfl)
  · simp only [Option.some.injEq] at h
    subst h
    rw [(stepAnimatePins_keeps inp _).2.2.2.1]
    exact Or.inl hc.2.2.2.1

theorem stepHome_scene (inp : Input) (s : State) :
    (stepHome inp s).gameState = s.gameState ∨
    (stepHome inp s).gameState = GameState.OPENING_SCENE := by
  unfold stepHome
  split_ifs
  · exact Or.inr rfl
  · exact Or.inl rfl

theorem updateClosing_scene (fuel : Nat) (p : Platform) (inp : Input) (s s1 : State)
    (h : updateClosing fuel p inp s = some s1) :
    s1.gameState = s.gameState ∨ s1.gameState = GameState.GAMEPLAY ∨
    s1.gameState = GameState.OPENING_SCENE := by
  have hk := stepScale_keeps inp s
  unfold updateClosing at h
  dsimp only at h
  split_ifs at h with hac
  · unfold stepRestart at h
    split_ifs at h with hR
    · cases hr : resetAndSpawn fuel p inp 0 (stepScale inp s) with
      | none => simp [hr] at h
      | some r =>
        obtain ⟨s2, k2⟩ := r
        simp only [hr, Option.some.injEq] at h
        subst h
        rcases stepHome_scene inp
          { s2 with secondChanceUsed := false, gameState := GameState.GAMEPLAY } with h1 | h1
        · exact Or.inr (Or.inl h1)
        · exact Or.inr (Or.inr h1)
    · simp only [Option.some.injEq] at h
      subst h
      rcases stepHome_scene inp (stepScale inp s) with h1 | h1
      · exact Or.inl (h1.trans hk.2.2.2.1)
      · exact Or.inr (Or.inr h1)
  · simp only [Option.some.injEq] at h
    subst h
    exact Or.inl hk.2.2.2.1

/-! ## The score of the enemy loop -/

theorem lostCount_cons {α : Type} (act : α → Bool) (a b : α) (l l1 : List α) :
    lostCount act (a :: l) (b :: l1) =
      (if act a && !act b then 1 else 0) + lostCount act l l1 := by
  unfold lostCount
  rw [List.zip_cons_cons, List.filter_cons]
  split_ifs
  · simp; omega
  · simp

theorem lostCount_self {α : Type} (act : α → Bool) : ∀ l : List α, lostCount act l l = 0
  | [] => rfl
  | a :: l => by
    rw [lostCount_cons, lostCount_self act l]
    cases act a <;> rfl

theorem lostCount_add {α : Type} (act : α → Bool) :
    ∀ {l1 l2 l3 : List α},
      List.Forall₂ (fun a b => act b = true → act a = true) l1 l2 →
      List.Forall₂ (fun a b => act b = true → act a = true) l2 l3 →
      lostCount act l1 l3 = lostCount act l1 l2 + lostCount act l2 l3
  | [], _, _, h1, h2 => by
    cases h1
    cases h2
    rfl
  | _ :: _, _, _, h1, h2 => by
    cases h1 with
    | cons hab t1 =>
      cases h2 with
      | cons hbc t2 =>
        rename_i a l1 b l2 c l3
        rw [lostCount_cons, lostCount_cons, lostCount_cons, lostCount_add act t1 t2]
        cases ha : act a <;> cases hb : act b <;> cases hc : act c <;>
          simp [ha, hb, hc] at hab hbc ⊢ <;> omega

theorem pursue_active (p : Platform) (dt : ℚ) (pos : Vector2) (e : Enemy) :
    (pursue p dt pos e).active = e.active := by
  unfold pursue
  dsimp only
  split_ifs <;> rfl

theorem hitBullet_none (pos : Vector2) : ∀ bs : List Bullet,
    (∀ x ∈ bs, bulletHits pos x = false) → hitBullet pos bs = none
  | [], _ => rfl
  | bl :: bs, h => by
    have h0 : (bl.active && CheckCollisionCircles pos 20 bl.position 5) = false :=
      h bl (List.mem_cons_self _ _)
    have ih := hitBullet_none pos bs (fun x hx => h x (List.mem_cons_of_mem _ hx))
    simp [hitBullet, h0, ih]

/-- The inner bullet loop deactivates the lowest-index bullet that hits, and no other. -/
theorem hitBullet_first (pos : Vector2) : ∀ bs : List Bullet,
    (∃ x ∈ bs, bulletHits pos x = true) →
    ∃ pre b post, bs = pre ++ b :: post ∧ (∀ x ∈ pre, bulletHits pos x = false) ∧
      bulletHits pos b = true ∧
      hitBullet pos bs = some (pre ++ { b with active := false } :: post)
  | [], h => by simp at h
  | bl :: bs, h => by
    cases h0 : bulletHits pos bl with
    | true =>
      refine ⟨[], bl, bs, rfl, by simp, h0, ?_⟩
      have h1 : (bl.active && CheckCollisionCircles pos 20 bl.position 5) = true := h0
      simp [hitBullet, h1]
    | false =>
      have h1 : ∃ x ∈ bs, bulletHits pos x = true := by
        obtain ⟨x, hm, hx⟩ := h
        rcases List.mem_cons.mp hm with rfl | hm
        · rw [h0] at hx; cases hx
        · exact ⟨x, hm, hx⟩
      obtain ⟨pre, b, post, heq, hpre, hb, hres⟩ := hitBullet_first pos bs h1
      refine ⟨bl :: pre, b, post, by rw [heq]; rfl, ?_, hb, ?_⟩
      · intro x hx
        rcases List.mem_cons.mp hx with rfl | hx
        · exact h0
        · exact hpre x hx
      · have h2 : (bl.active && CheckCollisionCircles pos 20 bl.position 5) = false := h0
        simp [hitBullet, h2, hres]

theorem hitBullet_lost (pos : Vector2) : ∀ (bs bs1 : List Bullet),
    hitBullet pos bs = some bs1 → lostCount (fun b : Bullet => b.active) bs bs1 = 1
  | [], _, h => by simp [hitBullet] at h
  | bl :: bs, bs1, h => by
    unfold hitBullet at h
    split_ifs at h with hc
    · cases h
      rw [lostCount_cons, lostCount_self]
      simp only [Bool.and_eq_true] at hc
      simp [hc.1]
    · cases hr : hitBullet pos bs with
      | none => simp [hr] at h
      | some bs2 =>
        simp only [hr, Option.some.injEq] at h
        subst h
        rw [lostCount_cons, hitBullet_lost pos bs bs2 hr]
        cases bl.active <;> rfl

/-- The score the enemy loop returns counts the enemies it deactivated, and counts
the bullets it deactivated. -/
theorem enemyLoop_score (p : Platform) (dt : ℚ) (pos : Vector2) :
    ∀ (es : List Enemy) (bs : List Bullet) (sc : Int),
      (enemyLoop p dt pos es bs sc).score =
        sc + lostCount (fun e : Enemy => e.active) es (enemyLoop p dt pos es bs sc).enemies ∧
      (enemyLoop p dt pos es bs sc).score =
        sc + lostCount (fun b : Bullet => b.active) bs (enemyLoop p dt pos es bs sc).bullets
  | [], bs, sc => by
    simp [enemyLoop, lostCount_self]
  | e :: es, bs, sc => by
    cases ha : e.active with
    | false =>
      rw [enemyLoop_inactive p dt pos e es bs sc ha]
      have ih := enemyLoop_score p dt pos es bs sc
      dsimp only
      rw [lostCount_cons]
      simp only [ha, Bool.false_and, Bool.false_eq_true, if_false, zero_add]
      exact ih
    | true =>
      have hp : (pursue p dt pos e).active = true := (pursue_active p dt pos e).trans ha
      cases hc : CheckCollisionCircles (pursue p dt pos e).position 20 pos 20 with
      | true =>
        rw [enemyLoop_catch p dt pos e es bs sc ha hc]
        dsimp only
        rw [lostCount_cons, lostCount_self, lostCount_self]
        simp [ha, hp]
      | false =>
        cases hb : hitBullet (pursue p dt pos e).position bs with
        | none =>
          rw [enemyLoop_miss p dt pos e es bs sc ha hc hb]
          have ih := enemyLoop_score p dt pos es bs sc
          dsimp only
          rw [lostCount_cons]
          simp only [ha, hp, Bool.not_true, Bool.and_false, Bool.false_eq_true, if_false,
            zero_add]
          exact ih
        | some bs1 =>
          rw [enemyLoop_hit p dt pos e es bs bs1 sc ha hc hb]
          have ih := enemyLoop_score p dt pos es bs1 (sc + 1)
          have hd1 := hitBullet_dimmed (pursue p dt pos e).position bs bs1 hb
          have hd2 := enemyLoop_dimmed p dt pos es bs1 (sc + 1)
          have hadd := lostCount_add (fun b : Bullet => b.active)
            (List.Forall₂.imp (fun a b (h : Dimmed a b) => h.2.2) hd1)
            (List.Forall₂.imp (fun a b (h : Dimmed a b) => h.2.2) hd2)
          dsimp only
          rw [lostCount_cons, hadd, hitBullet_lost _ bs bs1 hb]
          simp only [ha, Bool.not_false, Bool.and_self, if_true]
          constructor
          · rw [ih.1]; push_cast; ring
          · rw [ih.2]; push_cast; ring

/-! ## Enemy slots activated by a frame -/

theorem activatedCount_cons (a b : Enemy) (l l1 : List Enemy) :
    activatedCount (a :: l) (b :: l1) =
      (if !a.active && b.active then 1 else 0) + activatedCount l l1 := by
  unfold activatedCount
  rw [List.zip_cons_cons, List.filter_cons]
  split_ifs
  · simp; omega
  · simp

theorem activatedCount_self : ∀ l : List Enemy, activatedCount l l = 0
  | [] => rfl
  | a :: l => by
    rw [activatedCount_cons, activatedCount_self l]
    cases a.active <;> rfl

theorem activatedCount_inactive : ∀ (l l1 : List Enemy), (∀ x ∈ l1, x.active = false) →
    activatedCount l l1 = 0
  | [], _, _ => by simp [activatedCount]
  | _ :: _, [], _ => by simp [activatedCount]
  | a :: l, b :: l1, h => by
    rw [activatedCount_cons, activatedCount_inactive l l1
      (fun x hx => h x (List.mem_cons_of_mem _ hx)), h b (List.mem_cons_self _ _)]
    simp

theorem activatedCount_fade : ∀ (l : List Enemy) {l1 l2 : List Enemy}, Fade l1 l2 →
    activatedCount l l2 ≤ activatedCount l l1
  | [], _, _, _ => by simp [activatedCount]
  | a :: l, _, _, h => by
    cases h with
    | nil => simp [activatedCount]
    | cons hbc t =>
      rename_i b c l1 l2
      rw [activatedCount_cons, activatedCount_cons]
      have ih := activatedCount_fade l t
      cases ha : a.active <;> cases hb : b.active <;> cases hc : c.active <;>
        simp [hb, hc] at hbc ⊢ <;> omega

theorem Fade_refl (l : List Enemy) : Fade l l := forall2_refl (fun _ h => h) l

theorem Fade_trans {l1 l2 l3 : List Enemy} (h1 : Fade l1 l2) (h2 : Fade l2 l3) : Fade l1 l3 :=
  forall2_trans (fun _ _ _ hab hbc h => hab (hbc h)) h1 h2

/-- One call of `SpawnEnemy` activates one slot when a slot is free, and none
otherwise. -/
theorem SpawnEnemy_activated (p : Platform) (inp : Input) (d : Difficulty) (pos : Vector2) :
    ∀ (es : List Enemy) (k : Nat),
      activatedCount es (SpawnEnemy p inp d pos es k).1 ≤ 1 ∧
      ((∃ x ∈ es, x.active = false) → activatedCount es (SpawnEnemy p inp d pos es k).1 = 1)
  | [], k => by simp [SpawnEnemy, activatedCount]
  | e :: es, k => by
    cases he : e.active with
    | false =>
      rw [SpawnEnemy_head p inp d pos e es k he]
      dsimp only
      rw [activatedCount_cons, activatedCount_self]
      simp [he]
    | true =>
      have ih := SpawnEnemy_activated p inp d pos es k
      have e1 : SpawnEnemy p inp d pos (e :: es) k =
          (e :: (SpawnEnemy p inp d pos es k).1, (SpawnEnemy p inp d pos es k).2) := by
        simp [SpawnEnemy, he]
      rw [e1]
      dsimp only
      rw [activatedCount_cons]
      simp only [he, Bool.not_true, Bool.false_and, Bool.false_eq_true, if_false, zero_add]
      refine ⟨ih.1, fun hex => ih.2 ?_⟩
      obtain ⟨x, hm, hx⟩ := hex
      rcases List.mem_cons.mp hm with rfl | hm
      · rw [he] at hx; cases hx
      · exact ⟨x, hm, hx⟩

theorem enemyLoop_fade (p : Platform) (dt : ℚ) (pos : Vector2) :
    ∀ (es : List Enemy) (bs : List Bullet) (sc : Int),
      Fade es (enemyLoop p dt pos es bs sc).enemies
  | [], _, _ => List.Forall₂.nil
  | e :: es, bs, sc => by
    have hp : (pursue p dt pos e).active = e.active := pursue_active p dt pos e
    cases ha : e.active with
    | false =>
      rw [enemyLoop_inactive p dt pos e es bs sc ha]
      exact List.Forall₂.cons (fun h => h) (enemyLoop_fade p dt pos es bs sc)
    | true =>
      cases hc : CheckCollisionCircles (pursue p dt pos e).position 20 pos 20 with
      | true =>
        rw [enemyLoop_catch p dt pos e es bs sc ha hc]
        exact List.Forall₂.cons (fun _ => ha) (Fade_refl es)
      | false =>
        cases hb : hitBullet (pursue p dt pos e).position bs with
        | none =>
          rw [enemyLoop_miss p dt pos e es bs sc ha hc hb]
          exact List.Forall₂.cons (fun _ => ha) (enemyLoop_fade p dt pos es bs sc)
        | some bs1 =>
          rw [enemyLoop_hit p dt pos e es bs bs1 sc ha hc hb]
          exact List.Forall₂.cons (fun _ => ha) (enemyLoop_fade p dt pos es bs1 (sc + 1))

theorem stepElixirUse_fade (inp : Input) (st : State) :
    Fade st.enemies (stepElixirUse inp st).enemies := by
  unfold stepElixirUse
  split_ifs
  · refine List.Forall₂.imp ?_ (forall2_map (fun e : Enemy => { e with active := false }) _)
    rintro a b rfl h
    simp at h
  · exact Fade_refl _

/-- What the spawn step does to the enemy pool. -/
theorem stepEnemySpawn_activated (p : Platform) (inp : Input) (st : State) :
    activatedCount st.enemies (stepEnemySpawn p inp st).1.enemies ≤ 1 ∧
    (st.enemySpawnTimer + inp.dt > baseInterval st.selectedDifficulty - (st.score : ℚ) * 0.01 →
      (stepEnemySpawn p inp st).1.enemies =
        (SpawnEnemy p inp st.selectedDifficulty st.playerPos st.enemies 0).1 ∧
      (stepEnemySpawn p inp st).1.enemySpawnTimer = 0 ∧
      ((∃ x ∈ st.enemies, x.active = false) →
        activatedCount st.enemies (stepEnemySpawn p inp st).1.enemies = 1)) := by
  have hs := SpawnEnemy_activated p inp st.selectedDifficulty st.playerPos st.enemies 0
  simp only [stepEnemySpawn]
  split_ifs with h
  · exact ⟨hs.1, fun _ => ⟨rfl, rfl, hs.2⟩⟩
  · refine ⟨?_, fun h1 => absurd h1 h⟩
    rw [activatedCount_self]
    exact Nat.zero_le 1

theorem updateGameplay_activated (p : Platform) (inp : Input) (s : State) :
    activatedCount s.enemies (updateGameplay p inp s).enemies ≤ 1 := by
  cases hov : s.gameOver with
  | true =>
    have e : updateGameplay p inp s = s := by simp [updateGameplay, hov]
    rw [e, activatedCount_self]
    exact Nat.zero_le 1
  | false =>
    rw [(updateGameplay_pools p inp s hov).2.1]
    have h1 : (stepPlayerBullets inp s).enemies = s.enemies :=
      (stepPlayerBullets_keeps inp s).2.2.2.2.2.2.2.1
    have h2 := (stepEnemySpawn_activated p inp (stepPlayerBullets inp s)).1
    rw [h1] at h2
    have h3 : (beforeUse p inp s).enemies =
        (stepEnemySpawn p inp (stepPlayerBullets inp s)).1.enemies := by
      simp only [beforeUse, beforePickup, stepElixirPickup_keeps, stepElixirSpawn_keeps]
    have h4 : Fade (stepEnemySpawn p inp (stepPlayerBullets inp s)).1.enemies
        (beforeEnemies p inp s).enemies := by
      rw [← h3]
      exact stepElixirUse_fade inp (beforeUse p inp s)
    exact le_trans (activatedCount_fade s.enemies
      (Fade_trans h4 (enemyLoop_fade p inp.dt _ _ _ _))) h2

theorem updateOpening_activated (fuel : Nat) (p : Platform) (inp : Input) (s s1 : State)
    (h : updateOpening fuel p inp s = some s1) : activatedCount s.enemies s1.enemies = 0 := by
  unfold updateOpening at h
  dsimp only at h
  split_ifs at h with hclick
  · cases hr : resetAndSpawn fuel p inp 0
        { s with selectedDifficulty := selectDifficulty inp s.selectedDifficulty } with
    | none => simp [hr] at h
    | some r =>
      obtain ⟨s2, k2⟩ := r
      have ht := resetAndSpawn_spec fuel p inp 0 k2 _ s2 hr
      simp only [hr, Option.some.injEq] at h
      subst h
      exact activatedCount_inactive _ _ ht.2.2.2.2.2.2.2.2.2.2.2.2.2.2.2.2.2.1
  · simp only [Option.some.injEq] at h
    subst h
    exact activatedCount_self _

theorem updateMiniGame_activated (fuel : Nat) (p : Platform) (inp : Input) (s s1 : State)
    (h : updateMiniGame fuel p inp s = some s1) : activatedCount s.enemies s1.enemies = 0 := by
  have hc := miniControls_keeps p inp s
  have ha := afterCollision_keeps p inp s
  unfold updateMiniGame at h
  dsimp only at h
  split_ifs at h with hl
  · cases hj : judge fuel p inp (afterCollision p inp s).2 (afterCollision p inp s).1 with
    | none => simp [hj] at h
    | some x =>
      simp only [hj, Option.some.injEq] at h
      subst h
      have e0 : (stepAnimatePins inp x).enemies = x.enemies := rfl
      rw [e0]
      rcases judge_cases fuel p inp _ _ x hj with ⟨_, rfl⟩ | ⟨_, _, rfl⟩ |
        ⟨_, _, s2, k2, hr, rfl⟩
      · rw [ha.2.2.2.2.2.2.2.1]
        exact activatedCount_self _
      · have e1 : (ResetBowling inp.screenWidth inp.screenHeight
            { (afterCollision p inp s).1 with
              gameOver := true, gameState := GameState.CLOSING_SCENE }).enemies = s.enemies := by
          simpa [ResetBowling] using ha.2.2.2.2.2.2.2.1
        rw [e1]
        exact activatedCount_self _
      · have ht := resetAndSpawn_spec fuel p inp _ k2 _ s2 hr
        refine activatedCount_inactive _ _ ?_
        simpa [ResetBowling] using ht.2.2.2.2.2.2.2.2.2.2.2.2.2.2.2.2.2.1
  · simp only [Option.some.injEq] at h
    subst h
    have e0 : (stepAnimatePins inp (miniControls p inp s).1).enemies =
        (miniControls p inp s).1.enemies := rfl
    rw [e0, hc.2.2.2.2.2.2.2.2.1]
    exact activatedCount_self _

theorem updateClosing_activated (fuel : Nat) (p : Platform) (inp : Input) (s s1 : State)
    (h : updateClosing fuel p inp s = some s1) : activatedCount s.enemies s1.enemies = 0 := by
  have hk : (stepScale inp s).enemies = s.enemies := (stepScale_keeps inp s).2.2.2.2.2.2.2.2.1
  have hh : ∀ x : State, activatedCount s.enemies x.enemies = 0 →
      activatedCount s.enemies (stepHome inp x).enemies = 0 := by
    intro x hx
    unfold stepHome
    split_ifs
    · exact activatedCount_inactive _ _
        (ResetGame_spec x.selectedDifficulty x).2.2.2.2.2.2.2.2.2.2.2.2.2.2.2.2.2.1
    · exact hx
  have h0 : activatedCount s.enemies (stepScale inp s).enemies = 0 := by
    rw [hk]
    exact activatedCount_self _
  unfold updateClosing at h
  dsimp only at h
  split_ifs at h with hac
  · unfold stepRestart at h
    split_ifs at h with hR
    · cases hr : resetAndSpawn fuel p inp 0 (stepScale inp s) with
      | none => simp [hr] at h
      | some r =>
        obtain ⟨s2, k2⟩ := r
        have ht := resetAndSpawn_spec fuel p inp 0 k2 _ s2 hr
        simp only [hr, Option.some.injEq] at h
        subst h
        exact hh _ (activatedCount_inactive _ _ ht.2.2.2.2.2.2.2.2.2.2.2.2.2.2.2.2.2.1)
    · simp only [Option.some.injEq] at h
      subst h
      exact hh _ h0
  · simp only [Option.some.injEq] at h
    subst h
    exact h0

/-- No frame, in any scene, activates more than one enemy slot. -/
theorem updateFrame_activated (fuel : Nat) (p : Platform) (inp : Input) (s s1 : State)
    (h : updateFrame fuel p inp s = some s1) : activatedCount s.enemies s1.enemies ≤ 1 := by
  unfold updateFrame at h
  cases hg : s.gameState with
  | OPENING_SCENE =>
    rw [hg] at h
    rw [updateOpening_activated fuel p inp s s1 h]
    exact Nat.zero_le 1
  | GAMEPLAY =>
    rw [hg] at h
    simp only [Option.some.injEq] at h
    subst h
    exact updateGameplay_activated p inp s
  | MINI_GAME =>
    rw [hg] at h
    rw [updateMiniGame_activated fuel p inp s s1 h]
    exact Nat.zero_le 1
  | CLOSING_SCENE =>
    rw [hg] at h
    rw [updateClosing_activated fuel p inp s s1 h]
    exact Nat.zero_le 1

theorem baseInterval_values :
    baseInterval Difficulty.DIFFICULTY_EASY = 1.5 ∧
    baseInterval Difficulty.DIFFICULTY_MEDIUM = 1.0 ∧
    baseInterval Difficulty.DIFFICULTY_HARD = 0.7 := by
  refine ⟨?_, ?_, ?_⟩ <;> simp [baseInterval]

theorem baseInterval_le (d : Difficulty) : baseInterval d ≤ 1.5 := by
  cases d <;> simp [baseInterval] <;> norm_num

/-- The spawn interval falls below every bound as the score grows. -/
theorem spawnInterval_no_floor (d : Difficulty) (B : ℚ) :
    ∃ score : Int, baseInterval d - (score : ℚ) * 0.01 < B := by
  obtain ⟨n, hn⟩ := exists_nat_gt ((1.5 - B) * 100)
  refine ⟨(n : Int), ?_⟩
  have h := baseInterval_le d
  push_cast
  linarith

/-! ## The bonus scene, the second chance and the obstacles belong to hard games -/

theorem HardKept_refl (s : State) : HardKept s s := ⟨rfl, rfl, rfl, Or.inl rfl⟩

theorem HardKept_trans (s x y : State) (h1 : HardKept s x) (h2 : HardKept x y) :
    HardKept s y := by
  obtain ⟨a1, a2, a3, a4⟩ := h1
  obtain ⟨b1, b2, b3, b4⟩ := h2
  refine ⟨b1.trans a1, b2.trans a2, b3.trans a3, ?_⟩
  rcases b4 with h | ⟨h, hd, hu⟩ | h
  · rcases a4 with g | ⟨g, gd, gu⟩ | g
    · exact Or.inl (h.trans g)
    · exact Or.inr (Or.inl ⟨h.trans g, gd, gu⟩)
    · exact Or.inr (Or.inr (h.trans g))
  · exact Or.inr (Or.inl ⟨h, a1 ▸ hd, a2 ▸ hu⟩)
  · exact Or.inr (Or.inr h)

theorem onCaught_hardKept (inp : Input) (x : State) : HardKept x (onCaught inp x) := by
  have hk := onCaught_keeps inp x
  refine ⟨hk.1, hk.2.1, hk.2.2.2.2.1, ?_⟩
  unfold onCaught
  split_ifs with h
  · exact Or.inr (Or.inl ⟨rfl, h.1, h.2⟩)
  · exact Or.inr (Or.inr rfl)

theorem secondChanceOrOver_hardKept (inp : Input) (x : State)
    (hd : x.selectedDifficulty = Difficulty.DIFFICULTY_HARD) :
    HardKept x (secondChanceOrOver inp x) := by
  have hk : (secondChanceOrOver inp x).selectedDifficulty = x.selectedDifficulty ∧
      (secondChanceOrOver inp x).secondChanceUsed = x.secondChanceUsed ∧
      (secondChanceOrOver inp x).obstacles = x.obstacles := by
    simp only [secondChanceOrOver]
    split_ifs <;> simp [ResetBowling, ResetElixirState]
  refine ⟨hk.1, hk.2.1, hk.2.2, ?_⟩
  unfold secondChanceOrOver
  split_ifs with h
  · refine Or.inr (Or.inl ⟨rfl, hd, ?_⟩)
    simpa using h
  · exact Or.inr (Or.inr rfl)

theorem stepEnemies_hardKept (p : Platform) (inp : Input) (st : State) :
    HardKept st (stepEnemies p inp st) := by
  unfold stepEnemies
  dsimp only
  split_ifs
  · exact onCaught_hardKept inp
      { st with
        enemies := (enemyLoop p inp.dt st.playerPos st.enemies st.bullets st.score).enemies
        bullets := (enemyLoop p inp.dt st.playerPos st.enemies st.bullets st.score).bullets
        score := (enemyLoop p inp.dt st.playerPos st.enemies st.bullets st.score).score }
  · exact ⟨rfl, rfl, rfl, Or.inl rfl⟩

theorem stepObstacles_hardKept (p : Platform) (inp : Input) (st : State) :
    HardKept st (stepObstacles p inp st) := by
  unfold stepObstacles
  split_ifs with hd
  · refine foldl_preserves (HardKept st) _ ?_ _ _ (HardKept_refl st)
    intro x o hx
    split_ifs
    · exact HardKept_trans st x _ hx (secondChanceOrOver_hardKept inp x (hx.1.trans hd))
    · exact hx
  · exact HardKept_refl st

theorem updateGameplay_hardKept (p : Platform) (inp : Input) (s : State) :
    HardKept s (updateGameplay p inp s) := by
  unfold updateGameplay
  split_ifs
  · have hk := beforeEnemies_keeps p inp s
    have h0 : HardKept s (beforeEnemies p inp s) :=
      ⟨hk.1, hk.2.1, hk.2.2.2.2.2.1, Or.inl hk.2.2.2.1⟩
    exact HardKept_trans _ _ _ (HardKept_trans _ _ _ h0 (stepEnemies_hardKept p inp _))
      (stepObstacles_hardKept p inp _)
  · exact HardKept_refl s

/-- The invariant passes to a state with the same four fields. -/
theorem HardOnly_same (s x : State) (hs : HardOnly s)
    (hd : x.selectedDifficulty = s.selectedDifficulty)
    (hu : x.secondChanceUsed = s.secondChanceUsed) (ho : x.obstacles = s.obstacles)
    (hg : x.gameState = s.gameState) : HardOnly x := by
  unfold HardOnly
  rw [hd, hu, ho, hg]
  exact hs

/-- The invariant passes to the closing scene when the other three fields are kept. -/
theorem HardOnly_closing (s x : State) (hs : HardOnly s)
    (hd : x.selectedDifficulty = s.selectedDifficulty)
    (hu : x.secondChanceUsed = s.secondChanceUsed) (ho : x.obstacles = s.obstacles)
    (hg : x.gameState = GameState.CLOSING_SCENE) : HardOnly x := by
  unfold HardOnly
  rw [hd, hu, ho, hg]
  exact ⟨fun h => (by cases h), hs.2.1, hs.2.2.1, fun h => (by cases h)⟩

/-- The invariant holds after `resetAndSpawn` once the scene is Survival and the
second-chance flag is down, or up in a hard game. -/
theorem HardOnly_started (x : State)
    (hu : x.secondChanceUsed = true → x.selectedDifficulty = Difficulty.DIFFICULTY_HARD)
    (ho : ∀ o ∈ x.obstacles,
      o.active = decide (x.selectedDifficulty = Difficulty.DIFFICULTY_HARD))
    (hg : x.gameState = GameState.GAMEPLAY) : HardOnly x := by
  refine ⟨fun h => ?_, hu, ?_, fun h => ?_⟩
  · rw [hg] at h; cases h
  · rintro ⟨o, hm, ha⟩
    rw [ho o hm] at ha
    simpa using ha
  · rw [hg] at h; cases h

theorem updateGameplay_hardOnly (p : Platform) (inp : Input) (s : State)
    (hs : HardOnly s) :
    HardOnly (updateGameplay p inp s) := by
  obtain ⟨hd, hu, ho, hg⟩ := updateGameplay_hardKept p inp s
  rcases hg with hg | ⟨hg, h1, h2⟩ | hg
  · exact HardOnly_same s _ hs hd hu ho hg
  · unfold HardOnly
    rw [hd, hu, ho, hg]
    exact ⟨fun _ => ⟨h1, h2⟩, hs.2.1, hs.2.2.1, fun h => (by cases h)⟩
  · exact HardOnly_closing s _ hs hd hu ho hg

theorem updateOpening_hardOnly (fuel : Nat) (p : Platform) (inp : Input) (s s1 : State)
    (hs : HardOnly s) (hscene : s.gameState = GameState.OPENING_SCENE)
    (h : updateOpening fuel p inp s = some s1) : HardOnly s1 := by
  obtain ⟨hu, ho⟩ := hs.2.2.2 hscene
  unfold updateOpening at h
  dsimp only at h
  split_ifs at h with hclick
  · cases hr : resetAndSpawn fuel p inp 0
        { s with selectedDifficulty := selectDifficulty inp s.selectedDifficulty } with
    | none => simp [hr] at h
    | some r =>
      obtain ⟨s2, k2⟩ := r
      have ht := resetAndSpawn_spec fuel p inp 0 k2 _ s2 hr
      simp only [hr, Option.some.injEq] at h
      subst h
      refine HardOnly_started _ (fun hx => by cases hx) ?_ rfl
      intro o hm
      rw [ht.2.2.2.2.2.2.2.2.2.2.2.2.2.2.2.2.2.2 o hm]
      exact congrArg (fun d => decide (d = Difficulty.DIFFICULTY_HARD)) ht.1.symm
  · simp only [Option.some.injEq] at h
    subst h
    refine ⟨fun hx => ?_, fun hx => ?_, ?_, fun _ => ⟨hu, ho⟩⟩
    · have hx1 : s.gameState = GameState.MINI_GAME := hx
      rw [hscene] at hx1
      cases hx1
    · have hx1 : s.secondChanceUsed = true := hx
      rw [hu] at hx1
      cases hx1
    · rintro ⟨o, hm, ha⟩
      rw [ho o hm] at ha
      cases ha

theorem updateMiniGame_hardOnly (fuel : Nat) (p : Platform) (inp : Input) (s s1 : State)
    (hs : HardOnly s) (hscene : s.gameState = GameState.MINI_GAME)
    (h : updateMiniGame fuel p inp s = some s1) : HardOnly s1 := by
  have hc := miniControls_keeps p inp s
  have ha := afterCollision_keeps p inp s
  obtain ⟨hhard, hu⟩ := hs.1 hscene
  unfold updateMiniGame at h
  dsimp only at h
  split_ifs at h with hl
  · cases hj : judge fuel p inp (afterCollision p inp s).2 (afterCollision p inp s).1 with
    | none => simp [hj] at h
    | some x =>
      simp only [hj, Option.some.injEq] at h
      subst h
      have hx : HardOnly x := by
        rcases judge_cases fuel p inp _ _ x hj with ⟨_, rfl⟩ | ⟨_, _, rfl⟩ |
          ⟨_, _, s2, k2, hr, rfl⟩
        · exact HardOnly_same s _ hs ha.1 ha.2.1 ha.2.2.2.2.1 ha.2.2.2.1
        · refine HardOnly_closing s _ hs ?_ ?_ ?_ ?_
          · simpa [ResetBowling] using ha.1
          · simpa [ResetBowling] using ha.2.1
          · simpa [ResetBowling] using ha.2.2.2.2.1
          · simp [ResetBowling]
        · have ht := resetAndSpawn_spec fuel p inp _ k2 _ s2 hr
          have hd2 : s2.selectedDifficulty = Difficulty.DIFFICULTY_HARD :=
            ht.1.trans (ha.1.trans hhard)
          refine HardOnly_started _ (fun _ => ?_) ?_ ?_
          · simpa [ResetBowling] using hd2
          · intro o hm
            have hm2 : o ∈ s2.obstacles := by simpa [ResetBowling] using hm
            have e1 : (ResetBowling inp.screenWidth inp.screenHeight
                { s2 with gameState := GameState.GAMEPLAY }).selectedDifficulty =
                s2.selectedDifficulty := by simp [ResetBowling]
            rw [e1, ht.2.2.2.2.2.2.2.2.2.2.2.2.2.2.2.2.2.2 o hm2]
            exact congrArg (fun d => decide (d = Difficulty.DIFFICULTY_HARD)) ht.1.symm
          · simp [ResetBowling]
      have hk := stepAnimatePins_keeps inp x
      exact HardOnly_same x _ hx hk.1 hk.2.1 hk.2.2.2.2.1 hk.2.2.2.1
  · simp only [Option.some.injEq] at h
    subst h
    have hk := stepAnimatePins_keeps inp (miniControls p inp s).1
    exact HardOnly_same s _ hs (hk.1.trans hc.1) (hk.2.1.trans hc.2.1)
      (hk.2.2.2.2.1.trans hc.2.2.2.2.2.1) (hk.2.2.2.1.trans hc.2.2.2.1)

theorem stepHome_hardOnly (inp : Input) (x : State) (hx : HardOnly x) :
    HardOnly (stepHome inp x) := by
  unfold stepHome
  split_ifs
  · have hr := ResetGame_spec x.selectedDifficulty x
    refine ⟨fun h => (by cases h), fun h => (by cases h), ?_, fun _ => ⟨rfl, ?_⟩⟩
    · rintro ⟨o, hm, ha⟩
      have hm1 : o ∈ (ResetGame x.selectedDifficulty x).obstacles := hm
      rw [hr.2.2.2.2.2.2.2.2.2.2.2.2.2.2.2.2.2.2 o hm1] at ha
      cases ha
    · exact hr.2.2.2.2.2.2.2.2.2.2.2.2.2.2.2.2.2.2
  · exact hx

theorem updateClosing_hardOnly (fuel : Nat) (p : Platform) (inp : Input) (s s1 : State)
    (hs : HardOnly s) (h : updateClosing fuel p inp s = some s1) : HardOnly s1 := by
  have hk := stepScale_keeps inp s
  have h0 : HardOnly (stepScale inp s) :=
    HardOnly_same s _ hs hk.1 hk.2.1 hk.2.2.2.2.2.1 hk.2.2.2.1
  unfold updateClosing at h
  dsimp only at h
  split_ifs at h with hac
  · unfold stepRestart at h
    split_ifs at h with hR
    · cases hr : resetAndSpawn fuel p inp 0 (stepScale inp s) with
      | none => simp [hr] at h
      | some r =>
        obtain ⟨s2, k2⟩ := r
        have ht := resetAndSpawn_spec fuel p inp 0 k2 _ s2 hr
        simp only [hr, Option.some.injEq] at h
        subst h
        refine stepHome_hardOnly inp _ (HardOnly_started _ (fun hx => by cases hx) ?_ rfl)
        intro o hm
        rw [ht.2.2.2.2.2.2.2.2.2.2.2.2.2.2.2.2.2.2 o hm]
        exact congrArg (fun d => decide (d = Difficulty.DIFFICULTY_HARD)) ht.1.symm
    · simp only [Option.some.injEq] at h
      subst h
      exact stepHome_hardOnly inp _ h0
  · simp only [Option.some.injEq] at h
    subst h
    exact h0

theorem updateFrame_hardOnly (fuel : Nat) (p : Platform) (inp : Input) (s s1 : State)
    (hs : HardOnly s) (h : updateFrame fuel p inp s = some s1) : HardOnly s1 := by
  unfold updateFrame at h
  cases hg : s.gameState with
  | OPENING_SCENE => rw [hg] at h; exact updateOpening_hardOnly fuel p inp s s1 hs hg h
  | GAMEPLAY =>
    rw [hg] at h
    simp only [Option.some.injEq] at h
    subst h
    exact updateGameplay_hardOnly p inp s hs
  | MINI_GAME => rw [hg] at h; exact updateMiniGame_hardOnly fuel p inp s s1 hs hg h
  | CLOSING_SCENE => rw [hg] at h; exact updateClosing_hardOnly fuel p inp s s1 hs h

theorem initialState_obstacles (w h : Int) :
    (initialState w h).obstacles = List.replicate MAX_OBSTACLES ⟨⟨0, 0, 0, 0⟩, false⟩ := by
  simp [initialState, ResetElixirState, ResetBowling]

theorem Reachable_hardOnly (p : Platform) (s : State) (hr : Reachable p s) : HardOnly s := by
  induction hr with
  | init w h =>
    have hno : ∀ o ∈ (initialState w h).obstacles, o.active = false := by
      intro o hm
      rw [initialState_obstacles] at hm
      rw [(List.mem_replicate.mp hm).2]
    refine ⟨fun hx => ?_, fun hx => ?_, ?_, fun _ => ⟨?_, hno⟩⟩
    · have e : (initialState w h).gameState = GameState.OPENING_SCENE := by
        simp [initialState, ResetElixirState, ResetBowling]
      rw [e] at hx
      cases hx
    · have e : (initialState w h).secondChanceUsed = false := by
        simp [initialState, ResetElixirState, ResetBowling]
      rw [e] at hx
      cases hx
    · rintro ⟨o, hm, ha⟩
      rw [hno o hm] at ha
      cases ha
    · simp [initialState, ResetElixirState, ResetBowling]
  | step fuel inp hprev hstep ih => exact updateFrame_hardOnly fuel p inp _ _ ih hstep

/-! ## The closing animation -/

theorem AnimKept_trans (s x y : State) (h1 : AnimKept s x) (h2 : AnimKept x y) :
    AnimKept s y := ⟨h2.1.trans h1.1, h2.2.trans h1.2⟩

theorem updateGameplay_anim (p : Platform) (inp : Input) (s : State) :
    AnimKept s (updateGameplay p inp s) := by
  have hsc : ∀ x : State, AnimKept x (secondChanceOrOver inp x) := by
    intro x
    unfold AnimKept
    simp only [secondChanceOrOver]
    split_ifs <;> simp [ResetBowling, ResetElixirState]
  have hoc : ∀ x : State, AnimKept x (onCaught inp x) := by
    intro x
    unfold AnimKept
    simp only [onCaught]
    split_ifs <;> simp [ResetBowling, ResetElixirState]
  unfold updateGameplay
  split_ifs
  · have hk := beforeEnemies_keeps p inp s
    have h0 : AnimKept s (beforeEnemies p inp s) := ⟨hk.2.2.2.2.2.2.2.1, hk.2.2.2.2.2.2.2.2⟩
    have h1 : AnimKept (beforeEnemies p inp s) (stepEnemies p inp (beforeEnemies p inp s)) := by
      unfold stepEnemies
      dsimp only
      split_ifs
      · exact hoc _
      · exact ⟨rfl, rfl⟩
    have h2 : ∀ st : State, AnimKept st (stepObstacles p inp st) := by
      intro st
      unfold stepObstacles
      split_ifs
      · refine foldl_preserves (AnimKept st) _ ?_ _ _ ⟨rfl, rfl⟩
        intro x o hx
        split_ifs
        · exact AnimKept_trans st x _ hx (hsc x)
        · exact hx
      · exact ⟨rfl, rfl⟩
    exact AnimKept_trans _ _ _ (AnimKept_trans _ _ _ h0 h1) (h2 _)
  · exact ⟨rfl, rfl⟩

theorem resetAndSpawn_anim (fuel : Nat) (p : Platform) (inp : Input) (k k1 : Nat)
    (s s1 : State) (h : resetAndSpawn fuel p inp k s = some (s1, k1)) : AnimKept s s1 := by
  have ht := resetAndSpawn_spec fuel p inp k k1 s s1 h
  exact ⟨ht.2.2.2.2.2.2.2.2.2.2.2.1, ht.2.2.2.2.2.2.2.2.2.2.2.2.1⟩

theorem updateOpening_anim (fuel : Nat) (p : Platform) (inp : Input) (s s1 : State)
    (h : updateOpening fuel p inp s = some s1) : AnimKept s s1 := by
  unfold updateOpening at h
  dsimp only at h
  split_ifs at h with hclick
  · cases hr : resetAndSpawn fuel p inp 0
        { s with selectedDifficulty := selectDifficulty inp s.selectedDifficulty } with
    | none => simp [hr] at h
    | some r =>
      obtain ⟨s2, k2⟩ := r
      have ht := resetAndSpawn_anim fuel p inp 0 k2 _ s2 hr
      simp only [hr, Option.some.injEq] at h
      subst h
      exact ht
  · simp only [Option.some.injEq] at h
    subst h
    exact ⟨rfl, rfl⟩

theorem updateMiniGame_anim (fuel : Nat) (p : Platform) (inp : Input) (s s1 : State)
    (h : updateMiniGame fuel p inp s = some s1) : AnimKept s s1 := by
  have hc := miniControls_keeps p inp s
  have ha := afterCollision_keeps p inp s
  have hc0 : AnimKept s (miniControls p inp s).1 :=
    ⟨hc.2.2.2.2.2.2.2.2.2.2.2.2.1, hc.2.2.2.2.2.2.2.2.2.2.2.2.2⟩
  have ha0 : AnimKept s (afterCollision p inp s).1 :=
    ⟨ha.2.2.2.2.2.2.2.2.2.2.2.1, ha.2.2.2.2.2.2.2.2.2.2.2.2.1⟩
  unfold updateMiniGame at h
  dsimp only at h
  split_ifs at h with hl
  · cases hj : judge fuel p inp (afterCollision p inp s).2 (afterCollision p inp s).1 with
    | none => simp [hj] at h
    | some x =>
      simp only [hj, Option.some.injEq] at h
      subst h
      have hx : AnimKept s x := by
        rcases judge_cases fuel p inp _ _ x hj with ⟨_, rfl⟩ | ⟨_, _, rfl⟩ |
          ⟨_, _, s2, k2, hr, rfl⟩
        · exact ha0
        · refine AnimKept_trans _ _ _ ha0 ?_
          unfold AnimKept
          simp [ResetBowling]
        · have ht := resetAndSpawn_anim fuel p inp _ k2 _ s2 hr
          refine AnimKept_trans _ _ _ (AnimKept_trans _ _ _ ha0 ht) ?_
          unfold AnimKept
          simp [ResetBowling]
      exact AnimKept_trans _ _ _ hx ⟨rfl, rfl⟩
  · simp only [Option.some.injEq] at h
    subst h
    exact AnimKept_trans _ _ _ hc0 ⟨rfl, rfl⟩

theorem stepHome_anim (inp : Input) (x : State) : AnimKept x (stepHome inp x) := by
  unfold AnimKept
  simp only [stepHome]
  split_ifs <;> simp [ResetGame, ResetElixirState]

theorem stepRestart_anim (fuel : Nat) (p : Platform) (inp : Input) (x x1 : State) (k : Nat)
    (h : stepRestart fuel p inp x = some (x1, k)) : AnimKept x x1 := by
  unfold stepRestart at h
  split_ifs at h with hR
  · cases hr : resetAndSpawn fuel p inp 0 x with
    | none => simp [hr] at h
    | some r =>
      obtain ⟨s2, k2⟩ := r
      have ht := resetAndSpawn_anim fuel p inp 0 k2 _ s2 hr
      simp only [hr, Option.some.injEq, Prod.mk.injEq] at h
      rw [← h.1]
      exact ht
  · simp only [Option.some.injEq, Prod.mk.injEq] at h
    rw [← h.1]
    exact ⟨rfl, rfl⟩

/-- The scale step: a completed animation is left alone, and a completion sets the
scale to 1. -/
theorem stepScale_anim (inp : Input) (s : State) :
    (s.animationComplete = true → stepScale inp s = s) ∧
    ((stepScale inp s).animationComplete = true →
      s.animationComplete = false → (stepScale inp s).gameOverScale = 1) := by
  constructor
  · intro h
    simp [stepScale, h]
  · intro h1 h0
    simp only [stepScale, h0] at h1 ⊢
    simp only [Bool.not_false, if_true] at h1 ⊢
    split_ifs at h1 ⊢ with hge
    · norm_num

theorem updateClosing_anim (fuel : Nat) (p : Platform) (inp : Input) (s s1 : State)
    (h : updateClosing fuel p inp s = some s1) : AnimKept (stepScale inp s) s1 := by
  unfold updateClosing at h
  dsimp only at h
  split_ifs at h with hac
  · cases hr : stepRestart fuel p inp (stepScale inp s) with
    | none => simp [hr] at h
    | some r =>
      obtain ⟨x, k⟩ := r
      simp only [hr, Option.some.injEq] at h
      subst h
      exact AnimKept_trans _ _ _ (stepRestart_anim fuel p inp _ x k hr) (stepHome_anim inp x)
  · simp only [Option.some.injEq] at h
    subst h
    exact ⟨rfl, rfl⟩

theorem ScaleDone_kept (s x : State) (hs : ScaleDone s) (h : AnimKept s x) : ScaleDone x := by
  unfold ScaleDone
  rw [h.1, h.2]
  exact hs

/-- A frame outside the closing scene, or with the animation complete, keeps the flag
and the scale; every frame keeps `ScaleDone`. -/
theorem updateFrame_anim (fuel : Nat) (p : Platform) (inp : Input) (s s1 : State)
    (h : updateFrame fuel p inp s = some s1) :
    ((s.gameState ≠ GameState.CLOSING_SCENE ∨ s.animationComplete = true) → AnimKept s s1) ∧
    (ScaleDone s → ScaleDone s1) := by
  unfold updateFrame at h
  cases hg : s.gameState with
  | OPENING_SCENE =>
    rw [hg] at h
    have hk := updateOpening_anim fuel p inp s s1 h
    exact ⟨fun _ => hk, fun hs => ScaleDone_kept s s1 hs hk⟩
  | GAMEPLAY =>
    rw [hg] at h
    simp only [Option.some.injEq] at h
    subst h
    have hk := updateGameplay_anim p inp s
    exact ⟨fun _ => hk, fun hs => ScaleDone_kept s _ hs hk⟩
  | MINI_GAME =>
    rw [hg] at h
    have hk := updateMiniGame_anim fuel p inp s s1 h
    exact ⟨fun _ => hk, fun hs => ScaleDone_kept s s1 hs hk⟩
  | CLOSING_SCENE =>
    rw [hg] at h
    have hk := updateClosing_anim fuel p inp s s1 h
    have hsc := stepScale_anim inp s
    constructor
    · rintro (hne | hdone)
      · exact absurd rfl hne
      · rw [hsc.1 hdone] at hk
        exact hk
    · intro hs
      refine ScaleDone_kept (stepScale inp s) s1 ?_ hk
      cases hd : s.animationComplete with
      | true =>
        rw [hsc.1 hd]
        exact hs
      | false => exact fun h1 => hsc.2 h1 hd

theorem Reachable_scaleDone (p : Platform) (s : State) (hr : Reachable p s) : ScaleDone s := by
  induction hr with
  | init w h =>
    intro hx
    have e : (initialState w h).animationComplete = false := by
      simp [initialState, ResetElixirState, ResetBowling]
    rw [e] at hx
    cases hx
  | step fuel inp hprev hstep ih => exact (updateFrame_anim fuel p inp _ _ hstep).2 ih

theorem Later_anim (p : Platform) (s s1 : State) (hl : Later p s s1)
    (hdone : s.animationComplete = true) : AnimKept s s1 := by
  induction hl with
  | refl => exact ⟨rfl, rfl⟩
  | step fuel inp hprev hstep ih =>
    exact AnimKept_trans _ _ _ ih
      ((updateFrame_anim fuel p inp _ _ hstep).1 (Or.inr (ih.1.trans hdone)))

/-- A closing frame that starts with the animation complete takes the restart and
home actions at once. -/
theorem updateClosing_accepts (fuel : Nat) (p : Platform) (inp : Input) (s s1 : State)
    (hdone : s.animationComplete = true) (h : updateClosing fuel p inp s = some s1) :
    (inp.hPressed = true → s1.gameState = GameState.OPENING_SCENE) ∧
    (inp.rPressed = true → inp.hPressed = false → s1.gameState = GameState.GAMEPLAY) ∧
    (inp.rPressed = false → inp.hPressed = false → s1 = s) := by
  have hsc := (stepScale_anim inp s).1 hdone
  unfold updateClosing at h
  dsimp only at h
  rw [hsc] at h
  simp only [hdone, if_true] at h
  unfold stepRestart at h
  split_ifs at h with hR
  · cases hr : resetAndSpawn fuel p inp 0 s with
    | none => simp [hr] at h
    | some r =>
      obtain ⟨s2, k2⟩ := r
      simp only [hr, Option.some.injEq] at h
      subst h
      refine ⟨fun hH => ?_, fun _ hH => ?_, fun hR0 => ?_⟩
      · simp [stepHome, hH]
      · simp [stepHome, hH]
      · rw [hR] at hR0
        cases hR0
  · simp only [Option.some.injEq] at h
    subst h
    refine ⟨fun hH => ?_, fun hR1 => absurd hR1 hR, fun _ hH => ?_⟩
    · simp [stepHome, hH]
    · simp [stepHome, hH]

theorem updateFrame_terminates (p : Platform) (inp : Input) (s : State)
    (hsettle : DrawsSettle p inp (playerRect p ⟨400, 300⟩)) :
    ∃ fuel s1, updateFrame fuel p inp s = some s1 := by
  have hres : ∀ (k : Nat) (x : State), ∃ fuel y, resetAndSpawn fuel p inp k x = some y :=
    fun k x => resetAndSpawn_terminates p inp k x (fun _ => hsettle)
  cases hg : s.gameState with
  | OPENING_SCENE =>
    obtain ⟨fuel, y, hy⟩ := hres 0
      { s with selectedDifficulty := selectDifficulty inp s.selectedDifficulty }
    refine ⟨fuel, ?_⟩
    unfold updateFrame
    rw [hg]
    unfold updateOpening
    dsimp only
    split_ifs
    · rw [hy]
      exact ⟨_, rfl⟩
    · exact ⟨_, rfl⟩
  | GAMEPLAY => exact ⟨0, _, updateFrame_gameplay 0 p inp s hg⟩
  | MINI_GAME =>
    obtain ⟨fuel, y, hy⟩ := hres (afterCollision p inp s).2
      { (afterCollision p inp s).1 with secondChanceUsed := true }
    refine ⟨fuel, ?_⟩
    unfold updateFrame
    rw [hg]
    unfold updateMiniGame
    dsimp only
    split_ifs
    · unfold judge
      split_ifs
      · rw [hy]
        exact ⟨_, rfl⟩
      · exact ⟨_, rfl⟩
      · exact ⟨_, rfl⟩
    · exact ⟨_, rfl⟩
  | CLOSING_SCENE =>
    obtain ⟨fuel, y, hy⟩ := hres 0 (stepScale inp s)
    refine ⟨fuel, ?_⟩
    unfold updateFrame
    rw [hg]
    unfold updateClosing
    dsimp only
    split_ifs
    · unfold stepRestart
      split_ifs
      · rw [hy]
        exact ⟨_, rfl⟩
      · exact ⟨_, rfl⟩
    · exact ⟨_, rfl⟩

theorem caughtMedium_closing :
    caughtMedium.gameState = GameState.CLOSING_SCENE ∧ caughtMedium.gameOver = true := by
  have hov : startedMedium.gameOver = false := rfl
  have hhit : ∃ e ∈ (beforeEnemies samplePlatform chaseInput startedMedium).enemies,
      e.active = true ∧
      CheckCollisionCircles (pursue samplePlatform chaseInput.dt
        (beforeEnemies samplePlatform chaseInput startedMedium).playerPos e).position 20
        (beforeEnemies samplePlatform chaseInput startedMedium).playerPos 20 = true := by
    rw [beforeEnemies_playerPos, beforeEnemies_enemies_spawn samplePlatform chaseInput startedMedium
        (by simp [startedMedium, ResetGame, ResetElixirState, initialState, ResetBowling,
          chaseInput, idleInput, baseInterval]; norm_num) rfl,
      startedMedium_enemies, SpawnEnemy_head _ _ _ _ _ _ _ rfl, chase_position]
    refine ⟨_, List.mem_cons_self _ _, rfl, ?_⟩
    simp [pursue, movePlayer, chaseInput, idleInput, startedMedium, ResetGame, ResetElixirState,
      Vector2Length, Vector2Normalize, Vector2Subtract, Vector2Add, Vector2Scale, samplePlatform,
      CheckCollisionCircles, playerSpeed]
    norm_num
  have hcaught := enemyLoop_caught samplePlatform chaseInput.dt _ _
    (beforeEnemies samplePlatform chaseInput startedMedium).bullets
    (beforeEnemies samplePlatform chaseInput startedMedium).score hhit
  have hd : (beforeEnemies samplePlatform chaseInput startedMedium).selectedDifficulty =
      Difficulty.DIFFICULTY_MEDIUM := (beforeEnemies_keeps _ _ _).1
  have hen : (stepEnemies samplePlatform chaseInput
      (beforeEnemies samplePlatform chaseInput startedMedium)).gameState =
        GameState.CLOSING_SCENE ∧
      (stepEnemies samplePlatform chaseInput
        (beforeEnemies samplePlatform chaseInput startedMedium)).gameOver = true := by
    unfold stepEnemies
    dsimp only
    rw [if_pos hcaught]
    unfold onCaught
    rw [if_neg]
    · exact ⟨rfl, rfl⟩
    · intro h
      have h1 : (beforeEnemies samplePlatform chaseInput startedMedium).selectedDifficulty =
          Difficulty.DIFFICULTY_HARD := h.1
      rw [hd] at h1
      cases h1
  have hob : stepObstacles samplePlatform chaseInput (stepEnemies samplePlatform chaseInput
      (beforeEnemies samplePlatform chaseInput startedMedium)) =
      stepEnemies samplePlatform chaseInput
        (beforeEnemies samplePlatform chaseInput startedMedium) := by
    unfold stepObstacles
    rw [if_neg]
    rw [stepEnemies_difficulty, hd]
    decide
  unfold caughtMedium
  rw [updateGameplay_running _ _ _ hov, hob]
  exact hen

theorem caughtMedium_reachable : Reachable samplePlatform caughtMedium :=
  Reachable.step 0 chaseInput startedMedium_reachable
    (updateFrame_gameplay 0 samplePlatform chaseInput startedMedium rfl)

theorem closedMedium_spec :
    updateFrame 0 samplePlatform waitInput caughtMedium = some closedMedium ∧
    closedMedium.animationComplete = true ∧
    closedMedium.gameState = GameState.CLOSING_SCENE := by
  have hk := updateGameplay_anim samplePlatform chaseInput startedMedium
  have h0 : caughtMedium.animationComplete = false := hk.1
  have h1 : caughtMedium.gameOverScale = 0.1 := hk.2
  have hdone : closedMedium.animationComplete = true := by
    unfold closedMedium
    simp only [stepScale, h0, h1]
    norm_num [waitInput, idleInput, scaleSpeed]
  have hscene : closedMedium.gameState = GameState.CLOSING_SCENE :=
    (stepScale_keeps waitInput caughtMedium).2.2.2.1.trans caughtMedium_closing.1
  refine ⟨?_, hdone, hscene⟩
  unfold updateFrame
  rw [caughtMedium_closing.1]
  have e : stepScale waitInput caughtMedium = closedMedium := rfl
  simp only [updateClosing, e, hdone, if_true]
  simp [stepRestart, stepHome, waitInput, idleInput]

theorem closedMedium_reachable : Reachable samplePlatform closedMedium :=
  Reachable.step 0 waitInput caughtMedium_reachable closedMedium_spec.1

/-! ## The throw parameters -/

theorem maxAngle_pos : 0 < maxAngle := by norm_num [maxAngle, PI]

theorem Clamp_range (v lo hi : ℚ) (h : lo ≤ hi) : lo ≤ Clamp v lo hi ∧ Clamp v lo hi ≤ hi := by
  unfold Clamp
  dsimp only
  split_ifs <;> constructor <;> linarith

theorem Clamp_id (v lo hi : ℚ) (h1 : lo ≤ v) (h2 : v ≤ hi) : Clamp v lo hi = v := by
  unfold Clamp
  dsimp only
  split_ifs <;> linarith

theorem Clamp_near (v w lo hi d : ℚ) (hlo : lo ≤ w) (hhi : w ≤ hi) (hd : |v - w| ≤ d) :
    |Clamp v lo hi - w| ≤ d := by
  rw [abs_le] at hd ⊢
  unfold Clamp
  dsimp only
  split_ifs <;> constructor <;> linarith

theorem ThrowRange_of_eq (s s1 : State) (h : ThrowRange s)
    (ha : s1.throwAngle = s.throwAngle) (hp : s1.power = s.power) : ThrowRange s1 := by
  unfold ThrowRange
  rw [ha, hp]
  exact h

theorem ThrowRange_zero (s : State) (ha : s.throwAngle = 0) (hp : s.power = 0) :
    ThrowRange s := by
  unfold ThrowRange
  rw [ha, hp]
  have := maxAngle_pos
  refine ⟨by linarith, by linarith, le_refl _, by norm_num⟩

theorem beforeEnemies_throw (p : Platform) (inp : Input) (s : State) :
    (beforeEnemies p inp s).throwAngle = s.throwAngle ∧
    (beforeEnemies p inp s).power = s.power := by
  have h1 : ∀ x : State, (stepPlayerBullets inp x).throwAngle = x.throwAngle ∧
      (stepPlayerBullets inp x).power = x.power := by
    intro x; simp only [stepPlayerBullets]; split_ifs <;> simp
  have h2 : ∀ x : State, (stepEnemySpawn p inp x).1.throwAngle = x.throwAngle ∧
      (stepEnemySpawn p inp x).1.power = x.power := by
    intro x; simp only [stepEnemySpawn]; split_ifs <;> simp
  have h3 : ∀ (k : Nat) (x : State), (stepElixirSpawn inp k x).throwAngle = x.throwAngle ∧
      (stepElixirSpawn inp k x).power = x.power := by
    intro k x; simp only [stepElixirSpawn]; split_ifs <;> simp
  have h4 : ∀ x : State, (stepElixirPickup inp x).throwAngle = x.throwAngle ∧
      (stepElixirPickup inp x).power = x.power := by
    intro x; simp only [stepElixirPickup]; split_ifs <;> simp
  have h5 : ∀ x : State, (stepElixirUse inp x).throwAngle = x.throwAngle ∧
      (stepElixirUse inp x).power = x.power := by
    intro x; simp only [stepElixirUse]; split_ifs <;> simp
  unfold beforeEnemies beforeUse beforePickup
  dsimp only
  constructor
  · rw [(h5 _).1, (h4 _).1, (h3 _ _).1, (h2 _).1, (h1 _).1]
  · rw [(h5 _).2, (h4 _).2, (h3 _ _).2, (h2 _).2, (h1 _).2]

theorem secondChanceOrOver_throwRange (inp : Input) (x : State) (h : ThrowRange x) :
    ThrowRange (secondChanceOrOver inp x) := by
  unfold secondChanceOrOver
  split_ifs
  · exact ThrowRange_zero _ rfl rfl
  · exact h

theorem onCaught_throwRange (inp : Input) (x : State) (h : ThrowRange x) :
    ThrowRange (onCaught inp x) := by
  unfold onCaught
  split_ifs
  · exact ThrowRange_zero _ rfl rfl
  · exact h

theorem updateGameplay_throwRange (p : Platform) (inp : Input) (s : State)
    (h : ThrowRange s) : ThrowRange (updateGameplay p inp s) := by
  unfold updateGameplay
  split_ifs
  · have h0 : ThrowRange (beforeEnemies p inp s) :=
      ThrowRange_of_eq s _ h (beforeEnemies_throw p inp s).1 (beforeEnemies_throw p inp s).2
    have h1 : ThrowRange (stepEnemies p inp (beforeEnemies p inp s)) := by
      unfold stepEnemies
      dsimp only
      split_ifs
      · exact onCaught_throwRange inp _ h0
      · exact h0
    unfold stepObstacles
    split_ifs
    · refine foldl_preserves ThrowRange _ ?_ _ _ h1
      intro x o hx
      split_ifs
      · exact secondChanceOrOver_throwRange inp x hx
      · exact hx
    · exact h1
  · exact h

theorem resetAndSpawn_throw (fuel : Nat) (p : Platform) (inp : Input) (k k1 : Nat)
    (s s1 : State) (h : resetAndSpawn fuel p inp k s = some (s1, k1)) :
    s1.throwAngle = s.throwAngle ∧ s1.power = s.power := by
  unfold resetAndSpawn at h
  dsimp only at h
  split_ifs at h with hd
  · unfold spawnObstaclesState at h
    cases hs : SpawnObstacles fuel p inp
        (playerRect p (ResetGame s.selectedDifficulty s).playerPos)
        (ResetGame s.selectedDifficulty s).obstacles k with
    | none => simp [hs] at h
    | some r =>
      obtain ⟨os, k2⟩ := r
      simp only [hs, Option.some.injEq, Prod.mk.injEq] at h
      rw [← h.1]
      exact ⟨rfl, rfl⟩
  · simp only [Option.some.injEq, Prod.mk.injEq] at h
    rw [← h.1]
    exact ⟨rfl, rfl⟩

theorem updateOpening_throwRange (fuel : Nat) (p : Platform) (inp : Input) (s s1 : State)
    (hs : ThrowRange s) (h : updateOpening fuel p inp s = some s1) : ThrowRange s1 := by
  unfold updateOpening at h
  dsimp only at h
  split_ifs at h with hclick
  · cases hr : resetAndSpawn fuel p inp 0
        { s with selectedDifficulty := selectDifficulty inp s.selectedDifficulty } with
    | none => simp [hr] at h
    | some r =>
      obtain ⟨s2, k2⟩ := r
      have ht := resetAndSpawn_throw fuel p inp 0 k2 _ s2 hr
      simp only [hr, Option.some.injEq] at h
      subst h
      exact ThrowRange_of_eq s _ hs ht.1 ht.2
  · simp only [Option.some.injEq] at h
    subst h
    exact hs

theorem updateClosing_throwRange (fuel : Nat) (p : Platform) (inp : Input) (s s1 : State)
    (hs : ThrowRange s) (h : updateClosing fuel p inp s = some s1) : ThrowRange s1 := by
  have hk : (stepScale inp s).throwAngle = s.throwAngle ∧ (stepScale inp s).power = s.power := by
    simp only [stepScale]; split_ifs <;> simp
  have hh : ∀ x : State, (stepHome inp x).throwAngle = x.throwAngle ∧
      (stepHome inp x).power = x.power := by
    intro x; simp only [stepHome]; split_ifs <;> simp [ResetGame, ResetElixirState]
  have h0 : ThrowRange (stepScale inp s) := ThrowRange_of_eq s _ hs hk.1 hk.2
  unfold updateClosing at h
  dsimp only at h
  split_ifs at h with hac
  · unfold stepRestart at h
    split_ifs at h with hR
    · cases hr : resetAndSpawn fuel p inp 0 (stepScale inp s) with
      | none => simp [hr] at h
      | some r =>
        obtain ⟨s2, k2⟩ := r
        have ht := resetAndSpawn_throw fuel p inp 0 k2 _ s2 hr
        simp only [hr, Option.some.injEq] at h
        subst h
        exact ThrowRange_of_eq (stepScale inp s) _ h0 ((hh _).1.trans ht.1) ((hh _).2.trans ht.2)
    · simp only [Option.some.injEq] at h
      subst h
      exact ThrowRange_of_eq (stepScale inp s) _ h0 (hh _).1 (hh _).2
  · simp only [Option.some.injEq] at h
    subst h
    exact h0

theorem stepStrikeToggle_throw (inp : Input) (s : State) :
    (stepStrikeToggle inp s).1.throwAngle = s.throwAngle ∧
    (stepStrikeToggle inp s).1.power = s.power ∧
    (stepStrikeToggle inp s).1.ballLaunched = s.ballLaunched ∧
    (stepStrikeToggle inp s).1.charging = s.charging := by
  simp only [stepStrikeToggle]
  split_ifs <;> simp

theorem stepAim_throw (p : Platform) (inp : Input) (s : State) (hs : ThrowRange s) :
    -maxAngle ≤ (stepAim p inp s).throwAngle ∧ (stepAim p inp s).throwAngle ≤ maxAngle ∧
    |(stepAim p inp s).throwAngle - s.throwAngle| ≤ 0.02 ∧
    (stepAim p inp s).power = s.power ∧
    (stepAim p inp s).ballLaunched = s.ballLaunched ∧
    (stepAim p inp s).charging = s.charging := by
  have hm : -maxAngle ≤ maxAngle := by have := maxAngle_pos; linarith
  simp only [stepAim]
  split_ifs
  all_goals simp only [and_true]
  all_goals first
    | exact ⟨hs.1, hs.2.1, by norm_num⟩
    | exact ⟨(Clamp_range _ _ _ hm).1, (Clamp_range _ _ _ hm).2,
        Clamp_near _ _ _ _ _ hs.1 hs.2.1 (by norm_num [abs_le])⟩

theorem stepCharge_throw (inp : Input) (s : State) (hs : ThrowRange s) :
    0 ≤ (stepCharge inp s).power ∧ (stepCharge inp s).power ≤ 1 ∧
    s.power ≤ (stepCharge inp s).power ∧ (stepCharge inp s).power ≤ s.power + 0.01 ∧
    (stepCharge inp s).throwAngle = s.throwAngle ∧
    (stepCharge inp s).ballLaunched = s.ballLaunched := by
  obtain ⟨_, _, h0, h1⟩ := hs
  simp only [stepCharge]
  split_ifs
  · simp only [and_true, maxPower]
    have hc := Clamp_range (s.power + 0.01) 0 1 (by norm_num)
    refine ⟨hc.1, hc.2, ?_, ?_⟩
    · unfold Clamp
      dsimp only
      split_ifs <;> linarith
    · unfold Clamp
      dsimp only
      split_ifs <;> linarith
  · simp only [and_true]
    exact ⟨h0, h1, le_refl _, by linarith⟩

theorem stepRelease_throw (inp : Input) (s : State) :
    (stepRelease inp s).throwAngle = s.throwAngle ∧
    (stepRelease inp s).power = s.power ∧
    (s.ballLaunched = false → (stepRelease inp s).ballLaunched = true →
      (stepRelease inp s).t = 0 ∧ (stepRelease inp s).ballSpeed = 0.02 + s.power * 0.05) := by
  simp only [stepRelease]
  split_ifs
  · simp only [true_and, baseSpeed]
    intro _ _
    trivial
  · simp only [true_and]
    intro h1 h2
    rw [h1] at h2
    exact absurd h2 (by simp)

/-- What the controls of one bonus frame do to the throw parameters. -/
theorem miniControls_throw (p : Platform) (inp : Input) (s : State) (hs : ThrowRange s) :
    ThrowRange (miniControls p inp s).1 ∧
    |(miniControls p inp s).1.throwAngle - s.throwAngle| ≤ 0.02 ∧
    s.power ≤ (miniControls p inp s).1.power ∧
    (miniControls p inp s).1.power ≤ s.power + 0.01 ∧
    (s.ballLaunched = false → (miniControls p inp s).1.ballLaunched = true →
      (miniControls p inp s).1.t = 0 ∧
      (miniControls p inp s).1.ballSpeed = 0.02 + (miniControls p inp s).1.power * 0.05) := by
  have ht := stepStrikeToggle_throw inp s
  have h1 : ThrowRange (stepStrikeToggle inp s).1 := ThrowRange_of_eq s _ hs ht.1 ht.2.1
  have ha := stepAim_throw p inp _ h1
  have h2 : ThrowRange (stepAim p inp (stepStrikeToggle inp s).1) := by
    refine ⟨ha.1, ha.2.1, ?_, ?_⟩
    · rw [ha.2.2.2.1]; exact h1.2.2.1
    · rw [ha.2.2.2.1]; exact h1.2.2.2
  have hc := stepCharge_throw inp _ h2
  have h3 : ThrowRange (stepCharge inp (stepAim p inp (stepStrikeToggle inp s).1)) := by
    refine ⟨?_, ?_, hc.1, hc.2.1⟩
    · rw [hc.2.2.2.2.1]; exact h2.1
    · rw [hc.2.2.2.2.1]; exact h2.2.1
  have hr := stepRelease_throw inp (stepCharge inp (stepAim p inp (stepStrikeToggle inp s).1))
  unfold miniControls
  dsimp only
  refine ⟨ThrowRange_of_eq _ _ h3 hr.1 hr.2.1, ?_, ?_, ?_, ?_⟩
  · rw [hr.1, hc.2.2.2.2.1, ← ht.1]
    exact ha.2.2.1
  · rw [hr.2.1, ← ht.2.1, ← ha.2.2.2.1]
    exact hc.2.2.1
  · rw [hr.2.1, ← ht.2.1, ← ha.2.2.2.1]
    exact hc.2.2.2.1
  · intro hl hl1
    rw [hr.2.1]
    refine hr.2.2 ?_ hl1
    rw [hc.2.2.2.2.2, ha.2.2.2.2.1, ht.2.2.1]
    exact hl

theorem afterCollision_throw (p : Platform) (inp : Input) (s : State) :
    (afterCollision p inp s).1.throwAngle = (miniControls p inp s).1.throwAngle ∧
    (afterCollision p inp s).1.power = (miniControls p inp s).1.power ∧
    (afterCollision p inp s).1.ballSpeed = (miniControls p inp s).1.ballSpeed ∧
    (afterCollision p inp s).1.ballLaunched = (miniControls p inp s).1.ballLaunched ∧
    (afterCollision p inp s).1.t =
      (miniControls p inp s).1.t + (miniControls p inp s).1.ballSpeed := by
  have hc : ∀ (k : Nat) (x : State), (collisionStep inp k x).1.throwAngle = x.throwAngle ∧
      (collisionStep inp k x).1.power = x.power ∧
      (collisionStep inp k x).1.ballSpeed = x.ballSpeed ∧
      (collisionStep inp k x).1.ballLaunched = x.ballLaunched ∧
      (collisionStep inp k x).1.t = x.t := by
    intro k x; simp only [collisionStep]; split_ifs <;> simp
  unfold afterCollision
  dsimp only
  rw [(hc _ _).1, (hc _ _).2.1, (hc _ _).2.2.1, (hc _ _).2.2.2.1, (hc _ _).2.2.2.2]
  simp [moveBall]

theorem updateMiniGame_throwRange (fuel : Nat) (p : Platform) (inp : Input) (s s1 : State)
    (hs : ThrowRange s) (h : updateMiniGame fuel p inp s = some s1) : ThrowRange s1 := by
  have hc := (miniControls_throw p inp s hs).1
  have ha := afterCollision_throw p inp s
  unfold updateMiniGame at h
  dsimp only at h
  split_ifs at h with hl
  · cases hj : judge fuel p inp (afterCollision p inp s).2 (afterCollision p inp s).1 with
    | none => simp [hj] at h
    | some x =>
      simp only [hj, Option.some.injEq] at h
      subst h
      refine ThrowRange_of_eq x _ ?_ rfl rfl
      rcases judge_cases fuel p inp _ _ x hj with ⟨_, rfl⟩ | ⟨_, _, rfl⟩ |
        ⟨_, _, s2, k2, hr, rfl⟩
      · exact ThrowRange_of_eq _ _ hc ha.1 ha.2.1
      · exact ThrowRange_zero _ rfl rfl
      · exact ThrowRange_zero _ rfl rfl
  · simp only [Option.some.injEq] at h
    subst h
    exact ThrowRange_of_eq _ _ hc rfl rfl

theorem updateFrame_throwRange (fuel : Nat) (p : Platform) (inp : Input) (s s1 : State)
    (hs : ThrowRange s) (h : updateFrame fuel p inp s = some s1) : ThrowRange s1 := by
  unfold updateFrame at h
  cases hg : s.gameState with
  | OPENING_SCENE => rw [hg] at h; exact updateOpening_throwRange fuel p inp s s1 hs h
  | GAMEPLAY =>
    rw [hg] at h
    simp only [Option.some.injEq] at h
    subst h
    exact updateGameplay_throwRange p inp s hs
  | MINI_GAME => rw [hg] at h; exact updateMiniGame_throwRange fuel p inp s s1 hs h
  | CLOSING_SCENE => rw [hg] at h; exact updateClosing_throwRange fuel p inp s s1 hs h

theorem Reachable_throwRange (p : Platform) (s : State) (hr : Reachable p s) : ThrowRange s := by
  induction hr with
  | init w h => exact ThrowRange_zero _ rfl rfl
  | step fuel inp hprev hstep ih => exact updateFrame_throwRange fuel p inp _ _ ih hstep

/-- A frame of the bonus scene that starts before the launch: the throw parameters
move by one step at most, and a launch in this frame is not judged in it. -/
theorem updateMiniGame_aiming (fuel : Nat) (p : Platform) (inp : Input) (s s1 : State)
    (hs : ThrowRange s) (hl0 : s.ballLaunched = false)
    (h : updateMiniGame fuel p inp s = some s1) :
    |s1.throwAngle - s.throwAngle| ≤ 0.02 ∧ s.power ≤ s1.power ∧ s1.power ≤ s.power + 0.01 ∧
    (s1.ballLaunched = true →
      s1.ballSpeed = 0.02 + s1.power * 0.05 ∧ 0.02 ≤ s1.ballSpeed ∧ s1.ballSpeed ≤ 0.07) := by
  have hc := miniControls_throw p inp s hs
  have ha := afterCollision_throw p inp s
  unfold updateMiniGame at h
  dsimp only at h
  split_ifs at h with hl
  · obtain ⟨ht0, hsp⟩ := hc.2.2.2.2 hl0 hl
    have hp0 := hc.1.2.2.1
    have hp1 := hc.1.2.2.2
    have hx : judge fuel p inp (afterCollision p inp s).2 (afterCollision p inp s).1 =
        some (afterCollision p inp s).1 := by
      unfold judge
      rw [if_neg]
      rw [ha.2.2.2.2, ht0, hsp]
      norm_num [PI]
      linarith
    simp only [hx, Option.some.injEq] at h
    subst h
    have e1 : (stepAnimatePins inp (afterCollision p inp s).1).throwAngle =
        (miniControls p inp s).1.throwAngle := ha.1
    have e2 : (stepAnimatePins inp (afterCollision p inp s).1).power =
        (miniControls p inp s).1.power := ha.2.1
    have e3 : (stepAnimatePins inp (afterCollision p inp s).1).ballSpeed =
        (miniControls p inp s).1.ballSpeed := ha.2.2.1
    rw [e1, e2, e3, hsp]
    refine ⟨hc.2.1, hc.2.2.1, hc.2.2.2.1, fun _ => ⟨rfl, ?_, ?_⟩⟩ <;> linarith
  · simp only [Option.some.injEq] at h
    subst h
    refine ⟨hc.2.1, hc.2.2.1, hc.2.2.2.1, fun h1 => ?_⟩
    exact absurd (show (miniControls p inp s).1.ballLaunched = true from h1) hl

/-! ## A ball in flight -/

theorem miniControls_flying (p : Platform) (inp : Input) (s : State)
    (hl : s.ballLaunched = true) (hc : s.charging = false) :
    miniControls p inp s = (s, 0) := by
  simp [miniControls, stepStrikeToggle, stepAim, stepCharge, stepRelease, hl, hc]

theorem afterCollision_bowl (p : Platform) (inp : Input) (s : State) :
    (afterCollision p inp s).1.charging = (miniControls p inp s).1.charging ∧
    (afterCollision p inp s).1.gameState = (miniControls p inp s).1.gameState := by
  have hc : ∀ (k : Nat) (x : State), (collisionStep inp k x).1.charging = x.charging ∧
      (collisionStep inp k x).1.gameState = x.gameState := by
    intro k x; simp only [collisionStep]; split_ifs <;> simp
  unfold afterCollision
  dsimp only
  rw [(hc _ _).1, (hc _ _).2]
  simp [moveBall]

/-- What `judge` does to a state whose curve parameter has reached `PI / 2`. -/
theorem judge_judged (fuel : Nat) (p : Platform) (inp : Input) (k : Nat) (s x : State)
    (ht : PI / 2 ≤ s.t) (h : judge fuel p inp k s = some x) :
    Judged (stepAnimatePins inp x) := by
  rcases judge_cases fuel p inp k s x h with ⟨hn, _⟩ | ⟨_, _, rfl⟩ | ⟨_, _, s1, k1, _, rfl⟩
  · exact absurd ht hn
  · unfold Judged
    simp [stepAnimatePins, ResetBowling]
  · unfold Judged
    simp [stepAnimatePins, ResetBowling]

/-- A bonus frame with the ball in flight: the curve parameter grows by the speed, and
the throw is judged exactly when it reaches `PI / 2`. -/
theorem updateMiniGame_flight (fuel : Nat) (p : Platform) (inp : Input) (s s1 : State)
    (hl : s.ballLaunched = true) (hc : s.charging = false)
    (h : updateMiniGame fuel p inp s = some s1) :
    (afterCollision p inp s).1.t = s.t + s.ballSpeed ∧
    (s.t + s.ballSpeed < PI / 2 →
      s1.ballLaunched = true ∧ s1.charging = false ∧ s1.t = s.t + s.ballSpeed ∧
      s1.ballSpeed = s.ballSpeed ∧ s1.gameState = s.gameState) ∧
    (PI / 2 ≤ s.t + s.ballSpeed → Judged s1) := by
  have hm := miniControls_flying p inp s hl hc
  have ha := afterCollision_throw p inp s
  have hb := afterCollision_bowl p inp s
  rw [hm] at ha hb
  dsimp only at ha hb
  unfold updateMiniGame at h
  dsimp only at h
  rw [hm] at h
  simp only [hl, if_true] at h
  cases hj : judge fuel p inp (afterCollision p inp s).2 (afterCollision p inp s).1 with
  | none => simp [hj] at h
  | some x =>
    simp only [hj, Option.some.injEq] at h
    subst h
    refine ⟨ha.2.2.2.2, fun hlt => ?_, fun hge => ?_⟩
    · have hx : x = (afterCollision p inp s).1 := by
        unfold judge at hj
        rw [if_neg (by rw [ha.2.2.2.2]; exact not_le.mpr hlt)] at hj
        simp only [Option.some.injEq] at hj
        exact hj.symm
      subst hx
      exact ⟨ha.2.2.2.1.trans hl, hb.1.trans hc, ha.2.2.2.2, ha.2.2.1, hb.2⟩
    · exact judge_judged fuel p inp _ _ x (by rw [ha.2.2.2.2]; exact hge) hj

theorem updateGameplay_launch (p : Platform) (inp : Input) (s : State)
    (h : (updateGameplay p inp s).ballLaunched = true) : s.ballLaunched = true := by
  have hb : (beforeEnemies p inp s).ballLaunched = s.ballLaunched := by
    have h1 : ∀ x : State, (stepPlayerBullets inp x).ballLaunched = x.ballLaunched := by
      intro x; simp only [stepPlayerBullets]; split_ifs <;> rfl
    have h2 : ∀ x : State, (stepEnemySpawn p inp x).1.ballLaunched = x.ballLaunched := by
      intro x; simp only [stepEnemySpawn]; split_ifs <;> rfl
    have h3 : ∀ (k : Nat) (x : State), (stepElixirSpawn inp k x).ballLaunched = x.ballLaunched := by
      intro k x; simp only [stepElixirSpawn]; split_ifs <;> rfl
    have h4 : ∀ x : State, (stepElixirPickup inp x).ballLaunched = x.ballLaunched := by
      intro x; simp only [stepElixirPickup]; split_ifs <;> rfl
    have h5 : ∀ x : State, (stepElixirUse inp x).ballLaunched = x.ballLaunched := by
      intro x; simp only [stepElixirUse]; split_ifs <;> rfl
    unfold beforeEnemies beforeUse beforePickup
    dsimp only
    rw [h5, h4, h3, h2, h1]
  have hsc : ∀ x : State, (secondChanceOrOver inp x).ballLaunched = true →
      x.ballLaunched = true := by
    intro x
    simp only [secondChanceOrOver]
    split_ifs <;> simp [ResetBowling, ResetElixirState]
  have hoc : ∀ x : State, (onCaught inp x).ballLaunched = true → x.ballLaunched = true := by
    intro x
    simp only [onCaught]
    split_ifs <;> simp [ResetBowling, ResetElixirState]
  have hen : ∀ x : State, (stepEnemies p inp x).ballLaunched = true → x.ballLaunched = true := by
    intro x
    unfold stepEnemies
    dsimp only
    split_ifs
    · exact hoc _
    · exact id
  have hob : ∀ x : State, (stepObstacles p inp x).ballLaunched = true →
      x.ballLaunched = true := by
    intro x
    unfold stepObstacles
    split_ifs
    · refine foldl_preserves (fun y : State => y.ballLaunched = true → x.ballLaunched = true)
        _ ?_ _ _ id
      intro y o hy
      split_ifs
      · exact fun h1 => hy (hsc y h1)
      · exact hy
    · exact id
  unfold updateGameplay at h
  split_ifs at h
  · exact hb ▸ hen _ (hob _ h)
  · exact h

theorem resetAndSpawn_launch (fuel : Nat) (p : Platform) (inp : Input) (k k1 : Nat)
    (s s1 : State) (h : resetAndSpawn fuel p inp k s = some (s1, k1)) :
    s1.ballLaunched = s.ballLaunched := by
  unfold resetAndSpawn at h
  dsimp only at h
  split_ifs at h with hd
  · unfold spawnObstaclesState at h
    cases hs : SpawnObstacles fuel p inp
        (playerRect p (ResetGame s.selectedDifficulty s).playerPos)
        (ResetGame s.selectedDifficulty s).obstacles k with
    | none => simp [hs] at h
    | some r =>
      obtain ⟨os, k2⟩ := r
      simp only [hs, Option.some.injEq, Prod.mk.injEq] at h
      rw [← h.1]
      rfl
  · simp only [Option.some.injEq, Prod.mk.injEq] at h
    rw [← h.1]
    rfl

theorem updateOpening_launch (fuel : Nat) (p : Platform) (inp : Input) (s s1 : State)
    (h : updateOpening fuel p inp s = some s1) : s1.ballLaunched = s.ballLaunched := by
  unfold updateOpening at h
  dsimp only at h
  split_ifs at h with hclick
  · cases hr : resetAndSpawn fuel p inp 0
        { s with selectedDifficulty := selectDifficulty inp s.selectedDifficulty } with
    | none => simp [hr] at h
    | some r =>
      obtain ⟨s2, k2⟩ := r
      have ht := resetAndSpawn_launch fuel p inp 0 k2 _ s2 hr
      simp only [hr, Option.some.injEq] at h
      subst h
      exact ht
  · simp only [Option.some.injEq] at h
    subst h
    rfl

theorem updateClosing_launch (fuel : Nat) (p : Platform) (inp : Input) (s s1 : State)
    (h : updateClosing fuel p inp s = some s1) : s1.ballLaunched = s.ballLaunched := by
  have hk : (stepScale inp s).ballLaunched = s.ballLaunched := by
    simp only [stepScale]; split_ifs <;> rfl
  have hh : ∀ x : State, (stepHome inp x).ballLaunched = x.ballLaunched := by
    intro x; simp only [stepHome]; split_ifs <;> simp [ResetGame, ResetElixirState]
  unfold updateClosing at h
  dsimp only at h
  split_ifs at h with hac
  · unfold stepRestart at h
    split_ifs at h with hR
    · cases hr : resetAndSpawn fuel p inp 0 (stepScale inp s) with
      | none => simp [hr] at h
      | some r =>
        obtain ⟨s2, k2⟩ := r
        have ht := resetAndSpawn_launch fuel p inp 0 k2 _ s2 hr
        simp only [hr, Option.some.injEq] at h
        subst h
        exact (hh _).trans (ht.trans hk)
    · simp only [Option.some.injEq] at h
      subst h
      exact (hh _).trans hk
  · simp only [Option.some.injEq] at h
    subst h
    exact hk

theorem miniControls_release (p : Platform) (inp : Input) (s : State) (hs : ThrowRange s)
    (hl0 : s.ballLaunched = false) (hl : (miniControls p inp s).1.ballLaunched = true) :
    (miniControls p inp s).1.charging = false := by
  have ht := stepStrikeToggle_throw inp s
  have h1 : ThrowRange (stepStrikeToggle inp s).1 := ThrowRange_of_eq s _ hs ht.1 ht.2.1
  have ha := stepAim_throw p inp _ h1
  have h2 : ThrowRange (stepAim p inp (stepStrikeToggle inp s).1) := by
    refine ⟨ha.1, ha.2.1, ?_, ?_⟩
    · rw [ha.2.2.2.1]; exact h1.2.2.1
    · rw [ha.2.2.2.1]; exact h1.2.2.2
  have hc := stepCharge_throw inp _ h2
  have hl1 : (stepCharge inp (stepAim p inp (stepStrikeToggle inp s).1)).ballLaunched = false := by
    rw [hc.2.2.2.2.2, ha.2.2.2.2.1, ht.2.2.1]
    exact hl0
  unfold miniControls at hl ⊢
  dsimp only at hl ⊢
  unfold stepRelease at hl ⊢
  split_ifs at hl ⊢
  · rfl
  · rw [hl1] at hl
    cases hl

/-- A bonus frame in which the ball is launched. -/
theorem updateMiniGame_launch (fuel : Nat) (p : Platform) (inp : Input) (s s1 : State)
    (hs : ThrowRange s) (hl0 : s.ballLaunched = false)
    (h : updateMiniGame fuel p inp s = some s1) (hl1 : s1.ballLaunched = true) :
    s1.gameState = s.gameState ∧ s1.charging = false ∧
    0.02 ≤ s1.ballSpeed ∧ s1.ballSpeed ≤ 0.07 ∧ s1.t = s1.ballSpeed := by
  have haim := (updateMiniGame_aiming fuel p inp s s1 hs hl0 h).2.2.2 hl1
  have hc := miniControls_throw p inp s hs
  have ha := afterCollision_throw p inp s
  have hb := afterCollision_bowl p inp s
  have hk := miniControls_keeps p inp s
  unfold updateMiniGame at h
  dsimp only at h
  split_ifs at h with hl
  · obtain ⟨ht0, hsp⟩ := hc.2.2.2.2 hl0 hl
    have hp0 := hc.1.2.2.1
    have hp1 := hc.1.2.2.2
    have hx : judge fuel p inp (afterCollision p inp s).2 (afterCollision p inp s).1 =
        some (afterCollision p inp s).1 := by
      unfold judge
      rw [if_neg]
      rw [ha.2.2.2.2, ht0, hsp]
      norm_num [PI]
      linarith
    simp only [hx, Option.some.injEq] at h
    subst h
    have e1 : (stepAnimatePins inp (afterCollision p inp s).1).gameState = s.gameState :=
      hb.2.trans hk.2.2.2.1
    have e2 : (stepAnimatePins inp (afterCollision p inp s).1).charging = false :=
      hb.1.trans (miniControls_release p inp s hs hl0 hl)
    have e3 : (stepAnimatePins inp (afterCollision p inp s).1).t =
        (stepAnimatePins inp (afterCollision p inp s).1).ballSpeed := by
      have e4 : (stepAnimatePins inp (afterCollision p inp s).1).t =
          (miniControls p inp s).1.t + (miniControls p inp s).1.ballSpeed := ha.2.2.2.2
      have e5 : (stepAnimatePins inp (afterCollision p inp s).1).ballSpeed =
          (miniControls p inp s).1.ballSpeed := ha.2.2.1
      rw [e4, e5, ht0, zero_add]
    exact ⟨e1, e2, haim.2.1, haim.2.2, e3⟩
  · simp only [Option.some.injEq] at h
    subst h
    exact absurd (show (miniControls p inp s).1.ballLaunched = true from hl1) hl

theorem updateFrame_launchOk (fuel : Nat) (p : Platform) (inp : Input) (s s1 : State)
    (hs : LaunchOk s) (hr : ThrowRange s) (h : updateFrame fuel p inp s = some s1) :
    LaunchOk s1 := by
  intro hl1
  unfold updateFrame at h
  cases hg : s.gameState with
  | OPENING_SCENE =>
    rw [hg] at h
    have h0 := (updateOpening_launch fuel p inp s s1 h).symm.trans hl1
    have h2 := (hs h0).1
    rw [hg] at h2
    cases h2
  | GAMEPLAY =>
    rw [hg] at h
    simp only [Option.some.injEq] at h
    subst h
    have h0 := updateGameplay_launch p inp s hl1
    have h2 := (hs h0).1
    rw [hg] at h2
    cases h2
  | CLOSING_SCENE =>
    rw [hg] at h
    have h0 := (updateClosing_launch fuel p inp s s1 h).symm.trans hl1
    have h2 := (hs h0).1
    rw [hg] at h2
    cases h2
  | MINI_GAME =>
    rw [hg] at h
    cases hl0 : s.ballLaunched with
    | false =>
      have hn := updateMiniGame_launch fuel p inp s s1 hr hl0 h hl1
      refine ⟨hn.1.trans hg, hn.2.1, hn.2.2.1, hn.2.2.2.1, ?_⟩
      rw [hn.2.2.2.2]
      linarith [hn.2.2.1]
    | true =>
      obtain ⟨_, hc, hlo, hhi, ht⟩ := hs hl0
      have hf := updateMiniGame_flight fuel p inp s s1 hl0 hc h
      by_cases hlt : s.t + s.ballSpeed < PI / 2
      · obtain ⟨_, f2, f3, f4, f5⟩ := hf.2.1 hlt
        refine ⟨f5.trans hg, f2, by rw [f4]; exact hlo, by rw [f4]; exact hhi, ?_⟩
        rw [f3]
        linarith
      · have hj := hf.2.2 (not_lt.mp hlt)
        rw [hj.2.1] at hl1
        cases hl1

theorem Reachable_launchOk (p : Platform) (s : State) (hr : Reachable p s) : LaunchOk s := by
  induction hr with
  | init w h =>
    intro hx
    have e : (initialState w h).ballLaunched = false := by
      simp [initialState, ResetElixirState, ResetBowling]
    rw [e] at hx
    cases hx
  | step fuel inp hprev hstep ih =>
    exact updateFrame_launchOk fuel p inp _ _ ih (Reachable_throwRange p _ hprev) hstep

theorem hardSelected_reachable : Reachable samplePlatform hardSelected := by
  refine Reachable.step 0 clickHard (Reachable.init 800 600) ?_
  have hg : (initialState 800 600).gameState = GameState.OPENING_SCENE := rfl
  have h1 : clicked clickHard easyBtn = false := by
    simp [clicked, CheckCollisionPointRec, clickHard, idleInput, easyBtn]
    norm_num
  have h2 : clicked clickHard mediumBtn = false := by
    simp [clicked, CheckCollisionPointRec, clickHard, idleInput, mediumBtn]
    norm_num
  have h3 : clicked clickHard hardBtn = true := by
    simp [clicked, CheckCollisionPointRec, clickHard, idleInput, hardBtn]
    norm_num
  have h4 : clicked clickHard startBtn = false := by
    simp [clicked, CheckCollisionPointRec, clickHard, idleInput, startBtn]
    norm_num
  unfold updateFrame
  rw [hg]
  simp only [updateOpening, selectDifficulty, h1, h2, h3, h4, if_true, if_false,
    Bool.false_eq_true]
  rfl

theorem resetAndSpawn_timer (fuel : Nat) (p : Platform) (inp : Input) (k k1 : Nat)
    (s s1 : State) (h : resetAndSpawn fuel p inp k s = some (s1, k1)) :
    s1.enemySpawnTimer = s.enemySpawnTimer := by
  unfold resetAndSpawn at h
  dsimp only at h
  split_ifs at h with hd
  · unfold spawnObstaclesState at h
    cases hs : SpawnObstacles fuel p inp
        (playerRect p (ResetGame s.selectedDifficulty s).playerPos)
        (ResetGame s.selectedDifficulty s).obstacles k with
    | none => simp [hs] at h
    | some r =>
      obtain ⟨os, k2⟩ := r
      simp only [hs, Option.some.injEq, Prod.mk.injEq] at h
      rw [← h.1]
      rfl
  · simp only [Option.some.injEq, Prod.mk.injEq] at h
    rw [← h.1]
    rfl

/-- A hard game is started from the opening scene with Hard selected. -/
theorem startedHard_exists : ∃ s2, Reachable samplePlatform s2 ∧
    s2.gameState = GameState.GAMEPLAY ∧ s2.selectedDifficulty = Difficulty.DIFFICULTY_HARD ∧
    s2.secondChanceUsed = false ∧ s2.gameOver = false ∧ s2.playerPos = ⟨400, 300⟩ ∧
    s2.score = 0 ∧ s2.enemySpawnTimer = 0 ∧ s2.enemies.length = MAX_ENEMIES ∧
    (∀ x ∈ s2.enemies, x.active = false) ∧ s2.pins.length = NUM_PINS := by
  obtain ⟨fuel, s2, hstep⟩ := updateFrame_terminates samplePlatform clickStart hardSelected
    (zero_draws_settle clickStart (fun _ => rfl) rfl rfl)
  refine ⟨s2, Reachable.step fuel clickStart hardSelected_reachable hstep, ?_⟩
  have hg : hardSelected.gameState = GameState.OPENING_SCENE := rfl
  have hwf : WF hardSelected := initialState_WF 800 600
  unfold updateFrame at hstep
  rw [hg] at hstep
  unfold updateOpening at hstep
  dsimp only at hstep
  rw [if_pos clickStart_clicked] at hstep
  cases hr : resetAndSpawn fuel samplePlatform clickStart 0
      { hardSelected with
        selectedDifficulty := selectDifficulty clickStart hardSelected.selectedDifficulty } with
  | none => simp [hr] at hstep
  | some r =>
    obtain ⟨r2, k2⟩ := r
    have ht := resetAndSpawn_spec fuel samplePlatform clickStart 0 k2 _ r2 hr
    have htm := resetAndSpawn_timer fuel samplePlatform clickStart 0 k2 _ r2 hr
    simp only [hr, Option.some.injEq] at hstep
    subst hstep
    have hsel : selectDifficulty clickStart hardSelected.selectedDifficulty =
        Difficulty.DIFFICULTY_HARD := selectDifficulty_start clickStart _ clickStart_clicked
    refine ⟨rfl, ht.1.trans hsel, rfl, ht.2.2.1, ht.2.2.2.2.2.2.1, ht.2.2.2.2.2.1, htm,
      ht.2.2.2.2.2.2.2.2.2.2.2.2.2.2.1.trans hwf.2.1,
      ht.2.2.2.2.2.2.2.2.2.2.2.2.2.2.2.2.2.1, (congrArg List.length ht.2.2.2.2.1).trans hwf.2.2.2⟩

/-- The hard game enters the bonus scene when the first enemy catches the player. -/
theorem bonus_exists : ∃ s3, Reachable samplePlatform s3 ∧
    s3.gameState = GameState.MINI_GAME ∧ s3.ballLaunched = false := by
  obtain ⟨s2, hr2, hg, hd, hu, hov, hpos, hscore, htimer, hlen, hfree, hpins⟩ :=
    startedHard_exists
  have hr3 : Reachable samplePlatform (updateGameplay samplePlatform chaseInput s2) :=
    Reachable.step 0 chaseInput hr2 (updateFrame_gameplay 0 samplePlatform chaseInput s2 hg)
  refine ⟨_, hr3, ?_, ?_⟩
  · have hk := beforeEnemies_keeps samplePlatform chaseInput s2
    have hspawn : s2.enemySpawnTimer + chaseInput.dt >
        baseInterval s2.selectedDifficulty - (s2.score : ℚ) * 0.01 := by
      rw [htimer, hscore, hd]
      simp [chaseInput, idleInput, baseInterval]
      norm_num
    have hen := beforeEnemies_enemies_spawn samplePlatform chaseInput s2 hspawn rfl
    have hhit : ∃ e ∈ (beforeEnemies samplePlatform chaseInput s2).enemies,
        e.active = true ∧
        CheckCollisionCircles (pursue samplePlatform chaseInput.dt
          (beforeEnemies samplePlatform chaseInput s2).playerPos e).position 20
          (beforeEnemies samplePlatform chaseInput s2).playerPos 20 = true := by
      rw [beforeEnemies_playerPos, hen, hpos]
      cases hes : s2.enemies with
      | nil =>
        rw [hes] at hlen
        simp [MAX_ENEMIES] at hlen
      | cons e es =>
        have he : e.active = false := hfree e (by rw [hes]; exact List.mem_cons_self _ _)
        rw [SpawnEnemy_head _ _ _ _ _ _ _ he, chase_position]
        refine ⟨_, List.mem_cons_self _ _, rfl, ?_⟩
        simp [pursue, movePlayer, chaseInput, idleInput, Vector2Length, Vector2Normalize,
          Vector2Subtract, Vector2Add, Vector2Scale, samplePlatform, CheckCollisionCircles,
          playerSpeed]
        norm_num
    have hcaught := enemyLoop_caught samplePlatform chaseInput.dt _ _
      (beforeEnemies samplePlatform chaseInput s2).bullets
      (beforeEnemies samplePlatform chaseInput s2).score hhit
    have hfresh : InMiniGameFresh (stepEnemies samplePlatform chaseInput
        (beforeEnemies samplePlatform chaseInput s2)) := by
      unfold stepEnemies
      dsimp only
      rw [if_pos hcaught]
      unfold onCaught
      rw [if_pos ⟨hk.1.trans hd, hk.2.1.trans hu⟩]
      exact secondChance_fresh chaseInput _ (hk.2.1.trans hu) (hk.2.2.1.trans hov)
        ((congrArg List.length hk.2.2.2.2.1).trans hpins)
    rw [updateGameplay_running _ _ _ hov]
    exact (stepObstacles_fresh samplePlatform chaseInput _ hfresh).2.1
  · cases hl : (updateGameplay samplePlatform chaseInput s2).ballLaunched with
    | false => rfl
    | true =>
      have h0 := updateGameplay_launch samplePlatform chaseInput s2 hl
      have h1 := (Reachable_launchOk samplePlatform s2 hr2 h0).1
      rw [hg] at h1
      cases h1

/-- The strike test of lines 488-491 holds exactly when every pin is fallen. -/
theorem allFallen_iff (pins : List Pin) :
    (allFallen pins = true ↔ ∀ q ∈ pins, q.fallen = true) ∧
    (allFallen pins = false ↔ ∃ q ∈ pins, q.fallen = false) := by
  have h1 : allFallen pins = true ↔ ∀ q ∈ pins, q.fallen = true := by
    unfold allFallen
    rw [List.all_eq_true]
  refine ⟨h1, ?_⟩
  constructor
  · intro hf
    by_contra hno
    push_neg at hno
    have hall : allFallen pins = true := h1.mpr (fun q hq => by
      cases hq1 : q.fallen with
      | true => rfl
      | false => exact absurd hq1 (hno q hq))
    rw [hf] at hall
    cases hall
  · rintro ⟨q, hq, hqf⟩
    cases hall : allFallen pins with
    | false => rfl
    | true =>
      rw [h1.mp hall q hq] at hqf
      cases hqf

/-- The collision loop leaves a rack of fallen pins as it is. -/
theorem pinLoop_fallen (inp : Input) (strike : Bool) (ballPos : Vector2) :
    ∀ (qs : List Pin) (k : Nat), (∀ q ∈ qs, q.fallen = true) →
      (pinLoop inp strike ballPos qs k).pins = qs ∧
      (pinLoop inp strike ballPos qs k).struck = false
  | [], _, _ => ⟨rfl, rfl⟩
  | q :: qs, k, h => by
    have hq : ballHits ballPos q = false := by
      simp [ballHits, h q (List.mem_cons_self _ _)]
    have ih := pinLoop_fallen inp strike ballPos qs k
      (fun x hx => h x (List.mem_cons_of_mem _ hx))
    unfold pinLoop
    simp only [hq, Bool.false_eq_true, if_false]
    exact ⟨by rw [ih.1], ih.2⟩

theorem afterCollision_fallen (p : Platform) (inp : Input) (s : State)
    (h : ∀ q ∈ s.pins, q.fallen = true) : (afterCollision p inp s).1.pins = s.pins := by
  have hc : (moveBall p (miniControls p inp s).1).pins = s.pins :=
    (moveBall_keeps p _).2.2.2.2.1.trans (miniControls_keeps p inp s).2.2.2.2.1
  have hl := pinLoop_fallen inp (isStrikeCondition (moveBall p (miniControls p inp s).1))
    (moveBall p (miniControls p inp s).1).ballPos (moveBall p (miniControls p inp s).1).pins
    (miniControls p inp s).2 (by rw [hc]; exact h)
  unfold afterCollision collisionStep
  dsimp only
  rw [hl.2]
  simp only [Bool.false_eq_true, if_false]
  exact hl.1.trans hc

/-- Without a strike the collision loop leaves a pin that the ball misses as it is. -/
theorem afterCollision_head_missed (p : Platform) (inp : Input) (s : State) (q : Pin)
    (rest : List Pin) (hp : s.pins = q :: rest)
    (hs : isStrikeCondition (moveBall p (miniControls p inp s).1) = false)
    (hq : ballHits (moveBall p (miniControls p inp s).1).ballPos q = false) :
    ∃ rest1, (afterCollision p inp s).1.pins = q :: rest1 := by
  have hc : (moveBall p (miniControls p inp s).1).pins = q :: rest :=
    ((moveBall_keeps p _).2.2.2.2.1.trans (miniControls_keeps p inp s).2.2.2.2.1).trans hp
  have hns := (pinLoop_noStrike inp (moveBall p (miniControls p inp s).1).ballPos
    (q :: rest) (miniControls p inp s).2).1
  unfold afterCollision collisionStep
  dsimp only
  rw [hs, hc, hns]
  simp only [Bool.false_eq_true, if_false]
  unfold pinLoop
  simp only [hq, Bool.false_eq_true, if_false]
  exact ⟨_, rfl⟩

theorem missedThrow_head : ∃ rest1, (afterCollision samplePlatform idleInput missedThrow).1.pins =
    ⟨⟨400, 120⟩, ⟨0, 0⟩, 0, false, false⟩ :: rest1 := by
  obtain ⟨rest, hrest⟩ := initialState_head_pin
  have hm := miniControls_launched samplePlatform idleInput missedThrow rfl rfl
  refine afterCollision_head_missed samplePlatform idleInput missedThrow _ rest hrest ?_ ?_
  · rw [hm]
    simp [isStrikeCondition, moveBall, missedThrow, thrownState, initialState, ResetElixirState,
      ResetBowling]
    norm_num
  · rw [hm]
    simp [ballHits, moveBall, missedThrow, thrownState, initialState, ResetElixirState,
      ResetBowling, CheckCollisionCircles, samplePlatform, a, b, LANE_LEFT, LANE_RIGHT,
      BALL_RADIUS, PIN_RADIUS]
    norm_num

/-- A bonus frame in terms of the strike test of lines 488-491: when the ball is
launched at line 452 and `t` advanced by `ballSpeed` is at least `PI / 2`, the frame
ends in Survival if `allFallen` holds of the pins after the collision step and in the
closing scene otherwise, with the bowling state reset; any other bonus frame stays in
the bonus scene; the frame returns whenever the draws of `SpawnObstacles` settle. -/
theorem judge_frame (p : Platform) (inp : Input) (s : State) (hwf : WF s)
    (hscene : s.gameState = GameState.MINI_GAME) :
    (∀ fuel s1, updateFrame fuel p inp s = some s1 →
      (((miniControls p inp s).1.ballLaunched = true ∧
          PI / 2 ≤ (miniControls p inp s).1.t + (miniControls p inp s).1.ballSpeed) →
        (allFallen (afterCollision p inp s).1.pins = true →
          s1.gameState = GameState.GAMEPLAY ∧ s1.secondChanceUsed = true ∧ s1.score = 0 ∧
          s1.gameOver = false ∧
          s1.bullets.length = MAX_BULLETS ∧ (∀ x ∈ s1.bullets, x.active = false) ∧
          s1.enemies.length = MAX_ENEMIES ∧ (∀ x ∈ s1.enemies, x.active = false)) ∧
        (allFallen (afterCollision p inp s).1.pins = false →
          s1.gameOver = true ∧ s1.gameState = GameState.CLOSING_SCENE) ∧
        s1.ballLaunched = false ∧ s1.t = 0 ∧ s1.power = 0 ∧ s1.throwAngle = 0 ∧
        FreshRack s1.pins) ∧
      (¬ ((miniControls p inp s).1.ballLaunched = true ∧
          PI / 2 ≤ (miniControls p inp s).1.t + (miniControls p inp s).1.ballSpeed) →
        s1.gameState = GameState.MINI_GAME)) ∧
    (((miniControls p inp s).1.ballLaunched = true →
        PI / 2 ≤ (miniControls p inp s).1.t + (miniControls p inp s).1.ballSpeed →
        allFallen (afterCollision p inp s).1.pins = true →
        s.selectedDifficulty = Difficulty.DIFFICULTY_HARD →
        DrawsSettle p inp (playerRect p ⟨400, 300⟩)) →
      ∃ fuel s1, updateFrame fuel p inp s = some s1) := by
  have hc := miniControls_keeps p inp s
  have ha := afterCollision_keeps p inp s
  have hpins : (afterCollision p inp s).1.pins.length = NUM_PINS :=
    ha.2.2.2.2.2.2.2.2.2.2.2.2.2.1.trans hwf.2.2.2
  have hfr : ∀ fuel, updateFrame fuel p inp s = updateMiniGame fuel p inp s := by
    intro fuel; simp [updateFrame, hscene]
  constructor
  · intro fuel s1 h
    rw [hfr] at h
    unfold updateMiniGame at h
    dsimp only at h
    split_ifs at h with hl
    · cases hj : judge fuel p inp (afterCollision p inp s).2 (afterCollision p inp s).1 with
      | none => simp [hj] at h
      | some x =>
        simp only [hj, Option.some.injEq] at h
        subst h
        rcases judge_cases fuel p inp _ _ x hj with ⟨ht, rfl⟩ | ⟨ht, hf, rfl⟩ |
          ⟨ht, hf, s2, k2, hr, rfl⟩
        · rw [ha.2.2.2.2.2.2.2.2.2.2.2.2.2.2] at ht
          refine ⟨fun hjud => absurd hjud.2 ht, fun _ => ?_⟩
          rw [(stepAnimatePins_keeps inp _).2.2.2.1, ha.2.2.2.1, hscene]
        · have hre := rerack_spec inp
            { (afterCollision p inp s).1 with
              gameOver := true, gameState := GameState.CLOSING_SCENE } hpins
          rw [ha.2.2.2.2.2.2.2.2.2.2.2.2.2.2] at ht
          refine ⟨fun _ => ⟨fun hall => ?_, fun _ => ⟨hre.2.2.2.2.2.2.1, hre.2.2.2.2.2.1⟩,
            hre.1, hre.2.1, hre.2.2.1, hre.2.2.2.1, hre.2.2.2.2.1⟩, fun hn => absurd ⟨hl, ht⟩ hn⟩
          rw [hf] at hall
          cases hall
        · have hsp := resetAndSpawn_spec fuel p inp _ k2 _ s2 hr
          have hre := rerack_spec inp { s2 with gameState := GameState.GAMEPLAY }
            (by show s2.pins.length = NUM_PINS; rw [hsp.2.2.2.2.1]; exact hpins)
          rw [ha.2.2.2.2.2.2.2.2.2.2.2.2.2.2] at ht
          refine ⟨fun _ => ⟨fun _ => ⟨hre.2.2.2.2.2.1, ?_, ?_, ?_, ?_, ?_, ?_, ?_⟩, fun hnf => ?_,
            hre.1, hre.2.1, hre.2.2.1, hre.2.2.2.1, hre.2.2.2.2.1⟩, fun hn => absurd ⟨hl, ht⟩ hn⟩
          · rw [hre.2.2.2.2.2.2.2.1]; exact hsp.2.1
          · rw [hre.2.2.2.2.2.2.2.2.1]; exact hsp.2.2.2.2.2.1
          · rw [hre.2.2.2.2.2.2.1]; exact hsp.2.2.1
          · rw [hre.2.2.2.2.2.2.2.2.2.1]
            exact hsp.2.2.2.2.2.2.2.2.2.2.2.2.2.1.trans (by
              show (afterCollision p inp s).1.bullets.length = MAX_BULLETS
              rw [ha.2.2.2.2.2.2.1]; exact hwf.1)
          · rw [hre.2.2.2.2.2.2.2.2.2.1]; exact hsp.2.2.2.2.2.2.2.2.2.2.2.2.2.2.2.2.1
          · rw [hre.2.2.2.2.2.2.2.2.2.2]
            exact hsp.2.2.2.2.2.2.2.2.2.2.2.2.2.2.1.trans (by
              show (afterCollision p inp s).1.enemies.length = MAX_ENEMIES
              rw [ha.2.2.2.2.2.2.2.1]; exact hwf.2.1)
          · rw [hre.2.2.2.2.2.2.2.2.2.2]; exact hsp.2.2.2.2.2.2.2.2.2.2.2.2.2.2.2.2.2.1
          · rw [hf] at hnf
            cases hnf
    · simp only [Option.some.injEq] at h
      subst h
      refine ⟨fun hjud => absurd hjud.1 hl, fun _ => ?_⟩
      rw [(stepAnimatePins_keeps inp _).2.2.2.1, hc.2.2.2.1, hscene]
  · intro hsettle
    by_cases hl : (miniControls p inp s).1.ballLaunched = true
    · by_cases ht : (afterCollision p inp s).1.t ≥ PI / 2
      · cases hf : allFallen (afterCollision p inp s).1.pins with
        | false =>
          refine ⟨0, ?_⟩
          rw [hfr]
          simp [updateMiniGame, hl, judge, ht, hf]
        | true =>
          have ht1 := ht
          rw [ha.2.2.2.2.2.2.2.2.2.2.2.2.2.2] at ht1
          obtain ⟨fuel, x, hx⟩ := resetAndSpawn_terminates p inp (afterCollision p inp s).2
            { (afterCollision p inp s).1 with secondChanceUsed := true }
            (fun hd => hsettle hl ht1 hf (by rw [← ha.1]; exact hd))
          refine ⟨fuel, ?_⟩
          rw [hfr]
          simp [updateMiniGame, hl, judge, ht, hf, hx]
      · refine ⟨0, ?_⟩
        rw [hfr]
        simp [updateMiniGame, hl, judge, ht]
    · refine ⟨0, ?_⟩
      rw [hfr]
      simp [updateMiniGame, hl]

theorem fallenThrow_WF : WF fallenThrow := by
  have h := initialState_WF 800 600
  exact ⟨h.1, h.2.1, h.2.2.1, by simp [fallenThrow, NUM_PINS]⟩

theorem fallenThrow_pins : ∀ q ∈ (afterCollision samplePlatform idleInput fallenThrow).1.pins,
    q.fallen = true := by
  have hall : ∀ q ∈ fallenThrow.pins, q.fallen = true := by
    intro q hq
    have hq1 : q ∈ List.replicate NUM_PINS
        (⟨zeroVector, zeroVector, 0, true, false⟩ : Pin) := hq
    rw [(List.mem_replicate.mp hq1).2]
  rw [afterCollision_fallen samplePlatform idleInput fallenThrow hall]
  exact hall

/-! ## Rounding to binary32 -/

theorem rne_cases (t : ℚ) : rne t = ⌊t⌋ ∨ rne t = ⌊t⌋ + 1 := by
  unfold rne
  split_ifs <;> simp

theorem rne_abs_err (t : ℚ) : |(rne t : ℚ) - t| ≤ 1 / 2 := by
  have h1 := Int.floor_le t
  have h2 := Int.lt_floor_add_one t
  rw [abs_le]
  unfold rne
  split_ifs with ha hb hc
  · constructor <;> linarith
  · push_cast
    constructor <;> linarith
  · have he : t - ⌊t⌋ = 1 / 2 := le_antisymm (not_lt.mp hb) (not_lt.mp ha)
    constructor <;> linarith
  · have he : t - ⌊t⌋ = 1 / 2 := le_antisymm (not_lt.mp hb) (not_lt.mp ha)
    push_cast
    constructor <;> linarith

theorem rne_le_int (t : ℚ) (K : Int) (h : t ≤ K) : rne t ≤ K := by
  have hf : ⌊t⌋ ≤ K := Int.floor_le_iff.mpr (by linarith)
  rcases lt_or_eq_of_le hf with hlt | heq
  · rcases rne_cases t with h1 | h1 <;> omega
  · have h1 := Int.floor_le t
    have ht : t = ⌊t⌋ := le_antisymm (by rw [heq]; exact h) h1
    have h0 : t - ⌊t⌋ < 1 / 2 := by rw [← ht]; norm_num
    unfold rne
    rw [if_pos h0]
    exact hf

theorem rne_ge_int (t : ℚ) (K : Int) (h : (K : ℚ) ≤ t) : K ≤ rne t := by
  have hf : K ≤ ⌊t⌋ := Int.le_floor.mpr h
  rcases rne_cases t with h1 | h1 <;> omega

theorem quantum32_pos (x : ℚ) : 0 < quantum32 x := by
  unfold quantum32
  positivity

theorem round32_zero : round32 0 = 0 := by
  unfold round32
  have h : rne (0 / quantum32 0) = 0 := by
    rw [zero_div]
    unfold rne
    simp
  rw [h]
  simp

/-- The rounding error is at most half the spacing. -/
theorem round32_abs (x : ℚ) : |round32 x - x| ≤ quantum32 x / 2 := by
  have hq := quantum32_pos x
  have h := rne_abs_err (x / quantum32 x)
  have e : round32 x - x = ((rne (x / quantum32 x) : ℚ) - x / quantum32 x) * quantum32 x := by
    unfold round32
    field_simp
  rw [e, abs_mul, abs_of_pos hq]
  calc |(rne (x / quantum32 x) : ℚ) - x / quantum32 x| * quantum32 x
      ≤ 1 / 2 * quantum32 x := mul_le_mul_of_nonneg_right h (le_of_lt hq)
    _ = quantum32 x / 2 := by ring

theorem log2_lt (x : ℚ) (hx : x ≠ 0) (e : Int) (h : |x| < (2 : ℚ) ^ (e + 1)) :
    Int.log 2 |x| ≤ e := by
  have hpos : 0 < |x| := abs_pos.mpr hx
  have := (Int.lt_zpow_iff_log_lt (b := 2) (by norm_num) hpos).mp (by exact_mod_cast h)
  omega

theorem log2_ge (x : ℚ) (hx : x ≠ 0) (e : Int) (h : (2 : ℚ) ^ e ≤ |x|) :
    e ≤ Int.log 2 |x| := by
  have hpos : 0 < |x| := abs_pos.mpr hx
  exact (Int.zpow_le_iff_le_log (b := 2) (by norm_num) hpos).mp (by exact_mod_cast h)

theorem quantum32_of_binade (x : ℚ) (e : Int) (h1 : (2 : ℚ) ^ e ≤ |x|)
    (h2 : |x| < (2 : ℚ) ^ (e + 1)) (he : -126 ≤ e) : quantum32 x = (2 : ℚ) ^ (e - 23) := by
  have hx : x ≠ 0 := by
    intro h0
    rw [h0, abs_zero] at h1
    have : (0 : ℚ) < 2 ^ e := by positivity
    linarith
  have hl : Int.log 2 |x| = e := le_antisymm (log2_lt x hx e h2) (log2_ge x hx e h1)
  unfold quantum32
  rw [hl, max_eq_left (by omega)]

/-- The value of `round32` in a known binade. -/
theorem round32_eval (x : ℚ) (e : Int) (h1 : (2 : ℚ) ^ e ≤ |x|)
    (h2 : |x| < (2 : ℚ) ^ (e + 1)) (he : -126 ≤ e) :
    round32 x = (rne (x / (2 : ℚ) ^ (e - 23)) : ℚ) * (2 : ℚ) ^ (e - 23) := by
  unfold round32
  rw [quantum32_of_binade x e h1 h2 he]

/-- The absolute rounding error below `2 ^ (e + 1)`. -/
theorem round32_err (x : ℚ) (e : Int) (h2 : |x| < (2 : ℚ) ^ (e + 1)) (he : -126 ≤ e) :
    |round32 x - x| ≤ (2 : ℚ) ^ (e - 24) := by
  by_cases hx : x = 0
  · rw [hx, round32_zero]
    simp
    positivity
  · have hl := log2_lt x hx e h2
    have hq : quantum32 x ≤ (2 : ℚ) ^ (e - 23) := by
      unfold quantum32
      apply zpow_le_zpow_right₀ (by norm_num)
      omega
    have h := round32_abs x
    have e1 : (2 : ℚ) ^ (e - 24) = (2 : ℚ) ^ (e - 23) / 2 := by
      rw [show e - 24 = e - 23 - 1 by ring, zpow_sub_one₀ (by norm_num)]
      ring
    rw [e1]
    linarith

/-- The relative rounding error in the normal range. -/
theorem round32_rel (x : ℚ) (hx : x = 0 ∨ (2 : ℚ) ^ (-126 : Int) ≤ |x|) :
    |round32 x - x| ≤ (2 : ℚ) ^ (-24 : Int) * |x| := by
  by_cases h0 : x = 0
  · rw [h0, round32_zero]
    simp
  · have hn : (2 : ℚ) ^ (-126 : Int) ≤ |x| := hx.resolve_left h0
    have hpos : 0 < |x| := abs_pos.mpr h0
    have hl : -126 ≤ Int.log 2 |x| := log2_ge x h0 (-126) hn
    have hle : (2 : ℚ) ^ Int.log 2 |x| ≤ |x| := by
      have := Int.zpow_log_le_self (b := 2) (r := |x|) (by norm_num) hpos
      exact_mod_cast this
    have hq : quantum32 x = (2 : ℚ) ^ (Int.log 2 |x| - 23) := by
      unfold quantum32
      rw [max_eq_left (by omega)]
    have h := round32_abs x
    rw [hq] at h
    have e1 : (2 : ℚ) ^ (Int.log 2 |x| - 23) / 2 =
        (2 : ℚ) ^ (-24 : Int) * (2 : ℚ) ^ Int.log 2 |x| := by
      rw [show Int.log 2 |x| - 23 = -24 + Int.log 2 |x| + 1 by ring,
        zpow_add_one₀ (by norm_num), zpow_add₀ (by norm_num)]
      ring
    rw [e1] at h
    calc |round32 x - x| ≤ (2 : ℚ) ^ (-24 : Int) * (2 : ℚ) ^ Int.log 2 |x| := h
      _ ≤ (2 : ℚ) ^ (-24 : Int) * |x| := by
        apply mul_le_mul_of_nonneg_left hle
        positivity



theorem rne_eval_lt (t : ℚ) (f : Int) (h1 : (f : ℚ) ≤ t) (h2 : t - f < 1 / 2) : rne t = f := by
  have hf : ⌊t⌋ = f := Int.floor_eq_iff.mpr ⟨h1, by linarith⟩
  unfold rne
  rw [hf, if_pos h2]

theorem rne_eval_gt (t : ℚ) (f : Int) (h2 : 1 / 2 < t - f) (h3 : t < f + 1) :
    rne t = f + 1 := by
  have hf : ⌊t⌋ = f := Int.floor_eq_iff.mpr ⟨by linarith, h3⟩
  unfold rne
  rw [hf, if_neg (by linarith), if_pos h2]

theorem rne_eval_tie (t : ℚ) (f : Int) (h : t - f = 1 / 2) :
    rne t = if f % 2 = 0 then f else f + 1 := by
  have hf : ⌊t⌋ = f := Int.floor_eq_iff.mpr ⟨by linarith, by linarith⟩
  unfold rne
  rw [hf, if_neg (by linarith), if_neg (by linarith)]

/-- The value of `round32` at a positive number of a known binade, by the integer
below the scaled number. -/
theorem round32_eval_pos (x : ℚ) (e : Int) (h1 : (2 : ℚ) ^ e ≤ x)
    (h2 : x < (2 : ℚ) ^ (e + 1)) (he : -126 ≤ e) :
    round32 x = (rne (x / (2 : ℚ) ^ (e - 23)) : ℚ) * (2 : ℚ) ^ (e - 23) := by
  have h0 : 0 ≤ x := le_trans (by positivity) h1
  exact round32_eval x e (by rw [abs_of_nonneg h0]; exact h1)
    (by rw [abs_of_nonneg h0]; exact h2) he

/-! ## The throw controls in binary32 -/

theorem lit002_eq : lit002 = 5368709 / 268435456 := by
  unfold lit002
  rw [round32_eval_pos _ (-6) (by norm_num) (by norm_num) (by norm_num),
    rne_eval_lt _ 10737418 (by norm_num) (by norm_num)]
  norm_num

theorem lit001_eq : lit001 = 5368709 / 536870912 := by
  unfold lit001
  rw [round32_eval_pos _ (-7) (by norm_num) (by norm_num) (by norm_num),
    rne_eval_lt _ 10737418 (by norm_num) (by norm_num)]
  norm_num

theorem lit005_eq : lit005 = 13421773 / 268435456 := by
  unfold lit005
  rw [round32_eval_pos _ (-5) (by norm_num) (by norm_num) (by norm_num),
    rne_eval_gt _ 13421772 (by norm_num) (by norm_num)]
  norm_num

theorem PI32_eq : PI32 = 13176795 / 4194304 := by
  unfold PI32
  rw [round32_eval_pos _ 1 (by norm_num) (by norm_num) (by norm_num),
    rne_eval_gt _ 13176794 (by norm_num) (by norm_num)]
  norm_num

theorem maxAngle32_eq : maxAngle32 = 4392265 / 8388608 := by
  unfold maxAngle32
  rw [PI32_eq, round32_eval_pos _ (-1) (by norm_num) (by norm_num) (by norm_num),
    rne_eval_lt _ 8784530 (by norm_num) (by norm_num)]
  norm_num

theorem quantum32_of_binade_pos (x : ℚ) (e : Int) (h1 : (2 : ℚ) ^ e ≤ x)
    (h2 : x < (2 : ℚ) ^ (e + 1)) (he : -126 ≤ e) : quantum32 x = (2 : ℚ) ^ (e - 23) := by
  have h0 : 0 ≤ x := le_trans (by positivity) h1
  exact quantum32_of_binade x e (by rw [abs_of_nonneg h0]; exact h1)
    (by rw [abs_of_nonneg h0]; exact h2) he

/-- Rounding does not cross a binary32 number: a positive `y` below a multiple `F` of
its own spacing rounds to at most `F`. -/
theorem round32_le_float (y F : ℚ) (hy : 0 < y) (hyF : y ≤ F) (N : Int)
    (hF : F = (N : ℚ) * quantum32 F) : round32 y ≤ F := by
  have hFpos : 0 < F := lt_of_lt_of_le hy hyF
  have hlog : Int.log 2 |y| ≤ Int.log 2 |F| := by
    rw [abs_of_pos hy, abs_of_pos hFpos]
    exact Int.log_mono_right hy hyF
  have hexp : max (Int.log 2 |y| - 23) (-149) ≤ max (Int.log 2 |F| - 23) (-149) :=
    max_le_max (by omega) (le_refl _)
  obtain ⟨j, hj⟩ := Int.eq_ofNat_of_zero_le (sub_nonneg.mpr hexp)
  have hQ : quantum32 F = (2 : ℚ) ^ j * quantum32 y := by
    unfold quantum32
    rw [← zpow_natCast, ← hj, ← zpow_add₀ (by norm_num)]
    congr 1
    ring
  have hq := quantum32_pos y
  have hK : y / quantum32 y ≤ ((N * 2 ^ j : Int) : ℚ) := by
    rw [div_le_iff₀ hq]
    push_cast
    calc y ≤ F := hyF
      _ = (N : ℚ) * ((2 : ℚ) ^ j * quantum32 y) := by rw [← hQ]; exact hF
      _ = (N : ℚ) * 2 ^ j * quantum32 y := by ring
  have hr := rne_le_int _ _ hK
  unfold round32
  calc (rne (y / quantum32 y) : ℚ) * quantum32 y
      ≤ ((N * 2 ^ j : Int) : ℚ) * quantum32 y := by
        apply mul_le_mul_of_nonneg_right _ (le_of_lt hq)
        exact_mod_cast hr
    _ = F := by
        push_cast
        rw [hF, hQ]
        ring

theorem maxAngle32_pos : 0 < maxAngle32 := by
  rw [maxAngle32_eq]
  norm_num

theorem stepStrikeToggle_speed (inp : Input) (s : State) :
    (stepStrikeToggle inp s).1.ballSpeed = s.ballSpeed := by
  simp only [stepStrikeToggle]
  split_ifs <;> simp

/-- What aiming in binary32 does to the throw variables. -/
theorem stepAim32_spec (p : Platform) (inp : Input) (s : State)
    (h1 : -maxAngle32 ≤ s.throwAngle) (h2 : s.throwAngle ≤ maxAngle32) :
    -maxAngle32 ≤ (stepAim32 p inp s).throwAngle ∧
    (stepAim32 p inp s).throwAngle ≤ maxAngle32 ∧
    |(stepAim32 p inp s).throwAngle - s.throwAngle| ≤ 2 / 100 + 3 / 100000000 ∧
    (stepAim32 p inp s).power = s.power ∧
    (stepAim32 p inp s).charging = s.charging ∧
    (stepAim32 p inp s).ballLaunched = s.ballLaunched ∧
    (stepAim32 p inp s).ballSpeed = s.ballSpeed := by
  have hm : -maxAngle32 ≤ maxAngle32 := by have := maxAngle32_pos; linarith
  have hM := maxAngle32_eq
  have hc := lit002_eq
  rw [hM] at h1 h2
  have hleft : |round32 (s.throwAngle - lit002) - (s.throwAngle - lit002)| ≤
      (2 : ℚ) ^ (-1 - 24 : Int) := by
    apply round32_err _ (-1) _ (by norm_num)
    rw [hc, abs_lt]
    constructor <;> norm_num <;> linarith
  have hright : |round32 (s.throwAngle + lit002) - (s.throwAngle + lit002)| ≤
      (2 : ℚ) ^ (-1 - 24 : Int) := by
    apply round32_err _ (-1) _ (by norm_num)
    rw [hc, abs_lt]
    constructor <;> norm_num <;> linarith
  have hboth : |round32 (round32 (s.throwAngle - lit002) + lit002) -
      (round32 (s.throwAngle - lit002) + lit002)| ≤ (2 : ℚ) ^ (-1 - 24 : Int) := by
    apply round32_err _ (-1) _ (by norm_num)
    rw [abs_le] at hleft
    norm_num at hleft
    rw [hc] at hleft ⊢
    rw [abs_lt]
    constructor <;> norm_num <;> linarith
  norm_num at hleft hright hboth
  rw [hc] at hleft hright hboth
  rw [abs_le] at hleft hright hboth
  simp only [stepAim32]
  split_ifs
  all_goals simp only [and_true]
  all_goals first
    | (rw [hM]
       exact ⟨h1, h2, by norm_num⟩)
    | (refine ⟨(Clamp_range _ _ _ hm).1, (Clamp_range _ _ _ hm).2, ?_⟩
       refine Clamp_near _ _ _ _ _ (by rw [hM]; exact h1) (by rw [hM]; exact h2) ?_
       rw [abs_le]
       try rw [hc]
       constructor <;> linarith)

/-- What charging in binary32 does to the throw variables. -/
theorem stepCharge32_spec (inp : Input) (s : State) (h0 : 0 ≤ s.power) (h1 : s.power ≤ 1)
    (hch : s.charging = true → 99 / 10000 ≤ s.power) :
    0 ≤ (stepCharge32 inp s).power ∧ (stepCharge32 inp s).power ≤ 1 ∧
    s.power ≤ (stepCharge32 inp s).power ∧
    (stepCharge32 inp s).power ≤ s.power + (1 / 100 + 3 / 100000000) ∧
    ((stepCharge32 inp s).charging = true → 99 / 10000 ≤ (stepCharge32 inp s).power) ∧
    (stepCharge32 inp s).throwAngle = s.throwAngle ∧
    (stepCharge32 inp s).ballLaunched = s.ballLaunched ∧
    (stepCharge32 inp s).ballSpeed = s.ballSpeed := by
  have hc := lit001_eq
  have herr : |round32 (s.power + lit001) - (s.power + lit001)| ≤ (2 : ℚ) ^ (0 - 24 : Int) := by
    apply round32_err _ 0 _ (by norm_num)
    rw [hc, abs_lt]
    constructor <;> norm_num <;> linarith
  have herr1 : s.power + lit001 < 1 →
      |round32 (s.power + lit001) - (s.power + lit001)| ≤ (2 : ℚ) ^ (-1 - 24 : Int) := by
    intro hlt
    apply round32_err _ (-1) _ (by norm_num)
    rw [hc] at hlt ⊢
    rw [abs_lt]
    constructor <;> norm_num <;> linarith
  norm_num at herr herr1
  rw [hc] at herr herr1
  rw [abs_le] at herr
  simp only [stepCharge32]
  split_ifs with hf
  · simp only [and_true, maxPower]
    have hcl := Clamp_range (round32 (s.power + lit001)) 0 1 (by norm_num)
    rw [hc] at hcl ⊢
    have hlow : s.power ≤ Clamp (round32 (s.power + 5368709 / 536870912)) 0 1 ∧
        99 / 10000 ≤ Clamp (round32 (s.power + 5368709 / 536870912)) 0 1 := by
      unfold Clamp
      dsimp only
      split_ifs <;> constructor <;> linarith
    refine ⟨hcl.1, hcl.2, hlow.1, ?_, fun _ => hlow.2⟩
    by_cases hlt : s.power + 5368709 / 536870912 < 1
    · have h2 := herr1 hlt
      rw [abs_le] at h2
      unfold Clamp
      dsimp only
      split_ifs <;> linarith
    · unfold Clamp
      dsimp only
      split_ifs <;> linarith
  · simp only [and_true]
    exact ⟨h0, h1, le_refl _, by linarith, hch⟩

/-- What the release in binary32 does to the throw variables. -/
theorem stepRelease32_spec (inp : Input) (s : State) (h1 : s.power ≤ 1)
    (hch : s.charging = true → 99 / 10000 ≤ s.power) :
    (stepRelease32 inp s).throwAngle = s.throwAngle ∧
    (stepRelease32 inp s).power = s.power ∧
    ((stepRelease32 inp s).charging = true → s.charging = true) ∧
    ((stepRelease32 inp s).ballLaunched = s.ballLaunched ∧
        (stepRelease32 inp s).ballSpeed = s.ballSpeed ∨
      (stepRelease32 inp s).ballLaunched = true ∧
        (stepRelease32 inp s).ballSpeed = round32 (lit002 + round32 (s.power * lit005)) ∧
        2 / 100 ≤ (stepRelease32 inp s).ballSpeed ∧
        (stepRelease32 inp s).ballSpeed ≤ 9395241 / 134217728) := by
  simp only [stepRelease32]
  split_ifs with hf
  · refine ⟨rfl, rfl, fun h => (by cases h), Or.inr ⟨rfl, rfl, ?_, ?_⟩⟩
    · simp only [Bool.and_eq_true] at hf
      have hp := hch hf.2
      have h5 := lit005_eq
      have h2 := lit002_eq
      have e1 : |round32 (s.power * lit005) - s.power * lit005| ≤ (2 : ℚ) ^ (-5 - 24 : Int) := by
        apply round32_err _ (-5) _ (by norm_num)
        rw [h5, abs_lt]
        constructor <;> norm_num <;> linarith
      norm_num at e1
      rw [abs_le, h5] at e1
      have e2 : |round32 (lit002 + round32 (s.power * lit005)) -
          (lit002 + round32 (s.power * lit005))| ≤ (2 : ℚ) ^ (-4 - 24 : Int) := by
        apply round32_err _ (-4) _ (by norm_num)
        rw [h2, h5, abs_lt]
        constructor <;> norm_num <;> linarith
      norm_num at e2
      rw [abs_le, h2, h5] at e2
      rw [h2, h5]
      linarith
    · simp only [Bool.and_eq_true] at hf
      have hp := hch hf.2
      have h5 := lit005_eq
      have h2 := lit002_eq
      have q5 : quantum32 (13421773 / 268435456) = (2 : ℚ) ^ (-5 - 23 : Int) :=
        quantum32_of_binade_pos _ (-5) (by norm_num) (by norm_num) (by norm_num)
      have q7 : quantum32 (9395241 / 134217728) = (2 : ℚ) ^ (-4 - 23 : Int) :=
        quantum32_of_binade_pos _ (-4) (by norm_num) (by norm_num) (by norm_num)
      have i1 : round32 (s.power * lit005) ≤ 13421773 / 268435456 := by
        apply round32_le_float _ _ _ _ 13421773
        · rw [q5]; norm_num
        · rw [h5]; positivity
        · rw [h5]; linarith
      apply round32_le_float _ _ _ _ 9395241
      · rw [q7]; norm_num
      · have e1 : 0 ≤ round32 (s.power * lit005) := by
          have := round32_err (s.power * lit005) (-5) (by
            rw [h5, abs_lt]
            constructor <;> norm_num <;> linarith) (by norm_num)
          norm_num at this
          rw [abs_le, h5] at this
          rw [h5]
          linarith
        rw [h2]
        linarith
      · rw [h2]
        linarith
  · exact ⟨rfl, rfl, id, Or.inl ⟨rfl, rfl⟩⟩

/-! ## The throw variables across a frame -/

theorem SameThrow_refl (s : State) : SameThrow s s := ⟨rfl, rfl, rfl, rfl, rfl⟩

theorem SameThrow_trans {s s1 s2 : State} (h1 : SameThrow s s1) (h2 : SameThrow s1 s2) :
    SameThrow s s2 :=
  ⟨h2.1.trans h1.1, h2.2.1.trans h1.2.1, h2.2.2.1.trans h1.2.2.1,
    h2.2.2.2.1.trans h1.2.2.2.1, h2.2.2.2.2.trans h1.2.2.2.2⟩

theorem kept_trans {s s1 s2 : State} (h1 : SameThrow s s1 ∨ ZeroThrow s1)
    (h2 : SameThrow s1 s2 ∨ ZeroThrow s2) : SameThrow s s2 ∨ ZeroThrow s2 := by
  rcases h2 with h2 | h2
  · rcases h1 with h1 | h1
    · exact Or.inl (SameThrow_trans h1 h2)
    · right
      exact ⟨h2.1.trans h1.1, h2.2.1.trans h1.2.1, h2.2.2.1.trans h1.2.2.1,
        h2.2.2.2.1.trans h1.2.2.2.1, h2.2.2.2.2.trans h1.2.2.2.2⟩
  · exact Or.inr h2

theorem ZeroThrow_reset (w h : Int) (s : State) :
    ZeroThrow { ResetElixirState (ResetBowling w h s) with gameState := GameState.MINI_GAME } := by
  simp [ZeroThrow, ResetBowling, ResetElixirState]

theorem beforeEnemies_same (p : Platform) (inp : Input) (s : State) :
    SameThrow s (beforeEnemies p inp s) := by
  have h1 : ∀ x : State, SameThrow x (stepPlayerBullets inp x) := by
    intro x; simp only [stepPlayerBullets, SameThrow]; split_ifs <;> simp
  have h2 : ∀ x : State, SameThrow x (stepEnemySpawn p inp x).1 := by
    intro x; simp only [stepEnemySpawn, SameThrow]; split_ifs <;> simp
  have h3 : ∀ (k : Nat) (x : State), SameThrow x (stepElixirSpawn inp k x) := by
    intro k x; simp only [stepElixirSpawn, SameThrow]; split_ifs <;> simp
  have h4 : ∀ x : State, SameThrow x (stepElixirPickup inp x) := by
    intro x; simp only [stepElixirPickup, SameThrow]; split_ifs <;> simp
  have h5 : ∀ x : State, SameThrow x (stepElixirUse inp x) := by
    intro x; simp only [stepElixirUse, SameThrow]; split_ifs <;> simp
  unfold beforeEnemies beforeUse beforePickup
  dsimp only
  exact SameThrow_trans (SameThrow_trans (SameThrow_trans (SameThrow_trans (h1 _) (h2 _))
    (h3 _ _)) (h4 _)) (h5 _)

theorem secondChanceOrOver_kept (inp : Input) (x : State) :
    SameThrow x (secondChanceOrOver inp x) ∨ ZeroThrow (secondChanceOrOver inp x) := by
  unfold secondChanceOrOver
  split_ifs
  · exact Or.inr (ZeroThrow_reset _ _ _)
  · exact Or.inl ⟨rfl, rfl, rfl, rfl, rfl⟩

theorem onCaught_kept (inp : Input) (x : State) :
    SameThrow x (onCaught inp x) ∨ ZeroThrow (onCaught inp x) := by
  unfold onCaught
  split_ifs
  · exact Or.inr (ZeroThrow_reset _ _ _)
  · exact Or.inl ⟨rfl, rfl, rfl, rfl, rfl⟩

theorem stepEnemies_kept (p : Platform) (inp : Input) (x : State) :
    SameThrow x (stepEnemies p inp x) ∨ ZeroThrow (stepEnemies p inp x) := by
  unfold stepEnemies
  dsimp only
  split_ifs
  · exact kept_trans (Or.inl ⟨rfl, rfl, rfl, rfl, rfl⟩) (onCaught_kept inp _)
  · exact Or.inl ⟨rfl, rfl, rfl, rfl, rfl⟩

theorem stepObstacles_kept (p : Platform) (inp : Input) (x : State) :
    SameThrow x (stepObstacles p inp x) ∨ ZeroThrow (stepObstacles p inp x) := by
  unfold stepObstacles
  split_ifs
  · refine foldl_preserves (fun y => SameThrow x y ∨ ZeroThrow y) _ ?_ _ _
      (Or.inl (SameThrow_refl x))
    intro y o hy
    split_ifs
    · exact kept_trans hy (secondChanceOrOver_kept inp y)
    · exact hy
  · exact Or.inl (SameThrow_refl x)

/-- A frame of the survival scene keeps the throw variables or resets them. -/
theorem updateGameplay_kept (p : Platform) (inp : Input) (s : State) :
    SameThrow s (updateGameplay p inp s) ∨ ZeroThrow (updateGameplay p inp s) := by
  unfold updateGameplay
  split_ifs
  · exact kept_trans (kept_trans (Or.inl (beforeEnemies_same p inp s))
      (stepEnemies_kept p inp _)) (stepObstacles_kept p inp _)
  · exact Or.inl (SameThrow_refl s)

theorem resetAndSpawn_same (fuel : Nat) (p : Platform) (inp : Input) (k k1 : Nat)
    (s s1 : State) (h : resetAndSpawn fuel p inp k s = some (s1, k1)) : SameThrow s s1 := by
  unfold resetAndSpawn at h
  dsimp only at h
  split_ifs at h with hd
  · unfold spawnObstaclesState at h
    cases hs : SpawnObstacles fuel p inp
        (playerRect p (ResetGame s.selectedDifficulty s).playerPos)
        (ResetGame s.selectedDifficulty s).obstacles k with
    | none => simp [hs] at h
    | some r =>
      obtain ⟨os, k2⟩ := r
      simp only [hs, Option.some.injEq, Prod.mk.injEq] at h
      rw [← h.1]
      exact ⟨rfl, rfl, rfl, rfl, rfl⟩
  · simp only [Option.some.injEq, Prod.mk.injEq] at h
    rw [← h.1]
    exact ⟨rfl, rfl, rfl, rfl, rfl⟩

/-- A frame of the opening scene keeps the throw variables. -/
theorem updateOpening_same (fuel : Nat) (p : Platform) (inp : Input) (s s1 : State)
    (h : updateOpening fuel p inp s = some s1) : SameThrow s s1 := by
  unfold updateOpening at h
  dsimp only at h
  split_ifs at h with hclick
  · cases hr : resetAndSpawn fuel p inp 0
        { s with selectedDifficulty := selectDifficulty inp s.selectedDifficulty } with
    | none => simp [hr] at h
    | some r =>
      obtain ⟨s2, k2⟩ := r
      have ht := resetAndSpawn_same fuel p inp 0 k2 _ s2 hr
      simp only [hr, Option.some.injEq] at h
      subst h
      exact ht
  · simp only [Option.some.injEq] at h
    subst h
    exact ⟨rfl, rfl, rfl, rfl, rfl⟩

/-- A frame of the closing scene keeps the throw variables. -/
theorem updateClosing_same (fuel : Nat) (p : Platform) (inp : Input) (s s1 : State)
    (h : updateClosing fuel p inp s = some s1) : SameThrow s s1 := by
  have hk : SameThrow s (stepScale inp s) := by
    simp only [stepScale, SameThrow]; split_ifs <;> simp
  have hh : ∀ x : State, SameThrow x (stepHome inp x) := by
    intro x; simp only [stepHome, SameThrow]; split_ifs <;> simp [ResetGame, ResetElixirState]
  unfold updateClosing at h
  dsimp only at h
  split_ifs at h with hac
  · unfold stepRestart at h
    split_ifs at h with hR
    · cases hr : resetAndSpawn fuel p inp 0 (stepScale inp s) with
      | none => simp [hr] at h
      | some r =>
        obtain ⟨s2, k2⟩ := r
        have ht := resetAndSpawn_same fuel p inp 0 k2 _ s2 hr
        simp only [hr, Option.some.injEq] at h
        subst h
        exact SameThrow_trans hk (SameThrow_trans ht
          (SameThrow_trans ⟨rfl, rfl, rfl, rfl, rfl⟩ (hh _)))
    · simp only [Option.some.injEq] at h
      subst h
      exact SameThrow_trans hk (hh _)
  · simp only [Option.some.injEq] at h
    subst h
    exact hk

theorem ThrowInv32_of_same {s s1 : State} (h : ThrowInv32 s) (e : SameThrow s s1) :
    ThrowInv32 s1 := by
  unfold ThrowInv32
  rw [e.1, e.2.1, e.2.2.1, e.2.2.2.1, e.2.2.2.2]
  exact h

theorem ThrowInv32_of_zero {s : State} (h : ZeroThrow s) : ThrowInv32 s := by
  unfold ThrowInv32
  rw [h.1, h.2.1, h.2.2.1, h.2.2.2.1, h.2.2.2.2, maxAngle32_eq]
  refine ⟨by norm_num, by norm_num, le_refl _, by norm_num, fun h => (by cases h),
    fun h => (by cases h)⟩

theorem ThrowInv32_of_kept {s s1 : State} (h : ThrowInv32 s)
    (e : SameThrow s s1 ∨ ZeroThrow s1) : ThrowInv32 s1 := by
  rcases e with e | e
  · exact ThrowInv32_of_same h e
  · exact ThrowInv32_of_zero e

theorem stepStrikeToggle_same (inp : Input) (s : State) :
    SameThrow s (stepStrikeToggle inp s).1 := by
  simp only [stepStrikeToggle, SameThrow]
  split_ifs <;> simp

/-- The controls of lines 421-449 in binary32: the invariant is kept, the angle moves
by a rounded 0.02 at most, the power rises by a rounded 0.01 at most, and a launch
records the rounded speed. -/
theorem miniControls32_spec (p : Platform) (inp : Input) (s : State) (hs : ThrowInv32 s) :
    ThrowInv32 (miniControls32 p inp s) ∧
    |(miniControls32 p inp s).throwAngle - s.throwAngle| ≤ 2 / 100 + 3 / 100000000 ∧
    s.power ≤ (miniControls32 p inp s).power ∧
    (miniControls32 p inp s).power ≤ s.power + (1 / 100 + 3 / 100000000) ∧
    (s.ballLaunched = false → (miniControls32 p inp s).ballLaunched = true →
      (miniControls32 p inp s).t = 0 ∧
      (miniControls32 p inp s).ballSpeed =
        round32 (lit002 + round32 ((miniControls32 p inp s).power * lit005))) := by
  have h0 := ThrowInv32_of_same hs (stepStrikeToggle_same inp s)
  have e0 := stepStrikeToggle_same inp s
  have ha := stepAim32_spec p inp (stepStrikeToggle inp s).1 h0.1 h0.2.1
  have hc := stepCharge32_spec inp (stepAim32 p inp (stepStrikeToggle inp s).1)
    (by rw [ha.2.2.2.1]; exact h0.2.2.1) (by rw [ha.2.2.2.1]; exact h0.2.2.2.1)
    (by rw [ha.2.2.2.1, ha.2.2.2.2.1]; exact h0.2.2.2.2.1)
  have hr := stepRelease32_spec inp
    (stepCharge32 inp (stepAim32 p inp (stepStrikeToggle inp s).1)) hc.2.1 hc.2.2.2.2.1
  unfold miniControls32
  refine ⟨?_, ?_, ?_, ?_, ?_⟩
  · refine ⟨?_, ?_, ?_, ?_, ?_, ?_⟩
    · rw [hr.1, hc.2.2.2.2.2.1]; exact ha.1
    · rw [hr.1, hc.2.2.2.2.2.1]; exact ha.2.1
    · rw [hr.2.1]; exact hc.1
    · rw [hr.2.1]; exact hc.2.1
    · intro h
      rw [hr.2.1]
      exact hc.2.2.2.2.1 (hr.2.2.1 h)
    · intro h
      rcases hr.2.2.2 with ⟨e1, e2⟩ | ⟨_, _, b1, b2⟩
      · rw [e2, hc.2.2.2.2.2.2.2, ha.2.2.2.2.2.2]
        rw [e1, hc.2.2.2.2.2.2.1, ha.2.2.2.2.2.1] at h
        exact h0.2.2.2.2.2 h
      · exact ⟨b1, b2⟩
  · rw [hr.1, hc.2.2.2.2.2.1, ← e0.1]; exact ha.2.2.1
  · rw [hr.2.1, ← e0.2.1, ← ha.2.2.2.1]; exact hc.2.2.1
  · rw [hr.2.1, ← e0.2.1, ← ha.2.2.2.1]; exact hc.2.2.2.1
  · intro hl0 hl1
    rcases hr.2.2.2 with ⟨e1, _⟩ | ⟨_, e2, _, _⟩
    · rw [e1, hc.2.2.2.2.2.2.1, ha.2.2.2.2.2.1, e0.2.2.2.1, hl0] at hl1
      cases hl1
    · refine ⟨?_, by rw [e2, hr.2.1]⟩
      have hlc : (stepCharge32 inp (stepAim32 p inp (stepStrikeToggle inp s).1)).ballLaunched =
          false := by
        rw [hc.2.2.2.2.2.2.1, ha.2.2.2.2.2.1, e0.2.2.2.1, hl0]
      simp only [stepRelease32] at hl1 ⊢
      split_ifs at hl1 ⊢ with hf
      · rfl
      · rw [hlc] at hl1
        cases hl1

theorem miniControls32_scene (p : Platform) (inp : Input) (s : State) :
    (miniControls32 p inp s).gameState = s.gameState := by
  have h1 : (stepStrikeToggle inp s).1.gameState = s.gameState := by
    simp only [stepStrikeToggle]; split_ifs <;> simp
  have h2 : ∀ x : State, (stepAim32 p inp x).gameState = x.gameState := by
    intro x; simp only [stepAim32]; split_ifs <;> simp
  have h3 : ∀ x : State, (stepCharge32 inp x).gameState = x.gameState := by
    intro x; simp only [stepCharge32]; split_ifs <;> simp
  have h4 : ∀ x : State, (stepRelease32 inp x).gameState = x.gameState := by
    intro x; simp only [stepRelease32]; split_ifs <;> simp
  unfold miniControls32
  rw [h4, h3, h2, h1]

theorem afterCollision32_same (p : Platform) (inp : Input) (s : State) :
    SameThrow (miniControls32 p inp s) (afterCollision32 p inp s).1 ∧
    (afterCollision32 p inp s).1.gameState = s.gameState ∧
    (afterCollision32 p inp s).1.t =
      (miniControls32 p inp s).t + (miniControls32 p inp s).ballSpeed := by
  have hc : ∀ (k : Nat) (x : State), SameThrow x (collisionStep inp k x).1 ∧
      (collisionStep inp k x).1.gameState = x.gameState ∧
      (collisionStep inp k x).1.t = x.t := by
    intro k x; simp only [collisionStep, SameThrow]; split_ifs <;> simp
  have hm : ∀ x : State, SameThrow x (moveBall p x) ∧ (moveBall p x).gameState = x.gameState ∧
      (moveBall p x).t = x.t + x.ballSpeed := by
    intro x; simp [moveBall, SameThrow]
  unfold afterCollision32
  refine ⟨SameThrow_trans (hm _).1 (hc _ _).1, ?_, ?_⟩
  · rw [(hc _ _).2.1, (hm _).2.1, miniControls32_scene]
  · rw [(hc _ _).2.2, (hm _).2.2]

/-- A frame of the bonus scene in binary32 keeps the invariant of the throw variables. -/
theorem updateMiniGame32_inv (fuel : Nat) (p : Platform) (inp : Input) (s s1 : State)
    (hs : ThrowInv32 s) (h : updateMiniGame32 fuel p inp s = some s1) : ThrowInv32 s1 := by
  have hc := (miniControls32_spec p inp s hs).1
  have ha := (afterCollision32_same p inp s).1
  unfold updateMiniGame32 at h
  dsimp only at h
  split_ifs at h with hl
  · cases hj : judge fuel p inp (afterCollision32 p inp s).2 (afterCollision32 p inp s).1 with
    | none => simp [hj] at h
    | some x =>
      simp only [hj, Option.some.injEq] at h
      subst h
      refine ThrowInv32_of_same (s := x) ?_ ⟨rfl, rfl, rfl, rfl, rfl⟩
      rcases judge_cases fuel p inp _ _ x hj with ⟨_, rfl⟩ | ⟨_, _, rfl⟩ |
        ⟨_, _, s2, k2, hr, rfl⟩
      · exact ThrowInv32_of_same hc ha
      · exact ThrowInv32_of_zero ⟨rfl, rfl, rfl, rfl, rfl⟩
      · exact ThrowInv32_of_zero ⟨rfl, rfl, rfl, rfl, rfl⟩
  · simp only [Option.some.injEq] at h
    subst h
    exact ThrowInv32_of_same hc ⟨rfl, rfl, rfl, rfl, rfl⟩

theorem updateFrame32_inv (fuel : Nat) (p : Platform) (inp : Input) (s s1 : State)
    (hs : ThrowInv32 s) (h : updateFrame32 fuel p inp s = some s1) : ThrowInv32 s1 := by
  unfold updateFrame32 at h
  cases hg : s.gameState with
  | OPENING_SCENE =>
    rw [hg] at h
    exact ThrowInv32_of_same hs (updateOpening_same fuel p inp s s1 h)
  | GAMEPLAY =>
    rw [hg] at h
    simp only [Option.some.injEq] at h
    subst h
    exact ThrowInv32_of_kept hs (updateGameplay_kept p inp s)
  | MINI_GAME => rw [hg] at h; exact updateMiniGame32_inv fuel p inp s s1 hs h
  | CLOSING_SCENE =>
    rw [hg] at h
    exact ThrowInv32_of_same hs (updateClosing_same fuel p inp s s1 h)

/-- The invariant of the throw variables holds in every state reached by binary32
frames. -/
theorem Reachable32_inv (p : Platform) (s : State) (hr : Reachable32 p s) : ThrowInv32 s := by
  induction hr with
  | init w h => exact ThrowInv32_of_zero ⟨rfl, rfl, rfl, rfl, rfl⟩
  | step fuel inp hprev hstep ih => exact updateFrame32_inv fuel p inp _ _ ih hstep

/-- A frame of the bonus scene that starts before the launch returns, stays in the
scene, and leaves the throw variables as the controls set them: a launch in this
frame is not judged in it. -/
theorem updateMiniGame32_unlaunched (fuel : Nat) (p : Platform) (inp : Input) (s : State)
    (hs : ThrowInv32 s) (hl0 : s.ballLaunched = false) :
    ∃ s1, updateMiniGame32 fuel p inp s = some s1 ∧ SameThrow (miniControls32 p inp s) s1 ∧
      s1.gameState = s.gameState := by
  have hc := miniControls32_spec p inp s hs
  have ha := afterCollision32_same p inp s
  unfold updateMiniGame32
  dsimp only
  split_ifs with hl
  · obtain ⟨ht0, _⟩ := hc.2.2.2.2 hl0 hl
    have hsp := (hc.1.2.2.2.2.2 hl).2
    have hx : judge fuel p inp (afterCollision32 p inp s).2 (afterCollision32 p inp s).1 =
        some (afterCollision32 p inp s).1 := by
      unfold judge
      rw [if_neg]
      rw [ha.2.2, ht0]
      norm_num [PI]
      linarith
    simp only [hx]
    exact ⟨_, rfl, SameThrow_trans ha.1 ⟨rfl, rfl, rfl, rfl, rfl⟩, ha.2.1⟩
  · exact ⟨_, rfl, ⟨rfl, rfl, rfl, rfl, rfl⟩, miniControls32_scene p inp s⟩

theorem updateFrame32_mini (fuel : Nat) (p : Platform) (inp : Input) (s : State)
    (h : s.gameState = GameState.MINI_GAME) :
    updateFrame32 fuel p inp s = updateMiniGame32 fuel p inp s := by
  simp [updateFrame32, h]

/-! ## A run of binary32 frames into the bonus scene -/

theorem updateFrame32_eq (fuel : Nat) (p : Platform) (inp : Input) (s : State)
    (h : s.gameState ≠ GameState.MINI_GAME) :
    updateFrame32 fuel p inp s = updateFrame fuel p inp s := by
  unfold updateFrame32 updateFrame
  cases hg : s.gameState with
  | OPENING_SCENE => rfl
  | GAMEPLAY => rfl
  | MINI_GAME => exact absurd hg h
  | CLOSING_SCENE => rfl

theorem hardSelected_reachable32 : Reachable32 samplePlatform hardSelected := by
  refine Reachable32.step 0 clickHard (Reachable32.init 800 600) ?_
  have hg : (initialState 800 600).gameState = GameState.OPENING_SCENE := rfl
  have h1 : clicked clickHard easyBtn = false := by
    simp [clicked, CheckCollisionPointRec, clickHard, idleInput, easyBtn]
    norm_num
  have h2 : clicked clickHard mediumBtn = false := by
    simp [clicked, CheckCollisionPointRec, clickHard, idleInput, mediumBtn]
    norm_num
  have h3 : clicked clickHard hardBtn = true := by
    simp [clicked, CheckCollisionPointRec, clickHard, idleInput, hardBtn]
    norm_num
  have h4 : clicked clickHard startBtn = false := by
    simp [clicked, CheckCollisionPointRec, clickHard, idleInput, startBtn]
    norm_num
  unfold updateFrame32
  rw [hg]
  simp only [updateOpening, selectDifficulty, h1, h2, h3, h4, if_true, if_false,
    Bool.false_eq_true]
  rfl

/-- A hard game is started by binary32 frames as by the exact ones. -/
theorem startedHard32_exists : ∃ s2, Reachable32 samplePlatform s2 ∧
    s2.gameState = GameState.GAMEPLAY ∧ s2.selectedDifficulty = Difficulty.DIFFICULTY_HARD ∧
    s2.secondChanceUsed = false ∧ s2.gameOver = false ∧ s2.playerPos = ⟨400, 300⟩ ∧
    s2.score = 0 ∧ s2.enemySpawnTimer = 0 ∧ s2.enemies.length = MAX_ENEMIES ∧
    (∀ x ∈ s2.enemies, x.active = false) ∧ s2.pins.length = NUM_PINS := by
  obtain ⟨fuel, s2, hstep⟩ := updateFrame_terminates samplePlatform clickStart hardSelected
    (zero_draws_settle clickStart (fun _ => rfl) rfl rfl)
  have hg : hardSelected.gameState = GameState.OPENING_SCENE := rfl
  refine ⟨s2, Reachable32.step fuel clickStart hardSelected_reachable32
    (by rw [updateFrame32_eq _ _ _ _ (by rw [hg]; decide)]; exact hstep), ?_⟩
  have hwf : WF hardSelected := initialState_WF 800 600
  unfold updateFrame at hstep
  rw [hg] at hstep
  unfold updateOpening at hstep
  dsimp only at hstep
  rw [if_pos clickStart_clicked] at hstep
  cases hr : resetAndSpawn fuel samplePlatform clickStart 0
      { hardSelected with
        selectedDifficulty := selectDifficulty clickStart hardSelected.selectedDifficulty } with
  | none => simp [hr] at hstep
  | some r =>
    obtain ⟨r2, k2⟩ := r
    have ht := resetAndSpawn_spec fuel samplePlatform clickStart 0 k2 _ r2 hr
    have htm := resetAndSpawn_timer fuel samplePlatform clickStart 0 k2 _ r2 hr
    simp only [hr, Option.some.injEq] at hstep
    subst hstep
    have hsel : selectDifficulty clickStart hardSelected.selectedDifficulty =
        Difficulty.DIFFICULTY_HARD := selectDifficulty_start clickStart _ clickStart_clicked
    refine ⟨rfl, ht.1.trans hsel, rfl, ht.2.2.1, ht.2.2.2.2.2.2.1, ht.2.2.2.2.2.1, htm,
      ht.2.2.2.2.2.2.2.2.2.2.2.2.2.2.1.trans hwf.2.1,
      ht.2.2.2.2.2.2.2.2.2.2.2.2.2.2.2.2.2.1, (congrArg List.length ht.2.2.2.2.1).trans hwf.2.2.2⟩

theorem ZeroThrow_of_kept {s s1 : State} (h : ZeroThrow s)
    (e : SameThrow s s1 ∨ ZeroThrow s1) : ZeroThrow s1 := by
  rcases e with e | e
  · exact ⟨e.1.trans h.1, e.2.1.trans h.2.1, e.2.2.1.trans h.2.2.1,
      e.2.2.2.1.trans h.2.2.2.1, e.2.2.2.2.trans h.2.2.2.2⟩
  · exact e

/-- The hard game enters the bonus scene, with the throw variables reset, when the
first enemy catches the player. -/
theorem bonus32_exists : ∃ s3, Reachable32 samplePlatform s3 ∧
    s3.gameState = GameState.MINI_GAME ∧ ZeroThrow s3 := by
  obtain ⟨s2, hr2, hg, hd, hu, hov, hpos, hscore, htimer, hlen, hfree, hpins⟩ :=
    startedHard32_exists
  have hr3 : Reachable32 samplePlatform (updateGameplay samplePlatform chaseInput s2) :=
    Reachable32.step 0 chaseInput hr2 (by
      rw [updateFrame32_eq _ _ _ _ (by rw [hg]; decide)]
      exact updateFrame_gameplay 0 samplePlatform chaseInput s2 hg)
  have hk := beforeEnemies_keeps samplePlatform chaseInput s2
  have hspawn : s2.enemySpawnTimer + chaseInput.dt >
      baseInterval s2.selectedDifficulty - (s2.score : ℚ) * 0.01 := by
    rw [htimer, hscore, hd]
    simp [chaseInput, idleInput, baseInterval]
    norm_num
  have hen := beforeEnemies_enemies_spawn samplePlatform chaseInput s2 hspawn rfl
  have hhit : ∃ e ∈ (beforeEnemies samplePlatform chaseInput s2).enemies,
      e.active = true ∧
      CheckCollisionCircles (pursue samplePlatform chaseInput.dt
        (beforeEnemies samplePlatform chaseInput s2).playerPos e).position 20
        (beforeEnemies samplePlatform chaseInput s2).playerPos 20 = true := by
    rw [beforeEnemies_playerPos, hen, hpos]
    cases hes : s2.enemies with
    | nil =>
      rw [hes] at hlen
      simp [MAX_ENEMIES] at hlen
    | cons e es =>
      have he : e.active = false := hfree e (by rw [hes]; exact List.mem_cons_self _ _)
      rw [SpawnEnemy_head _ _ _ _ _ _ _ he, chase_position]
      refine ⟨_, List.mem_cons_self _ _, rfl, ?_⟩
      simp [pursue, movePlayer, chaseInput, idleInput, Vector2Length, Vector2Normalize,
        Vector2Subtract, Vector2Add, Vector2Scale, samplePlatform, CheckCollisionCircles,
        playerSpeed]
      norm_num
  have hcaught := enemyLoop_caught samplePlatform chaseInput.dt _ _
    (beforeEnemies samplePlatform chaseInput s2).bullets
    (beforeEnemies samplePlatform chaseInput s2).score hhit
  have hfresh : InMiniGameFresh (stepEnemies samplePlatform chaseInput
      (beforeEnemies samplePlatform chaseInput s2)) ∧
      ZeroThrow (stepEnemies samplePlatform chaseInput
        (beforeEnemies samplePlatform chaseInput s2)) := by
    unfold stepEnemies
    dsimp only
    rw [if_pos hcaught]
    unfold onCaught
    rw [if_pos ⟨hk.1.trans hd, hk.2.1.trans hu⟩]
    exact ⟨secondChance_fresh chaseInput _ (hk.2.1.trans hu) (hk.2.2.1.trans hov)
      ((congrArg List.length hk.2.2.2.2.1).trans hpins), ZeroThrow_reset _ _ _⟩
  refine ⟨_, hr3, ?_, ?_⟩
  · rw [updateGameplay_running _ _ _ hov]
    exact (stepObstacles_fresh samplePlatform chaseInput _ hfresh.1).2.1
  · rw [updateGameplay_running _ _ _ hov]
    exact ZeroThrow_of_kept hfresh.2 (stepObstacles_kept samplePlatform chaseInput _)

/-! ## Frames of the bonus scene with a key held -/

theorem rightFrame (p : Platform) (s : State) (hs : ThrowInv32 s)
    (hg : s.gameState = GameState.MINI_GAME) (hl : s.ballLaunched = false) :
    ∃ s1, updateFrame32 0 p rightInput s = some s1 ∧ s1.gameState = GameState.MINI_GAME ∧
      s1.ballLaunched = false ∧ s1.power = s.power ∧ s1.charging = s.charging ∧
      s1.throwAngle = Clamp (round32 (s.throwAngle + lit002)) (-maxAngle32) maxAngle32 := by
  obtain ⟨s1, h1, e, hscene⟩ := updateMiniGame32_unlaunched 0 p rightInput s hs hl
  have hc : (miniControls32 p rightInput s).throwAngle =
        Clamp (round32 (s.throwAngle + lit002)) (-maxAngle32) maxAngle32 ∧
      (miniControls32 p rightInput s).power = s.power ∧
      (miniControls32 p rightInput s).charging = s.charging ∧
      (miniControls32 p rightInput s).ballLaunched = false := by
    simp [miniControls32, stepStrikeToggle, stepAim32, stepCharge32, stepRelease32,
      rightInput, idleInput, hl]
  exact ⟨s1, by rw [updateFrame32_mini _ _ _ _ hg]; exact h1, hscene.trans hg,
    e.2.2.2.1.trans hc.2.2.2, e.2.1.trans hc.2.1, e.2.2.1.trans hc.2.2.1, e.1.trans hc.1⟩

theorem leftFrame (p : Platform) (s : State) (hs : ThrowInv32 s)
    (hg : s.gameState = GameState.MINI_GAME) (hl : s.ballLaunched = false) :
    ∃ s1, updateFrame32 0 p leftInput s = some s1 ∧ s1.gameState = GameState.MINI_GAME ∧
      s1.ballLaunched = false ∧ s1.power = s.power ∧ s1.charging = s.charging ∧
      s1.throwAngle = Clamp (round32 (s.throwAngle - lit002)) (-maxAngle32) maxAngle32 := by
  obtain ⟨s1, h1, e, hscene⟩ := updateMiniGame32_unlaunched 0 p leftInput s hs hl
  have hc : (miniControls32 p leftInput s).throwAngle =
        Clamp (round32 (s.throwAngle - lit002)) (-maxAngle32) maxAngle32 ∧
      (miniControls32 p leftInput s).power = s.power ∧
      (miniControls32 p leftInput s).charging = s.charging ∧
      (miniControls32 p leftInput s).ballLaunched = false := by
    simp [miniControls32, stepStrikeToggle, stepAim32, stepCharge32, stepRelease32,
      leftInput, idleInput, hl]
  exact ⟨s1, by rw [updateFrame32_mini _ _ _ _ hg]; exact h1, hscene.trans hg,
    e.2.2.2.1.trans hc.2.2.2, e.2.1.trans hc.2.1, e.2.2.1.trans hc.2.2.1, e.1.trans hc.1⟩

theorem chargeFrame (p : Platform) (s : State) (hs : ThrowInv32 s)
    (hg : s.gameState = GameState.MINI_GAME) (hl : s.ballLaunched = false) :
    ∃ s1, updateFrame32 0 p chargeInput s = some s1 ∧ s1.gameState = GameState.MINI_GAME ∧
      s1.ballLaunched = false ∧ s1.charging = true ∧ s1.throwAngle = s.throwAngle ∧
      s1.power = Clamp (round32 (s.power + lit001)) 0 maxPower := by
  obtain ⟨s1, h1, e, hscene⟩ := updateMiniGame32_unlaunched 0 p chargeInput s hs hl
  have hc : (miniControls32 p chargeInput s).throwAngle =
        Clamp s.throwAngle (-maxAngle32) maxAngle32 ∧
      (miniControls32 p chargeInput s).power = Clamp (round32 (s.power + lit001)) 0 maxPower ∧
      (miniControls32 p chargeInput s).charging = true ∧
      (miniControls32 p chargeInput s).ballLaunched = false := by
    simp [miniControls32, stepStrikeToggle, stepAim32, stepCharge32, stepRelease32,
      chargeInput, idleInput, hl]
  exact ⟨s1, by rw [updateFrame32_mini _ _ _ _ hg]; exact h1, hscene.trans hg,
    e.2.2.2.1.trans hc.2.2.2, e.2.2.1.trans hc.2.2.1,
    (e.1.trans hc.1).trans (Clamp_id _ _ _ hs.1 hs.2.1), e.2.1.trans hc.2.1⟩

theorem releaseFrame (p : Platform) (s : State) (hs : ThrowInv32 s)
    (hg : s.gameState = GameState.MINI_GAME) (hl : s.ballLaunched = false)
    (hch : s.charging = true) :
    ∃ s1, updateFrame32 0 p releaseInput s = some s1 ∧ s1.ballLaunched = true ∧
      s1.power = s.power ∧
      s1.ballSpeed = round32 (lit002 + round32 (s.power * lit005)) ∧
      s1.throwAngle = s.throwAngle := by
  obtain ⟨s1, h1, e, hscene⟩ := updateMiniGame32_unlaunched 0 p releaseInput s hs hl
  have hc : (miniControls32 p releaseInput s).power = s.power ∧
      (miniControls32 p releaseInput s).ballLaunched = true ∧
      (miniControls32 p releaseInput s).ballSpeed =
        round32 (lit002 + round32 (s.power * lit005)) ∧
      (miniControls32 p releaseInput s).throwAngle =
        Clamp s.throwAngle (-maxAngle32) maxAngle32 := by
    simp [miniControls32, stepStrikeToggle, stepAim32, stepCharge32, stepRelease32,
      releaseInput, idleInput, hl, hch]
  exact ⟨s1, by rw [updateFrame32_mini _ _ _ _ hg]; exact h1,
    e.2.2.2.1.trans hc.2.1, e.2.1.trans hc.1, e.2.2.2.2.trans hc.2.2.1,
    (e.1.trans hc.2.2.2).trans (Clamp_id _ _ _ hs.1 hs.2.1)⟩

/-- The right key held for `n` frames of the bonus scene. -/
theorem hold_right (p : Platform) : ∀ (n : Nat) (s : State), Reachable32 p s →
    s.gameState = GameState.MINI_GAME → s.ballLaunched = false →
    ∃ s1, Reachable32 p s1 ∧ s1.gameState = GameState.MINI_GAME ∧ s1.ballLaunched = false ∧
      s1.power = s.power ∧ s1.charging = s.charging ∧
      s1.throwAngle = aimRightN n s.throwAngle := by
  intro n
  induction n with
  | zero => intro s hr hg hl; exact ⟨s, hr, hg, hl, rfl, rfl, rfl⟩
  | succ n ih =>
    intro s hr hg hl
    obtain ⟨s1, hr1, hg1, hl1, hp1, hc1, ha1⟩ := ih s hr hg hl
    obtain ⟨s2, hstep, hg2, hl2, hp2, hc2, ha2⟩ :=
      rightFrame p s1 (Reachable32_inv p s1 hr1) hg1 hl1
    exact ⟨s2, Reachable32.step 0 rightInput hr1 hstep, hg2, hl2, hp2.trans hp1,
      hc2.trans hc1, by rw [ha2, ha1]; rfl⟩

/-- The space bar held for `n` frames of the bonus scene. -/
theorem hold_space (p : Platform) : ∀ (n : Nat) (s : State), Reachable32 p s →
    s.gameState = GameState.MINI_GAME → s.ballLaunched = false →
    ∃ s1, Reachable32 p s1 ∧ s1.gameState = GameState.MINI_GAME ∧ s1.ballLaunched = false ∧
      s1.throwAngle = s.throwAngle ∧ (0 < n → s1.charging = true) ∧
      s1.power = chargeN n s.power := by
  intro n
  induction n with
  | zero => intro s hr hg hl; exact ⟨s, hr, hg, hl, rfl, fun h => absurd h (lt_irrefl 0), rfl⟩
  | succ n ih =>
    intro s hr hg hl
    obtain ⟨s1, hr1, hg1, hl1, ha1, _, hp1⟩ := ih s hr hg hl
    obtain ⟨s2, hstep, hg2, hl2, hc2, ha2, hp2⟩ :=
      chargeFrame p s1 (Reachable32_inv p s1 hr1) hg1 hl1
    exact ⟨s2, Reachable32.step 0 chargeInput hr1 hstep, hg2, hl2, ha2.trans ha1,
      fun _ => hc2, by rw [hp2, hp1]; rfl⟩

/-! ## Values of the binary32 throw controls -/

theorem aimRightN_succ (n : Nat) (x : ℚ) :
    aimRightN (n + 1) x = Clamp (round32 (aimRightN n x + lit002)) (-maxAngle32) maxAngle32 :=
  rfl

theorem chargeN_succ (n : Nat) (x : ℚ) :
    chargeN (n + 1) x = Clamp (round32 (chargeN n x + lit001)) 0 maxPower := rfl

/-- Holding the right key moves the angle up by 0.0199 a frame at least, until the
clamp. -/
theorem aimRightN_bound : ∀ (n : Nat) (x : ℚ), 0 ≤ x → x ≤ maxAngle32 →
    aimRightN n x = maxAngle32 ∨
      (x + (n : ℚ) * (199 / 10000) ≤ aimRightN n x ∧ aimRightN n x ≤ maxAngle32) := by
  intro n
  induction n with
  | zero =>
    intro x h0 h1
    right
    refine ⟨?_, h1⟩
    simp only [Nat.cast_zero, zero_mul, add_zero]
    exact le_refl _
  | succ n ih =>
    intro x h0 h1
    have hM := maxAngle32_eq
    have hc := lit002_eq
    have hy : 0 ≤ aimRightN n x ∧ aimRightN n x ≤ maxAngle32 := by
      rcases ih x h0 h1 with h | ⟨h2, h3⟩
      · rw [h, hM]; constructor <;> norm_num
      · exact ⟨by have : (0 : ℚ) ≤ (n : ℚ) * (199 / 10000) := by positivity
                  linarith, h3⟩
    have herr : |round32 (aimRightN n x + lit002) - (aimRightN n x + lit002)| ≤
        (2 : ℚ) ^ (-1 - 24 : Int) := by
      apply round32_err _ (-1) _ (by norm_num)
      rw [hc, abs_lt]
      rw [hM] at hy
      constructor <;> norm_num <;> linarith
    norm_num at herr
    rw [abs_le, hc] at herr
    rw [aimRightN_succ]
    push_cast
    rw [hM] at hy h1 ⊢
    rcases ih x h0 (by rw [hM]; exact h1) with h | ⟨h2, h3⟩
    · left
      rw [hM] at h
      rw [h] at herr ⊢
      unfold Clamp
      dsimp only
      rw [hc]
      split_ifs <;> linarith
    · unfold Clamp
      dsimp only
      rw [hc]
      split_ifs
      · left; rfl
      · right; constructor <;> linarith
      · left; rfl
      · right; constructor <;> linarith

/-- Holding the space bar raises the power by 0.0099 a frame at least, until the
clamp. -/
theorem chargeN_bound : ∀ (n : Nat) (x : ℚ), 0 ≤ x → x ≤ 1 →
    chargeN n x = 1 ∨ (x + (n : ℚ) * (99 / 10000) ≤ chargeN n x ∧ chargeN n x ≤ 1) := by
  intro n
  induction n with
  | zero =>
    intro x h0 h1
    right
    refine ⟨?_, h1⟩
    simp only [Nat.cast_zero, zero_mul, add_zero]
    exact le_refl _
  | succ n ih =>
    intro x h0 h1
    have hc := lit001_eq
    have hy : 0 ≤ chargeN n x ∧ chargeN n x ≤ 1 := by
      rcases ih x h0 h1 with h | ⟨h2, h3⟩
      · rw [h]; constructor <;> norm_num
      · exact ⟨by have : (0 : ℚ) ≤ (n : ℚ) * (99 / 10000) := by positivity
                  linarith, h3⟩
    have herr : |round32 (chargeN n x + lit001) - (chargeN n x + lit001)| ≤
        (2 : ℚ) ^ (0 - 24 : Int) := by
      apply round32_err _ 0 _ (by norm_num)
      rw [hc, abs_lt]
      constructor <;> norm_num <;> linarith
    norm_num at herr
    rw [abs_le, hc] at herr
    rw [chargeN_succ]
    push_cast
    rcases ih x h0 h1 with h | ⟨h2, h3⟩
    · left
      rw [h] at herr ⊢
      unfold Clamp maxPower
      dsimp only
      rw [hc]
      split_ifs <;> linarith
    · unfold Clamp maxPower
      dsimp only
      rw [hc]
      split_ifs
      · left; rfl
      · right; constructor <;> linarith
      · left; rfl
      · right; constructor <;> linarith

/-- From the reset angle the clamp is reached in 27 frames. -/
theorem aimRightN_27 : aimRightN 27 0 = maxAngle32 := by
  rcases aimRightN_bound 27 0 (le_refl 0) (by rw [maxAngle32_eq]; norm_num) with h | ⟨h2, h3⟩
  · exact h
  · rw [maxAngle32_eq] at h3
    norm_num at h2
    linarith

/-- After 102 frames of charging from the reset power the power is 1. -/
theorem chargeN_102 : chargeN 102 0 = 1 := by
  rcases chargeN_bound 102 0 (le_refl 0) (by norm_num) with h | ⟨h2, h3⟩
  · exact h
  · norm_num at h2
    linarith


/-- The first frame with the left key held, from the upper clamp. -/
theorem left_from_max :
    Clamp (round32 (maxAngle32 - lit002)) (-maxAngle32) maxAngle32 = 4224493 / 8388608 := by
  have h : round32 (maxAngle32 - lit002) = 4224493 / 8388608 := by
    rw [maxAngle32_eq, lit002_eq]
    rw [round32_eval_pos _ (-1) (by norm_num) (by norm_num) (by norm_num),
      rne_eval_gt _ 8448985 (by norm_num) (by norm_num)]
    norm_num
  rw [h, Clamp_id _ _ _ (by rw [maxAngle32_eq]; norm_num) (by rw [maxAngle32_eq]; norm_num)]

/-- The second frame with the left key held: the angle moves by more than 0.02. -/
theorem left_second :
    Clamp (round32 (4224493 / 8388608 - lit002)) (-maxAngle32) maxAngle32 = 16226883 / 33554432 := by
  have h : round32 (4224493 / 8388608 - lit002) = 16226883 / 33554432 := by
    rw [lit002_eq]
    rw [round32_eval_pos _ (-2) (by norm_num) (by norm_num) (by norm_num),
      rne_eval_lt _ 16226883 (by norm_num) (by norm_num)]
    norm_num
  rw [h, Clamp_id _ _ _ (by rw [maxAngle32_eq]; norm_num) (by rw [maxAngle32_eq]; norm_num)]


theorem charge_step (x y : ℚ) (h : round32 (x + 5368709 / 536870912) = y) (h0 : 0 ≤ y)
    (h1 : y ≤ 1) : Clamp (round32 (x + lit001)) 0 maxPower = y := by
  rw [lit001_eq, h]
  exact Clamp_id _ _ _ h0 h1


/-- The power after 13 and after 14 frames of charging from the reset power: the
14th frame raises it by more than 0.01. -/
theorem chargeN_13_14 : chargeN 13 0 = 8724151 / 67108864 ∧ chargeN 14 0 = 1174405 / 8388608 := by
  have h1 : chargeN 1 0 = 5368709 / 536870912 := by
    rw [show (1 : Nat) = 0 + 1 from rfl, chargeN_succ]
    refine charge_step _ _ ?_ (by norm_num) (by norm_num)
    show round32 (0 + 5368709 / 536870912) = _
    rw [zero_add]
    rw [round32_eval_pos _ (-7) (by norm_num) (by norm_num) (by norm_num),
      rne_eval_lt _ 10737418 (by norm_num) (by norm_num)]
    norm_num
  have h2 : chargeN 2 0 = 5368709 / 268435456 := by
    rw [show (2 : Nat) = 1 + 1 from rfl, chargeN_succ, h1]
    refine charge_step _ _ ?_ (by norm_num) (by norm_num)
    rw [round32_eval_pos _ (-6) (by norm_num) (by norm_num) (by norm_num),
      rne_eval_lt _ 10737418 (by norm_num) (by norm_num)]
    norm_num
  have h3 : chargeN 3 0 = 16106127 / 536870912 := by
    rw [show (3 : Nat) = 2 + 1 from rfl, chargeN_succ, h2]
    refine charge_step _ _ ?_ (by norm_num) (by norm_num)
    rw [round32_eval_pos _ (-6) (by norm_num) (by norm_num) (by norm_num),
      rne_eval_lt _ 16106127 (by norm_num) (by norm_num)]
    norm_num
  have h4 : chargeN 4 0 = 5368709 / 134217728 := by
    rw [show (4 : Nat) = 3 + 1 from rfl, chargeN_succ, h3]
    refine charge_step _ _ ?_ (by norm_num) (by norm_num)
    rw [round32_eval_pos _ (-5) (by norm_num) (by norm_num) (by norm_num),
      rne_eval_lt _ 10737418 (by norm_num) (by norm_num)]
    norm_num
  have h5 : chargeN 5 0 = 3355443 / 67108864 := by
    rw [show (5 : Nat) = 4 + 1 from rfl, chargeN_succ, h4]
    refine charge_step _ _ ?_ (by norm_num) (by norm_num)
    rw [round32_eval_pos _ (-5) (by norm_num) (by norm_num) (by norm_num),
      rne_eval_tie _ 13421772 (by norm_num)]
    norm_num
  have h6 : chargeN 6 0 = 8053063 / 134217728 := by
    rw [show (6 : Nat) = 5 + 1 from rfl, chargeN_succ, h5]
    refine charge_step _ _ ?_ (by norm_num) (by norm_num)
    rw [round32_eval_pos _ (-5) (by norm_num) (by norm_num) (by norm_num),
      rne_eval_tie _ 16106126 (by norm_num)]
    norm_num
  have h7 : chargeN 7 0 = 1174405 / 16777216 := by
    rw [show (7 : Nat) = 6 + 1 from rfl, chargeN_succ, h6]
    refine charge_step _ _ ?_ (by norm_num) (by norm_num)
    rw [round32_eval_pos _ (-4) (by norm_num) (by norm_num) (by norm_num),
      rne_eval_lt _ 9395240 (by norm_num) (by norm_num)]
    norm_num
  have h8 : chargeN 8 0 = 10737417 / 134217728 := by
    rw [show (8 : Nat) = 7 + 1 from rfl, chargeN_succ, h7]
    refine charge_step _ _ ?_ (by norm_num) (by norm_num)
    rw [round32_eval_pos _ (-4) (by norm_num) (by norm_num) (by norm_num),
      rne_eval_lt _ 10737417 (by norm_num) (by norm_num)]
    norm_num
  have h9 : chargeN 9 0 = 6039797 / 67108864 := by
    rw [show (9 : Nat) = 8 + 1 from rfl, chargeN_succ, h8]
    refine charge_step _ _ ?_ (by norm_num) (by norm_num)
    rw [round32_eval_pos _ (-4) (by norm_num) (by norm_num) (by norm_num),
      rne_eval_lt _ 12079594 (by norm_num) (by norm_num)]
    norm_num
  have h10 : chargeN 10 0 = 13421771 / 134217728 := by
    rw [show (10 : Nat) = 9 + 1 from rfl, chargeN_succ, h9]
    refine charge_step _ _ ?_ (by norm_num) (by norm_num)
    rw [round32_eval_pos _ (-4) (by norm_num) (by norm_num) (by norm_num),
      rne_eval_lt _ 13421771 (by norm_num) (by norm_num)]
    norm_num
  have h11 : chargeN 11 0 = 3690987 / 33554432 := by
    rw [show (11 : Nat) = 10 + 1 from rfl, chargeN_succ, h10]
    refine charge_step _ _ ?_ (by norm_num) (by norm_num)
    rw [round32_eval_pos _ (-4) (by norm_num) (by norm_num) (by norm_num),
      rne_eval_lt _ 14763948 (by norm_num) (by norm_num)]
    norm_num
  have h12 : chargeN 12 0 = 16106125 / 134217728 := by
    rw [show (12 : Nat) = 11 + 1 from rfl, chargeN_succ, h11]
    refine charge_step _ _ ?_ (by norm_num) (by norm_num)
    rw [round32_eval_pos _ (-4) (by norm_num) (by norm_num) (by norm_num),
      rne_eval_lt _ 16106125 (by norm_num) (by norm_num)]
    norm_num
  have h13 : chargeN 13 0 = 8724151 / 67108864 := by
    rw [show (13 : Nat) = 12 + 1 from rfl, chargeN_succ, h12]
    refine charge_step _ _ ?_ (by norm_num) (by norm_num)
    rw [round32_eval_pos _ (-3) (by norm_num) (by norm_num) (by norm_num),
      rne_eval_lt _ 8724151 (by norm_num) (by norm_num)]
    norm_num
  have h14 : chargeN 14 0 = 1174405 / 8388608 := by
    rw [show (14 : Nat) = 13 + 1 from rfl, chargeN_succ, h13]
    refine charge_step _ _ ?_ (by norm_num) (by norm_num)
    rw [round32_eval_pos _ (-3) (by norm_num) (by norm_num) (by norm_num),
      rne_eval_gt _ 9395239 (by norm_num) (by norm_num)]
    norm_num
  exact ⟨h13, h14⟩


/-- The speed recorded at full power is the `float` 0.07f, above 0.07. -/
theorem launchSpeed_full : round32 (lit002 + round32 (1 * lit005)) = 9395241 / 134217728 := by
  have h : round32 (1 * (13421773 / 268435456 : ℚ)) = 13421773 / 268435456 := by
    rw [one_mul]
    rw [round32_eval_pos _ (-5) (by norm_num) (by norm_num) (by norm_num),
      rne_eval_lt _ 13421773 (by norm_num) (by norm_num)]
    norm_num
  rw [lit005_eq, h, lit002_eq]
  rw [round32_eval_pos _ (-4) (by norm_num) (by norm_num) (by norm_num),
    rne_eval_lt _ 9395241 (by norm_num) (by norm_num)]
  norm_num

/-- The speed recorded by line 448 in binary32 is within 1e-8 of 0.02 + power * 0.05. -/
theorem launchSpeed_near (pw : ℚ) (h0 : 0 ≤ pw) (h1 : pw ≤ 1) :
    |round32 (lit002 + round32 (pw * lit005)) - (2 / 100 + pw * (5 / 100))| ≤
      1 / 100000000 := by
  have h5 := lit005_eq
  have h2 := lit002_eq
  have e1 : |round32 (pw * lit005) - pw * lit005| ≤ (2 : ℚ) ^ (-5 - 24 : Int) := by
    apply round32_err _ (-5) _ (by norm_num)
    rw [h5, abs_lt]
    constructor <;> norm_num <;> linarith
  norm_num at e1
  rw [abs_le, h5] at e1
  have e2 : |round32 (lit002 + round32 (pw * lit005)) -
      (lit002 + round32 (pw * lit005))| ≤ (2 : ℚ) ^ (-4 - 24 : Int) := by
    apply round32_err _ (-4) _ (by norm_num)
    rw [h2, h5, abs_lt]
    constructor <;> norm_num <;> linarith
  norm_num at e2
  rw [abs_le, h2, h5] at e2
  rw [abs_le, h2, h5]
  constructor <;> linarith

/-- The bonus scene with the angle at the upper clamp. -/
theorem maxAim32_exists : ∃ s, Reachable32 samplePlatform s ∧
    s.gameState = GameState.MINI_GAME ∧ s.ballLaunched = false ∧
    s.throwAngle = maxAngle32 ∧ s.power = 0 := by
  obtain ⟨s0, hr0, hg0, hz⟩ := bonus32_exists
  obtain ⟨s, hr, hg, hl, hp, _, ha⟩ := hold_right samplePlatform 27 s0 hr0 hg0 hz.2.2.2.1
  exact ⟨s, hr, hg, hl, by rw [ha, hz.1]; exact aimRightN_27, hp.trans hz.2.1⟩

/-- The bonus scene with the angle at the upper clamp and the power charged to 1. -/
theorem fullDraw32_exists : ∃ s, Reachable32 samplePlatform s ∧
    s.gameState = GameState.MINI_GAME ∧ s.ballLaunched = false ∧
    s.throwAngle = maxAngle32 ∧ s.power = 1 ∧ s.charging = true := by
  obtain ⟨s0, hr0, hg0, hl0, ha0, hp0⟩ := maxAim32_exists
  obtain ⟨s, hr, hg, hl, ha, hc, hp⟩ := hold_space samplePlatform 102 s0 hr0 hg0 hl0
  exact ⟨s, hr, hg, hl, ha.trans ha0, by rw [hp, hp0]; exact chargeN_102, hc (by norm_num)⟩


/-! ## The spawn velocity in binary32 -/

/-- The relative error of one rounding, on the squares. -/
theorem round32_sq_bounds (z : ℚ) (hz : z = 0 ∨ (2 : ℚ) ^ (-126 : Int) ≤ |z|) :
    (16777215 / 16777216) ^ 2 * (z * z) ≤ round32 z * round32 z ∧
    round32 z * round32 z ≤ (16777217 / 16777216) ^ 2 * (z * z) := by
  have h := round32_rel z hz
  have e : (2 : ℚ) ^ (-24 : Int) = 1 / 16777216 := by norm_num
  rw [e] at h
  have h1 : |round32 z| ≤ 16777217 / 16777216 * |z| := by
    have := abs_sub_abs_le_abs_sub (round32 z) z
    linarith
  have h2 : 16777215 / 16777216 * |z| ≤ |round32 z| := by
    have := abs_sub_abs_le_abs_sub z (round32 z)
    rw [abs_sub_comm] at this
    linarith
  have hz0 := abs_nonneg z
  have hr0 := abs_nonneg (round32 z)
  rw [← abs_mul_abs_self z, ← abs_mul_abs_self (round32 z)]
  constructor
  · have := mul_le_mul h2 h2 (by positivity) hr0
    linarith
  · have := mul_le_mul h1 h1 hr0 (by positivity)
    linarith

/-- The relative error of one rounding of a value that is not negative. -/
theorem round32_nonneg_bounds (z : ℚ) (h0 : 0 ≤ z)
    (hz : z = 0 ∨ (2 : ℚ) ^ (-126 : Int) ≤ |z|) :
    16777215 / 16777216 * z ≤ round32 z ∧ round32 z ≤ 16777217 / 16777216 * z := by
  have h := round32_rel z hz
  have e : (2 : ℚ) ^ (-24 : Int) = 1 / 16777216 := by norm_num
  rw [e, abs_of_nonneg h0, abs_le] at h
  constructor <;> linarith

/-- A number whose square is at least the square of a normal number is normal. -/
theorem normal_of_sq (z c : ℚ) (hc : (2 : ℚ) ^ (-126 : Int) ≤ c) (h : c * c ≤ z * z) :
    z = 0 ∨ (2 : ℚ) ^ (-126 : Int) ≤ |z| := by
  right
  have hc0 : 0 ≤ c := le_trans (by positivity) hc
  have h1 : c ^ 2 ≤ z ^ 2 := by rw [pow_two, pow_two]; exact h
  have h2 := sq_le_sq.mp h1
  rw [abs_of_nonneg hc0] at h2
  exact le_trans hc h2

/-- The arithmetic of the length bound: the relative errors of the roundings add up to
less than one millionth of the squared speed. -/
theorem length_tolerance (X Y Q I N1 N2 V1 V2 P : ℚ)
    (hP : 0 ≤ P) (hI : 0 ≤ I)
    (h1l : (8388607 / 8388608) ^ 2 * ((16777215 / 16777216) ^ 2 * (X + Y)) ≤ Q)
    (h1u : Q ≤ (8388609 / 8388608) ^ 2 * ((16777217 / 16777216) ^ 2 * (X + Y)))
    (h2l : (16777215 / 16777216) ^ 2 ≤ I * Q) (h2u : I * Q ≤ (16777217 / 16777216) ^ 2)
    (h3l : (16777215 / 16777216) ^ 2 * (X * I) ≤ N1)
    (h3u : N1 ≤ (16777217 / 16777216) ^ 2 * (X * I))
    (h3l1 : (16777215 / 16777216) ^ 2 * (Y * I) ≤ N2)
    (h3u1 : N2 ≤ (16777217 / 16777216) ^ 2 * (Y * I))
    (h4l : (16777215 / 16777216) ^ 2 * (N1 * P) ≤ V1)
    (h4u : V1 ≤ (16777217 / 16777216) ^ 2 * (N1 * P))
    (h4l1 : (16777215 / 16777216) ^ 2 * (N2 * P) ≤ V2)
    (h4u1 : V2 ≤ (16777217 / 16777216) ^ 2 * (N2 * P)) :
    |V1 + V2 - P| ≤ P / 1000000 := by
  have hPI : 0 ≤ P * I := mul_nonneg hP hI
  have a1 := mul_le_mul_of_nonneg_left h3l hP
  have a2 := mul_le_mul_of_nonneg_left h3u hP
  have a3 := mul_le_mul_of_nonneg_left h3l1 hP
  have a4 := mul_le_mul_of_nonneg_left h3u1 hP
  have a5 := mul_le_mul_of_nonneg_left h1l hPI
  have a6 := mul_le_mul_of_nonneg_left h1u hPI
  have a7 := mul_le_mul_of_nonneg_left h2l hP
  have a8 := mul_le_mul_of_nonneg_left h2u hP
  rw [abs_le]
  constructor
  · norm_num at *
    linarith
  · norm_num at *
    linarith

/-- One component of the velocity: the quotient by the length and the product with the
speed are each within one rounding, on the squares. -/
theorem component32 (c il sp : ℚ) (hc : c = 0 ∨ 1 / 1208925819614629174706176 ≤ c * c)
    (hI : 1 / 9671406556917033397649408 ≤ il * il) (hsp : 1 ≤ sp) :
    (16777215 / 16777216) ^ 2 * (c * c * (il * il)) ≤
      round32 (c * il) * round32 (c * il) ∧
    round32 (c * il) * round32 (c * il) ≤
      (16777217 / 16777216) ^ 2 * (c * c * (il * il)) ∧
    (16777215 / 16777216) ^ 2 * (round32 (c * il) * round32 (c * il) * (sp * sp)) ≤
      round32 (round32 (c * il) * sp) * round32 (round32 (c * il) * sp) ∧
    round32 (round32 (c * il) * sp) * round32 (round32 (c * il) * sp) ≤
      (16777217 / 16777216) ^ 2 * (round32 (c * il) * round32 (c * il) * (sp * sp)) := by
  have hsp2 : 1 ≤ sp * sp := by nlinarith
  have hn1 : c * il = 0 ∨ (2 : ℚ) ^ (-126 : Int) ≤ |c * il| := by
    rcases hc with h | h
    · left; rw [h, zero_mul]
    · refine normal_of_sq _ (1 / 4835703278458516698824704) (by norm_num) ?_
      have := mul_le_mul h hI (by norm_num) (le_trans (by norm_num) h)
      have e : c * il * (c * il) = c * c * (il * il) := by ring
      rw [e]
      refine le_trans ?_ this
      norm_num
  have b1 := round32_sq_bounds (c * il) hn1
  have e1 : c * il * (c * il) = c * c * (il * il) := by ring
  rw [e1] at b1
  have hn2 : round32 (c * il) * sp = 0 ∨ (2 : ℚ) ^ (-126 : Int) ≤ |round32 (c * il) * sp| := by
    rcases hc with h | h
    · left; rw [h, zero_mul, round32_zero, zero_mul]
    · refine normal_of_sq _ (1 / 9671406556917033397649408) (by norm_num) ?_
      have h3 := mul_le_mul h hI (by norm_num) (le_trans (by norm_num) h)
      have h4 : 1 / 23384026197294446691258957323460528314494920687616 ≤
          round32 (c * il) * round32 (c * il) := by
        refine le_trans ?_ b1.1
        norm_num at h3 ⊢
        linarith
      have h5 := mul_le_mul h4 hsp2 (by norm_num) (le_trans (by norm_num) h4)
      have e : round32 (c * il) * sp * (round32 (c * il) * sp) =
          round32 (c * il) * round32 (c * il) * (sp * sp) := by ring
      rw [e]
      refine le_trans ?_ h5
      norm_num
  have b2 := round32_sq_bounds (round32 (c * il) * sp) hn2
  have e2 : round32 (c * il) * sp * (round32 (c * il) * sp) =
      round32 (c * il) * round32 (c * il) * (sp * sp) := by ring
  rw [e2] at b2
  exact ⟨b1.1, b1.2, b2.1, b2.2⟩

theorem Sizable_sq (x : ℚ) (h : Sizable x) :
    (x = 0 ∨ 1 / 1208925819614629174706176 ≤ x * x) ∧
    x * x ≤ 1208925819614629174706176 ∧ 0 ≤ x * x := by
  refine ⟨?_, ?_, mul_self_nonneg x⟩
  · rcases h with h | ⟨h1, _⟩
    · exact Or.inl h
    · right
      have := mul_le_mul h1 h1 (by norm_num) (abs_nonneg x)
      rw [abs_mul_abs_self] at this
      refine le_trans ?_ this
      norm_num
  · rcases h with h | ⟨_, h2⟩
    · rw [h]; norm_num
    · have := mul_le_mul h2 h2 (abs_nonneg x) (by norm_num)
      rw [abs_mul_abs_self] at this
      refine le_trans this ?_
      norm_num

/-- The velocity computed on `float`s has the length of the speed up to the roundings:
when `sqrtf` is within one unit in the last place on the rounded squared length and
the components of the difference are sizable and not both zero, the squared length
of the velocity is within one millionth of the squared speed. -/
theorem velocity32_length (p : Platform) (d : Vector2) (sp : ℚ)
    (hx : Sizable d.x) (hy : Sizable d.y) (hne : d.x ≠ 0 ∨ d.y ≠ 0) (hsp : 1 ≤ sp)
    (hL : SqrtWithinUlp p (round32 (round32 (d.x * d.x) + round32 (d.y * d.y)))) :
    |(Vector2Scale32 (Vector2Normalize32 p d) sp).x *
        (Vector2Scale32 (Vector2Normalize32 p d) sp).x +
      (Vector2Scale32 (Vector2Normalize32 p d) sp).y *
        (Vector2Scale32 (Vector2Normalize32 p d) sp).y - sp * sp| ≤ sp * sp / 1000000 := by
  have hv : Vector2Scale32 (Vector2Normalize32 p d) sp =
      ⟨round32 (round32 (d.x * round32 (1 / p.sqrtf
          (round32 (round32 (d.x * d.x) + round32 (d.y * d.y))))) * sp),
        round32 (round32 (d.y * round32 (1 / p.sqrtf
          (round32 (round32 (d.x * d.x) + round32 (d.y * d.y))))) * sp)⟩ := by
    unfold Vector2Scale32 Vector2Normalize32
    dsimp only
    rw [if_pos hL.1]
  rw [hv]
  dsimp only
  obtain ⟨hX, hXu, hX0⟩ := Sizable_sq d.x hx
  obtain ⟨hY, hYu, hY0⟩ := Sizable_sq d.y hy
  have hT : 1 / 1208925819614629174706176 ≤ d.x * d.x + d.y * d.y := by
    rcases hne with h | h
    · have := hX.resolve_left h
      linarith
    · have := hY.resolve_left h
      linarith
  have nX : d.x * d.x = 0 ∨ (2 : ℚ) ^ (-126 : Int) ≤ |d.x * d.x| := by
    rcases hX with h | h
    · left; rw [h, zero_mul]
    · right
      rw [abs_of_nonneg hX0]
      refine le_trans ?_ h
      norm_num
  have nY : d.y * d.y = 0 ∨ (2 : ℚ) ^ (-126 : Int) ≤ |d.y * d.y| := by
    rcases hY with h | h
    · left; rw [h, zero_mul]
    · right
      rw [abs_of_nonneg hY0]
      refine le_trans ?_ h
      norm_num
  have bX := round32_nonneg_bounds (d.x * d.x) hX0 nX
  have bY := round32_nonneg_bounds (d.y * d.y) hY0 nY
  have hs0 : 0 ≤ round32 (d.x * d.x) + round32 (d.y * d.y) := by linarith
  have nS : round32 (d.x * d.x) + round32 (d.y * d.y) = 0 ∨
      (2 : ℚ) ^ (-126 : Int) ≤ |round32 (d.x * d.x) + round32 (d.y * d.y)| := by
    right
    rw [abs_of_nonneg hs0]
    norm_num
    linarith
  have bS := round32_nonneg_bounds _ hs0 nS
  obtain ⟨hL0, hLl, hLu⟩ := hL
  have hQl : (8388607 / 8388608) ^ 2 * ((16777215 / 16777216) ^ 2 *
      (d.x * d.x + d.y * d.y)) ≤
      p.sqrtf (round32 (round32 (d.x * d.x) + round32 (d.y * d.y))) *
        p.sqrtf (round32 (round32 (d.x * d.x) + round32 (d.y * d.y))) := by
    refine le_trans ?_ hLl
    norm_num
    linarith
  have hQu : p.sqrtf (round32 (round32 (d.x * d.x) + round32 (d.y * d.y))) *
        p.sqrtf (round32 (round32 (d.x * d.x) + round32 (d.y * d.y))) ≤
      (8388609 / 8388608) ^ 2 * ((16777217 / 16777216) ^ 2 *
        (d.x * d.x + d.y * d.y)) := by
    refine le_trans hLu ?_
    norm_num
    linarith
  generalize p.sqrtf (round32 (round32 (d.x * d.x) + round32 (d.y * d.y))) = L at *
  have hLne : L ≠ 0 := ne_of_gt hL0
  have hQ0 : 0 < L * L := mul_pos hL0 hL0
  have hQ82 : L * L ≤ 4835703278458516698824704 := by
    refine le_trans hQu ?_
    norm_num
    linarith
  have hinv : 1 / L * (1 / L) * (L * L) = 1 := by field_simp
  have hinv2 : 1 / 4835703278458516698824704 ≤ 1 / L * (1 / L) := by
    have e : 1 / L * (1 / L) = 1 / (L * L) := by field_simp
    rw [e]
    exact one_div_le_one_div_of_le hQ0 hQ82
  have nI : 1 / L = 0 ∨ (2 : ℚ) ^ (-126 : Int) ≤ |1 / L| :=
    normal_of_sq _ (1 / 2199023255552) (by norm_num) (le_trans (by norm_num) hinv2)
  have bI := round32_sq_bounds (1 / L) nI
  have hI0 : 0 ≤ round32 (1 / L) * round32 (1 / L) := mul_self_nonneg _
  have hIl : 1 / 9671406556917033397649408 ≤ round32 (1 / L) * round32 (1 / L) := by
    refine le_trans ?_ bI.1
    norm_num at hinv2 ⊢
    linarith
  have h2l : (16777215 / 16777216) ^ 2 ≤ round32 (1 / L) * round32 (1 / L) * (L * L) := by
    have := mul_le_mul_of_nonneg_right bI.1 (le_of_lt hQ0)
    have e : (16777215 / 16777216 : ℚ) ^ 2 * (1 / L * (1 / L)) * (L * L) =
        (16777215 / 16777216) ^ 2 := by rw [mul_assoc, hinv, mul_one]
    rw [e] at this
    exact this
  have h2u : round32 (1 / L) * round32 (1 / L) * (L * L) ≤ (16777217 / 16777216) ^ 2 := by
    have := mul_le_mul_of_nonneg_right bI.2 (le_of_lt hQ0)
    have e : (16777217 / 16777216 : ℚ) ^ 2 * (1 / L * (1 / L)) * (L * L) =
        (16777217 / 16777216) ^ 2 := by rw [mul_assoc, hinv, mul_one]
    rw [e] at this
    exact this
  have cx := component32 d.x (round32 (1 / L)) sp hX hIl hsp
  have cy := component32 d.y (round32 (1 / L)) sp hY hIl hsp
  exact length_tolerance (d.x * d.x) (d.y * d.y) (L * L)
    (round32 (1 / L) * round32 (1 / L)) _ _ _ _ (sp * sp) (mul_self_nonneg sp) hI0 hQl hQu
    h2l h2u cx.1 cx.2.1 cy.1 cy.2.1 cx.2.2.1 cx.2.2.2 cy.2.2.1 cy.2.2.2

/-- The speeds of lines 140-143 on `float`s: 50 * 1.7f rounds to 85. -/
theorem spawnSpeed32_values :
    spawnSpeed32 Difficulty.DIFFICULTY_EASY = 50 ∧
    spawnSpeed32 Difficulty.DIFFICULTY_MEDIUM = 85 ∧
    spawnSpeed32 Difficulty.DIFFICULTY_HARD = 100 := by
  have h50 : round32 (50.0 : ℚ) = 50 := by
    norm_num only
    rw [round32_eval_pos _ (5) (by norm_num) (by norm_num) (by norm_num),
      rne_eval_lt _ 13107200 (by norm_num) (by norm_num)]
    norm_num
  have h17 : round32 (1.7 : ℚ) = 7130317 / 4194304 := by
    norm_num only
    rw [round32_eval_pos _ (0) (by norm_num) (by norm_num) (by norm_num),
      rne_eval_gt _ 14260633 (by norm_num) (by norm_num)]
    norm_num
  have h85 : round32 ((50 : ℚ) * (7130317 / 4194304)) = 85 := by
    rw [round32_eval_pos _ (6) (by norm_num) (by norm_num) (by norm_num),
      rne_eval_lt _ 11141120 (by norm_num) (by norm_num)]
    norm_num
  have h2 : round32 (2.0 : ℚ) = 2 := by
    norm_num only
    rw [round32_eval_pos _ (1) (by norm_num) (by norm_num) (by norm_num),
      rne_eval_lt _ 8388608 (by norm_num) (by norm_num)]
    norm_num
  have h100 : round32 ((50 : ℚ) * 2) = 100 := by
    rw [round32_eval_pos _ (6) (by norm_num) (by norm_num) (by norm_num),
      rne_eval_lt _ 13107200 (by norm_num) (by norm_num)]
    norm_num
  refine ⟨?_, ?_, ?_⟩
  · simp [spawnSpeed32, h50]
  · simp only [spawnSpeed32, h50, h17, h85]
    simp
  · simp only [spawnSpeed32, h50, h2, h100]
    simp

theorem samplePlatform_sqrt32 : samplePlatform.sqrtf 250000 = 500 := by
  have h := samplePlatform_sqrt_250000
  norm_num at h
  exact h

/-- The velocity of a medium enemy spawned at (0, 0) with the player at (400, 300),
as the `float` operations compute it when `sqrtf` returns the root 500. -/
theorem velocity32_at_root (p : Platform) (hp : p.sqrtf 250000 = 500) :
    Vector2Scale32 (Vector2Normalize32 p (Vector2Subtract32 ⟨400, 300⟩ ⟨0, 0⟩)) 85 =
      ⟨68, 13369345 / 262144⟩ := by
  have d1 : round32 ((400 : ℚ) - 0) = 400 := by
    rw [sub_zero]
    rw [round32_eval_pos _ (8) (by norm_num) (by norm_num) (by norm_num),
      rne_eval_lt _ 13107200 (by norm_num) (by norm_num)]
    norm_num
  have d2 : round32 ((300 : ℚ) - 0) = 300 := by
    rw [sub_zero]
    rw [round32_eval_pos _ (8) (by norm_num) (by norm_num) (by norm_num),
      rne_eval_lt _ 9830400 (by norm_num) (by norm_num)]
    norm_num
  have s1 : round32 ((400 : ℚ) * 400) = 160000 := by
    rw [round32_eval_pos _ (17) (by norm_num) (by norm_num) (by norm_num),
      rne_eval_lt _ 10240000 (by norm_num) (by norm_num)]
    norm_num
  have s2 : round32 ((300 : ℚ) * 300) = 90000 := by
    rw [round32_eval_pos _ (16) (by norm_num) (by norm_num) (by norm_num),
      rne_eval_lt _ 11520000 (by norm_num) (by norm_num)]
    norm_num
  have s3 : round32 ((160000 : ℚ) + 90000) = 250000 := by
    rw [round32_eval_pos _ (17) (by norm_num) (by norm_num) (by norm_num),
      rne_eval_lt _ 16000000 (by norm_num) (by norm_num)]
    norm_num
  have i1 : round32 ((1 : ℚ) / 500) = 8589935 / 4294967296 := by
    rw [round32_eval_pos _ (-9) (by norm_num) (by norm_num) (by norm_num),
      rne_eval_gt _ 8589934 (by norm_num) (by norm_num)]
    norm_num
  have n1 : round32 ((400 : ℚ) * (8589935 / 4294967296)) = 13421773 / 16777216 := by
    rw [round32_eval_pos _ (-1) (by norm_num) (by norm_num) (by norm_num),
      rne_eval_lt _ 13421773 (by norm_num) (by norm_num)]
    norm_num
  have n2 : round32 ((300 : ℚ) * (8589935 / 4294967296)) = 5033165 / 8388608 := by
    rw [round32_eval_pos _ (-1) (by norm_num) (by norm_num) (by norm_num),
      rne_eval_lt _ 10066330 (by norm_num) (by norm_num)]
    norm_num
  have v1 : round32 ((13421773 / 16777216 : ℚ) * 85) = 68 := by
    rw [round32_eval_pos _ (6) (by norm_num) (by norm_num) (by norm_num),
      rne_eval_lt _ 8912896 (by norm_num) (by norm_num)]
    norm_num
  have v2 : round32 ((5033165 / 8388608 : ℚ) * 85) = 13369345 / 262144 := by
    rw [round32_eval_pos _ (5) (by norm_num) (by norm_num) (by norm_num),
      rne_eval_gt _ 13369344 (by norm_num) (by norm_num)]
    norm_num
  unfold Vector2Scale32 Vector2Normalize32 Vector2Subtract32
  dsimp only
  rw [d1, d2, s1, s2, s3, hp, if_pos (by norm_num), i1, n1, n2, v1, v2]

theorem velocity32_sample :
    Vector2Scale32 (Vector2Normalize32 samplePlatform (Vector2Subtract32 ⟨400, 300⟩ ⟨0, 0⟩)) 85 =
      ⟨68, 13369345 / 262144⟩ :=
  velocity32_at_root samplePlatform samplePlatform_sqrt32

theorem SpawnEnemy32_head (p : Platform) (inp : Input) (d : Difficulty) (pos : Vector2)
    (e : Enemy) (es : List Enemy) (k : Nat) (h : e.active = false) :
    SpawnEnemy32 p inp d pos (e :: es) k =
      ({ position := spawnPosition inp k
         speed := spawnSpeed32 d
         velocity := Vector2Scale32 (Vector2Normalize32 p
           (Vector2Subtract32 pos (spawnPosition inp k))) (spawnSpeed32 d)
         active := true } :: es, k + 2) := by
  simp [SpawnEnemy32, h]

theorem SpawnEnemy32_first_free (p : Platform) (inp : Input) (d : Difficulty) (pos : Vector2)
    (k : Nat) : ∀ (pre : List Enemy) (e : Enemy) (post : List Enemy),
    (∀ x ∈ pre, x.active = true) → e.active = false →
    SpawnEnemy32 p inp d pos (pre ++ e :: post) k =
      (pre ++ { position := spawnPosition inp k
                speed := spawnSpeed32 d
                velocity := Vector2Scale32 (Vector2Normalize32 p
                  (Vector2Subtract32 pos (spawnPosition inp k))) (spawnSpeed32 d)
                active := true } :: post, k + 2)
  | [], e, post, _, he => SpawnEnemy32_head p inp d pos e post k he
  | x :: pre, e, post, hpre, he => by
    have hx : x.active = true := hpre x (List.mem_cons_self _ _)
    have ih := SpawnEnemy32_first_free p inp d pos k pre e post
      (fun y hy => hpre y (List.mem_cons_of_mem _ hy)) he
    simp [SpawnEnemy32, hx, ih]

theorem spawnSpeed32_ge_one (d : Difficulty) : 1 ≤ spawnSpeed32 d := by
  cases d
  · rw [spawnSpeed32_values.1]; norm_num
  · rw [spawnSpeed32_values.2.1]; norm_num
  · rw [spawnSpeed32_values.2.2]; norm_num

/-- The computed `sqrtf` of `rootPlatform` on 249401 = 400^2 + 299^2, which is not a
square: the `float` 499.400635. -/
theorem rootPlatform_sqrt_249401 : rootPlatform.sqrtf 249401 = 2045545 / 4096 := by
  have h1 : ⌊(249401 : ℚ) * 2 ^ 200⌋ = 400771955176236433710440887791978294231639948852422315916998475776 := by
    norm_num
  have h2 : Nat.sqrt 400771955176236433710440887791978294231639948852422315916998475776 = 633065522024566137807957730373111 :=
    (Nat.eq_sqrt.mpr ⟨by norm_num, by norm_num⟩).symm
  have h3 : Int.toNat 400771955176236433710440887791978294231639948852422315916998475776 = 400771955176236433710440887791978294231639948852422315916998475776 := rfl
  simp only [rootPlatform, h1, h3, h2]
  norm_num only
  rw [round32_eval_pos _ (8) (by norm_num) (by norm_num) (by norm_num),
    rne_eval_lt _ 16364360 (by norm_num) (by norm_num)]
  norm_num

/-- The velocity of a medium enemy spawned at (0, 0) with the player at (400, 299),
as the `float` operations compute it when `sqrtf` returns 499.400635. -/
theorem velocity32_off_root (p : Platform) (hp : p.sqrtf 249401 = 2045545 / 4096) :
    Vector2Scale32 (Vector2Normalize32 p (Vector2Subtract32 ⟨400, 299⟩ ⟨0, 0⟩)) 85 =
      ⟨8923593 / 131072, 13340771 / 262144⟩ := by
  have d1 : round32 ((400 : ℚ) - 0) = 400 := by
    rw [sub_zero]
    rw [round32_eval_pos _ (8) (by norm_num) (by norm_num) (by norm_num),
      rne_eval_lt _ 13107200 (by norm_num) (by norm_num)]
    norm_num
  have d2 : round32 ((299 : ℚ) - 0) = 299 := by
    rw [sub_zero]
    rw [round32_eval_pos _ (8) (by norm_num) (by norm_num) (by norm_num),
      rne_eval_lt _ 9797632 (by norm_num) (by norm_num)]
    norm_num
  have s1 : round32 ((400 : ℚ) * 400) = 160000 := by
    rw [round32_eval_pos _ (17) (by norm_num) (by norm_num) (by norm_num),
      rne_eval_lt _ 10240000 (by norm_num) (by norm_num)]
    norm_num
  have s2 : round32 ((299 : ℚ) * 299) = 89401 := by
    rw [round32_eval_pos _ (16) (by norm_num) (by norm_num) (by norm_num),
      rne_eval_lt _ 11443328 (by norm_num) (by norm_num)]
    norm_num
  have s3 : round32 ((160000 : ℚ) + 89401) = 249401 := by
    rw [round32_eval_pos _ (17) (by norm_num) (by norm_num) (by norm_num),
      rne_eval_lt _ 15961664 (by norm_num) (by norm_num)]
    norm_num
  have i1 : round32 ((1 : ℚ) / (2045545 / 4096)) = 2150061 / 1073741824 := by
    rw [round32_eval_pos _ (-9) (by norm_num) (by norm_num) (by norm_num),
      rne_eval_gt _ 8600243 (by norm_num) (by norm_num)]
    norm_num
  have n1 : round32 ((400 : ℚ) * (2150061 / 1073741824)) = 13437881 / 16777216 := by
    rw [round32_eval_pos _ (-1) (by norm_num) (by norm_num) (by norm_num),
      rne_eval_lt _ 13437881 (by norm_num) (by norm_num)]
    norm_num
  have n2 : round32 ((299 : ℚ) * (2150061 / 1073741824)) = 627801 / 1048576 := by
    rw [round32_eval_pos _ (-1) (by norm_num) (by norm_num) (by norm_num),
      rne_eval_lt _ 10044816 (by norm_num) (by norm_num)]
    norm_num
  have v1 : round32 ((13437881 / 16777216 : ℚ) * 85) = 8923593 / 131072 := by
    rw [round32_eval_pos _ (6) (by norm_num) (by norm_num) (by norm_num),
      rne_eval_gt _ 8923592 (by norm_num) (by norm_num)]
    norm_num
  have v2 : round32 ((627801 / 1048576 : ℚ) * 85) = 13340771 / 262144 := by
    rw [round32_eval_pos _ (5) (by norm_num) (by norm_num) (by norm_num),
      rne_eval_lt _ 13340771 (by norm_num) (by norm_num)]
    norm_num
  unfold Vector2Scale32 Vector2Normalize32 Vector2Subtract32
  dsimp only
  rw [d1, d2, s1, s2, s3, hp, if_pos (by norm_num), i1, n1, n2, v1, v2]

theorem velocity32_difference : Vector2Subtract32 ⟨400, 299⟩ ⟨0, 0⟩ = ⟨400, 299⟩ := by
  have d1 : round32 ((400 : ℚ) - 0) = 400 := by
    rw [sub_zero]
    rw [round32_eval_pos _ (8) (by norm_num) (by norm_num) (by norm_num),
      rne_eval_lt _ 13107200 (by norm_num) (by norm_num)]
    norm_num
  have d2 : round32 ((299 : ℚ) - 0) = 299 := by
    rw [sub_zero]
    rw [round32_eval_pos _ (8) (by norm_num) (by norm_num) (by norm_num),
      rne_eval_lt _ 9797632 (by norm_num) (by norm_num)]
    norm_num
  unfold Vector2Subtract32
  dsimp only
  rw [d1, d2]

theorem velocity32_squares :
    round32 (round32 ((400 : ℚ) * 400) + round32 ((299 : ℚ) * 299)) = 249401 := by
  have s1 : round32 ((400 : ℚ) * 400) = 160000 := by
    rw [round32_eval_pos _ (17) (by norm_num) (by norm_num) (by norm_num),
      rne_eval_lt _ 10240000 (by norm_num) (by norm_num)]
    norm_num
  have s2 : round32 ((299 : ℚ) * 299) = 89401 := by
    rw [round32_eval_pos _ (16) (by norm_num) (by norm_num) (by norm_num),
      rne_eval_lt _ 11443328 (by norm_num) (by norm_num)]
    norm_num
  have s3 : round32 ((160000 : ℚ) + 89401) = 249401 := by
    rw [round32_eval_pos _ (17) (by norm_num) (by norm_num) (by norm_num),
      rne_eval_lt _ 15961664 (by norm_num) (by norm_num)]
    norm_num
  rw [s1, s2, s3]


/-! ## The claims -/

/-- C1: in a Survival frame with `gameOver` false, difficulty Hard and the second
chance unused, in which some enemy that is active when the enemy loop starts
overlaps the player (both circles of radius 20) after its pursuit move, the frame
ends in the mini-game scene, `gameOver` is still false, and the rack holds ten pins
none of which is fallen or animating. -/
theorem enemy_hit_on_hard_opens_mini_game (fuel : Nat) (p : Platform) (inp : Input) (s : State)
    (hwf : WF s) (hscene : s.gameState = GameState.GAMEPLAY) (hover : s.gameOver = false)
    (hhard : s.selectedDifficulty = Difficulty.DIFFICULTY_HARD)
    (hsc : s.secondChanceUsed = false)
    (hhit : ∃ e ∈ (beforeEnemies p inp s).enemies, e.active = true ∧
      CheckCollisionCircles (pursue p inp.dt (beforeEnemies p inp s).playerPos e).position 20
        (beforeEnemies p inp s).playerPos 20 = true) :
    ∃ s1, updateFrame fuel p inp s = some s1 ∧ s1.gameState = GameState.MINI_GAME ∧
      s1.gameOver = false ∧ s1.pins.length = NUM_PINS ∧
      ∀ q ∈ s1.pins, q.fallen = false ∧ q.animating = false := by
  have hcaught := enemyLoop_caught p inp.dt (beforeEnemies p inp s).playerPos
    (beforeEnemies p inp s).enemies (beforeEnemies p inp s).bullets (beforeEnemies p inp s).score hhit
  have hfresh : InMiniGameFresh (stepEnemies p inp (beforeEnemies p inp s)) := by
    unfold stepEnemies
    simp only [hcaught, if_true]
    unfold onCaught
    simp only [beforeEnemies_keeps, hhard, hsc, and_self, if_true]
    exact secondChance_fresh inp _ (by simp [hsc]) (by simp [hover]) (by simpa using hwf.2.2.2)
  have hfin := stepObstacles_fresh p inp _ hfresh
  refine ⟨updateGameplay p inp s, ?_, ?_⟩
  · simp [updateFrame, hscene]
  · have hupd : updateGameplay p inp s =
        stepObstacles p inp (stepEnemies p inp (beforeEnemies p inp s)) := by
      simp [updateGameplay, hover]
    rw [hupd]
    exact ⟨hfin.2.1, hfin.2.2.1, hfin.2.2.2.1, hfin.2.2.2.2⟩

/-- Witness of C1: the hard game in which an enemy stands on the player, on an idle frame. -/
theorem enemy_hit_on_hard_opens_mini_game_witness :
    ∃ s1, updateFrame 0 samplePlatform idleInput hardCaughtState = some s1 ∧
      s1.gameState = GameState.MINI_GAME ∧ s1.gameOver = false ∧ s1.pins.length = NUM_PINS ∧
      ∀ q ∈ s1.pins, q.fallen = false ∧ q.animating = false :=
  enemy_hit_on_hard_opens_mini_game 0 samplePlatform idleInput hardCaughtState
    hardCaughtState_WF rfl rfl rfl rfl
    (by
      rw [beforeEnemies_playerPos,
        beforeEnemies_enemies_quiet samplePlatform idleInput hardCaughtState
          (by simp [hardCaughtState, initialState, ResetElixirState, ResetBowling, idleInput,
            baseInterval]; norm_num) rfl]
      refine ⟨⟨⟨400, 300⟩, zeroVector, 100, true⟩, List.mem_cons_self _ _, rfl, ?_⟩
      simp [pursue, movePlayer, idleInput, hardCaughtState, initialState, ResetElixirState,
        ResetBowling, Vector2Length, Vector2Subtract, Vector2Add, Vector2Scale, samplePlatform,
        CheckCollisionCircles, zeroVector])

/-- C2: in a Survival frame of a run of the program in which the difficulty is not
Hard or the second chance is already used, the frame never ends in the mini-game
scene; and if some enemy that is active when the enemy loop starts overlaps the
player (circles of radius 20) after its pursuit move, the frame ends with `gameOver`
set in the closing scene. -/
theorem second_chance_at_most_once (fuel : Nat) (p : Platform) (inp : Input) (s : State)
    (hr : Reachable p s) (hscene : s.gameState = GameState.GAMEPLAY)
    (hno : s.selectedDifficulty ≠ Difficulty.DIFFICULTY_HARD ∨ s.secondChanceUsed = true) :
    ∃ s1, updateFrame fuel p inp s = some s1 ∧ s1.gameState ≠ GameState.MINI_GAME ∧
      ((∃ e ∈ (beforeEnemies p inp s).enemies, e.active = true ∧
          CheckCollisionCircles (pursue p inp.dt (beforeEnemies p inp s).playerPos e).position 20
            (beforeEnemies p inp s).playerPos 20 = true) →
        s1.gameOver = true ∧ s1.gameState = GameState.CLOSING_SCENE) := by
  have hinv := Reachable_inv p s hr
  have hover : s.gameOver = false := by
    cases hg : s.gameOver with
    | false => rfl
    | true =>
      have := hinv.2.1.mp hg
      rw [hscene] at this
      cases this
  have hk := beforeEnemies_keeps p inp s
  have hupd : updateGameplay p inp s =
      stepObstacles p inp (stepEnemies p inp (beforeEnemies p inp s)) := by
    simp [updateGameplay, hover]
  have hno0 : ¬ ((beforeEnemies p inp s).selectedDifficulty = Difficulty.DIFFICULTY_HARD ∧
      (beforeEnemies p inp s).secondChanceUsed = false) := by
    rw [hk.1, hk.2.1]
    rintro ⟨h1, h2⟩
    rcases hno with h | h
    · exact h h1
    · rw [h] at h2; cases h2
  -- the state after the enemy loop
  have hen : (stepEnemies p inp (beforeEnemies p inp s)).gameState ≠ GameState.MINI_GAME ∧
      ((stepEnemies p inp (beforeEnemies p inp s)).selectedDifficulty ≠
          Difficulty.DIFFICULTY_HARD ∨
        (stepEnemies p inp (beforeEnemies p inp s)).secondChanceUsed = true) ∧
      ((∃ e ∈ (beforeEnemies p inp s).enemies, e.active = true ∧
          CheckCollisionCircles (pursue p inp.dt (beforeEnemies p inp s).playerPos e).position 20
            (beforeEnemies p inp s).playerPos 20 = true) →
        (stepEnemies p inp (beforeEnemies p inp s)).gameOver = true ∧
        (stepEnemies p inp (beforeEnemies p inp s)).gameState = GameState.CLOSING_SCENE) := by
    unfold stepEnemies
    dsimp only
    split_ifs with hcaught
    · have heq : ∀ st : State, ¬ (st.selectedDifficulty = Difficulty.DIFFICULTY_HARD ∧
          st.secondChanceUsed = false) → onCaught inp st =
          { st with gameOver := true, gameState := GameState.CLOSING_SCENE } := by
        intro st hst
        simp only [onCaught, hst, if_false]
      rw [heq]
      · refine ⟨by simp, ?_, fun _ => ⟨rfl, rfl⟩⟩
        show (beforeEnemies p inp s).selectedDifficulty ≠ Difficulty.DIFFICULTY_HARD ∨
          (beforeEnemies p inp s).secondChanceUsed = true
        rw [hk.1, hk.2.1]
        exact hno
      · exact hno0
    · refine ⟨?_, ?_, ?_⟩
      · show (beforeEnemies p inp s).gameState ≠ GameState.MINI_GAME
        rw [hk.2.2.2.1, hscene]
        decide
      · show (beforeEnemies p inp s).selectedDifficulty ≠ Difficulty.DIFFICULTY_HARD ∨
          (beforeEnemies p inp s).secondChanceUsed = true
        rw [hk.1, hk.2.1]
        exact hno
      · intro hhit
        exact absurd (enemyLoop_caught p inp.dt _ _ _ _ hhit) hcaught
  refine ⟨updateGameplay p inp s, updateFrame_gameplay fuel p inp s hscene, ?_⟩
  rw [hupd]
  rcases stepObstacles_used p inp _ hen.2.1 with h | h
  · rw [h]
    exact ⟨hen.1, hen.2.2⟩
  · exact ⟨by rw [h.2]; decide, fun _ => h⟩

/-- Witness of C2: in the medium game reached by clicking start, the player walks
into an enemy spawning at the left edge; the frame ends in the closing scene. -/
theorem second_chance_at_most_once_witness :
    ∃ s1, updateFrame 0 samplePlatform chaseInput startedMedium = some s1 ∧
      s1.gameOver = true ∧ s1.gameState = GameState.CLOSING_SCENE := by
  obtain ⟨s1, h1, _, h3⟩ := second_chance_at_most_once 0 samplePlatform chaseInput startedMedium
    startedMedium_reachable rfl (Or.inl (by decide))
  refine ⟨s1, h1, h3 ?_⟩
  rw [beforeEnemies_playerPos, beforeEnemies_enemies_spawn samplePlatform chaseInput startedMedium
      (by simp [startedMedium, ResetGame, ResetElixirState, initialState, ResetBowling,
        chaseInput, idleInput, baseInterval]; norm_num) rfl,
    startedMedium_enemies, SpawnEnemy_head _ _ _ _ _ _ _ rfl, chase_position]
  refine ⟨_, List.mem_cons_self _ _, rfl, ?_⟩
  simp [pursue, movePlayer, chaseInput, idleInput, startedMedium, ResetGame, ResetElixirState,
    Vector2Length, Vector2Normalize, Vector2Subtract, Vector2Add, Vector2Scale, samplePlatform,
    CheckCollisionCircles, playerSpeed]
  norm_num

/-- C3: judgment of a throw. In a mini-game frame in which the ball is launched when
line 452 is reached and `t` advanced by `ballSpeed` is at least `PI / 2`: if all ten
pins are fallen after the collision step (every pin of the rack has its `fallen` flag
set, which is what the strike test of lines 488-491 computes), the frame ends in
Survival with the second chance used, score 0, `gameOver` false and every bullet and
enemy slot inactive; if some pin is not fallen it ends with `gameOver` set in the
closing scene; either way the ball is not launched, `t`, `power` and `throwAngle` are 0
and the rack is fresh. In every other mini-game frame the scene stays the mini-game.
The frame returns whenever the draws of `SpawnObstacles` settle (needed on a strike in a
hard game only). -/
theorem throw_judgment (p : Platform) (inp : Input) (s : State) (hwf : WF s)
    (hscene : s.gameState = GameState.MINI_GAME) :
    ((afterCollision p inp s).1.pins.length = NUM_PINS ∧
      (allFallen (afterCollision p inp s).1.pins = true ↔
        ∀ q ∈ (afterCollision p inp s).1.pins, q.fallen = true)) ∧
    (∀ fuel s1, updateFrame fuel p inp s = some s1 →
      (((miniControls p inp s).1.ballLaunched = true ∧
          PI / 2 ≤ (miniControls p inp s).1.t + (miniControls p inp s).1.ballSpeed) →
        ((∀ q ∈ (afterCollision p inp s).1.pins, q.fallen = true) →
          s1.gameState = GameState.GAMEPLAY ∧ s1.secondChanceUsed = true ∧ s1.score = 0 ∧
          s1.gameOver = false ∧
          s1.bullets.length = MAX_BULLETS ∧ (∀ x ∈ s1.bullets, x.active = false) ∧
          s1.enemies.length = MAX_ENEMIES ∧ (∀ x ∈ s1.enemies, x.active = false)) ∧
        ((∃ q ∈ (afterCollision p inp s).1.pins, q.fallen = false) →
          s1.gameOver = true ∧ s1.gameState = GameState.CLOSING_SCENE) ∧
        s1.ballLaunched = false ∧ s1.t = 0 ∧ s1.power = 0 ∧ s1.throwAngle = 0 ∧
        FreshRack s1.pins) ∧
      (¬ ((miniControls p inp s).1.ballLaunched = true ∧
          PI / 2 ≤ (miniControls p inp s).1.t + (miniControls p inp s).1.ballSpeed) →
        s1.gameState = GameState.MINI_GAME)) ∧
    (((miniControls p inp s).1.ballLaunched = true →
        PI / 2 ≤ (miniControls p inp s).1.t + (miniControls p inp s).1.ballSpeed →
        (∀ q ∈ (afterCollision p inp s).1.pins, q.fallen = true) →
        s.selectedDifficulty = Difficulty.DIFFICULTY_HARD →
        DrawsSettle p inp (playerRect p ⟨400, 300⟩)) →
      ∃ fuel s1, updateFrame fuel p inp s = some s1) := by
  have h := judge_frame p inp s hwf hscene
  have hiff := allFallen_iff (afterCollision p inp s).1.pins
  have hpins : (afterCollision p inp s).1.pins.length = NUM_PINS :=
    (afterCollision_keeps p inp s).2.2.2.2.2.2.2.2.2.2.2.2.2.1.trans hwf.2.2.2
  refine ⟨⟨hpins, hiff.1⟩, fun fuel s1 hs1 => ?_, fun hsettle => ?_⟩
  · have h1 := h.1 fuel s1 hs1
    refine ⟨fun hj => ?_, h1.2⟩
    have h2 := h1.1 hj
    exact ⟨fun hall => h2.1 (hiff.1.mpr hall), fun hex => h2.2.1 (hiff.2.mpr hex), h2.2.2⟩
  · exact h.2 (fun hl ht hf hd => hsettle hl ht (hiff.1.mp hf) hd)

/-- Witness of C3: a launched ball with `t = 1.56` and `ballSpeed = 0.02` is judged on
an idle frame, once with every pin fallen (the frame returns and ends in Survival with
the second chance used) and once far from the rack, where the head pin stays up (the
frame ends in the closing scene); both times the rack is fresh afterwards. -/
theorem throw_judgment_witness :
    (∃ fuel s1, updateFrame fuel samplePlatform idleInput fallenThrow = some s1 ∧
      s1.gameState = GameState.GAMEPLAY ∧ s1.secondChanceUsed = true ∧ s1.score = 0 ∧
      s1.ballLaunched = false ∧ s1.t = 0 ∧ FreshRack s1.pins) ∧
    (∃ fuel s1, updateFrame fuel samplePlatform idleInput missedThrow = some s1 ∧
      s1.gameOver = true ∧ s1.gameState = GameState.CLOSING_SCENE ∧
      s1.ballLaunched = false ∧ s1.t = 0 ∧ FreshRack s1.pins) := by
  constructor
  · have hj : (miniControls samplePlatform idleInput fallenThrow).1.ballLaunched = true ∧
        PI / 2 ≤ (miniControls samplePlatform idleInput fallenThrow).1.t +
          (miniControls samplePlatform idleInput fallenThrow).1.ballSpeed := by
      rw [miniControls_launched samplePlatform idleInput fallenThrow rfl rfl]
      refine ⟨rfl, ?_⟩
      simp only [fallenThrow, thrownState, PI]
      norm_num
    have h := throw_judgment samplePlatform idleInput fallenThrow fallenThrow_WF rfl
    obtain ⟨fuel, s1, hs1⟩ := h.2.2 (fun _ _ _ _ => idle_settles _ rfl)
    have h1 := (h.2.1 fuel s1 hs1).1 hj
    have h2 := h1.1 fallenThrow_pins
    exact ⟨fuel, s1, hs1, h2.1, h2.2.1, h2.2.2.1, h1.2.2.1, h1.2.2.2.1, h1.2.2.2.2.2.2⟩
  · have hj : (miniControls samplePlatform idleInput missedThrow).1.ballLaunched = true ∧
        PI / 2 ≤ (miniControls samplePlatform idleInput missedThrow).1.t +
          (miniControls samplePlatform idleInput missedThrow).1.ballSpeed := by
      rw [miniControls_launched samplePlatform idleInput missedThrow rfl rfl]
      refine ⟨rfl, ?_⟩
      simp only [missedThrow, thrownState, PI]
      norm_num
    have h := throw_judgment samplePlatform idleInput missedThrow thrownState_WF rfl
    obtain ⟨fuel, s1, hs1⟩ := h.2.2 (fun _ _ _ _ => idle_settles _ rfl)
    have h1 := (h.2.1 fuel s1 hs1).1 hj
    obtain ⟨rest1, hrest1⟩ := missedThrow_head
    have h2 := h1.2.1 ⟨_, by rw [hrest1]; exact List.mem_cons_self _ _, rfl⟩
    exact ⟨fuel, s1, hs1, h2.1, h2.2, h1.2.2.1, h1.2.2.2.1, h1.2.2.2.2.2.2⟩

/-- C4: strike rule. In the collision step (lines 464-484), if the strike condition
holds, that is `strikeMode` and `luckyStrike`, or `|throwAngle| < 0.1` and
`power > 0.8`, and the ball (radius 15) overlaps a pin (radius 20) that is not fallen,
then after the step all ten pins are fallen and animating. -/
theorem strike_fells_all_pins (inp : Input) (k : Nat) (s : State)
    (hp : s.pins.length = NUM_PINS)
    (hstrike : (s.strikeMode = true ∧ s.luckyStrike = true) ∨
      (|s.throwAngle| < 0.1 ∧ s.power > 0.8))
    (hhit : ∃ q ∈ s.pins, q.fallen = false ∧
      CheckCollisionCircles s.ballPos BALL_RADIUS q.position PIN_RADIUS = true) :
    (collisionStep inp k s).1.pins.length = NUM_PINS ∧
    ∀ q ∈ (collisionStep inp k s).1.pins, q.fallen = true ∧ q.animating = true := by
  have hcond : isStrikeCondition s = true := by
    simp only [isStrikeCondition, Bool.or_eq_true, Bool.and_eq_true, decide_eq_true_eq]
    exact hstrike
  have hstruck : (pinLoop inp true s.ballPos s.pins k).struck = true := by
    refine pinLoop_struck inp s.ballPos s.pins k ?_
    obtain ⟨q, hm, hf, hc⟩ := hhit
    exact ⟨q, hm, by simp [ballHits, hf, hc]⟩
  have hf := fellAll_spec inp (pinLoop inp true s.ballPos s.pins k).pins
    (pinLoop inp true s.ballPos s.pins k).draws
  simp only [collisionStep, hcond, hstruck, if_true]
  exact ⟨hf.1.trans ((pinLoop_length inp true s.ballPos s.pins k).trans hp), hf.2⟩

/-- Witness of C4: the ball on the head pin with a lucky strike. -/
theorem strike_fells_all_pins_witness :
    (collisionStep idleInput 0 (onHeadPin true)).1.pins.length = NUM_PINS ∧
    ∀ q ∈ (collisionStep idleInput 0 (onHeadPin true)).1.pins,
      q.fallen = true ∧ q.animating = true :=
  strike_fells_all_pins idleInput 0 (onHeadPin true) (initialState_WF 800 600).2.2.2
    (Or.inl ⟨rfl, rfl⟩)
    (by
      obtain ⟨rest, hrest⟩ := initialState_head_pin
      refine ⟨⟨⟨400, 120⟩, ⟨0, 0⟩, 0, false, false⟩, ?_, rfl, ?_⟩
      · show _ ∈ (initialState 800 600).pins
        rw [hrest]
        exact List.mem_cons_self _ _
      · simp [CheckCollisionCircles, onHeadPin, BALL_RADIUS, PIN_RADIUS]
        norm_num)

/-- C5: non-strike rule. In the collision step with `strikeMode` false and
`power <= 0.8`, slot by slot: the pin is fallen after the step exactly when it was
fallen before or its circle (radius 20) overlaps the ball (radius 15); a pin that
does not overlap the ball is unchanged in all its fields. -/
theorem non_strike_fells_hit_pins_only (inp : Input) (k : Nat) (s : State)
    (hmode : s.strikeMode = false) (hpower : s.power ≤ 0.8) :
    List.Forall₂ (NonStrikeStep s.ballPos) s.pins (collisionStep inp k s).1.pins := by
  have hcond : isStrikeCondition s = false := by
    simp only [isStrikeCondition, hmode, Bool.false_and, Bool.false_or, Bool.and_eq_false_iff,
      decide_eq_false_iff_not, not_lt]
    exact Or.inr hpower
  have h := pinLoop_noStrike inp s.ballPos s.pins k
  simp only [collisionStep, hcond, h.1, Bool.false_eq_true, if_false]
  exact h.2

/-- Witness of C5: the ball on the head pin, strike mode off, power 0. -/
theorem non_strike_fells_hit_pins_only_witness :
    List.Forall₂ (NonStrikeStep (onHeadPin false).ballPos) (onHeadPin false).pins
      (collisionStep idleInput 0 (onHeadPin false)).1.pins :=
  non_strike_fells_hit_pins_only idleInput 0 (onHeadPin false) rfl
    (by simp [onHeadPin, initialState, ResetElixirState, ResetBowling]; norm_num)

/-- C6: in every state reachable from the initial state by frame updates (any inputs,
any frame time, any random draws, any scene), `elixirAvailable` and `elixirReady`
are not both true. -/
theorem elixir_never_available_and_ready (p : Platform) (s : State) (hr : Reachable p s) :
    ¬ (s.elixirAvailable = true ∧ s.elixirReady = true) := by
  rintro ⟨h1, h2⟩
  have := (Reachable_inv p s hr).2.2 h1
  rw [this] at h2
  cases h2

/-- Witness of C6: the medium game reached by clicking start. -/
theorem elixir_never_available_and_ready_witness :
    ¬ (startedMedium.elixirAvailable = true ∧ startedMedium.elixirReady = true) :=
  elixir_never_available_and_ready samplePlatform startedMedium startedMedium_reachable

/-- C7: in every state of a session started with Easy selected, `elixirAvailable` and
`elixirReady` are both false, whatever the inputs, frame times and random draws. -/
theorem easy_session_has_no_elixir (p : Platform) (s : State) (h : EasySession p s) :
    s.elixirAvailable = false ∧ s.elixirReady = false := by
  have hk : EasyHidden s := by
    induction h with
    | start fuel inp hscene hclick hd hstep =>
      rw [updateFrame, hscene] at hstep
      exact updateOpening_easy fuel p inp _ _ hclick hd hstep
    | @step s s1 fuel inp _ hscene hstep ih =>
      unfold updateFrame at hstep
      cases hg : s.gameState with
      | OPENING_SCENE => exact absurd hg hscene
      | GAMEPLAY =>
        rw [hg] at hstep
        simp only [Option.some.injEq] at hstep
        rw [← hstep]
        exact updateGameplay_easy p inp s ih
      | MINI_GAME => rw [hg] at hstep; exact updateMiniGame_easy fuel p inp s s1 ih hstep
      | CLOSING_SCENE => rw [hg] at hstep; exact updateClosing_easy fuel p inp s s1 ih hstep
  exact ⟨hk.2.1, hk.2.2⟩

/-- Witness of C7: start is clicked with Easy selected, then ten seconds pass in one
frame; the elixir is still hidden. -/
theorem easy_session_has_no_elixir_witness :
    (updateGameplay samplePlatform waitInput startedEasy).elixirAvailable = false ∧
    (updateGameplay samplePlatform waitInput startedEasy).elixirReady = false :=
  easy_session_has_no_elixir samplePlatform _
    (EasySession.step 0 waitInput
      (EasySession.start 0 clickStart rfl clickStart_clicked
        (selectDifficulty_start clickStart _ clickStart_clicked)
        (updateFrame_clickStart_easy 0))
      (by decide)
      (updateFrame_gameplay 0 samplePlatform waitInput startedEasy rfl))

/-- C8: elixir pickup versus expiry. In a Survival frame of a run of the program in
which the elixir is on the map when the pickup step (line 345) starts, the step runs
and: if the duration timer plus the frame time reaches 8, the elixir is hidden after
the step (not available, not ready, timer 0), overlap or not; otherwise it is
collected (ready, not available, timer 0) when the player circle (radius 20) overlaps
the pickup circle (radius 50), and stays on the map, not ready, when it does not.
And over any frame `elixirReady` goes from false to true only by such a collection. -/
theorem elixir_pickup_versus_expiry (p : Platform) (inp : Input) (s : State)
    (hr : Reachable p s) :
    (s.gameState = GameState.GAMEPLAY → (beforePickup p inp s).elixirAvailable = true →
      (∀ fuel, updateFrame fuel p inp s = some (stepObstacles p inp (stepEnemies p inp
        (stepElixirUse inp (stepElixirPickup inp (beforePickup p inp s)))))) ∧
      ((beforePickup p inp s).elixirDurationTimer + inp.dt ≥ 8 →
        (beforeUse p inp s).elixirAvailable = false ∧
        (beforeUse p inp s).elixirReady = false ∧
        (beforeUse p inp s).elixirDurationTimer = 0) ∧
      ((beforePickup p inp s).elixirDurationTimer + inp.dt < 8 →
        (CheckCollisionCircles (beforePickup p inp s).playerPos 20
            (beforePickup p inp s).elixirPos 50 = true →
          (beforeUse p inp s).elixirReady = true ∧
          (beforeUse p inp s).elixirAvailable = false ∧
          (beforeUse p inp s).elixirDurationTimer = 0) ∧
        (CheckCollisionCircles (beforePickup p inp s).playerPos 20
            (beforePickup p inp s).elixirPos 50 = false →
          (beforeUse p inp s).elixirReady = false ∧
          (beforeUse p inp s).elixirAvailable = true))) ∧
    (∀ fuel s1, updateFrame fuel p inp s = some s1 → s.elixirReady = false →
      s1.elixirReady = true →
      s.gameState = GameState.GAMEPLAY ∧
      (beforePickup p inp s).elixirAvailable = true ∧
      (beforePickup p inp s).elixirDurationTimer + inp.dt < 8 ∧
      CheckCollisionCircles (beforePickup p inp s).playerPos 20
        (beforePickup p inp s).elixirPos 50 = true) := by
  have hinv := Reachable_inv p s hr
  constructor
  · intro hscene ha
    have hov := Inv_running s hinv (by rw [hscene]; decide)
    have hrd : (beforePickup p inp s).elixirReady = false :=
      beforePickup_ok p inp s hinv.2.2 ha
    have hsp := stepElixirPickup_spec inp (beforePickup p inp s) ha
    refine ⟨fun fuel => ?_, fun ht => ?_, fun ht => ⟨fun hc => ?_, fun hc => ?_⟩⟩
    · rw [updateFrame_gameplay fuel p inp s hscene, updateGameplay_running p inp s hov]
      rfl
    · have h := hsp.1 ht
      exact ⟨h.1, h.2.1.trans hrd, h.2.2⟩
    · exact (hsp.2 ht).1 hc
    · have h := (hsp.2 ht).2 hc
      exact ⟨h.1.trans hrd, h.2.1⟩
  · intro fuel s1 hstep h0 h1
    unfold updateFrame at hstep
    cases hg : s.gameState with
    | OPENING_SCENE =>
      rw [hg] at hstep
      rw [updateOpening_ready fuel p inp s s1 hstep h1] at h0
      cases h0
    | GAMEPLAY =>
      rw [hg] at hstep
      simp only [Option.some.injEq] at hstep
      rw [← hstep] at h1
      exact ⟨rfl, (updateGameplay_ready p inp s h0 h1).2⟩
    | MINI_GAME =>
      rw [hg] at hstep
      rw [updateMiniGame_ready fuel p inp s s1 hstep h1] at h0
      cases h0
    | CLOSING_SCENE =>
      rw [hg] at hstep
      rw [updateClosing_ready fuel p inp s s1 hstep h1] at h0
      cases h0

/-- Witness of C8: in the medium game reached by clicking start, after five seconds the
elixir spawns on the player and is collected in the same frame. -/
theorem elixir_pickup_versus_expiry_witness :
    (beforePickup samplePlatform useInput startedMedium).elixirAvailable = true ∧
    (beforeUse samplePlatform useInput startedMedium).elixirReady = true ∧
    (beforeUse samplePlatform useInput startedMedium).elixirAvailable = false ∧
    (beforeUse samplePlatform useInput startedMedium).elixirDurationTimer = 0 :=
  ⟨useInput_beforePickup.1,
    (((elixir_pickup_versus_expiry samplePlatform useInput startedMedium
      startedMedium_reachable).1 rfl useInput_beforePickup.1).2.2 useInput_timer_overlap.1).1
      useInput_timer_overlap.2⟩

/-- C9: using the elixir. In a Survival frame of a run of the program in which
`elixirReady` holds when the use step (line 361) starts and the key S is pressed, at
the end of the frame every enemy slot is inactive, `elixirReady` and
`elixirAvailable` are false, and the score is the score before the frame. -/
theorem elixir_use_clears_enemies (fuel : Nat) (p : Platform) (inp : Input) (s : State)
    (hr : Reachable p s) (hscene : s.gameState = GameState.GAMEPLAY)
    (hready : (beforeUse p inp s).elixirReady = true) (hkey : inp.sPressed = true) :
    ∃ s1, updateFrame fuel p inp s = some s1 ∧
      s1.enemies.length = MAX_ENEMIES ∧ (∀ e ∈ s1.enemies, e.active = false) ∧
      s1.elixirReady = false ∧ s1.elixirAvailable = false ∧ s1.score = s.score := by
  have hinv := Reachable_inv p s hr
  have hov := Inv_running s hinv (by rw [hscene]; decide)
  have hav : (beforeUse p inp s).elixirAvailable = false := by
    cases h : (beforeUse p inp s).elixirAvailable with
    | false => rfl
    | true =>
      rw [beforeUse_ok p inp s hinv.2.2 h] at hready
      cases hready
  have huse : beforeEnemies p inp s =
      { beforeUse p inp s with
        enemies := (beforeUse p inp s).enemies.map (fun e => { e with active := false })
        elixirReady := false } := by
    simp [beforeEnemies, stepElixirUse, hready, hkey]
  have hidle : ∀ e ∈ (beforeEnemies p inp s).enemies, e.active = false := by
    rw [huse]
    simp
  have hen : stepEnemies p inp (beforeEnemies p inp s) = beforeEnemies p inp s :=
    stepEnemies_idle p inp _ hidle
  have hfl := stepObstacles_flags p inp (beforeEnemies p inp s)
  have hrd0 : (beforeEnemies p inp s).elixirReady = false := by rw [huse]
  have hav0 : (beforeEnemies p inp s).elixirAvailable = false := by rw [huse]; exact hav
  refine ⟨updateGameplay p inp s, updateFrame_gameplay fuel p inp s hscene, ?_⟩
  rw [updateGameplay_running p inp s hov, hen]
  refine ⟨?_, ?_, ?_, ?_, ?_⟩
  · rw [hfl.2.1, (beforeEnemies_lengths p inp s).2]
    exact hinv.1.2.1
  · rw [hfl.2.1]
    exact hidle
  · rcases hfl.1 with h | h
    · exact h.2.trans hrd0
    · exact h.2
  · rcases hfl.1 with h | h
    · exact h.1.trans hav0
    · exact h.1
  · rw [hfl.2.2.1]
    exact (beforeEnemies_keeps p inp s).2.2.2.2.2.2.1

/-- Witness of C9: the elixir spawns on the player, is collected and used in one frame. -/
theorem elixir_use_clears_enemies_witness :
    (beforeUse samplePlatform useInput startedMedium).elixirReady = true ∧
    ∃ s1, updateFrame 0 samplePlatform useInput startedMedium = some s1 ∧
      s1.enemies.length = MAX_ENEMIES ∧ (∀ e ∈ s1.enemies, e.active = false) ∧
      s1.elixirReady = false ∧ s1.elixirAvailable = false ∧ s1.score = startedMedium.score :=
  have hready : (beforeUse samplePlatform useInput startedMedium).elixirReady = true :=
    ((stepElixirPickup_spec useInput _ useInput_beforePickup.1).2 useInput_timer_overlap.1).1
      useInput_timer_overlap.2 |>.1
  ⟨hready, elixir_use_clears_enemies 0 samplePlatform useInput startedMedium
    startedMedium_reachable rfl hready rfl⟩

/-- C10: menu start. For a frame of the opening scene in which the start button is
clicked, the state after the frame has scene Survival, score 0, the player at
(400, 300), `gameOver` and `secondChanceUsed` false, all bullet and enemy slots
inactive, the elixir state cleared, `elixirSpawnInterval` 0 on Easy, 5 on Medium and
7 on Hard, and the four obstacle slots all active on Hard and all inactive otherwise.
The frame returns whenever the draws of `SpawnObstacles` settle (needed on Hard only). -/
theorem menu_start_resets_game (p : Platform) (inp : Input) (s : State) (hwf : WF s)
    (hscene : s.gameState = GameState.OPENING_SCENE) (hclick : clicked inp startBtn = true) :
    (∀ fuel s1, updateFrame fuel p inp s = some s1 →
      s1.gameState = GameState.GAMEPLAY ∧ s1.score = 0 ∧ s1.playerPos = ⟨400, 300⟩ ∧
      s1.gameOver = false ∧ s1.secondChanceUsed = false ∧
      s1.bullets.length = MAX_BULLETS ∧ (∀ x ∈ s1.bullets, x.active = false) ∧
      s1.enemies.length = MAX_ENEMIES ∧ (∀ x ∈ s1.enemies, x.active = false) ∧
      s1.elixirAvailable = false ∧ s1.elixirReady = false ∧
      s1.elixirSpawnTimer = 0 ∧ s1.elixirDurationTimer = 0 ∧
      s1.selectedDifficulty = s.selectedDifficulty ∧
      (s1.selectedDifficulty = Difficulty.DIFFICULTY_EASY → s1.elixirSpawnInterval = 0) ∧
      (s1.selectedDifficulty = Difficulty.DIFFICULTY_MEDIUM → s1.elixirSpawnInterval = 5) ∧
      (s1.selectedDifficulty = Difficulty.DIFFICULTY_HARD → s1.elixirSpawnInterval = 7) ∧
      s1.obstacles.length = MAX_OBSTACLES ∧
      (s1.selectedDifficulty = Difficulty.DIFFICULTY_HARD →
        ∀ o ∈ s1.obstacles, o.active = true) ∧
      (s1.selectedDifficulty ≠ Difficulty.DIFFICULTY_HARD →
        ∀ o ∈ s1.obstacles, o.active = false)) ∧
    ((s.selectedDifficulty = Difficulty.DIFFICULTY_HARD →
        DrawsSettle p inp (playerRect p ⟨400, 300⟩)) →
      ∃ fuel s1, updateFrame fuel p inp s = some s1) := by
  have hsel := selectDifficulty_start inp s.selectedDifficulty hclick
  have hs : ({ s with selectedDifficulty := selectDifficulty inp s.selectedDifficulty } : State)
      = s := by rw [hsel]
  have hfr : ∀ fuel, updateFrame fuel p inp s =
      match resetAndSpawn fuel p inp 0 s with
      | none => none
      | some (s2, _) =>
        some { s2 with
          elixirSpawnInterval := spawnIntervalFor s2.selectedDifficulty
          secondChanceUsed := false
          gameState := GameState.GAMEPLAY } := by
    intro fuel
    unfold updateFrame
    rw [hscene]
    show updateOpening fuel p inp s = _
    unfold updateOpening
    simp only [hclick, if_true, hs]
  constructor
  · intro fuel s1 h
    rw [hfr] at h
    cases hr : resetAndSpawn fuel p inp 0 s with
    | none => simp [hr] at h
    | some r =>
      obtain ⟨s2, k2⟩ := r
      simp only [hr, Option.some.injEq] at h
      subst h
      have hsp := resetAndSpawn_spec fuel p inp 0 k2 s s2 hr
      refine ⟨rfl, hsp.2.2.2.2.2.1, hsp.2.2.2.2.2.2.1, hsp.2.2.1, rfl,
        hsp.2.2.2.2.2.2.2.2.2.2.2.2.2.1.trans hwf.1, hsp.2.2.2.2.2.2.2.2.2.2.2.2.2.2.2.2.1,
        hsp.2.2.2.2.2.2.2.2.2.2.2.2.2.2.1.trans hwf.2.1,
        hsp.2.2.2.2.2.2.2.2.2.2.2.2.2.2.2.2.2.1,
        hsp.2.2.2.2.2.2.2.1, hsp.2.2.2.2.2.2.2.2.1, hsp.2.2.2.2.2.2.2.2.2.1,
        hsp.2.2.2.2.2.2.2.2.2.2.1, hsp.1, ?_, ?_, ?_,
        hsp.2.2.2.2.2.2.2.2.2.2.2.2.2.2.2.1.trans hwf.2.2.1, ?_, ?_⟩
      · intro hd
        show spawnIntervalFor s2.selectedDifficulty = 0
        rw [show s2.selectedDifficulty = Difficulty.DIFFICULTY_EASY from hd]
        simp [spawnIntervalFor]
        norm_num
      · intro hd
        show spawnIntervalFor s2.selectedDifficulty = 5
        rw [show s2.selectedDifficulty = Difficulty.DIFFICULTY_MEDIUM from hd]
        simp [spawnIntervalFor]
        norm_num
      · intro hd
        show spawnIntervalFor s2.selectedDifficulty = 7
        rw [show s2.selectedDifficulty = Difficulty.DIFFICULTY_HARD from hd]
        simp [spawnIntervalFor]
        norm_num
      · intro hd o ho
        have hd1 : s.selectedDifficulty = Difficulty.DIFFICULTY_HARD := hsp.1.symm.trans hd
        have := hsp.2.2.2.2.2.2.2.2.2.2.2.2.2.2.2.2.2.2 o ho
        simpa [hd1] using this
      · intro hd o ho
        have hd1 : s.selectedDifficulty ≠ Difficulty.DIFFICULTY_HARD :=
          fun h => hd (hsp.1.trans h)
        have := hsp.2.2.2.2.2.2.2.2.2.2.2.2.2.2.2.2.2.2 o ho
        simpa [hd1] using this
  · intro hsettle
    obtain ⟨fuel, x, hx⟩ := resetAndSpawn_terminates p inp 0 s hsettle
    refine ⟨fuel, ?_⟩
    rw [hfr, hx]
    exact ⟨_, rfl⟩

/-- Witness of C10: start is clicked with Hard selected; all draws are 0, which places
every obstacle at (100, 100), clear of the player. -/
theorem menu_start_resets_game_witness :
    ∃ fuel s1, updateFrame fuel samplePlatform clickStart hardSelected = some s1 ∧
      s1.gameState = GameState.GAMEPLAY ∧ s1.score = 0 ∧ s1.elixirSpawnInterval = 7 ∧
      s1.obstacles.length = MAX_OBSTACLES ∧ ∀ o ∈ s1.obstacles, o.active = true := by
  have h := menu_start_resets_game samplePlatform clickStart hardSelected
    (initialState_WF 800 600) rfl clickStart_clicked
  obtain ⟨fuel, s1, hs1⟩ := h.2 (fun _ => zero_draws_settle clickStart (fun _ => rfl) rfl rfl)
  have h1 := h.1 fuel s1 hs1
  have hd : s1.selectedDifficulty = Difficulty.DIFFICULTY_HARD :=
    h1.2.2.2.2.2.2.2.2.2.2.2.2.2.1
  exact ⟨fuel, s1, hs1, h1.1, h1.2.1, h1.2.2.2.2.2.2.2.2.2.2.2.2.2.2.2.2.1 hd,
    h1.2.2.2.2.2.2.2.2.2.2.2.2.2.2.2.2.2.1, h1.2.2.2.2.2.2.2.2.2.2.2.2.2.2.2.2.2.2.1 hd⟩

/-- C11: `ResetGame` is idempotent. For every state and difficulty, applying
`ResetGame` twice gives exactly the state of applying it once, and in that state
every bullet, enemy and obstacle slot is inactive (the arrays keep their sizes), the
score is 0, `gameOver`, `elixirAvailable` and `elixirReady` are false and both elixir
timers are 0. -/
theorem ResetGame_idempotent (d : Difficulty) (s : State) :
    ResetGame d (ResetGame d s) = ResetGame d s ∧
    (∀ x ∈ (ResetGame d s).bullets, x.active = false) ∧
    (∀ x ∈ (ResetGame d s).enemies, x.active = false) ∧
    (∀ x ∈ (ResetGame d s).obstacles, x.active = false) ∧
    (ResetGame d s).bullets.length = s.bullets.length ∧
    (ResetGame d s).enemies.length = s.enemies.length ∧
    (ResetGame d s).obstacles.length = s.obstacles.length ∧
    (ResetGame d s).score = 0 ∧ (ResetGame d s).gameOver = false ∧
    (ResetGame d s).elixirAvailable = false ∧ (ResetGame d s).elixirReady = false ∧
    (ResetGame d s).elixirSpawnTimer = 0 ∧ (ResetGame d s).elixirDurationTimer = 0 := by
  refine ⟨?_, ?_⟩
  · simp [ResetGame, ResetElixirState, Function.comp_def]
  · simp [ResetGame, ResetElixirState]

/-- C12: for every screen width `W`, `LayoutPins` on the ten pin slots writes every
slot and leaves exactly the rack of rows 1, 2, 3 and 4: slot `row*(row+1)/2 + i`
(slots 0 | 1-2 | 3-5 | 6-9) holds the pin at `x = W/2 + (i - row/2)*35`,
`y = 120 + 35*row`; each row is symmetric about `x = W/2`; the ten positions are
pairwise distinct. -/
theorem LayoutPins_racks_ten_pins (W : Int) (pins : List Pin) (h : pins.length = NUM_PINS) :
    LayoutPins W pins = rackOf W ∧
    (LayoutPins W pins).length = 10 ∧
    (∀ row i, row ≤ 3 → i ≤ row →
      (LayoutPins W pins)[row * (row + 1) / 2 + i]? = some (rackPin W row i)) ∧
    (∀ row i, row ≤ 3 → i ≤ row →
      (rackPin W row i).position.x - (W : ℚ) / 2 =
        (W : ℚ) / 2 - (rackPin W row (row - i)).position.x) ∧
    ((LayoutPins W pins).map (fun q => q.position)).Nodup := by
  rw [LayoutPins_eq_rack W pins h]
  refine ⟨rfl, rfl, ?_, ?_, ?_⟩
  · intro row i hrow hi
    interval_cases row <;> interval_cases i <;> rfl
  · intro row i hrow hi
    interval_cases row <;> interval_cases i <;> simp [rackPin] <;> norm_num
  · simp [rackOf, rackPin, List.nodup_cons]
    norm_num

/-- Witness of C12: the rack of the initial state laid out again for width 800. -/
theorem LayoutPins_racks_ten_pins_witness :
    LayoutPins 800 (initialState 800 600).pins = rackOf 800 ∧
    ((LayoutPins 800 (initialState 800 600).pins).map (fun q => q.position)).Nodup :=
  have h := LayoutPins_racks_ten_pins 800 (initialState 800 600).pins
    (initialState_WF 800 600).2.2.2
  ⟨h.1, h.2.2.2.2⟩

/-- C13, amended: after `ResetBowling`, from any prior state with ten pin slots and for
every screen size, all ten pins are not fallen and not animating, and the ball is at
`(screenWidth / 2, screenHeight - 80)`; its x coordinate is the midpoint of
`LANE_LEFT = 140` and `LANE_RIGHT = 660` exactly when the screen is 800 wide. -/
theorem ResetBowling_rack_and_ball (w h : Int) (s : State) (hp : s.pins.length = NUM_PINS) :
    (ResetBowling w h s).pins.length = NUM_PINS ∧
    (∀ q ∈ (ResetBowling w h s).pins, q.fallen = false ∧ q.animating = false) ∧
    (ResetBowling w h s).ballPos = ⟨(w : ℚ) / 2, (h : ℚ) - 80⟩ ∧
    ((ResetBowling w h s).ballPos.x = (LANE_LEFT + LANE_RIGHT) / 2 ↔ w = 800) := by
  have hf := ResetBowling_fresh w h s hp
  refine ⟨hf.1, hf.2, by simp [ResetBowling], ?_⟩
  have hx : (ResetBowling w h s).ballPos.x = (w : ℚ) / 2 := by simp [ResetBowling]
  rw [hx]
  simp only [LANE_LEFT, LANE_RIGHT]
  constructor
  · intro h1
    have h2 : (w : ℚ) = 800 := by linarith
    exact_mod_cast h2
  · intro h1
    subst h1
    norm_num

/-- Witness of C13: the initial state, window 800x600. -/
theorem ResetBowling_rack_and_ball_witness :
    (ResetBowling 800 600 (initialState 800 600)).pins.length = NUM_PINS ∧
    (∀ q ∈ (ResetBowling 800 600 (initialState 800 600)).pins,
      q.fallen = false ∧ q.animating = false) ∧
    (ResetBowling 800 600 (initialState 800 600)).ballPos = ⟨((800 : Int) : ℚ) / 2, ((600 : Int) : ℚ) - 80⟩ ∧
    ((ResetBowling 800 600 (initialState 800 600)).ballPos.x = (LANE_LEFT + LANE_RIGHT) / 2 ↔
      (800 : Int) = 800) :=
  ResetBowling_rack_and_ball 800 600 (initialState 800 600) (initialState_WF 800 600).2.2.2

/-- Counterexample to C13 as stated: in a window 1000 wide `ResetBowling` puts the ball
at x = 500, while the midpoint of the lane bounds is 400. -/
theorem ResetBowling_ball_off_lane_centre :
    (ResetBowling 1000 600 (initialState 800 600)).pins.length = NUM_PINS ∧
    (ResetBowling 1000 600 (initialState 800 600)).ballPos.x = 500 ∧
    (LANE_LEFT + LANE_RIGHT) / 2 = 400 ∧
    ¬ ((ResetBowling 1000 600 (initialState 800 600)).ballPos.x = (LANE_LEFT + LANE_RIGHT) / 2) := by
  have hx : (ResetBowling 1000 600 (initialState 800 600)).ballPos.x = 500 := by
    simp [ResetBowling]; norm_num
  refine ⟨(ResetBowling_keeps 1000 600 _).2.2.2.2.2.2.2.2.2.2.2.2.2.trans
    (initialState_WF 800 600).2.2.2, hx, by norm_num [LANE_LEFT, LANE_RIGHT], ?_⟩
  rw [hx]
  norm_num [LANE_LEFT, LANE_RIGHT]

/-- C14: pool contract. If some bullet slot is inactive, `ShootBullet` rewrites exactly
the lowest-index inactive slot (every slot before it is active) to an active bullet
at the player position with velocity (0, -400) and leaves all other slots as they
are; if every slot is active it changes nothing. The array keeps its size, so at most
500 bullets are active after the call and in every reachable state. `SpawnEnemy`
changes nothing, and draws nothing, when every enemy slot is active. -/
theorem pool_spawn_contract (pos : Vector2) (bs : List Bullet) :
    ((∃ x ∈ bs, x.active = false) →
      ∃ pre b post, bs = pre ++ b :: post ∧ (∀ x ∈ pre, x.active = true) ∧ b.active = false ∧
        ShootBullet pos bs = pre ++ ⟨pos, ⟨0, -400⟩, true⟩ :: post) ∧
    ((∀ x ∈ bs, x.active = true) → ShootBullet pos bs = bs) ∧
    (ShootBullet pos bs).length = bs.length ∧
    (bs.length = MAX_BULLETS →
      ((ShootBullet pos bs).filter (fun x => x.active)).length ≤ MAX_BULLETS) ∧
    (∀ p s, Reachable p s → (s.bullets.filter (fun x => x.active)).length ≤ MAX_BULLETS) ∧
    (∀ p inp d es k, (∀ x ∈ es, x.active = true) → SpawnEnemy p inp d pos es k = (es, k)) := by
  refine ⟨?_, ShootBullet_full pos bs, ShootBullet_length pos bs, ?_, ?_, ?_⟩
  · intro h
    obtain ⟨pre, b, post, heq, hpre, hb⟩ := first_free_bullet bs h
    refine ⟨pre, b, post, heq, hpre, hb, ?_⟩
    rw [heq]
    exact ShootBullet_first_free pos pre b post hpre hb
  · intro hlen
    calc ((ShootBullet pos bs).filter (fun x => x.active)).length
        ≤ (ShootBullet pos bs).length := List.length_filter_le _ _
      _ = MAX_BULLETS := (ShootBullet_length pos bs).trans hlen
  · intro p s hr
    calc (s.bullets.filter (fun x => x.active)).length
        ≤ s.bullets.length := List.length_filter_le _ _
      _ = MAX_BULLETS := (Reachable_inv p s hr).1.1
  · intro p inp d es k h
    exact SpawnEnemy_full p inp d pos k es h

/-- Witness of C14: a shot from (400, 300) into the empty pool of the initial state. -/
theorem pool_spawn_contract_witness :
    ∃ pre b post, (initialState 800 600).bullets = pre ++ b :: post ∧
      (∀ x ∈ pre, x.active = true) ∧ b.active = false ∧
      ShootBullet ⟨400, 300⟩ (initialState 800 600).bullets =
        pre ++ ⟨⟨400, 300⟩, ⟨0, -400⟩, true⟩ :: post :=
  (pool_spawn_contract ⟨400, 300⟩ (initialState 800 600).bullets).1
    ⟨⟨zeroVector, zeroVector, false⟩, by
      rw [initialState_bullets]
      exact List.mem_replicate.mpr ⟨by decide, rfl⟩, rfl⟩

/-- C15: off-screen bullets. In a Survival frame with gameOver false and dt >= 0, slot
by slot: a bullet that is active and whose y advanced by velocity.y * dt is below 0 is
inactive after the update; in particular an active bullet at y = -1 that does not
move down (velocity.y <= 0, and in every reachable state each active bullet has the
velocity (0, -400) that `ShootBullet` gave it) is inactive after the update. After
the update every active bullet, old or just shot, has y >= 0. -/
theorem offscreen_bullets_removed (fuel : Nat) (p : Platform) (inp : Input) (s : State)
    (hscene : s.gameState = GameState.GAMEPLAY) (hov : s.gameOver = false)
    (hdt : 0 ≤ inp.dt) :
    ∃ s1, updateFrame fuel p inp s = some s1 ∧
      List.Forall₂ (fun b b1 => b.active = true →
        (b.position.y + b.velocity.y * inp.dt < 0 → b1.active = false) ∧
        (b.position.y = -1 → b.velocity.y ≤ 0 → b1.active = false) ∧
        (Reachable p s → b.velocity = ⟨0, -400⟩)) s.bullets s1.bullets ∧
      (∀ b1 ∈ s1.bullets, b1.active = true → 0 ≤ b1.position.y) := by
  refine ⟨updateGameplay p inp s, updateFrame_gameplay fuel p inp s hscene, ?_, ?_⟩
  · have h := forall2_left_mem (P := fun b : Bullet => b ∈ s.bullets)
      (updateGameplay_bullets p inp s hov) (fun a ha => ha)
    refine List.Forall₂.imp ?_ h
    rintro b b1 ⟨hf, hm⟩ ha
    refine ⟨(hf.1 ha).2.2, fun hy hv => (hf.1 ha).2.2 ?_,
      fun hr => Reachable_bulletsUp p s hr b hm ha⟩
    rw [hy]
    nlinarith
  · exact forall2_right (P := fun _ : Bullet => True)
      (Q := fun b1 : Bullet => b1.active = true → 0 ≤ b1.position.y)
      (fun b b1 hf _ h1 => (hf.2 h1).1) (updateGameplay_bullets p inp s hov)
      (fun _ _ => trivial)

/-- Witness of C15: the bullet at y = -1 in the first slot is gone after an idle frame. -/
theorem offscreen_bullets_removed_witness :
    ∃ s1, updateFrame 0 samplePlatform idleInput strayBullet = some s1 ∧
      ∃ b1 rest, s1.bullets = b1 :: rest ∧ b1.active = false := by
  obtain ⟨s1, h1, h2, _⟩ := offscreen_bullets_removed 0 samplePlatform idleInput strayBullet
    rfl rfl (by norm_num [idleInput])
  refine ⟨s1, h1, ?_⟩
  have hb : strayBullet.bullets = ⟨⟨400, -1⟩, ⟨0, -400⟩, true⟩ ::
      List.replicate 499 ⟨zeroVector, zeroVector, false⟩ := rfl
  rw [hb] at h2
  obtain ⟨b1, rest, hab, _, he⟩ := List.forall₂_cons_left_iff.mp h2
  exact ⟨b1, rest, he, (hab rfl).2.1 rfl (by norm_num)⟩

/-- C16 as stated fails: no reachable state with a negative spawn interval and two
free enemy slots has a frame update that activates more than one enemy slot. -/
theorem no_frame_activates_two_enemies :
    ¬ ∃ (p : Platform) (fuel : Nat) (inp : Input) (s s1 : State),
      Reachable p s ∧ baseInterval s.selectedDifficulty - (s.score : ℚ) * 0.01 < 0 ∧
      2 ≤ freeSlots s.enemies ∧ updateFrame fuel p inp s = some s1 ∧
      1 < activatedCount s.enemies s1.enemies := by
  rintro ⟨p, fuel, inp, s, s1, _, _, _, hstep, hmany⟩
  exact absurd (updateFrame_activated fuel p inp s s1 hstep) (not_le.mpr hmany)

/-- C16 (amended): the spawn interval baseInterval - score * 0.01 (1.5, 1.0, 0.7 for
Easy, Medium, Hard) has no floor and goes below any bound as the score grows; the
spawn test is a single `if`, so a frame update activates at most one enemy slot
whatever the interval is. When the test passes (as it does in every frame with a
negative interval and a timer that is not negative after adding dt), the step calls
`SpawnEnemy` once and resets the timer: exactly one slot is activated if one is
free. -/
theorem spawn_interval_activates_at_most_one (fuel : Nat) (p : Platform) (inp : Input)
    (s s1 : State) (hstep : updateFrame fuel p inp s = some s1) :
    (baseInterval Difficulty.DIFFICULTY_EASY = 1.5 ∧
      baseInterval Difficulty.DIFFICULTY_MEDIUM = 1.0 ∧
      baseInterval Difficulty.DIFFICULTY_HARD = 0.7) ∧
    (∀ (d : Difficulty) (B : ℚ), ∃ score : Int, baseInterval d - (score : ℚ) * 0.01 < B) ∧
    activatedCount s.enemies s1.enemies ≤ 1 ∧
    (∀ st : State, baseInterval st.selectedDifficulty - (st.score : ℚ) * 0.01 < 0 →
      0 ≤ st.enemySpawnTimer + inp.dt →
      (stepEnemySpawn p inp st).1.enemies =
        (SpawnEnemy p inp st.selectedDifficulty st.playerPos st.enemies 0).1 ∧
      (stepEnemySpawn p inp st).1.enemySpawnTimer = 0 ∧
      activatedCount st.enemies (stepEnemySpawn p inp st).1.enemies ≤ 1 ∧
      ((∃ x ∈ st.enemies, x.active = false) →
        activatedCount st.enemies (stepEnemySpawn p inp st).1.enemies = 1)) := by
  refine ⟨baseInterval_values, spawnInterval_no_floor,
    updateFrame_activated fuel p inp s s1 hstep, ?_⟩
  intro st hneg htimer
  have h := stepEnemySpawn_activated p inp st
  have h1 := h.2 (lt_of_lt_of_le hneg htimer)
  exact ⟨h1.1, h1.2.1, h.1, h1.2.2⟩

/-- Witness of C16: a frame of a hard game with score 71, where the interval is
negative. -/
theorem spawn_interval_activates_at_most_one_witness :
    baseInterval lateHard.selectedDifficulty - (lateHard.score : ℚ) * 0.01 < 0 ∧
    updateFrame 0 samplePlatform idleInput lateHard =
      some (updateGameplay samplePlatform idleInput lateHard) ∧
    activatedCount lateHard.enemies (updateGameplay samplePlatform idleInput lateHard).enemies
      ≤ 1 := by
  have h1 : lateHard.selectedDifficulty = Difficulty.DIFFICULTY_HARD := rfl
  have h2 : lateHard.score = 71 := rfl
  refine ⟨?_, updateFrame_gameplay 0 samplePlatform idleInput lateHard rfl,
    (spawn_interval_activates_at_most_one 0 samplePlatform idleInput lateHard _
      (updateFrame_gameplay 0 samplePlatform idleInput lateHard rfl)).2.2.1⟩
  rw [h1, h2, baseInterval_values.2.2]
  norm_num

/-- C17: bullet-enemy scoring. When the enemy loop processes an active enemy that,
after its move, does not hit the player and is hit by some bullet (active, circles of
radius 20 and 5 overlapping) among the bullets as they stand at that moment, the loop
deactivates that enemy and exactly the lowest-index such bullet, adds 1 to the score,
and goes on with the next enemy; when no bullet hits it the enemy stays active and
bullets and score pass on unchanged. Hence in a running Survival frame the score after
the frame is the score before plus the number of enemy slots the loop deactivated,
which is also the number of bullet slots the loop deactivated, and the score of a
Survival frame never decreases. (The loop stops at the first enemy that hits the
player, so enemies behind it are not processed in that frame.) -/
theorem bullet_enemy_scoring (fuel : Nat) (p : Platform) (inp : Input) (s : State)
    (hscene : s.gameState = GameState.GAMEPLAY) :
    (∀ (dt : ℚ) (pos : Vector2) (e : Enemy) (es : List Enemy) (bs : List Bullet) (sc : Int),
      e.active = true →
      CheckCollisionCircles (pursue p dt pos e).position 20 pos 20 = false →
      ((∃ x ∈ bs, bulletHits (pursue p dt pos e).position x = true) →
        ∃ pre b post, bs = pre ++ b :: post ∧
          (∀ x ∈ pre, bulletHits (pursue p dt pos e).position x = false) ∧
          bulletHits (pursue p dt pos e).position b = true ∧
          enemyLoop p dt pos (e :: es) bs sc =
            ⟨{ pursue p dt pos e with active := false } ::
              (enemyLoop p dt pos es (pre ++ { b with active := false } :: post)
                (sc + 1)).enemies,
             (enemyLoop p dt pos es (pre ++ { b with active := false } :: post)
                (sc + 1)).bullets,
             (enemyLoop p dt pos es (pre ++ { b with active := false } :: post)
                (sc + 1)).score,
             (enemyLoop p dt pos es (pre ++ { b with active := false } :: post)
                (sc + 1)).caught⟩) ∧
      ((∀ x ∈ bs, bulletHits (pursue p dt pos e).position x = false) →
        enemyLoop p dt pos (e :: es) bs sc =
          ⟨pursue p dt pos e :: (enemyLoop p dt pos es bs sc).enemies,
           (enemyLoop p dt pos es bs sc).bullets, (enemyLoop p dt pos es bs sc).score,
           (enemyLoop p dt pos es bs sc).caught⟩)) ∧
    (∃ s1, updateFrame fuel p inp s = some s1 ∧ s.score ≤ s1.score ∧
      (s.gameOver = false →
        s1.score = s.score +
          lostCount (fun e : Enemy => e.active) (beforeEnemies p inp s).enemies s1.enemies ∧
        s1.score = s.score +
          lostCount (fun b : Bullet => b.active) (beforeEnemies p inp s).bullets s1.bullets)) := by
  constructor
  · intro dt pos e es bs sc ha hc
    constructor
    · intro hex
      obtain ⟨pre, b, post, heq, hpre, hb, hres⟩ := hitBullet_first _ bs hex
      exact ⟨pre, b, post, heq, hpre, hb, enemyLoop_hit p dt pos e es bs _ sc ha hc hres⟩
    · intro hno
      exact enemyLoop_miss p dt pos e es bs sc ha hc (hitBullet_none _ bs hno)
  · refine ⟨updateGameplay p inp s, updateFrame_gameplay fuel p inp s hscene, ?_, ?_⟩
    · cases hov : s.gameOver with
      | true =>
        have e : updateGameplay p inp s = s := by simp [updateGameplay, hov]
        rw [e]
      | false =>
        have hp := updateGameplay_pools p inp s hov
        rw [hp.2.2, (enemyLoop_score p inp.dt _ _ _ _).1]
        exact le_add_of_nonneg_right (Int.natCast_nonneg _)
    · intro hov
      have hp := updateGameplay_pools p inp s hov
      rw [hp.1, hp.2.1, hp.2.2]
      exact enemyLoop_score p inp.dt _ _ _ _

/-- Witness of C17: a frame from a Survival state in which an enemy sits on a bullet. -/
theorem bullet_enemy_scoring_witness :
    ∃ s1, updateFrame 0 samplePlatform idleInput enemyOnBullet = some s1 ∧
      enemyOnBullet.score ≤ s1.score ∧
      s1.score = enemyOnBullet.score + lostCount (fun e : Enemy => e.active)
        (beforeEnemies samplePlatform idleInput enemyOnBullet).enemies s1.enemies := by
  obtain ⟨s1, h1, h2, h3⟩ :=
    (bullet_enemy_scoring 0 samplePlatform idleInput enemyOnBullet rfl).2
  exact ⟨s1, h1, h2, (h3 rfl).1⟩

/-- C18: scene transitions. The initial scene is the menu, and a frame that starts in
any state (reachable or not) either leaves the scene unchanged or takes one of the
seven transitions of the table: menu to Survival, Survival to bonus or game over,
bonus to Survival or game over, game over to Survival or menu. The table has no other
entry; for instance it excludes menu to bonus, menu to game over, Survival to menu
and bonus to menu. -/
theorem scene_transition_table (fuel : Nat) (p : Platform) (inp : Input) (s s1 : State)
    (hstep : updateFrame fuel p inp s = some s1) :
    (∀ w h, (initialState w h).gameState = GameState.OPENING_SCENE) ∧
    allowedTransition s.gameState s1.gameState = true ∧
    allowedTransition GameState.OPENING_SCENE GameState.MINI_GAME = false ∧
    allowedTransition GameState.OPENING_SCENE GameState.CLOSING_SCENE = false ∧
    allowedTransition GameState.GAMEPLAY GameState.OPENING_SCENE = false ∧
    allowedTransition GameState.MINI_GAME GameState.OPENING_SCENE = false := by
  refine ⟨fun w h => by simp [initialState, ResetElixirState, ResetBowling], ?_,
    rfl, rfl, rfl, rfl⟩
  unfold updateFrame at hstep
  cases hg : s.gameState with
  | OPENING_SCENE =>
    rw [hg] at hstep
    rcases updateOpening_scene fuel p inp s s1 hstep with h | h
    · rw [h, hg]; rfl
    · rw [h]; rfl
  | GAMEPLAY =>
    rw [hg] at hstep
    simp only [Option.some.injEq] at hstep
    subst hstep
    rcases updateGameplay_exit p inp s hg with h | h | h <;> rw [h] <;> rfl
  | MINI_GAME =>
    rw [hg] at hstep
    rcases updateMiniGame_scene fuel p inp s s1 hstep with h | h | h
    · rw [h, hg]; rfl
    · rw [h]; rfl
    · rw [h]; rfl
  | CLOSING_SCENE =>
    rw [hg] at hstep
    rcases updateClosing_scene fuel p inp s s1 hstep with h | h | h
    · rw [h, hg]; rfl
    · rw [h]; rfl
    · rw [h]; rfl

/-- Witness of C18: the click on Start in the initial state takes the menu to Survival. -/
theorem scene_transition_table_witness :
    allowedTransition (initialState 800 600).gameState startedMedium.gameState = true ∧
    (initialState 800 600).gameState = GameState.OPENING_SCENE ∧
    startedMedium.gameState = GameState.GAMEPLAY :=
  ⟨(scene_transition_table 0 samplePlatform clickStart (initialState 800 600) startedMedium
      (updateFrame_clickStart 0)).2.1, rfl, rfl⟩

/-- C19 is refuted as stated: the throw variables are `float`s, and in binary32 each
of the stated bounds is exceeded in a state reached by frames of the program. With
the right key held the angle reaches the `float` value of PI / 6, which is above
PI / 6 for the constant of the program and for the real number pi; a frame with the
left key held moves the angle by more than 0.02; a frame of charging raises the power
by more than 0.01; and a release at full power records a speed that is not
0.02 + power * 0.05 and is above 0.07. -/
theorem throw_parameters_exceed_stated_bounds :
    (∃ s, Reachable32 samplePlatform s ∧ PI / 6 < s.throwAngle ∧
      Real.pi / 6 < ((s.throwAngle : ℚ) : ℝ)) ∧
    (∃ s s1, Reachable32 samplePlatform s ∧ s.gameState = GameState.MINI_GAME ∧
      s.ballLaunched = false ∧ updateFrame32 0 samplePlatform leftInput s = some s1 ∧
      0.02 < |s1.throwAngle - s.throwAngle|) ∧
    (∃ s s1, Reachable32 samplePlatform s ∧ s.gameState = GameState.MINI_GAME ∧
      s.ballLaunched = false ∧ updateFrame32 0 samplePlatform chargeInput s = some s1 ∧
      s.power + 0.01 < s1.power) ∧
    (∃ s s1, Reachable32 samplePlatform s ∧ s.gameState = GameState.MINI_GAME ∧
      s.ballLaunched = false ∧ updateFrame32 0 samplePlatform releaseInput s = some s1 ∧
      s1.ballLaunched = true ∧ s1.ballSpeed ≠ 0.02 + s1.power * 0.05 ∧
      0.07 < s1.ballSpeed) := by
  refine ⟨?_, ?_, ?_, ?_⟩
  · obtain ⟨s, hr, _, _, ha, _⟩ := maxAim32_exists
    refine ⟨s, hr, ?_, ?_⟩
    · rw [ha, maxAngle32_eq]
      norm_num [PI]
    · rw [ha, maxAngle32_eq]
      have := Real.pi_lt_d20
      push_cast
      norm_num at this ⊢
      linarith
  · obtain ⟨s, hr, hg, hl, ha, _⟩ := maxAim32_exists
    obtain ⟨s1, hstep1, hg1, hl1, _, _, ha1⟩ :=
      leftFrame samplePlatform s (Reachable32_inv _ s hr) hg hl
    have hr1 : Reachable32 samplePlatform s1 := Reachable32.step 0 leftInput hr hstep1
    obtain ⟨s2, hstep2, _, _, _, _, ha2⟩ :=
      leftFrame samplePlatform s1 (Reachable32_inv _ s1 hr1) hg1 hl1
    rw [ha, left_from_max] at ha1
    rw [ha1, left_second] at ha2
    refine ⟨s1, s2, hr1, hg1, hl1, hstep2, ?_⟩
    rw [ha1, ha2]
    norm_num [abs_of_neg]
  · obtain ⟨s0, hr0, hg0, hz⟩ := bonus32_exists
    obtain ⟨s, hr, hg, hl, _, _, hp⟩ := hold_space samplePlatform 13 s0 hr0 hg0 hz.2.2.2.1
    obtain ⟨s1, hstep, _, _, _, _, hp1⟩ :=
      chargeFrame samplePlatform s (Reachable32_inv _ s hr) hg hl
    have e14 : s1.power = chargeN 14 0 := by rw [hp1, hp, hz.2.1]; rfl
    rw [hz.2.1, chargeN_13_14.1] at hp
    rw [chargeN_13_14.2] at e14
    refine ⟨s, s1, hr, hg, hl, hstep, ?_⟩
    rw [hp, e14]
    norm_num
  · obtain ⟨s, hr, hg, hl, _, hp, hc⟩ := fullDraw32_exists
    obtain ⟨s1, hstep, hl1, hp1, hsp, _⟩ :=
      releaseFrame samplePlatform s (Reachable32_inv _ s hr) hg hl hc
    rw [hp, launchSpeed_full] at hsp
    refine ⟨s, s1, hr, hg, hl, hstep, hl1, ?_, ?_⟩
    · rw [hsp, hp1, hp]
      norm_num
    · rw [hsp]
      norm_num

/-- C19 (amended to the `float` arithmetic of the program): in every state reached by
frames whose throw controls are computed in binary32, the angle lies between
-maxAngle32 and maxAngle32, where maxAngle32 is the `float` value of PI / 6, above
PI / 6 by less than 2e-8, and the power between 0 and 1. A frame of the bonus scene
that starts before the launch returns, changes the angle by at most 0.02 + 3e-8 and
raises the power by at most 0.01 + 3e-8; when the ball is launched in it the recorded
speed is the binary32 value of 0.02f + power * 0.05f, within 1e-8 of
0.02 + power * 0.05, and between 0.02 and the `float` 0.07f = 9395241 / 2^27. -/
theorem throw_parameters_binary32 (p : Platform) (s : State) (hr : Reachable32 p s) :
    (-maxAngle32 ≤ s.throwAngle ∧ s.throwAngle ≤ maxAngle32 ∧ 0 ≤ s.power ∧ s.power ≤ 1) ∧
    (PI / 6 < maxAngle32 ∧ maxAngle32 ≤ PI / 6 + 2 / 100000000) ∧
    (∀ fuel inp, s.gameState = GameState.MINI_GAME → s.ballLaunched = false →
      ∃ s1, updateFrame32 fuel p inp s = some s1 ∧
        |s1.throwAngle - s.throwAngle| ≤ 0.02 + 3 / 100000000 ∧ s.power ≤ s1.power ∧
        s1.power ≤ s.power + (0.01 + 3 / 100000000) ∧
        (s1.ballLaunched = true →
          s1.ballSpeed = round32 (lit002 + round32 (s1.power * lit005)) ∧
          |s1.ballSpeed - (0.02 + s1.power * 0.05)| ≤ 1 / 100000000 ∧
          0.02 ≤ s1.ballSpeed ∧ s1.ballSpeed ≤ 9395241 / 134217728)) := by
  have hs := Reachable32_inv p s hr
  refine ⟨⟨hs.1, hs.2.1, hs.2.2.1, hs.2.2.2.1⟩, ?_, ?_⟩
  · rw [maxAngle32_eq]
    constructor <;> norm_num [PI]
  · intro fuel inp hg hl
    obtain ⟨s1, hstep, e, _⟩ := updateMiniGame32_unlaunched fuel p inp s hs hl
    have hc := miniControls32_spec p inp s hs
    refine ⟨s1, by rw [updateFrame32_mini _ _ _ _ hg]; exact hstep, ?_, ?_, ?_, ?_⟩
    · rw [e.1]
      have := hc.2.1
      norm_num at this ⊢
      exact this
    · rw [e.2.1]; exact hc.2.2.1
    · rw [e.2.1]
      have := hc.2.2.2.1
      norm_num at this ⊢
      linarith
    · intro hl1
      rw [e.2.2.2.1] at hl1
      have hsp := (hc.2.2.2.2 hl hl1).2
      have hb := hc.1.2.2.2.2.2 hl1
      have hn := launchSpeed_near (miniControls32 p inp s).power hc.1.2.2.1 hc.1.2.2.2.1
      rw [e.2.2.2.2, e.2.1]
      refine ⟨hsp, ?_, ?_, hb.2⟩
      · rw [hsp]
        norm_num at hn ⊢
        exact hn
      · have := hb.1
        norm_num at this ⊢
        exact this

/-- Witness of C19: in the bonus scene of a hard game the right key is held until the
clamp and the space bar until full power; the state is reached, its angle is
maxAngle32 and its power 1, and the release frame launches the ball with the speed
0.07f = 9395241 / 2^27. -/
theorem throw_parameters_binary32_witness :
    ∃ s s1, Reachable32 samplePlatform s ∧ s.throwAngle = maxAngle32 ∧ s.power = 1 ∧
      updateFrame32 0 samplePlatform releaseInput s = some s1 ∧ s1.ballLaunched = true ∧
      s1.throwAngle = maxAngle32 ∧ s1.power = 1 ∧ s1.ballSpeed = 9395241 / 134217728 ∧
      |s1.ballSpeed - (0.02 + s1.power * 0.05)| ≤ 1 / 100000000 := by
  obtain ⟨s, hr, hg, hl, ha, hp, hc⟩ := fullDraw32_exists
  obtain ⟨s1, hstep, hl1, hp1, _, ha1⟩ :=
    releaseFrame samplePlatform s (Reachable32_inv _ s hr) hg hl hc
  obtain ⟨s2, hstep2, _, _, _, hsp⟩ :=
    (throw_parameters_binary32 samplePlatform s hr).2.2 0 releaseInput hg hl
  have e : s2 = s1 := Option.some.inj (hstep2.symm.trans hstep)
  subst e
  refine ⟨s, s2, hr, ha, hp, hstep, hl1, ha1.trans ha, hp1.trans hp, ?_, (hsp hl1).2.1⟩
  rw [(hsp hl1).1, hp1, hp]
  exact launchSpeed_full

/-- C20 is refuted as stated: the velocity is computed on `float`s, and its length is
not the speed. A medium enemy spawned at (0, 0) with the player at (400, 300), where
`sqrtf` returns the exact distance 500, gets the speed 85 and the velocity
(68, 51.0000038...) = (68, 13369345 / 2^18), which is not 85 times the unit vector
(0.8, 0.6) and whose squared length is above 85^2. -/
theorem SpawnEnemy_velocity_length_off :
    ∃ pre e post new, startedMedium.enemies = pre ++ e :: post ∧
      (∀ x ∈ pre, x.active = true) ∧ e.active = false ∧
      SpawnEnemy32 samplePlatform idleInput Difficulty.DIFFICULTY_MEDIUM ⟨400, 300⟩
        startedMedium.enemies 0 = (pre ++ new :: post, 2) ∧
      new.position = ⟨0, 0⟩ ∧ new.speed = 85 ∧
      new.velocity = ⟨68, 13369345 / 262144⟩ ∧ new.velocity ≠ ⟨68, 51⟩ ∧
      new.speed * new.speed <
        new.velocity.x * new.velocity.x + new.velocity.y * new.velocity.y := by
  have hp0 : spawnPosition idleInput 0 = ⟨0, 0⟩ := by
    simp [spawnPosition, idleInput, GetRandomValue]
  have hsp := spawnSpeed32_values.2.1
  refine ⟨[], ⟨zeroVector, zeroVector, 0, false⟩,
    List.replicate 99 ⟨zeroVector, zeroVector, 0, false⟩,
    ⟨⟨0, 0⟩, ⟨68, 13369345 / 262144⟩, 85, true⟩, startedMedium_enemies, ?_, rfl, ?_, rfl, rfl,
    rfl, ?_, ?_⟩
  · intro x hx
    cases hx
  · rw [startedMedium_enemies, SpawnEnemy32_head _ _ _ _ _ _ _ rfl, hp0, hsp,
      velocity32_sample]
    rfl
  · intro h
    have h1 := congrArg Vector2.y h
    norm_num at h1
  · norm_num

/-- C20 (amended to the `float` arithmetic of the program): when a free slot exists
and the window size is not negative, `SpawnEnemy` rewrites the lowest-index free slot
to an active enemy placed on the border of the screen rectangle, with speed 50 on
Easy, 85 on Medium and 100 on Hard, and with the velocity that `Vector2Subtract`,
`Vector2Normalize` and `Vector2Scale` compute on `float`s from the player position,
the spawn point and that speed. The length of the velocity is the speed up to the
roundings: when the components of the `float` difference are zero or of a size between
2^-40 and 2^40, not both zero, and `sqrtf` is within one unit in the last place on
the rounded squared distance, the squared length of the velocity differs from the
squared speed by at most one millionth of it. -/
theorem SpawnEnemy32_places_on_border (p : Platform) (inp : Input) (d : Difficulty)
    (playerPos : Vector2) (es : List Enemy) (k : Nat)
    (hfree : ∃ x ∈ es, x.active = false)
    (hw : 0 ≤ inp.screenWidth) (hh : 0 ≤ inp.screenHeight) :
    ∃ pre e post new, es = pre ++ e :: post ∧ (∀ x ∈ pre, x.active = true) ∧
      e.active = false ∧
      SpawnEnemy32 p inp d playerPos es k = (pre ++ new :: post, k + 2) ∧
      new.active = true ∧ new.position = spawnPosition inp k ∧ OnBorder inp new.position ∧
      (d = Difficulty.DIFFICULTY_EASY → new.speed = 50) ∧
      (d = Difficulty.DIFFICULTY_MEDIUM → new.speed = 85) ∧
      (d = Difficulty.DIFFICULTY_HARD → new.speed = 100) ∧
      new.velocity =
        Vector2Scale32 (Vector2Normalize32 p (Vector2Subtract32 playerPos new.position))
          new.speed ∧
      (Sizable (Vector2Subtract32 playerPos new.position).x →
        Sizable (Vector2Subtract32 playerPos new.position).y →
        ((Vector2Subtract32 playerPos new.position).x ≠ 0 ∨
          (Vector2Subtract32 playerPos new.position).y ≠ 0) →
        SqrtWithinUlp p (round32
          (round32 ((Vector2Subtract32 playerPos new.position).x *
              (Vector2Subtract32 playerPos new.position).x) +
            round32 ((Vector2Subtract32 playerPos new.position).y *
              (Vector2Subtract32 playerPos new.position).y))) →
        |new.velocity.x * new.velocity.x + new.velocity.y * new.velocity.y -
            new.speed * new.speed| ≤ new.speed * new.speed / 1000000) := by
  obtain ⟨pre, e, post, heq, hpre, he⟩ := first_free_enemy es hfree
  refine ⟨pre, e, post, _, heq, hpre, he,
    by rw [heq]; exact SpawnEnemy32_first_free p inp d playerPos k pre e post hpre he,
    rfl, rfl, spawnPosition_onBorder inp k hw hh, ?_, ?_, ?_, rfl, ?_⟩
  · intro hd; rw [hd]; exact spawnSpeed32_values.1
  · intro hd; rw [hd]; exact spawnSpeed32_values.2.1
  · intro hd; rw [hd]; exact spawnSpeed32_values.2.2
  · intro hx hy hne hL
    exact velocity32_length p (Vector2Subtract32 playerPos (spawnPosition inp k))
      (spawnSpeed32 d) hx hy hne (spawnSpeed32_ge_one d) hL

/-- Witness of C20: a medium spawn at (0, 0) on a platform whose `sqrtf` is computed,
with the player at (400, 299), where the squared distance 249401 is not a square:
`sqrtf` returns the `float` 499.400635, the velocity is (68.0816116, 50.8910027) and
its squared length is within one millionth of 85^2. -/
theorem SpawnEnemy32_places_on_border_witness :
    ∃ pre e post new, startedMedium.enemies = pre ++ e :: post ∧
      SpawnEnemy32 rootPlatform idleInput Difficulty.DIFFICULTY_MEDIUM ⟨400, 299⟩
        startedMedium.enemies 0 = (pre ++ new :: post, 2) ∧
      new.position = ⟨0, 0⟩ ∧ new.speed = 85 ∧
      new.velocity = ⟨8923593 / 131072, 13340771 / 262144⟩ ∧
      |new.velocity.x * new.velocity.x + new.velocity.y * new.velocity.y - 85 * 85| ≤
        85 * 85 / 1000000 := by
  obtain ⟨pre, e, post, new, heq, _, _, hsp, _, hpos, _, _, hmed, _, hvel, hlen⟩ :=
    SpawnEnemy32_places_on_border rootPlatform idleInput Difficulty.DIFFICULTY_MEDIUM
      ⟨400, 299⟩ startedMedium.enemies 0
      ⟨⟨zeroVector, zeroVector, 0, false⟩, by
        rw [startedMedium_enemies]; exact List.mem_cons_self _ _, rfl⟩
      (by decide) (by decide)
  have hp0 : spawnPosition idleInput 0 = ⟨0, 0⟩ := by
    simp [spawnPosition, idleInput, GetRandomValue]
  rw [hp0] at hpos
  have hd : Vector2Subtract32 ⟨400, 299⟩ new.position = ⟨400, 299⟩ := by
    rw [hpos]
    exact velocity32_difference
  have hS : round32 (round32 ((400 : ℚ) * 400) + round32 ((299 : ℚ) * 299)) = 249401 :=
    velocity32_squares
  rw [hd] at hlen hvel
  have hv := hlen (Or.inr ⟨by norm_num [abs_of_pos], by norm_num [abs_of_pos]⟩)
    (Or.inr ⟨by norm_num [abs_of_pos], by norm_num [abs_of_pos]⟩)
    (Or.inl (by norm_num))
    (by
      show SqrtWithinUlp rootPlatform
        (round32 (round32 ((400 : ℚ) * 400) + round32 ((299 : ℚ) * 299)))
      rw [hS]
      unfold SqrtWithinUlp
      rw [rootPlatform_sqrt_249401]
      norm_num)
  rw [hmed rfl] at hv hvel
  have hd0 : Vector2Subtract32 ⟨400, 299⟩ ⟨0, 0⟩ = ⟨400, 299⟩ := velocity32_difference
  rw [← hd0, velocity32_off_root rootPlatform rootPlatform_sqrt_249401] at hvel
  exact ⟨pre, e, post, new, heq, hsp, hpos, hmed rfl, hvel, hv⟩

/-- C21: in every reachable state the flag gameOver is true exactly when the scene is
the closing scene. In particular gameOver is false in every reachable Survival state,
so the guard of line 304 lets the whole Survival update run: the frame is the
obstacle step after the enemy step after the steps before it. -/
theorem gameOver_iff_closing (p : Platform) (s : State) (hr : Reachable p s) :
    (s.gameOver = true ↔ s.gameState = GameState.CLOSING_SCENE) ∧
    (s.gameState = GameState.GAMEPLAY →
      s.gameOver = false ∧
      ∀ inp, updateGameplay p inp s =
        stepObstacles p inp (stepEnemies p inp (beforeEnemies p inp s))) := by
  have hinv := Reachable_inv p s hr
  refine ⟨hinv.2.1, fun hscene => ?_⟩
  have hov : s.gameOver = false := Inv_running s hinv (by rw [hscene]; decide)
  exact ⟨hov, fun inp => updateGameplay_running p inp s hov⟩

/-- Witness of C21: the Survival state after the click on Start. -/
theorem gameOver_iff_closing_witness :
    startedMedium.gameState = GameState.GAMEPLAY ∧ startedMedium.gameOver = false ∧
    updateGameplay samplePlatform idleInput startedMedium =
      stepObstacles samplePlatform idleInput
        (stepEnemies samplePlatform idleInput
          (beforeEnemies samplePlatform idleInput startedMedium)) :=
  ⟨rfl,
    ((gameOver_iff_closing samplePlatform startedMedium startedMedium_reachable).2 rfl).1,
    ((gameOver_iff_closing samplePlatform startedMedium startedMedium_reachable).2 rfl).2
      idleInput⟩

/-- C22: in every reachable state, if the scene is the bonus scene then the difficulty
is Hard and secondChanceUsed is false; if secondChanceUsed is true then the difficulty
is Hard; and if some obstacle slot is active then the difficulty is Hard. -/
theorem bonus_scene_only_on_hard (p : Platform) (s : State) (hr : Reachable p s) :
    (s.gameState = GameState.MINI_GAME →
      s.selectedDifficulty = Difficulty.DIFFICULTY_HARD ∧ s.secondChanceUsed = false) ∧
    (s.secondChanceUsed = true → s.selectedDifficulty = Difficulty.DIFFICULTY_HARD) ∧
    ((∃ o ∈ s.obstacles, o.active = true) →
      s.selectedDifficulty = Difficulty.DIFFICULTY_HARD) := by
  have h := Reachable_hardOnly p s hr
  exact ⟨h.1, h.2.1, h.2.2.1⟩

/-- Witness of C22: the hard game in which the first enemy catches the player is in the
bonus scene, on Hard, with the second chance not used. -/
theorem bonus_scene_only_on_hard_witness :
    ∃ s, Reachable samplePlatform s ∧ s.gameState = GameState.MINI_GAME ∧
      s.selectedDifficulty = Difficulty.DIFFICULTY_HARD ∧ s.secondChanceUsed = false := by
  obtain ⟨s, hr, hg, _⟩ := bonus_exists
  exact ⟨s, hr, hg, (bonus_scene_only_on_hard samplePlatform s hr).1 hg⟩

/-- C24: the closing animation is never re-armed. In a reachable state whose
animationComplete is true, gameOverScale is 1, and both stay so in every later state
of the run; `ResetGame` leaves them as they are, and so do the start, restart and
home actions, which belong to frames. Hence in every later state whose scene is the
closing scene, a frame takes the home action (H) and the restart action (R) at once:
it ends in the opening scene if H is pressed, in Survival if R is pressed without H,
and changes nothing if neither is pressed, the scale staying at 1. Such a frame
returns whenever the draws of `SpawnObstacles` settle. -/
theorem closing_animation_never_rearmed (p : Platform) (s : State) (hr : Reachable p s)
    (hdone : s.animationComplete = true) :
    s.gameOverScale = 1 ∧
    (∀ s1, Later p s s1 → s1.animationComplete = true ∧ s1.gameOverScale = 1) ∧
    (∀ d, (ResetGame d s).animationComplete = true ∧ (ResetGame d s).gameOverScale = 1) ∧
    (∀ s1, Later p s s1 → s1.gameState = GameState.CLOSING_SCENE → ∀ inp,
      (∀ fuel s2, updateFrame fuel p inp s1 = some s2 →
        s2.animationComplete = true ∧ s2.gameOverScale = 1 ∧
        (inp.hPressed = true → s2.gameState = GameState.OPENING_SCENE) ∧
        (inp.rPressed = true → inp.hPressed = false → s2.gameState = GameState.GAMEPLAY) ∧
        (inp.rPressed = false → inp.hPressed = false → s2 = s1)) ∧
      (DrawsSettle p inp (playerRect p ⟨400, 300⟩) →
        ∃ fuel s2, updateFrame fuel p inp s1 = some s2)) := by
  have hscale : s.gameOverScale = 1 := Reachable_scaleDone p s hr hdone
  have hlater : ∀ s1, Later p s s1 → s1.animationComplete = true ∧ s1.gameOverScale = 1 := by
    intro s1 hl
    have hk := Later_anim p s s1 hl hdone
    exact ⟨hk.1.trans hdone, hk.2.trans hscale⟩
  refine ⟨hscale, hlater, fun d => ?_, ?_⟩
  · have hg := ResetGame_spec d s
    exact ⟨hg.2.2.2.2.2.2.2.2.2.2.2.1.trans hdone, hg.2.2.2.2.2.2.2.2.2.2.2.2.1.trans hscale⟩
  · intro s1 hl hscene inp
    refine ⟨fun fuel s2 hstep => ?_, fun hsettle => updateFrame_terminates p inp s1 hsettle⟩
    have h2 := hlater s2 (Later.step fuel inp hl hstep)
    unfold updateFrame at hstep
    rw [hscene] at hstep
    have hacc := updateClosing_accepts fuel p inp s1 s2 (hlater s1 hl).1 hstep
    exact ⟨h2.1, h2.2, hacc⟩

/-- Witness of C24: the medium game lost to the first enemy, after a closing frame of
ten seconds; a later frame with H pressed returns and ends in the opening scene. -/
theorem closing_animation_never_rearmed_witness :
    Reachable samplePlatform closedMedium ∧ closedMedium.animationComplete = true ∧
    closedMedium.gameState = GameState.CLOSING_SCENE ∧ closedMedium.gameOverScale = 1 ∧
    ∃ fuel s2, updateFrame fuel samplePlatform { idleInput with hPressed := true }
        closedMedium = some s2 ∧
      s2.gameState = GameState.OPENING_SCENE ∧ s2.animationComplete = true ∧
      s2.gameOverScale = 1 := by
  have h := closing_animation_never_rearmed samplePlatform closedMedium closedMedium_reachable
    closedMedium_spec.2.1
  have hf := h.2.2.2 closedMedium (Later.refl) closedMedium_spec.2.2
    { idleInput with hPressed := true }
  obtain ⟨fuel, s2, hs2⟩ := hf.2 (zero_draws_settle _ (fun _ => rfl) rfl rfl)
  have hres := hf.1 fuel s2 hs2
  exact ⟨closedMedium_reachable, closedMedium_spec.2.1, closedMedium_spec.2.2, h.1,
    fuel, s2, hs2, hres.2.2.1 rfl, hres.1, hres.2.1⟩

end Game
